import Mathlib

/-!
# Naval hub (A2): shallow embedding of `2310hub.c`, `util.c`, `agent.c` and `2310A.c`

A NUL-terminated C string is modelled as the list of its characters before the
terminator (`CStr`), one character for each byte.  `char` is the signed byte of
the course platform (gcc, x86-64 Linux); `int` is 32 bits and `long` 64 bits.  A stream from an
agent to the hub is the list of characters still to be read, a stream from
the hub to an agent is the list of lines written so far.  Standard output of
the hub (board printing, commentary) is not modelled.  In the loop of an agent
only the call of `make_guess` is recorded; the guesses of agent A are modelled
on their own (`make_guess` of `2310A.c`), those of agent B are not.
-/

namespace A2

/-- A C string: the characters before the terminating NUL. -/
abbrev CStr := List Char

/-! ## Constants of `util.h` -/

def MIN_BOARD_HEIGHT : Int := 1
def MIN_BOARD_WIDTH : Int := 1
def MAX_BOARD_HEIGHT : Int := 26
def MAX_BOARD_WIDTH : Int := 26
def MIN_COLUMN_LABEL : Char := 'A'
def MAX_COLUMN_LABEL : Char := 'Z'
def MINIMUM_COORDINATE_LENGTH : Nat := 2
def MAP_TOKEN_LINE_LENGTH : Nat := 2
def MIN_SHIPS : Int := 1
def MAX_SHIPS : Int := 15
def MIN_SHIP_LENGTH : Int := 1
def BLANK_GRID : Char := '.'
def HIT_MARKER : Char := '*'
def MISS_MARKER : Char := '/'

/-- The directions a ship can face in (`Direction` of `util.h`). -/
inductive Direction where
  | NORTH
  | EAST
  | WEST
  | SOUTH
deriving DecidableEq, Repr

/-- The message kinds of `HubMessage` that `broadcast_message` handles, and the rest. -/
inductive HubMessage where
  | YT
  | OK
  | HIT
  | SUNK
  | MISS
  | EARLY
  | DONE
  | INVALID
deriving DecidableEq, Repr

/-- The rules of a game (`Rules` of `util.h`); `shipLengths` is the array of
`numberOfShips` lengths. -/
structure Rules where
  height : Int
  width : Int
  numberOfShips : Int
  shipLengths : List Int
deriving DecidableEq, Repr

/-- A single ship (`Ship` of `util.h`). -/
structure Ship where
  coordinates : List CStr
  hits : Int
  length : Int
  direction : Direction
deriving DecidableEq, Repr

/-- The map state of an agent (`AgentMap` of `util.h`): a grid is the list of its
rows, each row the list of its cells. -/
structure AgentMap where
  agentGrid : List (List Char)
  opponentGrid : List (List Char)
  agentShips : List Ship
  shipsAdded : Nat
deriving DecidableEq, Repr

/-- The state of one agent as the hub keeps it (`AgentState` of `util.h`); the
guesses array and its count are the list `agentGuesses`. -/
structure AgentState where
  agentId : Int
  agentMap : AgentMap
  agentGuesses : List CStr
deriving DecidableEq, Repr

/-- An agent process as the hub sees it (`Agent` of `2310hub.c`): `hubToAgent`
holds the lines written to the agent so far, `agentToHub` the characters the
agent has sent and the hub has not read yet. -/
structure Agent where
  agentState : AgentState
  hubToAgent : List CStr
  agentToHub : List Char
deriving DecidableEq, Repr

/-- One round (`RoundState` of `2310hub.c`). -/
structure RoundState where
  player1 : Agent
  player2 : Agent
  roundNumber : Int
  gameOver : Int
  validRound : Int
deriving DecidableEq, Repr

/-- The whole tournament (`FullGameState` of `2310hub.c`); `numberOfRounds` is the
length of `rounds`. -/
structure FullGameState where
  rounds : List RoundState
  rules : Rules
deriving DecidableEq, Repr

/-! ## Characters, integers and strings -/

/-- The value of a `char` promoted to `int`: a signed byte, so every character
above 127 is negative. -/
def charVal (c : Char) : Int :=
  if c.toNat < 128 then (c.toNat : Int) else ((c.toNat % 256 : Nat) : Int) - 256

/-- The C library `isspace` in the C locale. -/
def isspace (c : Char) : Bool :=
  c == ' ' || c == '\t' || c == '\n' || c == '\x0b' || c == '\x0c' || c == '\r'

/-- The C library `isdigit`. -/
def isdigit (c : Char) : Bool :=
  decide ('0'.toNat ≤ c.toNat) && decide (c.toNat ≤ '9'.toNat)

/-- Conversion of a `long` to `int`: reduction modulo 2^32 into the signed range. -/
def longToInt (x : Int) : Int :=
  (x + 2147483648) % 4294967296 - 2147483648

/-- Clamping of a parsed magnitude into the range of `long`, as `strtol` does. -/
def clampLong (x : Int) : Int :=
  if x > 9223372036854775807 then 9223372036854775807
  else if x < -9223372036854775808 then -9223372036854775808
  else x

/-- The digit loop of `strtol`: accumulates the leading decimal digits and
returns the value with the unread rest. -/
def strtolDigits : Nat → CStr → Nat × CStr
  | acc, [] => (acc, [])
  | acc, c :: cs =>
    if isdigit c then strtolDigits (acc * 10 + (c.toNat - '0'.toNat)) cs
    else (acc, c :: cs)

/-- The C library `strtol` in base 10: leading white space, an optional sign,
decimal digits.  Returns the value and the unread rest (`endptr`); with no digit
at all the value is 0 and nothing is consumed. -/
def strtol (s : CStr) : Int × CStr :=
  let body := s.dropWhile isspace
  let (neg, afterSign) :=
    match body with
    | '-' :: r => (true, r)
    | '+' :: r => (false, r)
    | r => (false, r)
  match afterSign with
  | [] => (0, s)
  | c :: cs =>
    if isdigit c then
      let (n, r) := strtolDigits 0 (c :: cs)
      (clampLong (if neg then -(n : Int) else (n : Int)), r)
    else (0, s)

/-- The C library `atoi`: `strtol` in base 10 converted to `int`. -/
def atoi (s : CStr) : Int :=
  longToInt (strtol s).1

/-- The text `printf` writes for `%d`. -/
def fmtInt (n : Int) : CStr :=
  if n < 0 then '-' :: Nat.toDigits 10 n.natAbs else Nat.toDigits 10 n.natAbs

/-- Trims the leading and trailing white space of a string (`strtrim`). -/
def strtrim (s : CStr) : CStr :=
  ((s.reverse.dropWhile isspace).reverse).dropWhile isspace

/-- Whether the message starts with the given text (`check_message_prefix`):
1 if so, 0 otherwise. -/
def check_message_prefix (message : CStr) (pre : CStr) : Int :=
  if pre.isPrefixOf message then 1 else 0

/-- The part of a string from the given index on (`index_substring`). -/
def index_substring (s : CStr) (index : Nat) : CStr :=
  s.drop index

/-- The loop of `split_string`: `seg` is the segment being built, `afterText`
the flag of the source. -/
def split_string_loop (delimiter : Char) (removeWhitespace : Bool) :
    CStr → CStr → Bool → List CStr
  | [], seg, afterText => if afterText then [seg] else []
  | c :: rest, seg, afterText =>
    if c = delimiter ∧ afterText = true then
      seg :: split_string_loop delimiter removeWhitespace rest [] (!removeWhitespace)
    else if c ≠ delimiter then
      split_string_loop delimiter removeWhitespace rest (seg ++ [c]) true
    else
      split_string_loop delimiter removeWhitespace rest seg afterText

/-- Splits a line at the delimiter (`split_string`); the length the source
returns through `length` is the length of the list. -/
def split_string (line : CStr) (delimiter : Char) (removeWhitespace : Bool) : List CStr :=
  split_string_loop delimiter removeWhitespace line [] (!removeWhitespace)

/-- The row part of a coordinate, as a string (`parse_coordinate_row`). -/
def parse_coordinate_row (coordinates : CStr) : CStr :=
  coordinates.drop 1

/-- The first character of a C string as an `int`; the terminator for the empty
string. -/
def firstChar (s : CStr) : Int :=
  match s with
  | [] => 0
  | c :: _ => charVal c

/-- Checks that coordinates are well formed (`check_valid_coordinates`): the
result (1 invalid, 0 valid) and the string as the call leaves it (trimmed in
place). -/
def check_valid_coordinates (coordinates : CStr) : Int × CStr :=
  let trimmed := strtrim coordinates
  if trimmed.length < MINIMUM_COORDINATE_LENGTH then (1, trimmed)
  else
    let coordHeight := parse_coordinate_row trimmed
    let (height, buffer) := strtol coordHeight
    let coordinateHeight := longToInt height
    if ¬ (charVal MIN_COLUMN_LABEL ≤ firstChar trimmed ∨
          firstChar trimmed ≥ charVal MAX_COLUMN_LABEL) ∨
        (coordinateHeight < MIN_BOARD_HEIGHT ∨ coordinateHeight > MAX_BOARD_HEIGHT) ∨
        buffer ≠ [] then (1, trimmed)
    else (0, trimmed)

/-- Converts a position to its numerical coordinates (`parse_coordinates`):
column first, then row. -/
def parse_coordinates (coordinates : CStr) : Int × Int :=
  (firstChar coordinates - charVal 'A', atoi (parse_coordinate_row coordinates) - 1)

/-- The upper-case hexadecimal character of a number (`convert_to_hex`): the first
character `%x` prints, letters raised to upper case. -/
def convert_to_hex (number : Int) : Char :=
  let digits := Nat.toDigits 16 (number % 4294967296).toNat
  let hex := digits.headD '0'
  if 'a'.toNat ≤ hex.toNat ∧ hex.toNat ≤ 'z'.toNat then Char.ofNat (hex.toNat - 32) else hex

/-- Whether coordinates are out of bounds (`check_coordinate_bounds`): 1 if so. -/
def check_coordinate_bounds (coordinates : CStr) (rules : Rules) : Int :=
  let gridLocation := parse_coordinates coordinates
  if gridLocation.1 < 0 ∨ gridLocation.1 ≥ rules.width ∨
      gridLocation.2 < 0 ∨ gridLocation.2 ≥ rules.height then 1 else 0

/-! ## Grids and ship placement (`util.c`) -/

/-- The cell `grid[row][column]`.  An access outside the allocated grid is
undefined in the source and read as NUL here; every caller checks
`check_coordinate_bounds` first. -/
def gridGet (grid : List (List Char)) (row column : Int) : Char :=
  if 0 ≤ row ∧ 0 ≤ column then (grid.getD row.toNat []).getD column.toNat '\x00' else '\x00'

/-- The grid after `grid[row][column] = value`; a write outside the allocated
grid (undefined in the source) is dropped. -/
def gridSet (grid : List (List Char)) (row column : Int) (value : Char) : List (List Char) :=
  if 0 ≤ row ∧ 0 ≤ column ∧ column.toNat < (grid.getD row.toNat []).length then
    grid.set row.toNat ((grid.getD row.toNat []).set column.toNat value)
  else grid

/-- Both grids of an agent map set to blank cells (`initialise_grids`). -/
def initialise_grids (rules : Rules) (agentMap : AgentMap) : AgentMap :=
  { agentMap with
    agentGrid := List.replicate rules.height.toNat (List.replicate rules.width.toNat BLANK_GRID)
    opponentGrid := List.replicate rules.height.toNat (List.replicate rules.width.toNat BLANK_GRID) }

/-- The agent map of a freshly initialised agent (`initialise_agent_state`). -/
def initialMap : AgentMap :=
  { agentGrid := [], opponentGrid := [], agentShips := [], shipsAdded := 0 }

/-- Applies `f` to the element of index `n`, leaving the others. -/
def modifyAt {α : Type} (f : α → α) : Nat → List α → List α
  | _, [] => []
  | 0, x :: xs => f x :: xs
  | n + 1, x :: xs => x :: modifyAt f n xs

/-- Adds one coordinate of the ship being placed (`add_agent_grid_element`):
1 if the cell is taken, else 0 with the cell marked and the ship extended. -/
def add_agent_grid_element (agentMap : AgentMap) (coordinates : CStr) (_rules : Rules) :
    Int × AgentMap :=
  let gridLocation := parse_coordinates coordinates
  let shipsAdded := agentMap.shipsAdded
  if gridGet agentMap.agentGrid gridLocation.2 gridLocation.1 = BLANK_GRID then
    (0, { agentMap with
          agentGrid := gridSet agentMap.agentGrid gridLocation.2 gridLocation.1
            (convert_to_hex shipsAdded)
          agentShips := modifyAt
            (fun ship => { ship with
              coordinates := ship.coordinates ++ [coordinates]
              hits := ship.hits + 1
              length := ship.length + 1 })
            (shipsAdded - 1) agentMap.agentShips })
  else (1, agentMap)

/-- The result of adding an `int` to a `char` and storing it in a `char`. -/
def charAdd (c : Char) (increment : Int) : Char :=
  Char.ofNat (((c.toNat : Int) + increment) % 256).toNat

/-- The coordinate with the row moved by `increment` (`increment_row`); `snprintf`
cuts the text at the size of the buffer. -/
def increment_row (coordinate : CStr) (increment : Int) : CStr :=
  let height := parse_coordinate_row coordinate
  let newHeight := atoi height + increment
  match coordinate with
  | [] => []
  | c :: _ => (c :: fmtInt newHeight).take (coordinate.length + 1)

/-- The coordinate with the column letter moved by `increment`
(`increment_column`). -/
def increment_column (coordinate : CStr) (increment : Int) : CStr :=
  match coordinate with
  | [] => []
  | c :: rest => if charAdd c increment = '\x00' then [] else charAdd c increment :: rest

/-- The adjacent coordinate in a direction (`next_coordinate`). -/
def next_coordinate (direction : Direction) (coordinates : CStr) : CStr :=
  match direction with
  | .NORTH => increment_row coordinates (-1)
  | .WEST => increment_column coordinates (-1)
  | .SOUTH => increment_row coordinates 1
  | .EAST => increment_column coordinates 1

/-- The loop of `add_agent_ship` over the remaining `count` cells of the ship. -/
def add_agent_ship_loop (direction : Direction) (rules : Rules) :
    Nat → CStr → AgentMap → Int × AgentMap
  | 0, _, agentMap => (0, agentMap)
  | count + 1, newCoordinate, agentMap =>
    let tempCoordinate := next_coordinate direction newCoordinate
    if check_coordinate_bounds tempCoordinate rules ≠ 0 then (1, agentMap)
    else
      let r := add_agent_grid_element agentMap tempCoordinate rules
      if r.1 ≠ 0 then (1, r.2)
      else add_agent_ship_loop direction rules count tempCoordinate r.2

/-- Adds a new ship from the given coordinates in the given direction
(`add_agent_ship`): 1 on a cell out of bounds or taken, else 0. -/
def add_agent_ship (agentMap : AgentMap) (coordinates : CStr) (direction : Direction)
    (rules : Rules) : Int × AgentMap :=
  if check_coordinate_bounds coordinates rules ≠ 0 then (1, agentMap)
  else
    let started : AgentMap :=
      { agentMap with
        agentShips := agentMap.agentShips.take agentMap.shipsAdded ++
          [{ coordinates := [], hits := 0, length := 0, direction := direction }]
        shipsAdded := agentMap.shipsAdded + 1 }
    let r := add_agent_grid_element started coordinates rules
    if r.1 ≠ 0 then (1, r.2)
    else
      add_agent_ship_loop direction rules
        ((rules.shipLengths.getD (r.2.shipsAdded - 1) 0) - 1).toNat coordinates r.2

/-- Reads the direction of a map entry and adds the ship
(`handle_agent_ship_direction`); `position` and `direction` are the two fields
of the entry. -/
def handle_agent_ship_direction (position direction : CStr) (agentMap : AgentMap)
    (rules : Rules) : Int × AgentMap :=
  let dir := strtrim direction
  if dir = ['N'] then add_agent_ship agentMap position .NORTH rules
  else if dir = ['E'] then add_agent_ship agentMap position .EAST rules
  else if dir = ['S'] then add_agent_ship agentMap position .SOUTH rules
  else if dir = ['W'] then add_agent_ship agentMap position .WEST rules
  else (1, agentMap)

/-- The loop of `parse_map_message` over the entries of the message, with the
final count check. -/
def parse_map_message_loop (rules : Rules) : List CStr → AgentMap → Int × AgentMap
  | [], agentMap =>
    if (agentMap.shipsAdded : Int) ≠ rules.numberOfShips then (1, agentMap) else (0, agentMap)
  | entry :: rest, agentMap =>
    let mapPosition := split_string entry ',' false
    if mapPosition.length ≠ MAP_TOKEN_LINE_LENGTH then (1, agentMap)
    else
      let checked := check_valid_coordinates (mapPosition.getD 0 [])
      if checked.1 ≠ 0 then (1, agentMap)
      else if (agentMap.shipsAdded : Int) < rules.numberOfShips then
        let r := handle_agent_ship_direction checked.2 (mapPosition.getD 1 []) agentMap rules
        if r.1 ≠ 0 then r
        else parse_map_message_loop rules rest r.2
      else parse_map_message_loop rules rest agentMap

/-- Reads a MAP message into an agent map (`parse_map_message`): 0 on success,
non-zero on an error. -/
def parse_map_message (agentMap : AgentMap) (rules : Rules) (mapMessage : CStr) :
    Int × AgentMap :=
  let message := strtrim mapMessage
  if check_message_prefix message "MAP ".toList = 0 then (1, agentMap)
  else
    let substring := index_substring message "MAP ".length
    let splitLine := split_string substring ':' false
    parse_map_message_loop rules splitLine { agentMap with shipsAdded := 0 }

/-! ## Reading from an agent (`util.c`) -/

/-- The character loop of `parse_input`: the characters before the next newline,
whether the end of the stream was reached instead, and the unread rest. -/
def parse_input_loop : List Char → CStr → CStr × Bool × List Char
  | [], input => (input, true, [])
  | next :: rest, input =>
    if next = '\n' then (input, false, rest)
    else parse_input_loop rest (input ++ [next])

/-- Reads one line from a stream (`parse_input`): the trimmed line, the
`endOfFile` flag and the unread rest of the stream.  A NUL among the characters
read ends the C string. -/
def parse_input (inputSource : List Char) : CStr × Bool × List Char :=
  let r := parse_input_loop inputSource []
  (strtrim (r.1.takeWhile (fun c => c ≠ '\x00')), r.2.1, r.2.2)

/-! ## Turns (`2310hub.c`) -/

/-- The coordinates of a valid GUESS message, or `none` for NULL
(`validate_guess_message`). -/
def validate_guess_message (message : CStr) : Option CStr :=
  let trimmed := strtrim message
  if check_message_prefix trimmed "GUESS ".toList = 0 then none
  else
    let coordinates := strtrim (index_substring trimmed "GUESS ".length)
    let checked := check_valid_coordinates coordinates
    if checked.1 ≠ 0 then none else some checked.2

/-- Whether a well-formed coordinate is a valid new guess (`validate_coordinate`):
1 if it is out of bounds or among the guesses the agent has made, else 0. -/
def validate_coordinate (rules : Rules) (agent : Agent) (coordinates : CStr) : Int :=
  if check_coordinate_bounds coordinates rules ≠ 0 then 1
  else if agent.agentState.agentGuesses.contains coordinates then 1
  else 0

/-- The line `broadcast_message` writes for a message type, without its newline;
`none` for the types it ignores. -/
def broadcast_line (agentId : Int) (coordinates : CStr) (messageType : HubMessage) :
    Option CStr :=
  let body := ' ' :: (fmtInt agentId ++ ',' :: coordinates)
  match messageType with
  | .SUNK => some ("SUNK".toList ++ body)
  | .HIT => some ("HIT".toList ++ body)
  | .MISS => some ("MISS".toList ++ body)
  | _ => none

/-- Sends the result of a guess to both agents (`broadcast_message`). -/
def broadcast_message (agent opponent : Agent) (agentId : Int) (coordinates : CStr)
    (messageType : HubMessage) : Agent × Agent :=
  match broadcast_line agentId coordinates messageType with
  | none => (agent, opponent)
  | some line =>
    ({ agent with hubToAgent := agent.hubToAgent ++ [line] },
     { opponent with hubToAgent := opponent.hubToAgent ++ [line] })

/-- The state the loops of `handle_valid_guess` work on. -/
structure GuessState where
  agent : Agent
  opponent : Agent
  successfulHit : Bool
deriving DecidableEq, Repr

/-- The body of the innermost `if` of `handle_valid_guess`: the guess equals a
coordinate of ship `i`.  The id sent is that of the guessing agent in the state,
which is the local `agentId` of the source throughout. -/
def handle_valid_guess_hit (coordinates : CStr) (row column : Int) (i : Nat)
    (st : GuessState) : GuessState :=
  let opponentMap := st.opponent.agentState.agentMap
  let ships := modifyAt (fun ship => { ship with hits := ship.hits - 1 }) i
    opponentMap.agentShips
  let opponent : Agent :=
    { st.opponent with
      agentState := { st.opponent.agentState with
        agentMap := { opponentMap with
          agentGrid := gridSet opponentMap.agentGrid row column HIT_MARKER
          agentShips := ships } } }
  let sent := broadcast_message st.agent opponent st.agent.agentState.agentId coordinates
    (if (ships[i]?.map (fun ship => ship.hits)) = some 0 then .SUNK else .HIT)
  { agent := sent.1, opponent := sent.2, successfulHit := true }

/-- The inner loop of `handle_valid_guess` over the coordinates `j`, `j + 1`, ...
of ship `i` (`count` iterations left). -/
def handle_valid_guess_ship (coordinates : CStr) (row column : Int) (i : Nat) :
    Nat → Nat → GuessState → GuessState
  | 0, _, st => st
  | count + 1, j, st =>
    handle_valid_guess_ship coordinates row column i count (j + 1)
      (if (st.opponent.agentState.agentMap.agentShips[i]?.bind
            (fun ship => ship.coordinates[j]?)) = some coordinates
       then handle_valid_guess_hit coordinates row column i st
       else st)

/-- The outer loop of `handle_valid_guess` over the ships `i`, `i + 1`, ...
(`count` iterations left). -/
def handle_valid_guess_ships (coordinates : CStr) (row column : Int) (rules : Rules) :
    Nat → Nat → GuessState → GuessState
  | 0, _, st => st
  | count + 1, i, st =>
    handle_valid_guess_ships coordinates row column rules count (i + 1)
      (if (st.opponent.agentState.agentMap.agentShips[i]?.map (fun ship => ship.hits)).getD 0 > 0
       then handle_valid_guess_ship coordinates row column i
              (rules.shipLengths.getD i 0).toNat 0 st
       else st)

/-- Handles a valid guess (`handle_valid_guess`): records it, resolves it against
the opponent's ships and sends the result to both agents.  Returns the guessing
agent and the opponent. -/
def handle_valid_guess (coordinates : CStr) (rules : Rules) (agent opponent : Agent) :
    Agent × Agent :=
  let gridCoordinates := parse_coordinates coordinates
  let row := gridCoordinates.2
  let column := gridCoordinates.1
  let guesser : Agent :=
    { agent with
      agentState := { agent.agentState with
        agentGuesses := agent.agentState.agentGuesses ++ [coordinates] } }
  let st := handle_valid_guess_ships coordinates row column rules
    rules.numberOfShips.toNat 0
    { agent := guesser, opponent := opponent, successfulHit := false }
  if st.successfulHit = false then
    let missed : Agent :=
      { st.opponent with
        agentState := { st.opponent.agentState with
          agentMap := { st.opponent.agentState.agentMap with
            agentGrid := gridSet st.opponent.agentState.agentMap.agentGrid row column
              MISS_MARKER } } }
    broadcast_message st.agent missed guesser.agentState.agentId coordinates .MISS
  else (st.agent, st.opponent)

/-- The agent after the hub sent YT and read up to `rest` of its stream. -/
def prompted (agent : Agent) (rest : List Char) : Agent :=
  { agent with hubToAgent := agent.hubToAgent ++ ["YT".toList], agentToHub := rest }

/-- The reading loop of `handle_agent_turn`: sends YT and reads a line until a
valid new guess arrives.  Gives the agent with the accepted coordinates, or with
`none` when the loop returns 1; the outer `none` stands for the loop still
running when the `fuel` iterations are used up. -/
def handle_agent_turn_read (rules : Rules) : Nat → Agent → Option (Agent × Option CStr)
  | 0, _ => none
  | fuel + 1, agent =>
    let input := parse_input agent.agentToHub
    let reader : Agent := prompted agent input.2.2
    if input.2.1 = true then some (reader, none)
    else
      match validate_guess_message input.1 with
      | none => some (reader, none)
      | some coordinates =>
        if validate_coordinate rules reader coordinates = 0 then
          some (reader, some coordinates)
        else handle_agent_turn_read rules fuel reader

/-- The scan of `handle_agent_turn` for an opponent ship with hits left. -/
def shipsRemaining (rules : Rules) (opponent : Agent) : Bool :=
  (List.range rules.numberOfShips.toNat).any
    (fun i => decide ((opponent.agentState.agentMap.agentShips[i]?.map
      (fun ship => ship.hits)).getD 0 > 0))

/-- The part of `handle_agent_turn` after its reading loop: OK is sent, the guess
handled, and the opponent's ships scanned for the result 0 or 2. -/
def handle_agent_turn_accept (rules : Rules) (reader opponent : Agent) (coordinates : CStr) :
    Int × Agent × Agent :=
  let confirmed : Agent := { reader with hubToAgent := reader.hubToAgent ++ ["OK".toList] }
  let resolved := handle_valid_guess coordinates rules confirmed opponent
  if shipsRemaining rules resolved.2 = true then (0, resolved.1, resolved.2)
  else (2, resolved.1, resolved.2)

/-- One turn of an agent (`handle_agent_turn`): 0 if the turn concluded, 1 on a
communications error, 2 if all opponent ships are sunk; with the agent and the
opponent after the turn.  Every iteration of the reading loop consumes a
character of the stream, so its length plus one bounds the iterations. -/
def handle_agent_turn (rules : Rules) (agent opponent : Agent) : Int × Agent × Agent :=
  match handle_agent_turn_read rules (agent.agentToHub.length + 1) agent with
  | none => (1, agent, opponent)
  | some (reader, none) => (1, reader, opponent)
  | some (reader, some coordinates) => handle_agent_turn_accept rules reader opponent coordinates

/-- Sends DONE with the winner's id to both agents (`handle_round_end`). -/
def handle_round_end (winner loser : Agent) : Agent × Agent :=
  let line := "DONE ".toList ++ fmtInt winner.agentState.agentId
  ({ winner with hubToAgent := winner.hubToAgent ++ [line] },
   { loser with hubToAgent := loser.hubToAgent ++ [line] })

/-- Closes a round (`kill_round`): the agents are killed and the round marked
invalid. -/
def kill_round (round : RoundState) : RoundState :=
  { round with validRound := 0 }

/-- The body of the loop of `handle_early_exit` for one round: EARLY is sent to
both agents of a valid round. -/
def handle_early_exit_round (round : RoundState) : RoundState :=
  if round.validRound ≠ 0 then
    { round with
      player1 := { round.player1 with
        hubToAgent := round.player1.hubToAgent ++ ["EARLY".toList] }
      player2 := { round.player2 with
        hubToAgent := round.player2.hubToAgent ++ ["EARLY".toList] } }
  else round

/-- Sends EARLY to both agents of every valid round (`handle_early_exit`). -/
def handle_early_exit (game : FullGameState) : FullGameState :=
  { game with rounds := game.rounds.map handle_early_exit_round }

/-- The body of the `for` loop of `hub_play_game` for one round: the turns of a
valid round that is not over.  The first component is 1 when a turn reported a
communications error and 0 otherwise. -/
def hub_play_round (rules : Rules) (round : RoundState) : Int × RoundState :=
  if round.validRound ≠ 0 then
    if round.gameOver = 0 then
      let one := handle_agent_turn rules round.player1 round.player2
      if one.1 = 1 then (1, { round with player1 := one.2.1, player2 := one.2.2 })
      else if one.1 = 2 then
        let ended := handle_round_end one.2.1 one.2.2
        (0, { round with player1 := ended.1, player2 := ended.2, gameOver := 1 })
      else
        let two := handle_agent_turn rules one.2.2 one.2.1
        if two.1 = 1 then (1, { round with player1 := two.2.2, player2 := two.2.1 })
        else if two.1 = 2 then
          let ended := handle_round_end two.2.1 two.2.2
          (0, { round with player1 := ended.2, player2 := ended.1, gameOver := 1 })
        else (0, { round with player1 := two.2.2, player2 := two.2.1 })
    else (0, round)
  else (0, round)

/-- The recomputation of `allGamesOver` in `hub_play_game`. -/
def allGamesOver (game : FullGameState) : Bool :=
  game.rounds.all (fun round => !(decide (round.validRound ≠ 0) && decide (round.gameOver = 0)))

/-- How one execution of the `for` loop of `hub_play_game` ends. -/
inductive PassResult where
  | returned (game : FullGameState)
  | allOver (game : FullGameState)
  | finished (game : FullGameState)
deriving DecidableEq, Repr

/-- The `for` loop of `hub_play_game` from round `i` on (`count` rounds left):
`returned` when a turn failed (EARLY sent, the function returns 1), `allOver`
when the loop was left with every game over, `finished` when it ran to its
end. -/
def hub_play_game_pass : Nat → Nat → FullGameState → PassResult
  | 0, _, game => .finished game
  | count + 1, i, game =>
    match game.rounds[i]? with
    | none => .finished game
    | some round =>
      let played := hub_play_round game.rules round
      let next : FullGameState := { game with rounds := game.rounds.set i played.2 }
      if played.1 = 1 then .returned (handle_early_exit next)
      else if allGamesOver next = true then .allOver next
      else hub_play_game_pass count (i + 1) next

/-- The game state an execution of the `for` loop ends with. -/
def PassResult.game : PassResult → FullGameState
  | .returned game => game
  | .allOver game => game
  | .finished game => game

/-- The gameplay loop of the hub (`hub_play_game`), `fuel` bounding the number of
passes of the `while` loop: `some 1` on a communications error, `some 0` when all
games are over, `none` while the loop is still running. -/
def hub_play_game : Nat → FullGameState → Option Int × FullGameState
  | 0, game => (none, game)
  | fuel + 1, game =>
    match hub_play_game_pass game.rounds.length 0 game with
    | .returned next => (some 1, next)
    | .allOver next => (some 0, next)
    | .finished next => hub_play_game fuel next

/-- The exit status `main` ends with after `hub_play_game` returned
`gameStatus`: COMMUNICATIONS_ERROR (5) or NORMAL (0). -/
def main_exit_status (gameStatus : Int) : Int :=
  if gameStatus ≠ 0 then 5 else 0

/-- The exit status of `main` once the agents are initialised: the status for the
result of `hub_play_game`; `none` while the game is still running. -/
def main_game (fuel : Nat) (game : FullGameState) : Option Int :=
  (hub_play_game fuel game).1.map main_exit_status

/-! ## Rules: the rules file, the RULES message (`util.c`, `2310hub.c`, `agent.c`) -/

def MINIMUM_FILE_LINES : Nat := 1
def COMMENT_MARKER : Char := '#'
def RULES_DIMENSIONS_LINE_LENGTH : Nat := 2

/-- The states of reading rules (`RuleReadState` of `util.h`). -/
inductive RuleReadState where
  | READ_WIDTH
  | READ_HEIGHT
  | READ_SHIPS
  | READ_LENGTHS
  | READ_DONE
  | READ_INVALID
deriving DecidableEq, Repr

/-- Whether a line is a comment (`is_comment`): its first character is the
comment marker. -/
def is_comment (line : CStr) : Bool :=
  match line with
  | [] => false
  | c :: _ => c == COMMENT_MARKER

/-- The loop of `parse_file` over the characters of the file; `textLine` holds
the characters of the line being read.  A line ends at a newline, the last line
also at the end of the file when it holds a character; as a C string a line
ends at its first NUL. -/
def parse_file_loop : List Char → List Char → List CStr
  | [], textLine =>
    if textLine ≠ [] then [textLine.takeWhile (fun c => c ≠ '\x00')] else []
  | next :: rest, textLine =>
    if next = '\n' then textLine.takeWhile (fun c => c ≠ '\x00') :: parse_file_loop rest []
    else parse_file_loop rest (textLine ++ [next])

/-- The lines of a file (`parse_file`); `size` is the length of the list. -/
def parse_file (file : List Char) : List CStr :=
  parse_file_loop file []

/-- Reads the width of the board from a token (`read_rule_message_width`); the
value `strtol` gives is stored in an `int`. -/
def read_rule_message_width (rules : Rules) (messageToken : CStr) : RuleReadState × Rules :=
  let parsed := strtol messageToken
  let width := longToInt parsed.1
  if width < MIN_BOARD_WIDTH ∨ width > MAX_BOARD_WIDTH ∨ parsed.2 ≠ [] then
    (.READ_INVALID, rules)
  else (.READ_HEIGHT, { rules with width := width })

/-- Reads the height of the board from a token (`read_rule_message_height`). -/
def read_rule_message_height (rules : Rules) (messageToken : CStr) : RuleReadState × Rules :=
  let parsed := strtol messageToken
  let height := longToInt parsed.1
  if height < MIN_BOARD_HEIGHT ∨ height > MAX_BOARD_HEIGHT ∨ parsed.2 ≠ [] then
    (.READ_INVALID, rules)
  else (.READ_SHIPS, { rules with height := height })

/-- Reads the number of ships from a token (`read_rule_message_ships`). -/
def read_rule_message_ships (rules : Rules) (messageToken : CStr) : RuleReadState × Rules :=
  let parsed := strtol messageToken
  let numberOfShips := longToInt parsed.1
  if numberOfShips < MIN_SHIPS ∨ numberOfShips > MAX_SHIPS ∨ parsed.2 ≠ [] then
    (.READ_INVALID, rules)
  else (.READ_LENGTHS, { rules with numberOfShips := numberOfShips })

/-- Reads the length of the ship number `shipsAdded` from a token
(`read_rule_message_lengths`): the array is resized to `shipsAdded` lengths and
its last element set.  The callers count `shipsAdded` up from 1, so that the
array held `shipsAdded - 1` lengths before. -/
def read_rule_message_lengths (rules : Rules) (messageToken : CStr) (shipsAdded : Nat) :
    RuleReadState × Rules :=
  let parsed := strtol messageToken
  let shipLength := longToInt parsed.1
  if shipLength < MIN_SHIP_LENGTH ∨ parsed.2 ≠ [] then (.READ_INVALID, rules)
  else
    let stored : Rules :=
      { rules with shipLengths := rules.shipLengths.take (shipsAdded - 1) ++ [shipLength] }
    if (shipsAdded : Int) = rules.numberOfShips then (.READ_DONE, stored)
    else (.READ_LENGTHS, stored)

/-- Reads the dimensions of the board from a line of the rules file
(`read_rule_dimensions`). -/
def read_rule_dimensions (rules : Rules) (dimensions : CStr) : RuleReadState × Rules :=
  let splitLine := split_string dimensions ' ' true
  if splitLine.length ≠ RULES_DIMENSIONS_LINE_LENGTH then (.READ_INVALID, rules)
  else
    let width := read_rule_message_width rules (splitLine.getD 0 [])
    if width.1 = .READ_INVALID then (.READ_INVALID, width.2)
    else
      let height := read_rule_message_height width.2 (splitLine.getD 1 [])
      if height.1 = .READ_INVALID then (.READ_INVALID, height.2)
      else (.READ_SHIPS, height.2)

/-- The loop of `parse_rules_file` over the lines of the file: the state, the
count `shipsAdded` and the rules it ends with.  Comments and empty lines are
skipped; a line met in the state READ_DONE or READ_INVALID ends the loop. -/
def parse_rules_file_loop :
    List CStr → RuleReadState → Nat → Rules → RuleReadState × Nat × Rules
  | [], state, shipsAdded, rules => (state, shipsAdded, rules)
  | line :: rest, state, shipsAdded, rules =>
    let trimmed := strtrim line
    if is_comment trimmed = true then parse_rules_file_loop rest state shipsAdded rules
    else if trimmed = [] then parse_rules_file_loop rest state shipsAdded rules
    else
      match state with
      | .READ_HEIGHT =>
        let r := read_rule_dimensions rules trimmed
        parse_rules_file_loop rest r.1 shipsAdded r.2
      | .READ_SHIPS =>
        let r := read_rule_message_ships rules trimmed
        parse_rules_file_loop rest r.1 shipsAdded r.2
      | .READ_LENGTHS =>
        let r := read_rule_message_lengths rules trimmed (shipsAdded + 1)
        parse_rules_file_loop rest r.1 (shipsAdded + 1) r.2
      | .READ_DONE => (state, shipsAdded, rules)
      | .READ_INVALID => (state, shipsAdded, rules)
      | .READ_WIDTH => parse_rules_file_loop rest state shipsAdded rules

/-- Reads the rules of the game from a file (`parse_rules_file`): 1 on an error,
else 0, with the rules as the call leaves them. -/
def parse_rules_file (rules : Rules) (rulesFile : List Char) : Int × Rules :=
  let parsedRules := parse_file rulesFile
  if parsedRules.length < MINIMUM_FILE_LINES then (1, rules)
  else
    let r := parse_rules_file_loop parsedRules .READ_HEIGHT 0
      { rules with numberOfShips := 0, shipLengths := [] }
    if r.1 = .READ_DONE ∧ (r.2.1 : Int) ≥ r.2.2.numberOfShips then (0, r.2.2)
    else (1, r.2.2)

/-- The RULES message of the hub for the rules (`generate_rules_message`), with
its newline: the comma after the last number is replaced by the newline. -/
def generate_rules_message (rules : Rules) : CStr :=
  let start := "RULES ".toList ++ fmtInt rules.width ++ [','] ++ fmtInt rules.height ++ [','] ++
    fmtInt rules.numberOfShips ++ [',']
  let message := (List.range rules.numberOfShips.toNat).foldl
    (fun message i => message ++ (fmtInt (rules.shipLengths.getD i 0) ++ [','])) start
  message.dropLast ++ ['\n']

/-- The loop of `parse_rule_message` (`agent.c`) over the tokens of the
message. -/
def parse_rule_message_loop :
    List CStr → RuleReadState → Nat → Rules → RuleReadState × Nat × Rules
  | [], state, shipsAdded, rules => (state, shipsAdded, rules)
  | token :: rest, state, shipsAdded, rules =>
    let messageToken := strtrim token
    match state with
    | .READ_WIDTH =>
      let r := read_rule_message_width rules messageToken
      parse_rule_message_loop rest r.1 shipsAdded r.2
    | .READ_HEIGHT =>
      let r := read_rule_message_height rules messageToken
      parse_rule_message_loop rest r.1 shipsAdded r.2
    | .READ_SHIPS =>
      let r := read_rule_message_ships rules messageToken
      parse_rule_message_loop rest r.1 shipsAdded r.2
    | .READ_LENGTHS =>
      let r := read_rule_message_lengths rules messageToken (shipsAdded + 1)
      parse_rule_message_loop rest r.1 (shipsAdded + 1) r.2
    | .READ_DONE => (state, shipsAdded, rules)
    | .READ_INVALID => (state, shipsAdded, rules)

/-- Reads the rules from a RULES message (`parse_rule_message` of `agent.c`): 1
on an error, else 0, with the rules as the call leaves them. -/
def parse_rule_message (rules : Rules) (ruleMessage : CStr) : Int × Rules :=
  let trimmed := strtrim ruleMessage
  if check_message_prefix trimmed "RULES ".toList = 0 then (1, rules)
  else
    let message := index_substring trimmed "RULES ".length
    let splitMessage := split_string message ',' false
    let r := parse_rule_message_loop splitMessage .READ_WIDTH 0
      { rules with numberOfShips := 0, shipLengths := [] }
    if r.1 = .READ_DONE ∧ (r.2.1 : Int) ≥ r.2.2.numberOfShips then (0, r.2.2)
    else (1, r.2.2)

/-! ## Starting the agents (`2310hub.c`) -/

/-- Sends the RULES message to an agent and reads its MAP message (`send_rules`):
the grids are initialised, the message is written, one line is read; 1 when the
stream ended or `parse_map_message` refused the line, else 0. -/
def send_rules (rules : Rules) (rulesMessage : CStr) (agent : Agent) : Int × Agent :=
  let gridded := initialise_grids rules agent.agentState.agentMap
  let input := parse_input agent.agentToHub
  let sent : Agent :=
    { agent with
      agentState := { agent.agentState with agentMap := gridded }
      hubToAgent := agent.hubToAgent ++ [rulesMessage.takeWhile (fun c => c ≠ '\n')]
      agentToHub := input.2.2 }
  if input.2.1 = true then (1, sent)
  else
    let parsed := parse_map_message gridded rules input.1
    (if parsed.1 = 0 then 0 else 1,
     { sent with agentState := { sent.agentState with agentMap := parsed.2 } })

/-- The body of the first loop of `initialise_agents` for one round; `spawned`
holds the results of `initialise_child_process` for player 1 and player 2 (0 when
the process was started). -/
def initialise_agents_spawn (spawned : Int × Int) (round : RoundState) : RoundState :=
  let started : RoundState :=
    { round with
      validRound := 1
      gameOver := 0
      player1 := { round.player1 with
        agentState := { round.player1.agentState with agentId := 1 } } }
  let first := if spawned.1 ≠ 0 then kill_round started else started
  let second : RoundState :=
    { first with
      player2 := { first.player2 with
        agentState := { first.player2.agentState with agentId := 2 } } }
  if spawned.2 ≠ 0 then kill_round second else second

/-- The first loop of `initialise_agents` from round `i` on. -/
def initialise_agents_spawn_loop (spawned : Nat → Int × Int) :
    Nat → List RoundState → List RoundState
  | _, [] => []
  | i, round :: rest =>
    initialise_agents_spawn (spawned i) round :: initialise_agents_spawn_loop spawned (i + 1) rest

/-- The body of the second loop of `initialise_agents` for one round: the
handshake with player 1 and then with player 2 of a valid round. -/
def initialise_agents_handshake (rules : Rules) (rulesMessage : CStr) (round : RoundState) :
    RoundState :=
  if round.validRound ≠ 0 then
    let one := send_rules rules rulesMessage round.player1
    if one.1 ≠ 0 then kill_round { round with player1 := one.2 }
    else
      let two := send_rules rules rulesMessage round.player2
      if two.1 ≠ 0 then kill_round { round with player1 := one.2, player2 := two.2 }
      else { round with player1 := one.2, player2 := two.2 }
  else round

/-- Starts the agents and shakes hands with them (`initialise_agents`); `none`
when no round is valid and the hub exits with AGENT_ERROR. -/
def initialise_agents (spawned : Nat → Int × Int) (game : FullGameState) :
    Option FullGameState :=
  let started := initialise_agents_spawn_loop spawned 0 game.rounds
  let rulesMessage := generate_rules_message game.rules
  let shaken := started.map (initialise_agents_handshake game.rules rulesMessage)
  if shaken.any (fun round => decide (round.validRound ≠ 0)) = true then
    some { game with rounds := shaken }
  else none

/-- What the parent process observes of the system calls of
`initialise_child_process`: whether one of the three calls of `pipe` failed, the
value of `fork` (positive in the parent, -1 when no child was created) and the
value of `read` on the error pipe: the number of bytes delivered, 1 when the
child wrote its byte after a failed `execl`, 0 when the pipe was closed by a
successful `execl`, and -1 when the call itself failed. -/
structure SpawnCalls where
  pipeFailed : Bool
  pid : Int
  errorRead : Int
deriving DecidableEq, Repr

/-- The value `initialise_child_process` returns in the parent process. -/
def initialise_child_process (calls : SpawnCalls) : Int :=
  if calls.pipeFailed = true then 1
  else if calls.pid = -1 then -1
  else if calls.errorRead < 0 then 1
  else 0

def AGENT_ERROR : Int := 4

/-- The part of `main` from the call of `initialise_agents` on: the exit status
AGENT_ERROR when no round could be started, else the status for the result of
`hub_play_game`; `none` while the game is still running. -/
def main_agents (spawned : Nat → Int × Int) (fuel : Nat) (game : FullGameState) : Option Int :=
  match initialise_agents spawned game with
  | none => some AGENT_ERROR
  | some started => main_game fuel started

/-! ## The configuration file (`2310hub.c`) -/

def CONFIG_FILE_FIELD_NUMBER : Nat := 4

/-- What `parse_config_file` stores for a round: the paths of the programs and
of the map files of the two players, and the number of the round. -/
structure RoundConfig where
  player1ExecFilePath : CStr
  player1MapFilePath : CStr
  player2ExecFilePath : CStr
  player2MapFilePath : CStr
  roundNumber : Int
deriving DecidableEq, Repr

/-- The loop of `parse_config_file` over the lines of the file; `rounds` holds
the rounds made so far, `numberOfRounds` is its length.  Comments and empty
lines are skipped; a line that does not split into four tokens ends the
function with 1.  The four tokens of a line are trimmed. -/
def parse_config_file_loop : List CStr → List RoundConfig → Int × List RoundConfig
  | [], rounds => (0, rounds)
  | line :: rest, rounds =>
    let trimmed := strtrim line
    if is_comment trimmed = true then parse_config_file_loop rest rounds
    else if trimmed = [] then parse_config_file_loop rest rounds
    else
      let splitLine := (split_string trimmed ',' false).map strtrim
      if splitLine.length ≠ CONFIG_FILE_FIELD_NUMBER then (1, rounds)
      else
        parse_config_file_loop rest (rounds ++ [
          { player1ExecFilePath := splitLine.getD 0 []
            player1MapFilePath := splitLine.getD 1 []
            player2ExecFilePath := splitLine.getD 2 []
            player2MapFilePath := splitLine.getD 3 []
            roundNumber := rounds.length }])

/-- Reads the rounds of the tournament from the configuration file
(`parse_config_file`): 1 on an error, else 0, with the rounds made. -/
def parse_config_file (configFile : List Char) : Int × List RoundConfig :=
  let parsedConfig := parse_file configFile
  if parsedConfig.length < MINIMUM_FILE_LINES then (1, [])
  else parse_config_file_loop parsedConfig []

/-! ## The arguments of an agent (`2310hub.c`, `util.c`, `agent.c`) -/

def SEED_ROUND_MULTIPLIER : Int := 2
def MINIMUM_AGENT_SEED : Int := 1

/-- The texts of the id and of the seed the hub passes to an agent
(`initialise_agent_parameters`), which `execl` hands over as the first and the
third argument.  The seed is computed in `int`.  C gives a sum outside the
range of `int` no value; the model is total and reduces it modulo 2^32 there,
and what is proved of the seed is proved for sums inside the range. -/
def initialise_agent_parameters (agent : Agent) (roundNumber : Int) : CStr × CStr :=
  let seed := longToInt (SEED_ROUND_MULTIPLIER * roundNumber + agent.agentState.agentId)
  (fmtInt agent.agentState.agentId, fmtInt seed)

/-- The player id of a text, or -1 for a text that is not a valid id
(`validate_player_id`). -/
def validate_player_id (id : CStr) : Int :=
  let parsed := strtol (strtrim id)
  let playerId := longToInt parsed.1
  if playerId < 1 ∨ playerId > 2 ∨ parsed.2 ≠ [] then -1 else playerId

/-- The seed of a text, or -1 for a text that is not a valid seed
(`validate_seed` of `agent.c`). -/
def validate_seed (seed : CStr) : Int :=
  let parsed := strtol (strtrim seed)
  let playerSeed := longToInt parsed.1
  if playerSeed < MINIMUM_AGENT_SEED ∨ parsed.2 ≠ [] then -1 else playerSeed

/-! ## Signals (`2310hub.c`) -/

def SIGHUP : Int := 1
def SIGPIPE : Int := 13
def SIGHUP_RECEIVED : Int := 6

/-- A child process of the hub that has not been waited for: its pid, and
whether it still runs.  A child that has ended stays a child until `wait`
returns its pid. -/
structure Child where
  pid : Int
  running : Bool
deriving DecidableEq, Repr

/-- The children of the hub after `kill(pid, 9)`: the child of that pid has
ended (signal 9 is neither caught nor ignored).  A pid of no child leaves the
children as they are; what the signal does to another process is outside the
model. -/
def kill (children : List Child) (pid : Int) : List Child :=
  children.map (fun child => if child.pid = pid then { child with running := false } else child)

/-- The pid of the first child that has ended, and the children without it. -/
def reap : List Child → Option (Int × List Child)
  | [] => none
  | child :: rest =>
    if child.running = true then (reap rest).map (fun r => (r.1, child :: r.2))
    else some (child.pid, rest)

/-- One call `wait(NULL)`: the value -1 when the hub has no child; else the pid
of a child that has ended, which is a child no longer; `none` when children are
left and all of them run, where the call does not return before one of them
ends (that a child ends by itself is not modelled). -/
def wait (children : List Child) : Option (Int × List Child) :=
  match children with
  | [] => some (-1, [])
  | _ :: _ => reap children

/-- The loop `while (wait(NULL) >= 0)` of `signal_handler`: whether the loop
ends, and the children left, at the end of the loop or at the call of `wait`
that does not return.  A call that returns a pid takes a child away, so `fuel`
above the number of children is never used up. -/
def wait_loop : Nat → List Child → Bool × List Child
  | 0, children => (false, children)
  | fuel + 1, children =>
    match wait children with
    | none => (false, children)
    | some (result, rest) => if result ≥ 0 then wait_loop fuel rest else (true, rest)

/-- What the signal handler has done on SIGHUP: the pids it sent signal 9, in
the order of the calls of `kill`; the children of the hub that are left; the
game with what has been written to the agents; and the exit status, `none` when
the handler stays in a call of `wait` and the hub does not end. -/
structure HangUp where
  killed : List Int
  children : List Child
  game : FullGameState
  exitStatus : Option Int
deriving DecidableEq, Repr

/-- The signal handler of the hub (`signal_handler`): `none` when the handler
returns (SIGPIPE, and any other signal), so that the hub goes on.  The pid
fields of the agents are the parameter `pids` (player 1 and player 2 of the
round of each index), the children of the hub that have not been waited for are
`children`.  On SIGHUP the pids of both agents of every round are sent signal
9, the handler calls `wait` until it returns a negative value, and
`hub_exit_handler` ends the hub with SIGHUP_RECEIVED; nothing is written to an
agent on the way. -/
def signal_handler (signum : Int) (pids : Nat → Int × Int) (children : List Child)
    (game : FullGameState) : Option HangUp :=
  if signum = SIGPIPE then none
  else if signum = SIGHUP then
    let killed := (List.range game.rounds.length).flatMap (fun i => [(pids i).1, (pids i).2])
    let ended := killed.foldl kill children
    let waited := wait_loop (ended.length + 1) ended
    some { killed := killed
           children := waited.2
           game := game
           exitStatus := if waited.1 = true then some SIGHUP_RECEIVED else none }
  else none

/-! ## The gameplay loop of an agent (`agent.c`) -/

def BROADCAST_MESSAGE_LENGTH : Nat := 2

/-- The kind of a message from the hub by its first characters
(`check_message`). -/
def check_message (hubMessage : CStr) : HubMessage :=
  if check_message_prefix hubMessage "YT".toList ≠ 0 then .YT
  else if check_message_prefix hubMessage "OK".toList ≠ 0 then .OK
  else if check_message_prefix hubMessage "HIT ".toList ≠ 0 then .HIT
  else if check_message_prefix hubMessage "SUNK ".toList ≠ 0 then .SUNK
  else if check_message_prefix hubMessage "MISS ".toList ≠ 0 then .MISS
  else if check_message_prefix hubMessage "EARLY".toList ≠ 0 then .EARLY
  else if check_message_prefix hubMessage "DONE ".toList ≠ 0 then .DONE
  else .INVALID

/-- Handles a DONE message (`handle_game_over`): 1 if the text after the
prefix is not a player id, else 0. -/
def handle_game_over (hubMessage : CStr) : Int :=
  let message := strtrim (index_substring hubMessage "DONE ".length)
  if validate_player_id message > 0 then 0 else 1

/-- Whether a message has the given length (`validate_message_length`): 0 if
so, else 1. -/
def validate_message_length (hubMessage : CStr) (messageLength : Nat) : Int :=
  if hubMessage.length = messageLength then 0 else 1

/-- Marks the guess of a broadcast message on the boards of the agent
(`handle_broadcast_message`): on the opponent grid when the agent itself made
the guess, else on its own grid.  A cell outside the grid is left out here; the
source writes outside its array. -/
def handle_broadcast_message (agentMap : AgentMap) (messageId : Int) (coordinates : CStr)
    (agentId : Int) (messageType : HubMessage) : AgentMap :=
  let gridCoordinates := parse_coordinates coordinates
  let gridMarker := if messageType = .MISS then MISS_MARKER else HIT_MARKER
  if messageId = agentId then
    { agentMap with
      opponentGrid := gridSet agentMap.opponentGrid gridCoordinates.2 gridCoordinates.1
        gridMarker }
  else
    { agentMap with
      agentGrid := gridSet agentMap.agentGrid gridCoordinates.2 gridCoordinates.1 gridMarker }

/-- Validates and handles a HIT, SUNK or MISS message
(`validate_broadcast_message`): 1 if the message is refused, else 0 with the
boards updated.  The prefix of a HIT message is cut by its own length, that of
the two others by the length of `MISS `. -/
def validate_broadcast_message (agentState : AgentState) (hubMessage : CStr)
    (messageType : HubMessage) : Int × AgentState :=
  let message := strtrim
    (if messageType = .HIT then index_substring hubMessage "HIT ".length
     else index_substring hubMessage "MISS ".length)
  let splitMessage := split_string message ',' false
  if splitMessage.length ≠ BROADCAST_MESSAGE_LENGTH then (1, agentState)
  else
    let messageId := validate_player_id (splitMessage.getD 0 [])
    if messageId < 0 then (1, agentState)
    else
      let checked := check_valid_coordinates (splitMessage.getD 1 [])
      if checked.1 ≠ 0 then (1, agentState)
      else
        (0, { agentState with
              agentMap := handle_broadcast_message agentState.agentMap messageId checked.2
                agentState.agentId messageType })

/-- The variables of `play_game` after one iteration of its loop: `result`,
`gameOver`, whether `make_guess` was called (it writes one GUESS line), and the
state of the agent. -/
structure PlayStep where
  result : Int
  gameOver : Int
  guessed : Bool
  game : AgentState
deriving DecidableEq, Repr

/-- One iteration of the loop of `play_game` on the line read; `result` is 0
when an iteration starts. -/
def play_game_step (game : AgentState) (hubMessage : CStr) : PlayStep :=
  let handled : PlayStep :=
    match check_message hubMessage with
    | .YT => { result := 0, gameOver := 0, guessed := true, game := game }
    | .OK =>
      { result := validate_message_length hubMessage "OK".length, gameOver := 0,
        guessed := false, game := game }
    | .HIT =>
      let validated := validate_broadcast_message game hubMessage .HIT
      { result := validated.1, gameOver := 0, guessed := false, game := validated.2 }
    | .SUNK =>
      let validated := validate_broadcast_message game hubMessage .SUNK
      { result := validated.1, gameOver := 0, guessed := false, game := validated.2 }
    | .MISS =>
      let validated := validate_broadcast_message game hubMessage .MISS
      { result := validated.1, gameOver := 0, guessed := false, game := validated.2 }
    | .DONE =>
      { result := handle_game_over hubMessage, gameOver := 1, guessed := false, game := game }
    | .EARLY =>
      { result := validate_message_length hubMessage "EARLY".length, gameOver := 1,
        guessed := false, game := game }
    | .INVALID => { result := 1, gameOver := 0, guessed := false, game := game }
  if handled.result ≠ 0 then { handled with gameOver := 1 } else handled

/-- The loop of `play_game` on the stream from the hub, `fuel` bounding its
iterations: the result, the state of the agent and the number of guesses made;
`none` while the loop is still running.  The `endOfFile` flag of `parse_input`
is not looked at: what was read before the end of the stream is handled as a
line. -/
def play_game_loop : Nat → AgentState → List Char → Nat → Option (Int × AgentState × Nat)
  | 0, _, _, _ => none
  | fuel + 1, game, input, guesses =>
    let line := parse_input input
    let step := play_game_step game line.1
    let made := if step.guessed = true then guesses + 1 else guesses
    if step.gameOver ≠ 0 then some (step.result, step.game, made)
    else play_game_loop fuel step.game line.2.2 made

/-! ## The grid cells touched while ships are placed (`util.c`, `2310hub.c`)

`add_agent_grid_element` reads the cell of the coordinates it is given in the
own grid and writes that cell when it was blank; these are the only accesses to
a grid while a MAP message is read.  The functions below follow the control
flow of the functions they are named after and list the coordinates handed to
`add_agent_grid_element`, in the order of the calls. -/

/-- The coordinates `add_agent_ship_loop` hands to `add_agent_grid_element`. -/
def add_agent_ship_loop_touched (direction : Direction) (rules : Rules) :
    Nat → CStr → AgentMap → List CStr
  | 0, _, _ => []
  | count + 1, newCoordinate, agentMap =>
    let tempCoordinate := next_coordinate direction newCoordinate
    if check_coordinate_bounds tempCoordinate rules ≠ 0 then []
    else
      let r := add_agent_grid_element agentMap tempCoordinate rules
      if r.1 ≠ 0 then [tempCoordinate]
      else tempCoordinate :: add_agent_ship_loop_touched direction rules count tempCoordinate r.2

/-- The coordinates `add_agent_ship` hands to `add_agent_grid_element`, itself
and in its loop. -/
def add_agent_ship_touched (agentMap : AgentMap) (coordinates : CStr) (direction : Direction)
    (rules : Rules) : List CStr :=
  if check_coordinate_bounds coordinates rules ≠ 0 then []
  else
    let started : AgentMap :=
      { agentMap with
        agentShips := agentMap.agentShips.take agentMap.shipsAdded ++
          [{ coordinates := [], hits := 0, length := 0, direction := direction }]
        shipsAdded := agentMap.shipsAdded + 1 }
    let r := add_agent_grid_element started coordinates rules
    if r.1 ≠ 0 then [coordinates]
    else
      coordinates :: add_agent_ship_loop_touched direction rules
        ((rules.shipLengths.getD (r.2.shipsAdded - 1) 0) - 1).toNat coordinates r.2

/-- The coordinates handed to `add_agent_grid_element` under
`handle_agent_ship_direction`. -/
def handle_agent_ship_direction_touched (position direction : CStr) (agentMap : AgentMap)
    (rules : Rules) : List CStr :=
  let dir := strtrim direction
  if dir = ['N'] then add_agent_ship_touched agentMap position .NORTH rules
  else if dir = ['E'] then add_agent_ship_touched agentMap position .EAST rules
  else if dir = ['S'] then add_agent_ship_touched agentMap position .SOUTH rules
  else if dir = ['W'] then add_agent_ship_touched agentMap position .WEST rules
  else []

/-- The coordinates handed to `add_agent_grid_element` in the loop of
`parse_map_message`. -/
def parse_map_message_loop_touched (rules : Rules) : List CStr → AgentMap → List CStr
  | [], _ => []
  | entry :: rest, agentMap =>
    let mapPosition := split_string entry ',' false
    if mapPosition.length ≠ MAP_TOKEN_LINE_LENGTH then []
    else
      let checked := check_valid_coordinates (mapPosition.getD 0 [])
      if checked.1 ≠ 0 then []
      else if (agentMap.shipsAdded : Int) < rules.numberOfShips then
        let r := handle_agent_ship_direction checked.2 (mapPosition.getD 1 []) agentMap rules
        handle_agent_ship_direction_touched checked.2 (mapPosition.getD 1 []) agentMap rules ++
          (if r.1 ≠ 0 then [] else parse_map_message_loop_touched rules rest r.2)
      else parse_map_message_loop_touched rules rest agentMap

/-- The coordinates handed to `add_agent_grid_element` while `parse_map_message`
reads a MAP message. -/
def parse_map_message_touched (agentMap : AgentMap) (rules : Rules) (mapMessage : CStr) :
    List CStr :=
  let message := strtrim mapMessage
  if check_message_prefix message "MAP ".toList = 0 then []
  else
    let substring := index_substring message "MAP ".length
    let splitLine := split_string substring ':' false
    parse_map_message_loop_touched rules splitLine { agentMap with shipsAdded := 0 }

/-! ## The guesses of agent A (`2310A.c`) -/

def ROW_OFFSET : Int := 64

/-- The guesses of agent A after one more call of `make_guess` (`2310A.c`); the
new guess is the last one and is written as a GUESS line.  The first guess is
`A1`; afterwards the last guess is moved one column on, to the right in a row
of odd number and to the left in a row of even number, or one row down at the
end of the row.  `%` of C is `Int.tmod`; for a row number with the remainder -1
the source leaves the new guess uninitialised, it is empty here. -/
def make_guess (rules : Rules) (agentGuesses : List CStr) : List CStr :=
  match agentGuesses.getLast? with
  | none => agentGuesses ++ ["A1".toList]
  | some previousTarget =>
    let previousRow := parse_coordinate_row previousTarget
    let newRow : CStr :=
      if Int.tmod (atoi previousRow) 2 = 1 then
        if ROW_OFFSET + rules.width - firstChar previousTarget = 0 then
          increment_row previousTarget 1
        else increment_column previousTarget 1
      else if Int.tmod (atoi previousRow) 2 = 0 then
        if firstChar previousTarget = charVal 'A' then increment_row previousTarget 1
        else increment_column previousTarget (-1)
      else []
    agentGuesses ++ [newRow]

/-- The guesses of agent A after `n` calls of `make_guess`. -/
def make_guesses (rules : Rules) : Nat → List CStr
  | 0 => []
  | n + 1 => make_guess rules (make_guesses rules n)

/-! ## The map of an agent (`agent.c`) -/

/-- The loop of `parse_map_file` over the lines of the file, with the final
count check.  `fileLine[0]` is the empty string when the line has no token;
`check_valid_coordinates` trims `fileLine[0]` in place before
`handle_agent_ship_direction` reads it. -/
def parse_map_file_loop (rules : Rules) : List CStr → AgentMap → Int × AgentMap
  | [], agentMap =>
    if (agentMap.shipsAdded : Int) ≠ rules.numberOfShips then (1, agentMap) else (0, agentMap)
  | line :: rest, agentMap =>
    let fileLine := split_string line ' ' true
    if firstChar (fileLine.getD 0 []) = charVal COMMENT_MARKER then
      parse_map_file_loop rules rest agentMap
    else
      let checked := check_valid_coordinates (fileLine.getD 0 [])
      if fileLine.length ≠ MAP_TOKEN_LINE_LENGTH ∨ checked.1 ≠ 0 then (1, agentMap)
      else if (agentMap.shipsAdded : Int) < rules.numberOfShips then
        let r := handle_agent_ship_direction checked.2 (fileLine.getD 1 []) agentMap rules
        if r.1 ≠ 0 then r
        else parse_map_file_loop rules rest r.2
      else parse_map_file_loop rules rest agentMap

/-- Reads the map of an agent from the text of its map file (`parse_map_file`):
0 on success, non-zero on an error. -/
def parse_map_file (mapFile : List Char) (agentMap : AgentMap) (rules : Rules) :
    Int × AgentMap :=
  let parsedMap := parse_file mapFile
  if (parsedMap.length : Int) < MIN_SHIPS then (1, agentMap)
  else parse_map_file_loop rules parsedMap agentMap

/-- The character of a direction (`convert_direction`). -/
def convert_direction (direction : Direction) : Char :=
  if direction = .NORTH then 'N'
  else if direction = .EAST then 'E'
  else if direction = .SOUTH then 'S'
  else 'W'

/-- The text `send_map_message` builds and hands to `printf` as the format:
`MAP `, then the first coordinate, a comma, the direction and a colon for each
of the first `numberOfShips` ships, the last character replaced by the end of
the line.  A ship read past the end of the array (undefined in the source) is a
ship without coordinates here. -/
def send_map_message (ships : List Ship) (numberOfShips : Int) : CStr :=
  let message := (List.range numberOfShips.toNat).foldl
    (fun message i =>
      let ship := ships.getD i { coordinates := [], hits := 0, length := 0, direction := .NORTH }
      message ++ (ship.coordinates.getD 0 [] ++ [',', convert_direction ship.direction, ':']))
    "MAP ".toList
  message.dropLast ++ ['\n']

/-! ## Predicates used in the statements -/

/-- Valid rules, as `parse_rules_file` accepts them: width and height in 1..26,
1..15 ships, one length of at least 1 for each ship. -/
def Rules.valid (rules : Rules) : Prop :=
  MIN_BOARD_WIDTH ≤ rules.width ∧ rules.width ≤ MAX_BOARD_WIDTH ∧
  MIN_BOARD_HEIGHT ≤ rules.height ∧ rules.height ≤ MAX_BOARD_HEIGHT ∧
  MIN_SHIPS ≤ rules.numberOfShips ∧ rules.numberOfShips ≤ MAX_SHIPS ∧
  (rules.shipLengths.length : Int) = rules.numberOfShips ∧
  ∀ l ∈ rules.shipLengths, MIN_SHIP_LENGTH ≤ l

instance (rules : Rules) : Decidable rules.valid := by
  unfold Rules.valid
  infer_instance

/-- The board cells (column, row) of the coordinates of a ship, as
`parse_coordinates` computes them. -/
def Ship.cells (ship : Ship) : List (Int × Int) :=
  ship.coordinates.map parse_coordinates

/-- The board cells of all ships of a map, ship after ship. -/
def AgentMap.cells (agentMap : AgentMap) : List (Int × Int) :=
  (agentMap.agentShips.map Ship.cells).flatten

/-- The state of a map while `parse_map_message` places ships on it: the grid has
the size of the board, its non-blank cells are exactly the cells of the ships
placed, no cell is taken twice, and the counters of every ship equal the number
of its coordinates. -/
structure MapInv (rules : Rules) (agentMap : AgentMap) : Prop where
  rows : agentMap.agentGrid.length = rules.height.toNat
  cols : ∀ row ∈ agentMap.agentGrid, row.length = rules.width.toNat
  marked : ∀ r c : Int, 0 ≤ r → r < rules.height → 0 ≤ c → c < rules.width →
    (gridGet agentMap.agentGrid r c ≠ BLANK_GRID ↔ (c, r) ∈ agentMap.cells)
  nodup : agentMap.cells.Nodup
  count : agentMap.agentShips.length = agentMap.shipsAdded
  counters : ∀ ship ∈ agentMap.agentShips,
    ship.hits = ship.coordinates.length ∧ ship.length = ship.coordinates.length

/-- The cell `k` steps from `cell` (column, row) in a direction: north is
row - 1, south row + 1, east column + 1, west column - 1. -/
def moveCell (direction : Direction) (cell : Int × Int) (k : Int) : Int × Int :=
  match direction with
  | .NORTH => (cell.1, cell.2 - k)
  | .SOUTH => (cell.1, cell.2 + k)
  | .EAST => (cell.1 + k, cell.2)
  | .WEST => (cell.1 - k, cell.2)

/-- The cells 1, 2, ..., `count` steps from `cell` in a direction. -/
def stepCells (direction : Direction) (cell : Int × Int) (count : Nat) : List (Int × Int) :=
  (List.range count).map (fun (k : Nat) => moveCell direction cell ((k : Int) + 1))

/-- The direction a field of a MAP entry names once trimmed: `N`, `E`, `S` or
`W` (the comparisons of `handle_agent_ship_direction`). -/
def entry_direction (direction : CStr) : Option Direction :=
  if strtrim direction = ['N'] then some .NORTH
  else if strtrim direction = ['E'] then some .EAST
  else if strtrim direction = ['S'] then some .SOUTH
  else if strtrim direction = ['W'] then some .WEST
  else none

/-- The cells a ship is meant to cover, in the words of the specification: the
start cell moved `k` steps in the direction of the ship, for every `k` below
its length. -/
def ship_cells_spec (start : Int × Int) (direction : Direction) (length : Int) :
    List (Int × Int) :=
  (List.range length.toNat).map (fun (k : Nat) => moveCell direction start (k : Int))

/-- The cells the entry `position,direction` of a MAP message claims for the ship
of index `i`; no cell when the direction is none of the four. -/
def entry_cells (rules : Rules) (i : Nat) (entry : CStr) : List (Int × Int) :=
  match entry_direction ((split_string entry ',' false).getD 1 []) with
  | some direction =>
    ship_cells_spec (parse_coordinates (strtrim ((split_string entry ',' false).getD 0 [])))
      direction (rules.shipLengths.getD i 0)
  | none => []

/-- The entries of a MAP message, as `parse_map_message` splits them. -/
def map_entries (mapMessage : CStr) : List CStr :=
  split_string (index_substring (strtrim mapMessage) "MAP ".length) ':' false

/-- Every ship of the map is the one its entry of the message describes: the
cells of ship `k` are those claimed by entry `k`, as many as the rules give the
ship. -/
def ShipsMatch (rules : Rules) (agentMap : AgentMap) (entries : List CStr) : Prop :=
  ∀ (k : Nat) (ship : Ship), agentMap.agentShips[k]? = some ship →
    ∃ entry, entries[k]? = some entry ∧ ship.cells = entry_cells rules k entry ∧
      (ship.coordinates.length : Int) = rules.shipLengths.getD k 0

/-- The state of the ships of a map during play, against the guesses accepted so
far from the opponent of its owner: there are `numberOfShips` ships, ship `k`
has as many coordinates as the rules give it, no coordinate occurs twice, and
the remaining hits of a ship count its coordinates not guessed yet. -/
structure PlayInv (rules : Rules) (guesses : List CStr) (agentMap : AgentMap) : Prop where
  ships : (agentMap.agentShips.length : Int) = rules.numberOfShips
  lengths : ∀ (k : Nat) (ship : Ship), agentMap.agentShips[k]? = some ship →
    (ship.coordinates.length : Int) = rules.shipLengths.getD k 0 ∧
      ship.length = ship.coordinates.length
  distinct : (agentMap.agentShips.map (fun ship => ship.coordinates)).flatten.Nodup
  hits : ∀ ship ∈ agentMap.agentShips,
    ship.hits = ((ship.coordinates.filter (fun c => decide (c ∉ guesses))).length : Int)

/-- The states reachable by accepted guesses from a map accepted by
`parse_map_message`: the guesses accepted from an agent so far, the map of its
opponent they were resolved against, and the number of those guesses that were
answered with SUNK. -/
inductive Reachable (rules : Rules) : List CStr → AgentMap → Nat → Prop
  | start (mapMessage : CStr) (agentMap : AgentMap) :
      parse_map_message (initialise_grids rules initialMap) rules mapMessage = (0, agentMap) →
      Reachable rules [] agentMap 0
  | guess (agent opponent : Agent) (coordinates : CStr) (sunk : Nat) :
      Reachable rules agent.agentState.agentGuesses opponent.agentState.agentMap sunk →
      validate_coordinate rules agent coordinates = 0 →
      Reachable rules (agent.agentState.agentGuesses ++ [coordinates])
        (handle_valid_guess coordinates rules agent opponent).2.agentState.agentMap
        (sunk +
          if (handle_valid_guess coordinates rules agent opponent).2.hubToAgent.getLast? =
              broadcast_line agent.agentState.agentId coordinates .SUNK
          then 1 else 0)

/-- The state `handle_valid_guess` starts its loops in. -/
def guessStart (coordinates : CStr) (agent opponent : Agent) : GuessState :=
  { agent := { agent with
      agentState := { agent.agentState with
        agentGuesses := agent.agentState.agentGuesses ++ [coordinates] } },
    opponent := opponent, successfulHit := false }

/-- The number of ships of a map that have no hits left. -/
def sunkShips (agentMap : AgentMap) : Nat :=
  (agentMap.agentShips.filter (fun ship => decide (ship.hits = 0))).length

/-- The line sent for a guess of `agent` with the given result. -/
def resultLine (agent : Agent) (coordinates : CStr) (messageType : HubMessage) : CStr :=
  (broadcast_line agent.agentState.agentId coordinates messageType).getD []

/-- The round after `winner` (with `loser` as the other agent) won it: DONE with
the id of the winner sent to both, the round marked as over.  `first` tells
whether the winner is player 1. -/
def roundWon (round : RoundState) (winner loser : Agent) (first : Bool) : RoundState :=
  let line := "DONE ".toList ++ fmtInt winner.agentState.agentId
  let won : Agent := { winner with hubToAgent := winner.hubToAgent ++ [line] }
  let lost : Agent := { loser with hubToAgent := loser.hubToAgent ++ [line] }
  if first then { round with player1 := won, player2 := lost, gameOver := 1 }
  else { round with player1 := lost, player2 := won, gameOver := 1 }

/-- No guess occurs twice in the history of either agent of a round. -/
def RoundNodup (round : RoundState) : Prop :=
  round.player1.agentState.agentGuesses.Nodup ∧ round.player2.agentState.agentGuesses.Nodup

/-- EARLY is not among the lines sent to an agent. -/
def NoEarly (agent : Agent) : Prop :=
  "EARLY".toList ∉ agent.hubToAgent

instance (agent : Agent) : Decidable (NoEarly agent) := by
  unfold NoEarly
  infer_instance

/-- EARLY was sent to neither agent of a round. -/
def RoundNoEarly (round : RoundState) : Prop :=
  NoEarly round.player1 ∧ NoEarly round.player2

instance (round : RoundState) : Decidable (RoundNoEarly round) := by
  unfold RoundNoEarly
  infer_instance

/-- The labels of a map while `parse_map_message` places ships on it: every cell
of the ship of index `k` holds the character `convert_to_hex` gives for `k + 1`,
and every cell of a ship lies on the board. -/
structure MapLabels (rules : Rules) (agentMap : AgentMap) : Prop where
  labels : ∀ (k : Nat) (ship : Ship), agentMap.agentShips[k]? = some ship →
    ∀ cell ∈ ship.cells,
      gridGet agentMap.agentGrid cell.2 cell.1 = convert_to_hex ((k : Int) + 1)
  inside : ∀ ship ∈ agentMap.agentShips, ∀ cell ∈ ship.cells,
    0 ≤ cell.1 ∧ cell.1 < rules.width ∧ 0 ≤ cell.2 ∧ cell.2 < rules.height

/-- Every ship of the map faces the way its entry of the message names. -/
def ShipsFacing (agentMap : AgentMap) (entries : List CStr) : Prop :=
  ∀ (k : Nat) (ship : Ship), agentMap.agentShips[k]? = some ship →
    ∃ entry, entries[k]? = some entry ∧
      entry_direction ((split_string entry ',' false).getD 1 []) = some ship.direction

/-- An entry of a MAP message that passes the checks `parse_map_message` makes on
every entry: two fields, the first accepted by `check_valid_coordinates`. -/
def entry_well_formed (entry : CStr) : Prop :=
  (split_string entry ',' false).length = MAP_TOKEN_LINE_LENGTH ∧
    (check_valid_coordinates ((split_string entry ',' false).getD 0 [])).1 = 0

instance (entry : CStr) : Decidable (entry_well_formed entry) := by
  unfold entry_well_formed
  infer_instance

/-- The upper-case hexadecimal digit of a ship identity, in the words of the
specification: the identities 1..15 map to '1'..'9', 'A'..'F'. -/
def hex_digit_spec (identity : Nat) : Char :=
  "0123456789ABCDEF".toList.getD identity '0'

/-- A cell (column, row) lies on the board. -/
def on_board (rules : Rules) (cell : Int × Int) : Prop :=
  0 ≤ cell.1 ∧ cell.1 < rules.width ∧ 0 ≤ cell.2 ∧ cell.2 < rules.height

instance (rules : Rules) (cell : Int × Int) : Decidable (on_board rules cell) := by
  unfold on_board
  infer_instance

/-- A coordinate token in the words of the specification: exactly one upper-case
letter A-Z followed by the decimal digits of a positive integer. -/
def coordinate_token_spec (token : CStr) : Bool :=
  match token with
  | [] => false
  | column :: row =>
    decide ('A'.toNat ≤ column.toNat ∧ column.toNat ≤ 'Z'.toNat) &&
      !row.isEmpty && row.all isdigit && decide (0 < (strtolDigits 0 row).1)

/-- What `parse_rules_file` has established in each state of its loop: nothing
stored before the dimensions are read, valid dimensions from READ_SHIPS on, a
valid number of ships and one length of at least 1 for each ship counted from
READ_LENGTHS on, and valid rules in READ_DONE. -/
def RulesReadInv (state : RuleReadState) (shipsAdded : Nat) (rules : Rules) : Prop :=
  match state with
  | .READ_WIDTH => rules.shipLengths = [] ∧ shipsAdded = 0
  | .READ_HEIGHT => rules.shipLengths = [] ∧ shipsAdded = 0
  | .READ_SHIPS =>
    (MIN_BOARD_WIDTH ≤ rules.width ∧ rules.width ≤ MAX_BOARD_WIDTH ∧
      MIN_BOARD_HEIGHT ≤ rules.height ∧ rules.height ≤ MAX_BOARD_HEIGHT) ∧
    rules.shipLengths = [] ∧ shipsAdded = 0
  | .READ_LENGTHS =>
    (MIN_BOARD_WIDTH ≤ rules.width ∧ rules.width ≤ MAX_BOARD_WIDTH ∧
      MIN_BOARD_HEIGHT ≤ rules.height ∧ rules.height ≤ MAX_BOARD_HEIGHT) ∧
    (MIN_SHIPS ≤ rules.numberOfShips ∧ rules.numberOfShips ≤ MAX_SHIPS) ∧
    (shipsAdded : Int) < rules.numberOfShips ∧ rules.shipLengths.length = shipsAdded ∧
    ∀ l ∈ rules.shipLengths, MIN_SHIP_LENGTH ≤ l
  | .READ_DONE => rules.valid ∧ (shipsAdded : Int) = rules.numberOfShips
  | .READ_INVALID => True

/-- The value of a string of decimal digits read after the value `acc`, as the
digit loop of `strtol` accumulates it. -/
def digitsValue (acc : Nat) (digits : CStr) : Nat :=
  digits.foldl (fun value c => value * 10 + (c.toNat - '0'.toNat)) acc

/-- The text of a list of tokens, each followed by a comma. -/
def comma_terminated (tokens : List CStr) : CStr :=
  (tokens.map (fun token => token ++ [','])).flatten

/-- The numbers of a RULES message in the order of the protocol: width, height,
number of ships, then the lengths. -/
def rules_tokens (rules : Rules) : List CStr :=
  [fmtInt rules.width, fmtInt rules.height, fmtInt rules.numberOfShips] ++
    rules.shipLengths.map fmtInt

/-- A decimal integer within bounds, in the words of the specification: a
non-empty string of decimal digits whose value lies between `low` and `high`. -/
def decimal_in_range_spec (token : CStr) (low high : Nat) : Bool :=
  !token.isEmpty && token.all isdigit && decide (low ≤ digitsValue 0 token) &&
    decide (digitsValue 0 token ≤ high)

/-- A decimal integer of at least `low`, in the words of the specification. -/
def decimal_at_least_spec (token : CStr) (low : Nat) : Bool :=
  !token.isEmpty && token.all isdigit && decide (low ≤ digitsValue 0 token)

/-- The line of dimensions in the words of the specification: exactly two
decimal integers separated by white space, each in 1..26. -/
def dimensions_line_spec (line : CStr) : Bool :=
  match (line.splitOnP isspace).filter (fun token => !token.isEmpty) with
  | [width, height] => decimal_in_range_spec width 1 26 && decimal_in_range_spec height 1 26
  | _ => false

/-- The rounds after one pass of the `for` loop of `hub_play_game`, stated on the
list of rounds: the rounds are taken in order, each through `hub_play_round`,
and the pass stops at the first round a turn of which fails, leaving the rounds
after it as they are.  The flag tells whether a turn failed. -/
def pass_rounds_spec (rules : Rules) : List RoundState → List RoundState × Bool
  | [] => ([], false)
  | round :: rest =>
    if (hub_play_round rules round).1 = 1 then ((hub_play_round rules round).2 :: rest, true)
    else ((hub_play_round rules round).2 :: (pass_rounds_spec rules rest).1,
          (pass_rounds_spec rules rest).2)

/-- The agent whose accepted guess a line sent by the hub reports: 1 or 2 for a
HIT, SUNK or MISS line with that agent id, as `broadcast_message` writes them, and
`none` for every other line. -/
def line_guesser (line : CStr) : Option Int :=
  if ("HIT 1,".toList.isPrefixOf line || "SUNK 1,".toList.isPrefixOf line ||
      "MISS 1,".toList.isPrefixOf line) = true then some 1
  else if ("HIT 2,".toList.isPrefixOf line || "SUNK 2,".toList.isPrefixOf line ||
      "MISS 2,".toList.isPrefixOf line) = true then some 2
  else none

/-- The agents whose guesses were accepted in a round, in the order of
acceptance, as the results sent to an agent of the round tell. -/
def accepted_guessers (agent : Agent) : List Int :=
  agent.hubToAgent.filterMap line_guesser

/-- The list of length `n` that alternates between `first` and `second`,
starting with `first`. -/
def alternating (first second : Int) : Nat → List Int
  | 0 => []
  | n + 1 => first :: alternating second first n

/-- The accepted guesses of a round alternate between player 1 and player 2,
starting with player 1, in the results sent to either agent. -/
def RoundAlternates (round : RoundState) : Prop :=
  ∃ n : Nat, accepted_guessers round.player1 = alternating 1 2 n ∧
    accepted_guessers round.player2 = alternating 1 2 n

/-- A round between two turns of `hub_play_game`: the agents have the ids 1 and
2, the ships of each are in order against the guesses of the other, and the
accepted guesses so far alternate, player 2 having answered every guess of
player 1 unless the round is over. -/
structure RoundTurns (rules : Rules) (round : RoundState) : Prop where
  id1 : round.player1.agentState.agentId = 1
  id2 : round.player2.agentState.agentId = 2
  play1 : PlayInv rules round.player1.agentState.agentGuesses round.player2.agentState.agentMap
  play2 : PlayInv rules round.player2.agentState.agentGuesses round.player1.agentState.agentMap
  turns : ∃ n : Nat, accepted_guessers round.player1 = alternating 1 2 n ∧
    accepted_guessers round.player2 = alternating 1 2 n ∧ (n % 2 = 0 ∨ round.gameOver ≠ 0)

/-- The state of a round in `hub_play_game`: its accepted guesses alternate, and a
valid round is between two turns. -/
def RoundInOrder (rules : Rules) (round : RoundState) : Prop :=
  RoundAlternates round ∧ (round.validRound ≠ 0 → RoundTurns rules round)

/-- An agent as `parse_config_file` leaves it and `initialise_child_process`
connects it: no map, no guess, nothing sent to it. -/
def FreshAgent (agent : Agent) : Prop :=
  agent.agentState.agentMap = initialMap ∧ agent.agentState.agentGuesses = [] ∧
    agent.hubToAgent = []

instance (agent : Agent) : Decidable (FreshAgent agent) := by
  unfold FreshAgent
  infer_instance


/-- A line that the rules file ignores, in the words of the specification: a
line that is blank or holds white space only, or whose first character after the
leading white space is the comment marker. -/
def ignored_line_spec (line : CStr) : Bool :=
  match line.dropWhile isspace with
  | [] => true
  | c :: _ => c == '#'

/-- The round of a line of the configuration file in the words of the
specification: the line is cut at its commas, the fields are trimmed and
assigned in order; `k` is the number of the round. -/
def config_round_spec (k : Nat) (line : CStr) : RoundConfig :=
  let fields := ((strtrim line).splitOn ',').map strtrim
  { player1ExecFilePath := fields.getD 0 []
    player1MapFilePath := fields.getD 1 []
    player2ExecFilePath := fields.getD 2 []
    player2MapFilePath := fields.getD 3 []
    roundNumber := k }

/-- The rounds of the lines of a configuration file, numbered from `k` on. -/
def config_rounds_spec : Nat → List CStr → List RoundConfig
  | _, [] => []
  | k, line :: rest => config_round_spec k line :: config_rounds_spec (k + 1) rest

/-- The cell (column, row), both counted from 0, that is number `n` (from 0) in
boustrophedon order on a board of `w` columns: the rows from the top, a row of
odd number (even index) from left to right, a row of even number from right to
left. -/
def boustrophedon_cell (w n : Nat) : Nat × Nat :=
  (if (n / w) % 2 = 0 then n % w else w - 1 - n % w, n / w)

/-- The text of a cell (column, row), both counted from 0: the letter of the
column and the decimal number of the row. -/
def cell_text (cell : Nat × Nat) : CStr :=
  Char.ofNat (65 + cell.1) :: fmtInt ((cell.2 : Int) + 1)

/-- The entry of a ship in a MAP message: its first coordinate, a comma and the
character of its direction. -/
def ship_entry (ship : Ship) : CStr :=
  ship.coordinates.getD 0 [] ++ [',', convert_direction ship.direction]

/-! ## A small game for concrete evaluation -/

/-- The rules of a 3 x 3 board with one ship of length 2. -/
def exampleRules : Rules :=
  { height := 3, width := 3, numberOfShips := 1, shipLengths := [2] }

/-- The map the hub builds from `MAP A1,E` under `exampleRules`. -/
def exampleMap : AgentMap :=
  (parse_map_message (initialise_grids exampleRules initialMap) exampleRules "MAP A1,E".toList).2

/-- An agent with the map of `MAP A1,E`, no guess made, nothing sent to it, and
`sent` waiting to be read by the hub. -/
def exampleAgent (agentId : Int) (sent : String) : Agent :=
  { agentState := { agentId := agentId, agentMap := exampleMap, agentGuesses := [] },
    hubToAgent := [], agentToHub := sent.toList }

/-- The rules of a 3 x 3 board with two ships, of lengths 2 and 3. -/
def exampleRules2 : Rules :=
  { height := 3, width := 3, numberOfShips := 2, shipLengths := [2, 3] }

/-- The rules of a 3 x 3 board with one ship of length 1. -/
def exampleRulesOne : Rules :=
  { height := 3, width := 3, numberOfShips := 1, shipLengths := [1] }

/-- The map the hub builds from `MAP A1,E` under `exampleRulesOne`. -/
def exampleMapOne : AgentMap :=
  (parse_map_message (initialise_grids exampleRulesOne initialMap) exampleRulesOne
    "MAP A1,E".toList).2

/-- A round under `exampleRulesOne` that is valid and not over: both agents hold
the map of `MAP A1,E`, no guess was made, and `sent1`, `sent2` wait to be read
from player 1 and player 2. -/
def exampleRoundOne (sent1 sent2 : String) : RoundState :=
  { player1 := { agentState := { agentId := 1, agentMap := exampleMapOne, agentGuesses := [] },
                 hubToAgent := [], agentToHub := sent1.toList },
    player2 := { agentState := { agentId := 2, agentMap := exampleMapOne, agentGuesses := [] },
                 hubToAgent := [], agentToHub := sent2.toList },
    roundNumber := 0, gameOver := 0, validRound := 1 }

/-- An agent like `exampleAgent` whose accepted guesses so far are `guesses`. -/
def exampleAgentGuessed (agentId : Int) (guesses : List CStr) (sent : String) : Agent :=
  { agentState := { agentId := agentId, agentMap := exampleMap, agentGuesses := guesses },
    hubToAgent := [], agentToHub := sent.toList }

/-- A tournament of two rounds under `exampleRules`: in round 0 player 1 has
closed its stream; in round 1 both players have a guess waiting. -/
def exampleGameFailing : FullGameState :=
  { rules := exampleRules,
    rounds :=
      [{ player1 := exampleAgent 1 "", player2 := exampleAgent 2 "GUESS A1\n",
         roundNumber := 0, gameOver := 0, validRound := 1 },
       { player1 := exampleAgent 1 "GUESS A1\n", player2 := exampleAgent 2 "GUESS C3\n",
         roundNumber := 1, gameOver := 0, validRound := 1 }] }

/-- The map the hub builds from `MAP B1,S:A3,E` under `exampleRules2`. -/
def exampleMap2 : AgentMap :=
  (parse_map_message (initialise_grids exampleRules2 initialMap) exampleRules2
    "MAP B1,S:A3,E".toList).2

/-- Rules as `initialise_game` leaves them before the rules file is read. -/
def emptyRules : Rules :=
  { height := 0, width := 0, numberOfShips := 0, shipLengths := [] }

/-- A tournament of one round under `exampleRules`, both players with two guesses
waiting. -/
def exampleGameTwoGuesses : FullGameState :=
  { rules := exampleRules,
    rounds :=
      [{ player1 := exampleAgent 1 "GUESS C3\nGUESS C2\n",
         player2 := exampleAgent 2 "GUESS B3\nGUESS B2\n",
         roundNumber := 0, gameOver := 0, validRound := 1 }] }

/-- An agent as `parse_config_file` leaves it, with `sent` as what its process
is going to write. -/
def exampleFreshAgent (sent : String) : Agent :=
  { agentState := { agentId := 0, agentMap := initialMap, agentGuesses := [] },
    hubToAgent := [], agentToHub := sent.toList }

/-- A tournament of two rounds under `exampleRules` before the agents are
started: the agents of round 0 write nothing, those of round 1 a MAP line and
guesses. -/
def exampleGameConfigured : FullGameState :=
  { rules := exampleRules,
    rounds :=
      [{ player1 := exampleFreshAgent "", player2 := exampleFreshAgent "",
         roundNumber := 0, gameOver := 0, validRound := 0 },
       { player1 := exampleFreshAgent "MAP A1,E\nGUESS C3\nGUESS A1\nGUESS B1\n",
         player2 := exampleFreshAgent "MAP A1,E\nGUESS B3\nGUESS C2\n",
         roundNumber := 1, gameOver := 0, validRound := 0 }] }


/-- The tournament `exampleGameConfigured` once its agents are started, the
first process of round 0 failing to start. -/
def exampleGameStarted : FullGameState :=
  (initialise_agents (fun i => if i = 0 then (1, 0) else (0, 0)) exampleGameConfigured).getD
    exampleGameConfigured

/-- The system calls of a spawn whose child failed to `execl` and reported it
with a byte on the error pipe. -/
def exampleExecFailed : SpawnCalls :=
  { pipeFailed := false, pid := 4711, errorRead := 1 }

/-- The system calls of a spawn whose child replaced itself with the agent. -/
def exampleExecDone : SpawnCalls :=
  { pipeFailed := false, pid := 4712, errorRead := 0 }

/-- The state of agent 1 after its handshake under `exampleRules`, with the
map of `MAP A1,E` and empty 3 x 3 boards for the guesses. -/
def exampleAgentState : AgentState :=
  { agentId := 1, agentMap := exampleMap, agentGuesses := [] }

/-- The rules of a board of one cell with one ship of length 1. -/
def exampleRulesCell : Rules :=
  { height := 1, width := 1, numberOfShips := 1, shipLengths := [1] }

/-- An agent on the board of one cell with the map the hub builds from
`MAP A1,N`, no guess made, and `sent` waiting to be read by the hub. -/
def exampleAgentCell (agentId : Int) (sent : String) : Agent :=
  { agentState :=
      { agentId := agentId
        agentMap := (parse_map_message (initialise_grids exampleRulesCell initialMap)
          exampleRulesCell "MAP A1,N".toList).2
        agentGuesses := [] },
    hubToAgent := [], agentToHub := sent.toList }

/-- A map file for the board of three columns and three rows with one ship of
length 2: a comment and the ship. -/
def exampleMapFile : List Char := "#map\nA1 E\n".toList

/-- The pids of the agents of the round of index `i`: 100 + 2 i and 101 + 2 i. -/
def examplePids (i : Nat) : Int × Int := (100 + 2 * (i : Int), 101 + 2 * (i : Int))

/-- The children of a hub with one round: the first still runs, the second has
ended by itself. -/
def exampleChildren : List Child :=
  [{ pid := 100, running := true }, { pid := 101, running := false }]

/-- The children of a hub with two rounds, all running. -/
def exampleChildrenTwoRounds : List Child :=
  [{ pid := 100, running := true }, { pid := 101, running := true },
   { pid := 102, running := true }, { pid := 103, running := true }]

/-! ## Theorems -/

/-! ### Strings -/

theorem strtrim_eq (s : CStr) : strtrim s = (s.rdropWhile isspace).dropWhile isspace := rfl

theorem strtrim_idem (s : CStr) : strtrim (strtrim s) = strtrim s := by
  have key : (strtrim s).rdropWhile isspace = strtrim s := by
    rw [List.rdropWhile_eq_self_iff]
    intro hl
    have hsuf : strtrim s <:+ s.rdropWhile isspace := by
      rw [strtrim_eq]; exact List.dropWhile_suffix _
    have hne : s.rdropWhile isspace ≠ [] := by
      intro h
      rw [h] at hsuf
      exact hl (List.eq_nil_of_suffix_nil hsuf)
    rw [hsuf.getLast hl]
    exact List.rdropWhile_last_not _ _ hne
  rw [strtrim_eq (strtrim s), key, strtrim_eq, List.dropWhile_idempotent]

/-! ### The reading loop of a turn -/

theorem parse_input_loop_length (s : List Char) (acc : CStr) :
    (parse_input_loop s acc).2.1 = false → (parse_input_loop s acc).2.2.length < s.length := by
  induction s generalizing acc with
  | nil => simp [parse_input_loop]
  | cons c rest ih =>
    unfold parse_input_loop
    by_cases h : c = '\n'
    · simp [h]
    · simp only [h, if_false]
      intro he
      have := ih (acc ++ [c]) he
      simp only [List.length_cons]
      omega

theorem parse_input_length (s : List Char) :
    (parse_input s).2.1 = false → (parse_input s).2.2.length < s.length := by
  unfold parse_input
  exact parse_input_loop_length s []

theorem prompted_agentToHub (agent : Agent) (rest : List Char) :
    (prompted agent rest).agentToHub = rest := rfl

theorem handle_agent_turn_read_fuel (rules : Rules) :
    ∀ (fuel1 fuel2 : Nat) (agent : Agent),
      agent.agentToHub.length < fuel1 → agent.agentToHub.length < fuel2 →
      handle_agent_turn_read rules fuel1 agent = handle_agent_turn_read rules fuel2 agent := by
  intro fuel1
  induction fuel1 with
  | zero => intro fuel2 agent h; omega
  | succ f1 ih =>
    intro fuel2 agent h1 h2
    cases fuel2 with
    | zero => omega
    | succ f2 =>
      unfold handle_agent_turn_read
      simp only []
      by_cases he : (parse_input agent.agentToHub).2.1 = true
      · simp [he]
      · simp only [he, if_false]
        have hlen := parse_input_length agent.agentToHub (by simpa using he)
        cases hv : validate_guess_message (parse_input agent.agentToHub).1 with
        | none => rfl
        | some c =>
          simp only []
          by_cases hvc : validate_coordinate rules
              (prompted agent (parse_input agent.agentToHub).2.2) c = 0
          · simp only [hvc, if_true]
          · simp only [hvc, if_false]
            apply ih
            · rw [prompted_agentToHub]; omega
            · rw [prompted_agentToHub]; omega

theorem handle_agent_turn_read_some (rules : Rules) :
    ∀ (fuel : Nat) (agent : Agent), agent.agentToHub.length < fuel →
      handle_agent_turn_read rules fuel agent ≠ none := by
  intro fuel
  induction fuel with
  | zero => intro agent h; omega
  | succ f ih =>
    intro agent h
    unfold handle_agent_turn_read
    simp only []
    by_cases he : (parse_input agent.agentToHub).2.1 = true
    · simp [he]
    · simp only [he, if_false]
      have hlen := parse_input_length agent.agentToHub (by simpa using he)
      cases hv : validate_guess_message (parse_input agent.agentToHub).1 with
      | none => simp
      | some c =>
        simp only []
        by_cases hvc : validate_coordinate rules
            (prompted agent (parse_input agent.agentToHub).2.2) c = 0
        · simp [hvc]
        · simp only [hvc, if_false]
          apply ih
          rw [prompted_agentToHub]; omega

/-- One iteration of `handle_agent_turn` unfolded: what the turn does with the
first line of the stream. -/
theorem handle_agent_turn_unfold (rules : Rules) (agent opponent : Agent) :
    handle_agent_turn rules agent opponent =
      if (parse_input agent.agentToHub).2.1 = true then
        (1, prompted agent (parse_input agent.agentToHub).2.2, opponent)
      else
        match validate_guess_message (parse_input agent.agentToHub).1 with
        | none => (1, prompted agent (parse_input agent.agentToHub).2.2, opponent)
        | some coordinates =>
          if validate_coordinate rules (prompted agent (parse_input agent.agentToHub).2.2)
              coordinates = 0 then
            handle_agent_turn_accept rules (prompted agent (parse_input agent.agentToHub).2.2)
              opponent coordinates
          else
            handle_agent_turn rules (prompted agent (parse_input agent.agentToHub).2.2) opponent := by
  unfold handle_agent_turn
  rw [handle_agent_turn_read]
  by_cases he : (parse_input agent.agentToHub).2.1 = true
  · simp [he]
  · have he' : (parse_input agent.agentToHub).2.1 = false := by simpa using he
    simp only [he', Bool.false_eq_true, if_false]
    have hlen := parse_input_length agent.agentToHub he'
    cases hv : validate_guess_message (parse_input agent.agentToHub).1 with
    | none => rfl
    | some c =>
      simp only []
      by_cases hvc : validate_coordinate rules
          (prompted agent (parse_input agent.agentToHub).2.2) c = 0
      · simp only [hvc, if_true]
      · simp only [hvc, if_false]
        rw [handle_agent_turn_read_fuel rules agent.agentToHub.length
          ((prompted agent (parse_input agent.agentToHub).2.2).agentToHub.length + 1) _
          (by rw [prompted_agentToHub]; exact hlen) (by simp)]
        have hs := handle_agent_turn_read_some rules
          ((prompted agent (parse_input agent.agentToHub).2.2).agentToHub.length + 1)
          (prompted agent (parse_input agent.agentToHub).2.2) (by simp)
        revert hs
        cases handle_agent_turn_read rules
          ((prompted agent (parse_input agent.agentToHub).2.2).agentToHub.length + 1)
          (prompted agent (parse_input agent.agentToHub).2.2) with
        | none => intro hs; exact absurd rfl hs
        | some r =>
          intro _
          obtain ⟨rd, oc⟩ := r
          cases oc <;> rfl

/-! ### Loop invariants of `handle_valid_guess` -/

theorem handle_valid_guess_ship_induct (P : GuessState → Prop) (coordinates : CStr)
    (row column : Int) (i : Nat)
    (hP : ∀ st, P st → P (handle_valid_guess_hit coordinates row column i st)) :
    ∀ (count j : Nat) (st : GuessState), P st →
      P (handle_valid_guess_ship coordinates row column i count j st) := by
  intro count
  induction count with
  | zero => intro j st h; exact h
  | succ n ih =>
    intro j st h
    unfold handle_valid_guess_ship
    apply ih
    split
    · exact hP st h
    · exact h

theorem handle_valid_guess_ships_induct (P : GuessState → Prop) (coordinates : CStr)
    (row column : Int) (rules : Rules)
    (hP : ∀ i st, P st → P (handle_valid_guess_hit coordinates row column i st)) :
    ∀ (count i : Nat) (st : GuessState), P st →
      P (handle_valid_guess_ships coordinates row column rules count i st) := by
  intro count
  induction count with
  | zero => intro i st h; exact h
  | succ n ih =>
    intro i st h
    unfold handle_valid_guess_ships
    apply ih
    split
    · exact handle_valid_guess_ship_induct P coordinates row column i (hP i) _ _ st h
    · exact h

theorem broadcast_message_fst (agent opponent : Agent) (agentId : Int) (coordinates : CStr)
    (messageType : HubMessage) :
    (broadcast_message agent opponent agentId coordinates messageType).1.agentState
        = agent.agentState ∧
    (broadcast_message agent opponent agentId coordinates messageType).1.agentToHub
        = agent.agentToHub ∧
    ∃ more, (broadcast_message agent opponent agentId coordinates messageType).1.hubToAgent
        = agent.hubToAgent ++ more := by
  unfold broadcast_message
  cases broadcast_line agentId coordinates messageType with
  | none => exact ⟨rfl, rfl, [], by simp⟩
  | some line => exact ⟨rfl, rfl, [line], rfl⟩

/-- What `handle_valid_guess` leaves of the guessing agent: its map and id, its
stream to the hub, the earlier lines sent to it; the guess is appended to its
history. -/
theorem handle_valid_guess_agent (coordinates : CStr) (rules : Rules) (agent opponent : Agent) :
    (handle_valid_guess coordinates rules agent opponent).1.agentState =
      { agent.agentState with agentGuesses := agent.agentState.agentGuesses ++ [coordinates] } ∧
    (handle_valid_guess coordinates rules agent opponent).1.agentToHub = agent.agentToHub ∧
    ∃ more, (handle_valid_guess coordinates rules agent opponent).1.hubToAgent
      = agent.hubToAgent ++ more := by
  have key := handle_valid_guess_ships_induct
    (fun st => st.agent.agentState =
        { agent.agentState with agentGuesses := agent.agentState.agentGuesses ++ [coordinates] } ∧
      st.agent.agentToHub = agent.agentToHub ∧
      ∃ more, st.agent.hubToAgent = agent.hubToAgent ++ more)
    coordinates (parse_coordinates coordinates).2 (parse_coordinates coordinates).1 rules
    (by
      intro i st ⟨h1, h2, more, h3⟩
      have hb := broadcast_message_fst st.agent
        { st.opponent with
          agentState := { st.opponent.agentState with
            agentMap := { st.opponent.agentState.agentMap with
              agentGrid := gridSet st.opponent.agentState.agentMap.agentGrid
                (parse_coordinates coordinates).2 (parse_coordinates coordinates).1 HIT_MARKER
              agentShips := modifyAt (fun ship => { ship with hits := ship.hits - 1 }) i
                st.opponent.agentState.agentMap.agentShips } } }
        st.agent.agentState.agentId coordinates
        (if ((modifyAt (fun ship => { ship with hits := ship.hits - 1 }) i
            st.opponent.agentState.agentMap.agentShips)[i]?.map (fun ship => ship.hits)) = some 0
          then .SUNK else .HIT)
      obtain ⟨b1, b2, more2, b3⟩ := hb
      refine ⟨?_, ?_, more ++ more2, ?_⟩
      · show (broadcast_message _ _ _ _ _).1.agentState = _
        rw [b1, h1]
      · show (broadcast_message _ _ _ _ _).1.agentToHub = _
        rw [b2, h2]
      · show (broadcast_message _ _ _ _ _).1.hubToAgent = _
        rw [b3, h3, List.append_assoc])
    rules.numberOfShips.toNat 0
    { agent := { agent with
        agentState := { agent.agentState with
          agentGuesses := agent.agentState.agentGuesses ++ [coordinates] } },
      opponent := opponent, successfulHit := false }
    ⟨rfl, rfl, [], by simp⟩
  obtain ⟨k1, k2, more, k3⟩ := key
  unfold handle_valid_guess
  simp only []
  split
  · obtain ⟨b1, b2, more2, b3⟩ := broadcast_message_fst
      (handle_valid_guess_ships coordinates (parse_coordinates coordinates).2
        (parse_coordinates coordinates).1 rules rules.numberOfShips.toNat 0
        { agent := { agent with
            agentState := { agent.agentState with
              agentGuesses := agent.agentState.agentGuesses ++ [coordinates] } },
          opponent := opponent, successfulHit := false }).agent
      _ agent.agentState.agentId coordinates .MISS
    refine ⟨?_, ?_, more ++ more2, ?_⟩
    · rw [b1, k1]
    · rw [b2, k2]
    · rw [b3, k3, List.append_assoc]
  · exact ⟨k1, k2, more, k3⟩

/-- An accepted guess never yields the communications error; the guess is
appended to the history of the guessing agent and OK is the next line sent. -/
theorem handle_agent_turn_accept_agent (rules : Rules) (reader opponent : Agent)
    (coordinates : CStr) :
    ((handle_agent_turn_accept rules reader opponent coordinates).1 = 0 ∨
      (handle_agent_turn_accept rules reader opponent coordinates).1 = 2) ∧
    (handle_agent_turn_accept rules reader opponent coordinates).2.1.agentState =
      { reader.agentState with
        agentGuesses := reader.agentState.agentGuesses ++ [coordinates] } ∧
    (handle_agent_turn_accept rules reader opponent coordinates).2.1.agentToHub
      = reader.agentToHub ∧
    ∃ more, (handle_agent_turn_accept rules reader opponent coordinates).2.1.hubToAgent
      = reader.hubToAgent ++ "OK".toList :: more := by
  obtain ⟨h1, h2, more, h3⟩ := handle_valid_guess_agent coordinates rules
    { reader with hubToAgent := reader.hubToAgent ++ ["OK".toList] } opponent
  unfold handle_agent_turn_accept
  simp only []
  split
  · exact ⟨Or.inl rfl, h1, h2, more, by rw [h3]; simp⟩
  · exact ⟨Or.inr rfl, h1, h2, more, by rw [h3]; simp⟩

/-- Every turn starts by sending YT to the agent whose turn it is. -/
theorem handle_agent_turn_sends_YT (rules : Rules) (opponent : Agent) :
    ∀ (n : Nat) (agent : Agent), agent.agentToHub.length = n →
      ∃ more, (handle_agent_turn rules agent opponent).2.1.hubToAgent
        = agent.hubToAgent ++ "YT".toList :: more := by
  intro n
  induction n using Nat.strong_induction_on with
  | _ n ih =>
    intro agent hn
    rw [handle_agent_turn_unfold]
    by_cases he : (parse_input agent.agentToHub).2.1 = true
    · simp only [he, if_true]
      exact ⟨[], rfl⟩
    · have he' : (parse_input agent.agentToHub).2.1 = false := by simpa using he
      simp only [he', Bool.false_eq_true, if_false]
      have hlen := parse_input_length agent.agentToHub he'
      cases hv : validate_guess_message (parse_input agent.agentToHub).1 with
      | none => exact ⟨[], rfl⟩
      | some c =>
        simp only []
        by_cases hvc : validate_coordinate rules
            (prompted agent (parse_input agent.agentToHub).2.2) c = 0
        · simp only [hvc, if_true]
          obtain ⟨_, _, _, more, hm⟩ := handle_agent_turn_accept_agent rules
            (prompted agent (parse_input agent.agentToHub).2.2) opponent c
          exact ⟨"OK".toList :: more, by rw [hm]; simp [prompted]⟩
        · simp only [hvc, if_false]
          obtain ⟨more, hm⟩ := ih _ (by rw [← hn]; exact hlen)
            (prompted agent (parse_input agent.agentToHub).2.2) rfl
          exact ⟨"YT".toList :: more, by rw [hm]; simp [prompted]⟩

/-! ### Rejected and failed guesses -/

theorem validate_guess_message_none_of_no_GUESS (s : List Char)
    (h : check_message_prefix (parse_input s).1 "GUESS ".toList = 0) :
    validate_guess_message (parse_input s).1 = none := by
  have htrim : strtrim (parse_input s).1 = (parse_input s).1 := by
    unfold parse_input
    exact strtrim_idem _
  unfold validate_guess_message
  simp only [htrim, h, if_true]

theorem handle_agent_turn_reprompt (rules : Rules) (agent opponent : Agent) (coordinates : CStr)
    (hline : (parse_input agent.agentToHub).2.1 = false)
    (hguess : validate_guess_message (parse_input agent.agentToHub).1 = some coordinates)
    (hrej : validate_coordinate rules agent coordinates ≠ 0) :
    handle_agent_turn rules agent opponent =
      handle_agent_turn rules (prompted agent (parse_input agent.agentToHub).2.2) opponent := by
  rw [handle_agent_turn_unfold]
  simp only [hline, Bool.false_eq_true, if_false, hguess]
  have : validate_coordinate rules (prompted agent (parse_input agent.agentToHub).2.2) coordinates
      = validate_coordinate rules agent coordinates := rfl
  rw [this]
  simp only [hrej, if_false]

theorem handle_agent_turn_accepts (rules : Rules) (agent opponent : Agent) (coordinates : CStr)
    (hline : (parse_input agent.agentToHub).2.1 = false)
    (hguess : validate_guess_message (parse_input agent.agentToHub).1 = some coordinates)
    (hacc : validate_coordinate rules agent coordinates = 0) :
    handle_agent_turn rules agent opponent =
      handle_agent_turn_accept rules (prompted agent (parse_input agent.agentToHub).2.2)
        opponent coordinates := by
  rw [handle_agent_turn_unfold]
  simp only [hline, Bool.false_eq_true, if_false, hguess]
  have : validate_coordinate rules (prompted agent (parse_input agent.agentToHub).2.2) coordinates
      = validate_coordinate rules agent coordinates := rfl
  rw [this]
  simp only [hacc, if_true]

theorem validate_coordinate_rejects (rules : Rules) (agent : Agent) (coordinates : CStr)
    (hbad : check_coordinate_bounds coordinates rules ≠ 0 ∨
      coordinates ∈ agent.agentState.agentGuesses) :
    validate_coordinate rules agent coordinates = 1 := by
  unfold validate_coordinate
  by_cases hb : check_coordinate_bounds coordinates rules ≠ 0
  · rw [if_pos hb]
  · rcases hbad with h | h
    · exact absurd h hb
    · rw [if_neg hb]
      have : agent.agentState.agentGuesses.contains coordinates = true := by
        simpa using h
      rw [if_pos this]

/-- C7: when the stream of the agent is at its end, or the line read (trimmed by
`parse_input`) does not begin with `GUESS `, `handle_agent_turn` returns 1; the
only line sent is YT (no OK), the guess history and map of the agent are as
before and the opponent is untouched.  The same holds in every iteration of the
reading loop. -/
theorem handle_agent_turn_communications_error (rules : Rules) (agent opponent : Agent)
    (h : (parse_input agent.agentToHub).2.1 = true ∨
      check_message_prefix (parse_input agent.agentToHub).1 "GUESS ".toList = 0) :
    handle_agent_turn rules agent opponent =
      (1, prompted agent (parse_input agent.agentToHub).2.2, opponent) ∧
    (prompted agent (parse_input agent.agentToHub).2.2).agentState = agent.agentState ∧
    (prompted agent (parse_input agent.agentToHub).2.2).hubToAgent =
      agent.hubToAgent ++ ["YT".toList] ∧
    ∀ fuel, handle_agent_turn_read rules (fuel + 1) agent =
      some (prompted agent (parse_input agent.agentToHub).2.2, none) := by
  refine ⟨?_, rfl, rfl, ?_⟩
  · rw [handle_agent_turn_unfold]
    by_cases he : (parse_input agent.agentToHub).2.1 = true
    · simp only [he, if_true]
    · rcases h with h | h
      · exact absurd h he
      · have he' : (parse_input agent.agentToHub).2.1 = false := by simpa using he
        simp only [he', Bool.false_eq_true, if_false,
          validate_guess_message_none_of_no_GUESS _ h]
  · intro fuel
    rw [handle_agent_turn_read]
    by_cases he : (parse_input agent.agentToHub).2.1 = true
    · simp only [he, if_true]
    · rcases h with h | h
      · exact absurd h he
      · have he' : (parse_input agent.agentToHub).2.1 = false := by simpa using he
        simp only [he', Bool.false_eq_true, if_false,
          validate_guess_message_none_of_no_GUESS _ h]

/-- Witness of C7: the line `HELLO` on the stream of an agent. -/
theorem handle_agent_turn_communications_error_witness :
    check_message_prefix (parse_input (exampleAgent 1 "HELLO\nGUESS A1\n").agentToHub).1
      "GUESS ".toList = 0 ∧
    handle_agent_turn exampleRules (exampleAgent 1 "HELLO\nGUESS A1\n") (exampleAgent 2 "") =
      (1, { exampleAgent 1 "GUESS A1\n" with hubToAgent := ["YT".toList] }, exampleAgent 2 "") :=
  ⟨by decide,
   (handle_agent_turn_communications_error exampleRules (exampleAgent 1 "HELLO\nGUESS A1\n")
      (exampleAgent 2 "") (Or.inr (by decide))).1.trans (by decide)⟩

/-- C5: a GUESS line whose coordinate passes `check_valid_coordinates`
(`validate_guess_message` returns it) but is off the board or among the earlier
accepted guesses of the agent is rejected by `validate_coordinate`; the turn goes
on as a turn of the same agent whose guess history and map are unchanged, to whom
only YT was sent (no OK), with the opponent untouched; and YT is sent to that
agent again. -/
theorem handle_agent_turn_rejected_guess (rules : Rules) (agent opponent : Agent)
    (coordinates : CStr)
    (hline : (parse_input agent.agentToHub).2.1 = false)
    (hguess : validate_guess_message (parse_input agent.agentToHub).1 = some coordinates)
    (hbad : check_coordinate_bounds coordinates rules ≠ 0 ∨
      coordinates ∈ agent.agentState.agentGuesses) :
    validate_coordinate rules agent coordinates = 1 ∧
    handle_agent_turn rules agent opponent =
      handle_agent_turn rules (prompted agent (parse_input agent.agentToHub).2.2) opponent ∧
    (prompted agent (parse_input agent.agentToHub).2.2).agentState = agent.agentState ∧
    (prompted agent (parse_input agent.agentToHub).2.2).hubToAgent =
      agent.hubToAgent ++ ["YT".toList] ∧
    ∃ more, (handle_agent_turn rules agent opponent).2.1.hubToAgent =
      agent.hubToAgent ++ "YT".toList :: "YT".toList :: more := by
  have hv := validate_coordinate_rejects rules agent coordinates hbad
  have hre := handle_agent_turn_reprompt rules agent opponent coordinates hline hguess
    (by rw [hv]; decide)
  refine ⟨hv, hre, rfl, rfl, ?_⟩
  obtain ⟨more, hm⟩ := handle_agent_turn_sends_YT rules opponent _
    (prompted agent (parse_input agent.agentToHub).2.2) rfl
  exact ⟨more, by rw [hre, hm]; simp [prompted]⟩

/-- Witness of C5: `GUESS C9` on a 3 x 3 board, followed by `GUESS A1`. -/
theorem handle_agent_turn_rejected_guess_witness :
    validate_guess_message (parse_input (exampleAgent 1 "GUESS C9\nGUESS A1\n").agentToHub).1
      = some "C9".toList ∧
    check_coordinate_bounds "C9".toList exampleRules ≠ 0 ∧
    handle_agent_turn exampleRules (exampleAgent 1 "GUESS C9\nGUESS A1\n") (exampleAgent 2 "") =
      handle_agent_turn exampleRules
        { exampleAgent 1 "GUESS A1\n" with hubToAgent := ["YT".toList] } (exampleAgent 2 "") :=
  ⟨by decide, by decide,
   (handle_agent_turn_rejected_guess exampleRules (exampleAgent 1 "GUESS C9\nGUESS A1\n")
      (exampleAgent 2 "") "C9".toList (by decide) (by decide) (Or.inl (by decide))).2.1.trans
      (by decide)⟩

/-- Counterexample to C6: on `GUESS Z99` the turn returns the communications
error 1; YT is not sent again and the following `GUESS A1` stays unread. -/
theorem guess_Z99_ends_turn_with_error :
    handle_agent_turn exampleRules (exampleAgent 1 "GUESS Z99\nGUESS A1\n") (exampleAgent 2 "") =
      (1, { exampleAgent 1 "GUESS A1\n" with hubToAgent := ["YT".toList] },
        exampleAgent 2 "") := by
  decide

/-- C6 as amended: a line `GUESS <token>` whose token passes
`check_valid_coordinates` but lies off the board is rejected without ending the
turn: the turn goes on with YT sent again to the same, unchanged agent, and a
following GUESS of a well-formed in-bounds coordinate not guessed before is
accepted (OK is sent, the guess recorded, the result 0 or 2).  A line with the
prefix `GUESS ` whose token fails `check_valid_coordinates` makes the turn
return the communications error 1. -/
theorem handle_agent_turn_off_board_guess (rules : Rules) (agent opponent : Agent) :
    (∀ first : CStr,
      (parse_input agent.agentToHub).2.1 = false →
      validate_guess_message (parse_input agent.agentToHub).1 = some first →
      check_coordinate_bounds first rules ≠ 0 →
      handle_agent_turn rules agent opponent =
        handle_agent_turn rules (prompted agent (parse_input agent.agentToHub).2.2) opponent ∧
      (prompted agent (parse_input agent.agentToHub).2.2).agentState = agent.agentState ∧
      (∃ more, (handle_agent_turn rules agent opponent).2.1.hubToAgent =
        agent.hubToAgent ++ "YT".toList :: "YT".toList :: more) ∧
      ∀ second : CStr,
        (parse_input (parse_input agent.agentToHub).2.2).2.1 = false →
        validate_guess_message (parse_input (parse_input agent.agentToHub).2.2).1
          = some second →
        validate_coordinate rules agent second = 0 →
        ((handle_agent_turn rules agent opponent).1 = 0 ∨
          (handle_agent_turn rules agent opponent).1 = 2) ∧
        (handle_agent_turn rules agent opponent).2.1.agentState.agentGuesses =
          agent.agentState.agentGuesses ++ [second] ∧
        ∃ more, (handle_agent_turn rules agent opponent).2.1.hubToAgent =
          agent.hubToAgent ++ "YT".toList :: "YT".toList :: "OK".toList :: more) ∧
    ((parse_input agent.agentToHub).2.1 = false →
      check_message_prefix (parse_input agent.agentToHub).1 "GUESS ".toList ≠ 0 →
      (check_valid_coordinates (strtrim (index_substring (parse_input agent.agentToHub).1
        "GUESS ".length))).1 ≠ 0 →
      handle_agent_turn rules agent opponent =
        (1, prompted agent (parse_input agent.agentToHub).2.2, opponent)) := by
  constructor
  · intro first hline hguess hoff
    have hv := validate_coordinate_rejects rules agent first (Or.inl hoff)
    have hre := handle_agent_turn_reprompt rules agent opponent first hline hguess
      (by rw [hv]; decide)
    refine ⟨hre, rfl, ?_, ?_⟩
    · obtain ⟨more, hm⟩ := handle_agent_turn_sends_YT rules opponent _
        (prompted agent (parse_input agent.agentToHub).2.2) rfl
      exact ⟨more, by rw [hre, hm]; simp [prompted]⟩
    · intro second hline2 hguess2 hacc
      have hacc2 := handle_agent_turn_accepts rules
        (prompted agent (parse_input agent.agentToHub).2.2) opponent second hline2 hguess2 hacc
      obtain ⟨hs, hst, _, more, hm⟩ := handle_agent_turn_accept_agent rules
        (prompted (prompted agent (parse_input agent.agentToHub).2.2)
          (parse_input (prompted agent (parse_input agent.agentToHub).2.2).agentToHub).2.2)
        opponent second
      rw [hre, hacc2]
      refine ⟨hs, ?_, more, ?_⟩
      · rw [hst]; rfl
      · rw [hm]; simp [prompted]
  · intro hline hpre hbad
    rw [handle_agent_turn_unfold]
    simp only [hline, Bool.false_eq_true, if_false]
    have htrim : strtrim (parse_input agent.agentToHub).1 = (parse_input agent.agentToHub).1 := by
      unfold parse_input
      exact strtrim_idem _
    have : validate_guess_message (parse_input agent.agentToHub).1 = none := by
      unfold validate_guess_message
      simp only [htrim, hpre, if_false, hbad, ne_eq, not_false_eq_true, if_true]
    rw [this]

/-- Witness of C6 as amended: `GUESS C9` then `GUESS A1` on a 3 x 3 board is
accepted with a HIT, and `GUESS Z99` ends the turn with the result 1. -/
theorem handle_agent_turn_off_board_guess_witness :
    (check_coordinate_bounds "C9".toList exampleRules ≠ 0 ∧
      (handle_agent_turn exampleRules (exampleAgent 1 "GUESS C9\nGUESS A1\n")
        (exampleAgent 2 "")).2.1.agentState.agentGuesses = [] ++ ["A1".toList]) ∧
    handle_agent_turn exampleRules (exampleAgent 1 "GUESS Z99\nGUESS A1\n") (exampleAgent 2 "") =
      (1, prompted (exampleAgent 1 "GUESS Z99\nGUESS A1\n")
        (parse_input (exampleAgent 1 "GUESS Z99\nGUESS A1\n").agentToHub).2.2,
        exampleAgent 2 "") :=
  ⟨⟨by decide,
    ((((handle_agent_turn_off_board_guess exampleRules (exampleAgent 1 "GUESS C9\nGUESS A1\n")
      (exampleAgent 2 "")).1 "C9".toList (by decide) (by decide) (by decide)).2.2.2
        "A1".toList (by decide) (by decide) (by decide)).2.1)⟩,
   (handle_agent_turn_off_board_guess exampleRules (exampleAgent 1 "GUESS Z99\nGUESS A1\n")
      (exampleAgent 2 "")).2 (by decide) (by decide) (by decide)⟩

/-! ### Grids -/

theorem getD_set {α : Type} (g : List α) (i j : Nat) (x d : α) (hi : i < g.length) :
    (g.set i x).getD j d = if j = i then x else g.getD j d := by
  simp only [List.getD_eq_getElem?_getD, List.getElem?_set]
  by_cases h : i = j
  · subst h
    simp [hi]
  · have : ¬ j = i := fun e => h e.symm
    simp [h, this]

theorem gridGet_gridSet (g : List (List Char)) (r c r' c' : Int) (v : Char)
    (hr : 0 ≤ r) (hrl : r.toNat < g.length) (hc : 0 ≤ c)
    (hcl : c.toNat < (g.getD r.toNat []).length) :
    gridGet (gridSet g r c v) r' c' = if r' = r ∧ c' = c then v else gridGet g r' c' := by
  have hset : gridSet g r c v = g.set r.toNat ((g.getD r.toNat []).set c.toNat v) := by
    unfold gridSet
    rw [if_pos ⟨hr, hc, hcl⟩]
  rw [hset]
  unfold gridGet
  by_cases h0 : 0 ≤ r' ∧ 0 ≤ c'
  · rw [if_pos h0, if_pos h0, getD_set _ _ _ _ _ hrl]
    by_cases hrr : r'.toNat = r.toNat
    · have hre : r' = r := by omega
      rw [if_pos hrr, getD_set _ _ _ _ _ hcl]
      by_cases hcc : c'.toNat = c.toNat
      · have hce : c' = c := by omega
        rw [if_pos hcc, if_pos ⟨hre, hce⟩]
      · have hce : ¬ c' = c := by omega
        rw [if_neg hcc, if_neg (fun h => hce h.2), hre]
    · have hre : ¬ r' = r := by omega
      rw [if_neg hrr, if_neg (fun h => hre h.1)]
  · rw [if_neg h0, if_neg h0]
    have : ¬ (r' = r ∧ c' = c) := by
      intro ⟨h1, h2⟩
      exact h0 ⟨h1 ▸ hr, h2 ▸ hc⟩
    rw [if_neg this]

theorem gridSet_length (g : List (List Char)) (r c : Int) (v : Char) :
    (gridSet g r c v).length = g.length := by
  unfold gridSet
  split
  · simp
  · rfl

theorem gridSet_row_length (g : List (List Char)) (r c : Int) (v : Char) (n : Nat)
    (h : ∀ row ∈ g, row.length = n) : ∀ row ∈ gridSet g r c v, row.length = n := by
  unfold gridSet
  split
  · intro row hrow
    rcases List.mem_or_eq_of_mem_set hrow with hm | he
    · exact h row hm
    · rename_i hcond
      rw [he, List.length_set]
      rw [List.getD_eq_getElem?_getD]
      cases hg : g[r.toNat]? with
      | none =>
        rw [List.getD_eq_getElem?_getD, hg] at hcond
        simp at hcond
      | some row0 =>
        simp only [Option.getD_some]
        exact h row0 (List.getElem?_mem hg)
  · exact h

theorem gridGet_replicate (h w : Nat) (r c : Int) (hr : 0 ≤ r) (hrl : r.toNat < h)
    (hc : 0 ≤ c) (hcl : c.toNat < w) :
    gridGet (List.replicate h (List.replicate w BLANK_GRID)) r c = BLANK_GRID := by
  unfold gridGet
  rw [if_pos ⟨hr, hc⟩]
  simp [List.getD_eq_getElem?_getD, List.getElem?_replicate, hrl, hcl]

/-! ### Placing one coordinate of a ship -/

theorem modifyAt_last {α : Type} (f : α → α) (init : List α) (last : α) :
    modifyAt f init.length (init ++ [last]) = init ++ [f last] := by
  induction init with
  | nil => rfl
  | cons x xs ih =>
    simp [modifyAt, ih]

theorem convert_to_hex_ne_blank : ∀ n : Nat, n < 16 → convert_to_hex (n : Int) ≠ BLANK_GRID := by
  decide

theorem check_coordinate_bounds_zero (coordinates : CStr) (rules : Rules)
    (h : check_coordinate_bounds coordinates rules = 0) :
    0 ≤ (parse_coordinates coordinates).1 ∧ (parse_coordinates coordinates).1 < rules.width ∧
    0 ≤ (parse_coordinates coordinates).2 ∧ (parse_coordinates coordinates).2 < rules.height := by
  unfold check_coordinate_bounds at h
  simp only [] at h
  split at h
  · exact absurd h (by decide)
  · omega

theorem cells_append_last (grid og : List (List Char)) (init : List Ship) (last : Ship)
    (n : Nat) (c : CStr) :
    AgentMap.cells
      { agentGrid := grid
        opponentGrid := og
        agentShips := init ++ [{ last with
          coordinates := last.coordinates ++ [c]
          hits := last.hits + 1
          length := last.length + 1 }]
        shipsAdded := n } =
      (init.map Ship.cells).flatten ++ last.cells ++ [parse_coordinates c] := by
  simp [AgentMap.cells, Ship.cells, List.flatten_append]

theorem cells_init_last (m : AgentMap) (init : List Ship) (last : Ship)
    (h : m.agentShips = init ++ [last]) :
    m.cells = (init.map Ship.cells).flatten ++ last.cells := by
  simp [AgentMap.cells, h, List.flatten_append]

/-- `add_agent_grid_element` on a map whose last ship is being placed: the cell
is refused exactly when a ship covers it, and otherwise marked and added to the
last ship. -/
theorem add_agent_grid_element_spec (rules : Rules) (m : AgentMap) (init : List Ship)
    (last : Ship) (c : CStr) (hinv : MapInv rules m) (hships : m.agentShips = init ++ [last])
    (hn : m.shipsAdded < 16) (hb : check_coordinate_bounds c rules = 0) :
    (parse_coordinates c ∈ m.cells → add_agent_grid_element m c rules = (1, m)) ∧
    (parse_coordinates c ∉ m.cells →
      add_agent_grid_element m c rules =
        (0, { m with
              agentGrid := gridSet m.agentGrid (parse_coordinates c).2 (parse_coordinates c).1
                (convert_to_hex m.shipsAdded)
              agentShips := init ++ [{ last with
                coordinates := last.coordinates ++ [c]
                hits := last.hits + 1
                length := last.length + 1 }] }) ∧
      MapInv rules { m with
              agentGrid := gridSet m.agentGrid (parse_coordinates c).2 (parse_coordinates c).1
                (convert_to_hex m.shipsAdded)
              agentShips := init ++ [{ last with
                coordinates := last.coordinates ++ [c]
                hits := last.hits + 1
                length := last.length + 1 }] }) := by
  obtain ⟨hc0, hcw, hr0, hrh⟩ := check_coordinate_bounds_zero c rules hb
  have hmark := hinv.marked _ _ hr0 hrh hc0 hcw
  have hidx : m.shipsAdded - 1 = init.length := by
    have := hinv.count
    rw [hships] at this
    simp at this
    omega
  constructor
  · intro hmem
    have hne : gridGet m.agentGrid (parse_coordinates c).2 (parse_coordinates c).1 ≠ BLANK_GRID :=
      hmark.mpr hmem
    unfold add_agent_grid_element
    simp only []
    rw [if_neg hne]
  · intro hmem
    have heq : gridGet m.agentGrid (parse_coordinates c).2 (parse_coordinates c).1 = BLANK_GRID := by
      by_contra hne
      exact hmem (hmark.mp hne)
    constructor
    · unfold add_agent_grid_element
      simp only []
      rw [if_pos heq, hidx, hships, modifyAt_last]
    · have hrl : (parse_coordinates c).2.toNat < m.agentGrid.length := by
        rw [hinv.rows]; omega
      have hcl : (parse_coordinates c).1.toNat <
          (m.agentGrid.getD (parse_coordinates c).2.toNat []).length := by
        rw [List.getD_eq_getElem?_getD]
        cases hg : m.agentGrid[(parse_coordinates c).2.toNat]? with
        | none =>
          rw [List.getElem?_eq_none_iff] at hg
          omega
        | some row =>
          simp only [Option.getD_some]
          rw [hinv.cols row (List.getElem?_mem hg)]
          omega
      have hcells := cells_init_last m init last hships
      refine ⟨?_, ?_, ?_, ?_, ?_, ?_⟩
      · show (gridSet _ _ _ _).length = _
        rw [gridSet_length]; exact hinv.rows
      · exact gridSet_row_length _ _ _ _ _ hinv.cols
      · intro r col hr hrH hcol hcolW
        show gridGet (gridSet _ _ _ _) r col ≠ BLANK_GRID ↔ _
        rw [gridGet_gridSet _ _ _ _ _ _ hr0 hrl hc0 hcl, cells_append_last, ← hcells]
        by_cases hsame : r = (parse_coordinates c).2 ∧ col = (parse_coordinates c).1
        · rw [if_pos hsame]
          constructor
          · intro _
            apply List.mem_append_right
            rw [hsame.1, hsame.2]
            simp
          · intro _
            exact convert_to_hex_ne_blank _ hn
        · rw [if_neg hsame]
          rw [hinv.marked r col hr hrH hcol hcolW]
          constructor
          · intro h; exact List.mem_append_left _ h
          · intro h
            rcases List.mem_append.mp h with h | h
            · exact h
            · exfalso
              apply hsame
              simp only [List.mem_singleton] at h
              rw [← h]
              exact ⟨rfl, rfl⟩
      · show (AgentMap.cells _).Nodup
        rw [cells_append_last, ← hcells]
        rw [List.nodup_append]
        refine ⟨hinv.nodup, by simp, ?_⟩
        intro x hx hx2
        simp only [List.mem_singleton] at hx2
        rw [hx2] at hx
        exact hmem hx
      · show (init ++ [_]).length = m.shipsAdded
        have := hinv.count
        rw [hships] at this
        simpa using this
      · intro ship hship
        have hc := hinv.counters
        rw [hships] at hc
        rcases List.mem_append.mp hship with h | h
        · exact hc ship (List.mem_append_left _ h)
        · simp only [List.mem_singleton] at h
          have hl := hc last (List.mem_append_right _ (by simp))
          rw [h]
          simp only [List.length_append, List.length_singleton]
          constructor
          · rw [hl.1]; push_cast; ring
          · rw [hl.2]; push_cast; ring

/-! ### Moving along a ship -/

theorem char_step : ∀ n : Nat, n < 91 → 65 ≤ n →
    (charAdd (Char.ofNat n) 1 ≠ '\x00' ∧
      charVal (charAdd (Char.ofNat n) 1) = charVal (Char.ofNat n) + 1) ∧
    (charAdd (Char.ofNat n) (-1) ≠ '\x00' ∧
      charVal (charAdd (Char.ofNat n) (-1)) = charVal (Char.ofNat n) - 1) ∧
    charVal (Char.ofNat n) = n := by
  decide

theorem atoi_fmtInt : ∀ k : Nat, k < 28 →
    atoi (fmtInt (k : Int)) = (k : Int) ∧ (fmtInt (k : Int)).length ≤ 2 := by
  decide

theorem atoi_nil : atoi [] = 0 := by decide

theorem charVal_range (c : Char) (h0 : 65 ≤ charVal c) (h1 : charVal c < 91) :
    65 ≤ c.toNat ∧ c.toNat < 91 := by
  unfold charVal at h0 h1
  split at h0
  · rw [if_pos (by assumption)] at h1
    omega
  · omega

theorem increment_column_cell (c : Char) (rest : CStr) (h0 : 65 ≤ charVal c)
    (h1 : charVal c < 91) :
    parse_coordinates (increment_column (c :: rest) 1) =
      ((parse_coordinates (c :: rest)).1 + 1, (parse_coordinates (c :: rest)).2) ∧
    parse_coordinates (increment_column (c :: rest) (-1)) =
      ((parse_coordinates (c :: rest)).1 - 1, (parse_coordinates (c :: rest)).2) := by
  obtain ⟨hlo, hhi⟩ := charVal_range c h0 h1
  have hs := char_step c.toNat hhi hlo
  rw [Char.ofNat_toNat] at hs
  obtain ⟨⟨hne1, hv1⟩, ⟨hne2, hv2⟩, _⟩ := hs
  constructor
  · unfold increment_column
    simp only [hne1, if_false]
    simp only [parse_coordinates, firstChar, parse_coordinate_row, List.drop_succ_cons,
      List.drop_zero, hv1]
    refine Prod.ext ?_ rfl
    show charVal c + 1 - charVal 'A' = charVal c - charVal 'A' + 1
    omega
  · unfold increment_column
    simp only [hne2, if_false]
    simp only [parse_coordinates, firstChar, parse_coordinate_row, List.drop_succ_cons,
      List.drop_zero, hv2]
    refine Prod.ext ?_ rfl
    show charVal c - 1 - charVal 'A' = charVal c - charVal 'A' - 1
    omega

theorem increment_row_cell (c : Char) (rest : CStr) (increment : Int)
    (h1 : 1 ≤ atoi rest) (h26 : atoi rest ≤ 26) (hi : increment = 1 ∨ increment = -1) :
    parse_coordinates (increment_row (c :: rest) increment) =
      ((parse_coordinates (c :: rest)).1, (parse_coordinates (c :: rest)).2 + increment) := by
  have hrest : rest ≠ [] := by
    intro h
    rw [h, atoi_nil] at h1
    omega
  have hlen : 1 ≤ rest.length := by
    cases rest with
    | nil => exact absurd rfl hrest
    | cons x xs => simp
  have hk : ((atoi rest + increment).toNat : Int) = atoi rest + increment := by
    rcases hi with h | h <;> rw [h] <;> omega
  have hk28 : (atoi rest + increment).toNat < 28 := by
    rcases hi with h | h <;> rw [h] <;> omega
  obtain ⟨ha, hl⟩ := atoi_fmtInt _ hk28
  rw [hk] at ha hl
  unfold increment_row
  simp only [parse_coordinate_row, List.drop_succ_cons, List.drop_zero, List.length_cons]
  rw [List.take_of_length_le (by simp only [List.length_cons]; omega)]
  simp only [parse_coordinates, firstChar, parse_coordinate_row, List.drop_succ_cons,
    List.drop_zero, ha]
  refine Prod.ext rfl ?_
  show atoi rest + increment - 1 = atoi rest - 1 + increment
  omega

/-- Inside a board of at most 26 columns and rows, `next_coordinate` moves the
cell of a coordinate one step in the direction. -/
theorem next_coordinate_cell (rules : Rules) (direction : Direction) (c : CStr)
    (hw : rules.width ≤ 26) (hh : rules.height ≤ 26)
    (hb : check_coordinate_bounds c rules = 0) :
    parse_coordinates (next_coordinate direction c) =
      moveCell direction (parse_coordinates c) 1 := by
  obtain ⟨hc0, hcw, hr0, hrh⟩ := check_coordinate_bounds_zero c rules hb
  cases c with
  | nil =>
    exfalso
    have : (parse_coordinates ([] : CStr)).1 = -65 := by decide
    rw [this] at hc0
    omega
  | cons ch rest =>
    have hcol : (parse_coordinates (ch :: rest)).1 = charVal ch - charVal 'A' := rfl
    have hrow : (parse_coordinates (ch :: rest)).2 = atoi rest - 1 := rfl
    have hA : charVal 'A' = 65 := by decide
    have h65 : 65 ≤ charVal ch := by omega
    have h91 : charVal ch < 91 := by omega
    have ha1 : 1 ≤ atoi rest := by omega
    have ha26 : atoi rest ≤ 26 := by omega
    cases direction with
    | NORTH =>
      show parse_coordinates (increment_row (ch :: rest) (-1)) = _
      rw [increment_row_cell ch rest (-1) ha1 ha26 (Or.inr rfl)]
      rfl
    | SOUTH =>
      show parse_coordinates (increment_row (ch :: rest) 1) = _
      rw [increment_row_cell ch rest 1 ha1 ha26 (Or.inl rfl)]
      rfl
    | EAST =>
      show parse_coordinates (increment_column (ch :: rest) 1) = _
      rw [(increment_column_cell ch rest h65 h91).1]
      rfl
    | WEST =>
      show parse_coordinates (increment_column (ch :: rest) (-1)) = _
      rw [(increment_column_cell ch rest h65 h91).2]
      rfl

theorem moveCell_moveCell (direction : Direction) (cell : Int × Int) (a b : Int) :
    moveCell direction (moveCell direction cell a) b = moveCell direction cell (a + b) := by
  cases direction <;> simp [moveCell] <;> ring

theorem stepCells_succ (direction : Direction) (cell : Int × Int) (n : Nat) :
    stepCells direction cell (n + 1) =
      moveCell direction cell 1 :: stepCells direction (moveCell direction cell 1) n := by
  have h : List.range (n + 1) = 0 :: (List.range n).map Nat.succ := List.range_succ_eq_map n
  unfold stepCells
  rw [h, List.map_cons, List.map_map]
  congr 1
  · apply List.map_congr_left
    intro k _
    simp only [Function.comp, moveCell_moveCell]
    congr 1
    push_cast
    ring

/-! ### Placing a ship -/

theorem add_agent_ship_loop_spec (rules : Rules) (direction : Direction)
    (hw : rules.width ≤ 26) (hh : rules.height ≤ 26) :
    ∀ (count : Nat) (cur : CStr) (m : AgentMap) (init : List Ship) (last : Ship) (m' : AgentMap),
      MapInv rules m → m.agentShips = init ++ [last] → m.shipsAdded < 16 →
      check_coordinate_bounds cur rules = 0 →
      add_agent_ship_loop direction rules count cur m = (0, m') →
      MapInv rules m' ∧ m'.shipsAdded = m.shipsAdded ∧ m'.opponentGrid = m.opponentGrid ∧
      ∃ added : List CStr,
        m'.agentShips = init ++ [{ last with
          coordinates := last.coordinates ++ added
          hits := last.hits + added.length
          length := last.length + added.length }] ∧
        added.length = count ∧
        added.map parse_coordinates = stepCells direction (parse_coordinates cur) count := by
  intro count
  induction count with
  | zero =>
    intro cur m init last m' hinv hships hn hb hrun
    simp only [add_agent_ship_loop, Prod.mk.injEq, true_and] at hrun
    subst hrun
    refine ⟨hinv, rfl, rfl, [], ?_, rfl, rfl⟩
    rw [hships]
    simp
  | succ n ih =>
    intro cur m init last m' hinv hships hn hb hrun
    rw [add_agent_ship_loop] at hrun
    simp only [] at hrun
    by_cases hb2 : check_coordinate_bounds (next_coordinate direction cur) rules = 0
    · rw [if_neg (by rw [hb2]; decide)] at hrun
      obtain ⟨htaken, hfree⟩ := add_agent_grid_element_spec rules m init last
        (next_coordinate direction cur) hinv hships hn hb2
      by_cases hmem : parse_coordinates (next_coordinate direction cur) ∈ m.cells
      · rw [htaken hmem] at hrun
        simp at hrun
      · obtain ⟨heq, hinv1⟩ := hfree hmem
        rw [heq] at hrun
        simp only [ne_eq, not_true_eq_false, if_false] at hrun
        obtain ⟨hi, hs, ho, added, hadd, hlen, hcells⟩ :=
          ih (next_coordinate direction cur) _ init _ m' hinv1 rfl hn hb2 hrun
        refine ⟨hi, hs, ho, next_coordinate direction cur :: added, ?_, ?_, ?_⟩
        · rw [hadd]
          simp only [List.append_assoc, List.singleton_append, List.length_cons]
          congr 2
          simp only [Ship.mk.injEq, true_and, and_true]
          constructor <;> (push_cast; ring)
        · simp [hlen]
        · rw [List.map_cons, hcells, stepCells_succ,
            next_coordinate_cell rules direction cur hw hh hb]
    · rw [if_pos hb2] at hrun
      simp at hrun

/-- A successful `add_agent_ship` keeps the state of the map in order and appends
one ship: it starts at the given coordinates and its further cells lie one step
after the other in the direction of the ship. -/
theorem add_agent_ship_spec (rules : Rules) (direction : Direction) (m m' : AgentMap)
    (c : CStr) (hw : rules.width ≤ 26) (hh : rules.height ≤ 26)
    (hinv : MapInv rules m) (hn : m.shipsAdded < 15)
    (hrun : add_agent_ship m c direction rules = (0, m')) :
    MapInv rules m' ∧ m'.shipsAdded = m.shipsAdded + 1 ∧ m'.opponentGrid = m.opponentGrid ∧
    check_coordinate_bounds c rules = 0 ∧
    ∃ ship : Ship, m'.agentShips = m.agentShips ++ [ship] ∧ ship.direction = direction ∧
      ship.coordinates.length = 1 + ((rules.shipLengths.getD m.shipsAdded 0) - 1).toNat ∧
      ship.coordinates.head? = some c ∧
      ship.cells = parse_coordinates c ::
        stepCells direction (parse_coordinates c)
          ((rules.shipLengths.getD m.shipsAdded 0) - 1).toNat := by
  unfold add_agent_ship at hrun
  by_cases hb : check_coordinate_bounds c rules = 0
  · rw [if_neg (by rw [hb]; decide)] at hrun
    simp only [] at hrun
    have htake : m.agentShips.take m.shipsAdded = m.agentShips := by
      rw [← hinv.count]; exact List.take_length _
    rw [htake] at hrun
    have hinv0 : MapInv rules { m with
        agentShips := m.agentShips ++
          [{ coordinates := [], hits := 0, length := 0, direction := direction }]
        shipsAdded := m.shipsAdded + 1 } := by
      refine ⟨hinv.rows, hinv.cols, ?_, ?_, ?_, ?_⟩
      · intro r col h1 h2 h3 h4
        have := hinv.marked r col h1 h2 h3 h4
        simpa [AgentMap.cells, Ship.cells, List.flatten_append] using this
      · have := hinv.nodup
        simpa [AgentMap.cells, Ship.cells, List.flatten_append] using this
      · simp [hinv.count]
      · intro ship hship
        rcases List.mem_append.mp hship with h | h
        · exact hinv.counters ship h
        · simp only [List.mem_singleton] at h
          rw [h]
          simp
    obtain ⟨htaken, hfree⟩ := add_agent_grid_element_spec rules _ m.agentShips
      { coordinates := [], hits := 0, length := 0, direction := direction } c hinv0 rfl
      (by simp only []; omega) hb
    by_cases hmem : parse_coordinates c ∈ AgentMap.cells { m with
        agentShips := m.agentShips ++
          [{ coordinates := [], hits := 0, length := 0, direction := direction }]
        shipsAdded := m.shipsAdded + 1 }
    · rw [htaken hmem] at hrun
      simp at hrun
    · obtain ⟨heq, hinv1⟩ := hfree hmem
      rw [heq] at hrun
      simp only [ne_eq, not_true_eq_false, if_false, Nat.add_sub_cancel] at hrun
      obtain ⟨hi, hs, ho, added, hadd, hlen, hcells⟩ :=
        add_agent_ship_loop_spec rules direction hw hh _ c _ m.agentShips _ m' hinv1 rfl
          (by simp only []; omega) hb hrun
      refine ⟨hi, hs, ho, hb, _, hadd, rfl, ?_, ?_, ?_⟩
      · simp [hlen]; omega
      · simp
      · simp [Ship.cells, hcells]
  · rw [if_pos hb] at hrun
    simp at hrun

/-! ### Reading a MAP message -/

theorem handle_agent_ship_direction_eq (position direction : CStr) (m : AgentMap)
    (rules : Rules) :
    handle_agent_ship_direction position direction m rules =
      match entry_direction direction with
      | some d => add_agent_ship m position d rules
      | none => (1, m) := by
  unfold handle_agent_ship_direction entry_direction
  simp only []
  by_cases h1 : strtrim direction = ['N']
  · simp only [if_pos h1]
  · by_cases h2 : strtrim direction = ['E']
    · simp only [if_neg h1, if_pos h2]
    · by_cases h3 : strtrim direction = ['S']
      · simp only [if_neg h1, if_neg h2, if_pos h3]
      · by_cases h4 : strtrim direction = ['W']
        · simp only [if_neg h1, if_neg h2, if_neg h3, if_pos h4]
        · simp only [if_neg h1, if_neg h2, if_neg h3, if_neg h4]

theorem check_valid_coordinates_snd (c : CStr) : (check_valid_coordinates c).2 = strtrim c := by
  unfold check_valid_coordinates
  simp only []
  split
  · rfl
  · split <;> rfl

theorem moveCell_zero (direction : Direction) (cell : Int × Int) :
    moveCell direction cell 0 = cell := by
  cases direction <;> simp [moveCell]

theorem ship_cells_spec_eq (start : Int × Int) (direction : Direction) (length : Int)
    (h : 1 ≤ length) :
    ship_cells_spec start direction length =
      start :: stepCells direction start (length - 1).toNat := by
  unfold ship_cells_spec stepCells
  have hl : length.toNat = (length - 1).toNat + 1 := by omega
  have hr : List.range ((length - 1).toNat + 1) =
      0 :: (List.range (length - 1).toNat).map Nat.succ := List.range_succ_eq_map _
  rw [hl, hr, List.map_cons, List.map_map]
  have h0 : moveCell direction start ((0 : Nat) : Int) = start := by
    simp [moveCell_zero]
  rw [h0]
  congr 1

theorem initialise_grids_inv (rules : Rules) :
    MapInv rules { initialise_grids rules initialMap with shipsAdded := 0 } := by
  refine ⟨?_, ?_, ?_, ?_, ?_, ?_⟩
  · simp [initialise_grids]
  · intro row hrow
    simp only [initialise_grids] at hrow
    rw [List.eq_of_mem_replicate hrow]
    simp
  · intro r c hr hrh hc hcw
    simp only [initialise_grids, initialMap, AgentMap.cells, List.map_nil, List.flatten_nil,
      List.not_mem_nil, iff_false, ne_eq, not_not]
    exact gridGet_replicate _ _ r c hr (by omega) hc (by omega)
  · simp [initialise_grids, initialMap, AgentMap.cells]
  · rfl
  · intro ship hship
    simp [initialise_grids, initialMap] at hship

theorem ShipsMatch.extend (rules : Rules) (m : AgentMap) (done more : List CStr)
    (h : ShipsMatch rules m done) : ShipsMatch rules m (done ++ more) := by
  intro k ship hk
  obtain ⟨entry, he, hc, hl⟩ := h k ship hk
  refine ⟨entry, ?_, hc, hl⟩
  rw [List.getElem?_append_left (by
    have := List.getElem?_eq_some_iff.mp he
    exact this.1)]
  exact he

theorem Rules.valid.length_ge (rules : Rules) (hv : rules.valid) (k : Nat)
    (hk : (k : Int) < rules.numberOfShips) : 1 ≤ rules.shipLengths.getD k 0 := by
  obtain ⟨_, _, _, _, _, _, hlen, hall⟩ := hv
  have hk' : k < rules.shipLengths.length := by omega
  rw [List.getD_eq_getElem?_getD, List.getElem?_eq_getElem hk']
  simp only [Option.getD_some]
  exact hall _ (List.getElem_mem hk')

theorem parse_map_message_loop_spec (rules : Rules) (hv : rules.valid) :
    ∀ (rest done : List CStr) (m m' : AgentMap),
      MapInv rules m → (m.shipsAdded : Int) ≤ rules.numberOfShips →
      ((m.shipsAdded : Int) < rules.numberOfShips → m.shipsAdded = done.length) →
      ShipsMatch rules m done →
      parse_map_message_loop rules rest m = (0, m') →
      MapInv rules m' ∧ (m'.shipsAdded : Int) = rules.numberOfShips ∧
        ShipsMatch rules m' (done ++ rest) ∧ m'.opponentGrid = m.opponentGrid := by
  have hv' := hv
  obtain ⟨hw1, hw26, hh1, hh26, hn1, hn15, hlen, hall⟩ := hv'
  simp only [MAX_BOARD_WIDTH, MAX_BOARD_HEIGHT, MAX_SHIPS] at hw26 hh26 hn15
  intro rest
  induction rest with
  | nil =>
    intro done m m' hinv hle hlt hmatch hrun
    rw [parse_map_message_loop] at hrun
    by_cases hcount : (m.shipsAdded : Int) = rules.numberOfShips
    · rw [if_neg (by simpa using hcount)] at hrun
      simp only [Prod.mk.injEq, true_and] at hrun
      subst hrun
      exact ⟨hinv, hcount, by simpa using hmatch, rfl⟩
    · rw [if_pos hcount] at hrun
      simp at hrun
  | cons entry rest ih =>
    intro done m m' hinv hle hlt hmatch hrun
    rw [parse_map_message_loop] at hrun
    simp only [] at hrun
    by_cases hlen2 : (split_string entry ',' false).length = MAP_TOKEN_LINE_LENGTH
    · rw [if_neg (by simpa using hlen2)] at hrun
      by_cases hchk : (check_valid_coordinates ((split_string entry ',' false).getD 0 [])).1 = 0
      · rw [if_neg (by simpa using hchk)] at hrun
        have happ : done ++ entry :: rest = (done ++ [entry]) ++ rest := by simp
        by_cases hadd : (m.shipsAdded : Int) < rules.numberOfShips
        · rw [if_pos hadd] at hrun
          rw [handle_agent_ship_direction_eq, check_valid_coordinates_snd] at hrun
          cases hd : entry_direction ((split_string entry ',' false).getD 1 []) with
          | none =>
            rw [hd] at hrun
            simp at hrun
          | some d =>
            rw [hd] at hrun
            simp only [] at hrun
            cases hship : add_agent_ship m (strtrim ((split_string entry ',' false).getD 0 []))
                d rules with
            | mk status m1 =>
              rw [hship] at hrun
              simp only [] at hrun
              by_cases hst : status = 0
              · subst hst
                simp only [ne_eq, not_true_eq_false, if_false] at hrun
                obtain ⟨hinv1, hs1, ho1, _, ship, hships, _, hcl, _, hcells⟩ :=
                  add_agent_ship_spec rules d m m1 _ hw26 hh26 hinv (by omega) hship
                have hdone := hlt hadd
                have hge := Rules.valid.length_ge rules hv m.shipsAdded hadd
                have hmatch1 : ShipsMatch rules m1 (done ++ [entry]) := by
                  intro k sh hk
                  rw [hships] at hk
                  by_cases hkl : k < m.agentShips.length
                  · rw [List.getElem?_append_left hkl] at hk
                    exact ShipsMatch.extend rules m done [entry] hmatch k sh hk
                  · have hke : k = m.agentShips.length := by
                      have := (List.getElem?_eq_some_iff.mp hk).1
                      simp at this
                      omega
                    have hkd : k = done.length := by rw [hke, hinv.count, hdone]
                    have hks : k = m.shipsAdded := by rw [hke, hinv.count]
                    rw [hke, List.getElem?_append_right (le_refl _)] at hk
                    simp only [Nat.sub_self, List.getElem?_cons_zero, Option.some.injEq] at hk
                    subst hk
                    refine ⟨entry, ?_, ?_, ?_⟩
                    · rw [hkd, List.getElem?_append_right (le_refl _)]
                      simp
                    · rw [hcells]
                      unfold entry_cells
                      rw [hd]
                      simp only []
                      rw [hks, ship_cells_spec_eq _ _ _ hge]
                    · rw [hcl, hks]
                      push_cast
                      omega
                obtain ⟨r1, r2, r3, r4⟩ := ih (done ++ [entry]) m1 m' hinv1
                  (by rw [hs1]; push_cast; omega)
                  (by intro _; rw [hs1, hdone]; simp)
                  hmatch1 hrun
                rw [happ]
                exact ⟨r1, r2, r3, by rw [r4, ho1]⟩
              · rw [if_pos hst] at hrun
                simp only [Prod.mk.injEq] at hrun
                exact absurd hrun.1 hst
        · rw [if_neg hadd] at hrun
          obtain ⟨r1, r2, r3, r4⟩ := ih (done ++ [entry]) m m' hinv hle
            (by intro h; exact absurd h hadd)
            (ShipsMatch.extend rules m done [entry] hmatch) hrun
          rw [happ]
          exact ⟨r1, r2, r3, r4⟩
      · rw [if_pos hchk] at hrun
        simp at hrun
    · rw [if_pos hlen2] at hrun
      simp at hrun

/-- A successful `parse_map_message` on freshly initialised grids: the grid and
the ships are in order (no cell is covered twice, the non-blank cells are the
cells of the ships), there are `numberOfShips` ships, and each is the ship its
entry of the message describes. -/
theorem parse_map_message_spec (rules : Rules) (hv : rules.valid) (mapMessage : CStr)
    (m' : AgentMap)
    (hrun : parse_map_message (initialise_grids rules initialMap) rules mapMessage = (0, m')) :
    MapInv rules m' ∧ (m'.shipsAdded : Int) = rules.numberOfShips ∧
      ShipsMatch rules m' (map_entries mapMessage) ∧
      m'.opponentGrid = (initialise_grids rules initialMap).opponentGrid := by
  unfold parse_map_message at hrun
  simp only [] at hrun
  split at hrun
  · simp at hrun
  · have := parse_map_message_loop_spec rules hv _ [] _ m' (initialise_grids_inv rules)
      (by obtain ⟨_, _, _, _, hn1, _⟩ := hv; simp only [MIN_SHIPS] at hn1; simp; omega)
      (by intro _; rfl)
      (by intro k ship hk; simp [initialise_grids, initialMap] at hk)
      hrun
    simpa [map_entries] using this

theorem ships_cells_disjoint (rules : Rules) (m : AgentMap) (hinv : MapInv rules m)
    (i j : Nat) (si sj : Ship) (hij : i ≠ j) (hi : m.agentShips[i]? = some si)
    (hj : m.agentShips[j]? = some sj) : ∀ cell ∈ si.cells, cell ∉ sj.cells := by
  have hpw : List.Pairwise List.Disjoint (m.agentShips.map Ship.cells) :=
    (List.nodup_flatten.mp hinv.nodup).2
  rw [List.pairwise_iff_getElem] at hpw
  obtain ⟨hil, hie⟩ := List.getElem?_eq_some_iff.mp hi
  obtain ⟨hjl, hje⟩ := List.getElem?_eq_some_iff.mp hj
  intro cell hci hcj
  rcases Nat.lt_or_gt_of_ne hij with hlt | hgt
  · have := hpw i j (by simpa using hil) (by simpa using hjl) hlt
    simp only [List.getElem_map, hie, hje] at this
    exact this hci hcj
  · have := hpw j i (by simpa using hjl) (by simpa using hil) hgt
    simp only [List.getElem_map, hie, hje] at this
    exact this hcj hci

/-- C10: under valid rules, when `parse_map_message` (on the grids
`initialise_grids` prepared) returns 0, no cell is covered by two of the ships
placed; and when the entries of two ships of the message claim a common cell,
`parse_map_message` returns an error. -/
theorem parse_map_message_ships_disjoint (rules : Rules) (hv : rules.valid) (mapMessage : CStr) :
    ((parse_map_message (initialise_grids rules initialMap) rules mapMessage).1 = 0 →
      ∀ (i j : Nat) (si sj : Ship), i ≠ j →
        (parse_map_message (initialise_grids rules initialMap) rules
          mapMessage).2.agentShips[i]? = some si →
        (parse_map_message (initialise_grids rules initialMap) rules
          mapMessage).2.agentShips[j]? = some sj →
        ∀ cell ∈ si.cells, cell ∉ sj.cells) ∧
    (∀ (i j : Nat) (ei ej : CStr), i < j → (j : Int) < rules.numberOfShips →
      (map_entries mapMessage)[i]? = some ei → (map_entries mapMessage)[j]? = some ej →
      (∃ cell, cell ∈ entry_cells rules i ei ∧ cell ∈ entry_cells rules j ej) →
      (parse_map_message (initialise_grids rules initialMap) rules mapMessage).1 ≠ 0) := by
  constructor
  · intro h0 i j si sj hij hi hj
    have hrun : parse_map_message (initialise_grids rules initialMap) rules mapMessage =
        (0, (parse_map_message (initialise_grids rules initialMap) rules mapMessage).2) := by
      rw [← h0]
    obtain ⟨hinv, _, _, _⟩ := parse_map_message_spec rules hv mapMessage _ hrun
    exact ships_cells_disjoint rules _ hinv i j si sj hij hi hj
  · intro i j ei ej hij hjn hei hej ⟨cell, hci, hcj⟩ h0
    have hrun : parse_map_message (initialise_grids rules initialMap) rules mapMessage =
        (0, (parse_map_message (initialise_grids rules initialMap) rules mapMessage).2) := by
      rw [← h0]
    obtain ⟨hinv, hcount, hmatch, _⟩ := parse_map_message_spec rules hv mapMessage _ hrun
    have hlen := hinv.count
    have hjl : j < (parse_map_message (initialise_grids rules initialMap) rules
        mapMessage).2.agentShips.length := by omega
    have hil : i < (parse_map_message (initialise_grids rules initialMap) rules
        mapMessage).2.agentShips.length := by omega
    obtain ⟨e1, he1, hc1, _⟩ := hmatch i _ (List.getElem?_eq_getElem hil)
    obtain ⟨e2, he2, hc2, _⟩ := hmatch j _ (List.getElem?_eq_getElem hjl)
    rw [hei] at he1
    rw [hej] at he2
    simp only [Option.some.injEq] at he1 he2
    subst he1 he2
    refine ships_cells_disjoint rules _ hinv i j _ _ (by omega)
      (List.getElem?_eq_getElem hil) (List.getElem?_eq_getElem hjl) cell ?_ ?_
    · rw [hc1]; exact hci
    · rw [hc2]; exact hcj

/-- Witness of C10: `MAP B1,S:A3,E` on a 3 x 3 board with ships of lengths 2 and 3
is accepted, its ships covering B1, B2 and A3, B3, C3; `MAP B1,S:A2,E` has both
ships claim B2 and is refused. -/
theorem parse_map_message_ships_disjoint_witness :
    (exampleRules2.valid ∧
      (parse_map_message (initialise_grids exampleRules2 initialMap) exampleRules2
        "MAP B1,S:A3,E".toList).1 = 0 ∧
      ∀ cell ∈ [((1 : Int), (0 : Int)), (1, 1)], cell ∉ [((0 : Int), (2 : Int)), (1, 2), (2, 2)]) ∧
    ((1 : Int), (1 : Int)) ∈ entry_cells exampleRules2 0 "B1,S".toList ∧
    ((1 : Int), (1 : Int)) ∈ entry_cells exampleRules2 1 "A2,E".toList ∧
    (parse_map_message (initialise_grids exampleRules2 initialMap) exampleRules2
      "MAP B1,S:A2,E".toList).1 ≠ 0 :=
  ⟨⟨by decide, by decide,
    (parse_map_message_ships_disjoint exampleRules2 (by decide) "MAP B1,S:A3,E".toList).1
      (by decide) 0 1
      { coordinates := ["B1".toList, "B2".toList], hits := 2, length := 2, direction := .SOUTH }
      { coordinates := ["A3".toList, "B3".toList, "C3".toList], hits := 3, length := 3,
        direction := .EAST }
      (by decide) (by decide) (by decide)⟩,
   by decide, by decide,
   (parse_map_message_ships_disjoint exampleRules2 (by decide) "MAP B1,S:A2,E".toList).2
      0 1 "B1,S".toList "A2,E".toList (by decide) (by decide) (by decide) (by decide)
      ⟨(1, 1), by decide, by decide⟩⟩

/-! ### Resolving a guess -/

theorem modifyAt_getElem? {α : Type} (f : α → α) :
    ∀ (i : Nat) (l : List α) (j : Nat),
      (modifyAt f i l)[j]? = if j = i then l[j]?.map f else l[j]? := by
  intro i l
  induction l generalizing i with
  | nil => intro j; simp [modifyAt]
  | cons x xs ih =>
    intro j
    cases i with
    | zero =>
      cases j with
      | zero => simp [modifyAt]
      | succ j => simp [modifyAt]
    | succ i =>
      cases j with
      | zero => simp [modifyAt]
      | succ j => simp [modifyAt, ih]

theorem modifyAt_length {α : Type} (f : α → α) :
    ∀ (i : Nat) (l : List α), (modifyAt f i l).length = l.length := by
  intro i l
  induction l generalizing i with
  | nil => simp [modifyAt]
  | cons x xs ih =>
    cases i with
    | zero => simp [modifyAt]
    | succ i => simp [modifyAt, ih]

/-- The ships of the opponent in a state of the loops. -/
theorem hit_ships (g : CStr) (row column : Int) (i : Nat) (st : GuessState) :
    (handle_valid_guess_hit g row column i st).opponent.agentState.agentMap.agentShips =
      modifyAt (fun ship => { ship with hits := ship.hits - 1 }) i
        st.opponent.agentState.agentMap.agentShips := by
  unfold handle_valid_guess_hit broadcast_message
  simp only []
  split <;> rfl

theorem hit_coordinates (g : CStr) (row column : Int) (i k : Nat) (st : GuessState) :
    ((handle_valid_guess_hit g row column i st).opponent.agentState.agentMap.agentShips[k]?).map
        (fun ship => ship.coordinates) =
      (st.opponent.agentState.agentMap.agentShips[k]?).map (fun ship => ship.coordinates) := by
  rw [hit_ships, modifyAt_getElem?]
  split
  · cases st.opponent.agentState.agentMap.agentShips[k]? <;> simp
  · rfl

/-- The inner loop leaves the state alone when no coordinate it looks at is the
guess. -/
theorem handle_valid_guess_ship_miss (g : CStr) (row column : Int) (i : Nat) :
    ∀ (count j : Nat) (st : GuessState),
      (∀ ship, st.opponent.agentState.agentMap.agentShips[i]? = some ship →
        g ∉ ship.coordinates) →
      handle_valid_guess_ship g row column i count j st = st := by
  intro count
  induction count with
  | zero => intro j st _; rfl
  | succ n ih =>
    intro j st h
    rw [handle_valid_guess_ship]
    have hne : ¬ (st.opponent.agentState.agentMap.agentShips[i]?.bind
        (fun ship => ship.coordinates[j]?)) = some g := by
      intro heq
      cases hs : st.opponent.agentState.agentMap.agentShips[i]? with
      | none => rw [hs] at heq; simp at heq
      | some ship =>
        rw [hs] at heq
        have heq' : ship.coordinates[j]? = some g := heq
        exact h ship hs (List.getElem?_mem heq')
    rw [if_neg hne]
    exact ih (j + 1) st h

/-- The inner loop over the coordinates of ship `i` from index `j` on: one hit
when the guess is among them, nothing otherwise. -/
theorem handle_valid_guess_ship_spec (g : CStr) (row column : Int) (i : Nat) (cs : List CStr) :
    ∀ (l : List CStr) (j : Nat) (st : GuessState),
      cs.drop j = l → l.Nodup →
      (st.opponent.agentState.agentMap.agentShips[i]?).map (fun ship => ship.coordinates)
        = some cs →
      handle_valid_guess_ship g row column i l.length j st =
        if g ∈ l then handle_valid_guess_hit g row column i st else st := by
  intro l
  induction l with
  | nil => intro j st _ _ _; rfl
  | cons x l ih =>
    intro j st hdrop hnd hcs
    have hj : cs[j]? = some x := by
      have := congrArg List.head? hdrop
      simpa [List.head?_drop] using this
    have hdrop' : cs.drop (j + 1) = l := by
      have := congrArg List.tail hdrop
      simpa [List.tail_drop] using this
    have hlook : (st.opponent.agentState.agentMap.agentShips[i]?.bind
        (fun ship => ship.coordinates[j]?)) = some x := by
      cases hs : st.opponent.agentState.agentMap.agentShips[i]? with
      | none => rw [hs] at hcs; simp at hcs
      | some ship =>
        rw [hs] at hcs
        simp only [Option.map_some', Option.some.injEq] at hcs
        show ship.coordinates[j]? = some x
        rw [hcs, hj]
    simp only [List.length_cons]
    rw [handle_valid_guess_ship, hlook]
    obtain ⟨hx, hnd'⟩ := List.nodup_cons.mp hnd
    by_cases hgx : x = g
    · subst hgx
      simp only [if_true, List.mem_cons, true_or]
      rw [ih (j + 1) _ hdrop' hnd' (by rw [hit_coordinates]; exact hcs)]
      rw [if_neg hx]
    · have : ¬ (some x = some g) := by simpa using hgx
      rw [if_neg this]
      rw [ih (j + 1) st hdrop' hnd' hcs]
      have hg : g ≠ x := fun h => hgx h.symm
      simp only [List.mem_cons, hg, false_or]

/-- The outer loop leaves the state alone when none of the ships it visits has
the guess among its coordinates. -/
theorem handle_valid_guess_ships_miss (g : CStr) (row column : Int) (rules : Rules) :
    ∀ (count i : Nat) (st : GuessState),
      (∀ k ship, i ≤ k → st.opponent.agentState.agentMap.agentShips[k]? = some ship →
        g ∉ ship.coordinates) →
      handle_valid_guess_ships g row column rules count i st = st := by
  intro count
  induction count with
  | zero => intro i st _; rfl
  | succ n ih =>
    intro i st h
    rw [handle_valid_guess_ships]
    have hsame : (if (st.opponent.agentState.agentMap.agentShips[i]?.map
          (fun ship => ship.hits)).getD 0 > 0
        then handle_valid_guess_ship g row column i (rules.shipLengths.getD i 0).toNat 0 st
        else st) = st := by
      split
      · exact handle_valid_guess_ship_miss g row column i _ 0 st (fun ship hs => h i ship (le_refl _) hs)
      · rfl
    rw [hsame]
    exact ih (i + 1) st (fun k ship hk hs => h k ship (by omega) hs)

/-- The outer loop when exactly ship `k` has the guess among its coordinates and
has hits left: the body of the hit runs once, for that ship. -/
theorem handle_valid_guess_ships_hit (g : CStr) (row column : Int) (rules : Rules)
    (k : Nat) (target : Ship) :
    ∀ (count i : Nat) (st : GuessState), i ≤ k → k < i + count →
      st.opponent.agentState.agentMap.agentShips[k]? = some target →
      g ∈ target.coordinates → target.coordinates.Nodup → target.hits > 0 →
      target.coordinates.length = (rules.shipLengths.getD k 0).toNat →
      (∀ k' ship, k' ≠ k → st.opponent.agentState.agentMap.agentShips[k']? = some ship →
        g ∉ ship.coordinates) →
      handle_valid_guess_ships g row column rules count i st =
        handle_valid_guess_hit g row column k st := by
  intro count
  induction count with
  | zero => intro i st h1 h2; omega
  | succ n ih =>
    intro i st hik hkn hk hg hnd hhits hlen hothers
    rw [handle_valid_guess_ships]
    by_cases hi : i = k
    · subst hi
      have hpos : (st.opponent.agentState.agentMap.agentShips[i]?.map
          (fun ship => ship.hits)).getD 0 > 0 := by
        rw [hk]; exact hhits
      rw [if_pos hpos, ← hlen]
      have hin := handle_valid_guess_ship_spec g row column i target.coordinates
        target.coordinates 0 st rfl hnd (by rw [hk]; rfl)
      rw [hin, if_pos hg]
      apply handle_valid_guess_ships_miss
      intro k' ship hk' hs
      have hc := hit_coordinates g row column i k' st
      rw [hs] at hc
      cases hs0 : st.opponent.agentState.agentMap.agentShips[k']? with
      | none => rw [hs0] at hc; simp at hc
      | some ship0 =>
        rw [hs0] at hc
        simp only [Option.map_some', Option.some.injEq] at hc
        rw [hc]
        exact hothers k' ship0 (by omega) hs0
    · have hsame : (if (st.opponent.agentState.agentMap.agentShips[i]?.map
            (fun ship => ship.hits)).getD 0 > 0
          then handle_valid_guess_ship g row column i (rules.shipLengths.getD i 0).toNat 0 st
          else st) = st := by
        split
        · exact handle_valid_guess_ship_miss g row column i _ 0 st
            (fun ship hs => hothers i ship hi hs)
        · rfl
      rw [hsame]
      exact ih (i + 1) st (by omega) (by omega) hk hg hnd hhits hlen hothers

theorem filter_unguessed_miss (l G : List CStr) (g : CStr) (hg : g ∉ l) :
    l.filter (fun c => decide (c ∉ G ++ [g])) = l.filter (fun c => decide (c ∉ G)) := by
  apply List.filter_congr
  intro c hc
  have : c ≠ g := fun h => hg (h ▸ hc)
  simp [this]

theorem filter_unguessed_hit (G : List CStr) (g : CStr) (hG : g ∉ G) :
    ∀ l : List CStr, l.Nodup → g ∈ l →
      (l.filter (fun c => decide (c ∉ G ++ [g]))).length + 1 =
        (l.filter (fun c => decide (c ∉ G))).length := by
  intro l
  induction l with
  | nil => intro _ h; simp at h
  | cons x xs ih =>
    intro hnd hmem
    obtain ⟨hx, hnd'⟩ := List.nodup_cons.mp hnd
    by_cases hxg : x = g
    · subst hxg
      rw [List.filter_cons, List.filter_cons]
      have h1 : decide (x ∉ G ++ [x]) = false := by simp
      have h2 : decide (x ∉ G) = true := by simpa using hG
      rw [h1, h2]
      simp only [Bool.false_eq_true, if_false, if_true, List.length_cons]
      rw [filter_unguessed_miss xs G x hx]
    · have hmem' : g ∈ xs := by
        rcases List.mem_cons.mp hmem with h | h
        · exact absurd h.symm hxg
        · exact h
      have := ih hnd' hmem'
      rw [List.filter_cons, List.filter_cons]
      have hd : decide (x ∉ G ++ [g]) = decide (x ∉ G) := by simp [hxg]
      rw [hd]
      split
      · simp only [List.length_cons]; omega
      · exact this

/-- What `handle_valid_guess` does with a new guess on a map in play: with the
guess among the coordinates of no ship, nothing but the MISS; with the guess among
the coordinates of ship `k`, the body of the hit, once, for that ship. -/
theorem handle_valid_guess_spec (rules : Rules) (agent opponent : Agent) (g : CStr)
    (hinv : PlayInv rules agent.agentState.agentGuesses opponent.agentState.agentMap)
    (hnew : g ∉ agent.agentState.agentGuesses) :
    ((∀ ship ∈ opponent.agentState.agentMap.agentShips, g ∉ ship.coordinates) →
      handle_valid_guess_ships g (parse_coordinates g).2 (parse_coordinates g).1 rules
        rules.numberOfShips.toNat 0 (guessStart g agent opponent) = guessStart g agent opponent) ∧
    (∀ (k : Nat) (target : Ship), opponent.agentState.agentMap.agentShips[k]? = some target →
      g ∈ target.coordinates →
      target.hits > 0 ∧
      handle_valid_guess_ships g (parse_coordinates g).2 (parse_coordinates g).1 rules
        rules.numberOfShips.toNat 0 (guessStart g agent opponent) =
          handle_valid_guess_hit g (parse_coordinates g).2 (parse_coordinates g).1 k
            (guessStart g agent opponent)) := by
  constructor
  · intro hmiss
    apply handle_valid_guess_ships_miss
    intro k ship _ hs
    exact hmiss ship (List.getElem?_mem hs)
  · intro k target hk hg
    have hmem : target ∈ opponent.agentState.agentMap.agentShips := List.getElem?_mem hk
    have hnodup := List.nodup_flatten.mp hinv.distinct
    have hnd : target.coordinates.Nodup :=
      hnodup.1 _ (List.mem_map.mpr ⟨target, hmem, rfl⟩)
    have hhits : target.hits > 0 := by
      rw [hinv.hits target hmem]
      have : g ∈ target.coordinates.filter (fun c => decide (c ∉ agent.agentState.agentGuesses)) := by
        rw [List.mem_filter]
        exact ⟨hg, by simpa using hnew⟩
      have := List.length_pos_of_mem this
      omega
    refine ⟨hhits, ?_⟩
    obtain ⟨hkl, hke⟩ := List.getElem?_eq_some_iff.mp hk
    apply handle_valid_guess_ships_hit g _ _ rules k target _ 0 _ (Nat.zero_le _)
    · have := hinv.ships
      omega
    · exact hk
    · exact hg
    · exact hnd
    · exact hhits
    · have := (hinv.lengths k target hk).1
      omega
    · intro k' ship hne hs hgs
      have hpw := hnodup.2
      rw [List.pairwise_iff_getElem] at hpw
      have hs' : opponent.agentState.agentMap.agentShips[k']? = some ship := hs
      obtain ⟨hkl', hke'⟩ := List.getElem?_eq_some_iff.mp hs'
      rcases Nat.lt_or_gt_of_ne hne with hlt | hgt
      · have := hpw k' k (by simpa using hkl') (by simpa using hkl) hlt
        simp only [List.getElem_map, hke, hke'] at this
        exact this hgs hg
      · have := hpw k k' (by simpa using hkl) (by simpa using hkl') hgt
        simp only [List.getElem_map, hke, hke'] at this
        exact this hg hgs

theorem handle_valid_guess_eq (rules : Rules) (agent opponent : Agent) (g : CStr) :
    handle_valid_guess g rules agent opponent =
      if (handle_valid_guess_ships g (parse_coordinates g).2 (parse_coordinates g).1 rules
            rules.numberOfShips.toNat 0 (guessStart g agent opponent)).successfulHit = false then
        broadcast_message
          (handle_valid_guess_ships g (parse_coordinates g).2 (parse_coordinates g).1 rules
            rules.numberOfShips.toNat 0 (guessStart g agent opponent)).agent
          { (handle_valid_guess_ships g (parse_coordinates g).2 (parse_coordinates g).1 rules
              rules.numberOfShips.toNat 0 (guessStart g agent opponent)).opponent with
            agentState := { (handle_valid_guess_ships g (parse_coordinates g).2
                (parse_coordinates g).1 rules rules.numberOfShips.toNat 0
                (guessStart g agent opponent)).opponent.agentState with
              agentMap := { (handle_valid_guess_ships g (parse_coordinates g).2
                  (parse_coordinates g).1 rules rules.numberOfShips.toNat 0
                  (guessStart g agent opponent)).opponent.agentState.agentMap with
                agentGrid := gridSet (handle_valid_guess_ships g (parse_coordinates g).2
                  (parse_coordinates g).1 rules rules.numberOfShips.toNat 0
                  (guessStart g agent opponent)).opponent.agentState.agentMap.agentGrid
                  (parse_coordinates g).2 (parse_coordinates g).1 MISS_MARKER } } }
          agent.agentState.agentId g .MISS
      else
        ((handle_valid_guess_ships g (parse_coordinates g).2 (parse_coordinates g).1 rules
            rules.numberOfShips.toNat 0 (guessStart g agent opponent)).agent,
         (handle_valid_guess_ships g (parse_coordinates g).2 (parse_coordinates g).1 rules
            rules.numberOfShips.toNat 0 (guessStart g agent opponent)).opponent) := rfl

/-- The result of `handle_valid_guess` for a guess that is a coordinate of no
ship: MISS is sent to both agents, the cell gets the miss marker, the ships are
untouched. -/
theorem handle_valid_guess_miss (rules : Rules) (agent opponent : Agent) (g : CStr)
    (hinv : PlayInv rules agent.agentState.agentGuesses opponent.agentState.agentMap)
    (hnew : g ∉ agent.agentState.agentGuesses)
    (hmiss : ∀ ship ∈ opponent.agentState.agentMap.agentShips, g ∉ ship.coordinates) :
    handle_valid_guess g rules agent opponent =
      ({ agent with
          agentState := { agent.agentState with
            agentGuesses := agent.agentState.agentGuesses ++ [g] }
          hubToAgent := agent.hubToAgent ++ [resultLine agent g .MISS] },
       { opponent with
          agentState := { opponent.agentState with
            agentMap := { opponent.agentState.agentMap with
              agentGrid := gridSet opponent.agentState.agentMap.agentGrid
                (parse_coordinates g).2 (parse_coordinates g).1 MISS_MARKER } }
          hubToAgent := opponent.hubToAgent ++ [resultLine agent g .MISS] }) := by
  rw [handle_valid_guess_eq, (handle_valid_guess_spec rules agent opponent g hinv hnew).1 hmiss]
  rfl

/-- The result of `handle_valid_guess` for a guess that is a coordinate of ship
`k`: the ship loses one hit, the cell gets the hit marker, and SUNK is sent to
both agents when this was its last hit, HIT otherwise. -/
theorem handle_valid_guess_hit_result (rules : Rules) (agent opponent : Agent) (g : CStr)
    (hinv : PlayInv rules agent.agentState.agentGuesses opponent.agentState.agentMap)
    (hnew : g ∉ agent.agentState.agentGuesses) (k : Nat) (target : Ship)
    (hk : opponent.agentState.agentMap.agentShips[k]? = some target)
    (hg : g ∈ target.coordinates) :
    target.hits > 0 ∧
    handle_valid_guess g rules agent opponent =
      ({ agent with
          agentState := { agent.agentState with
            agentGuesses := agent.agentState.agentGuesses ++ [g] }
          hubToAgent := agent.hubToAgent ++
            [resultLine agent g (if target.hits = 1 then .SUNK else .HIT)] },
       { opponent with
          agentState := { opponent.agentState with
            agentMap := { opponent.agentState.agentMap with
              agentGrid := gridSet opponent.agentState.agentMap.agentGrid
                (parse_coordinates g).2 (parse_coordinates g).1 HIT_MARKER
              agentShips := modifyAt (fun ship => { ship with hits := ship.hits - 1 }) k
                opponent.agentState.agentMap.agentShips } }
          hubToAgent := opponent.hubToAgent ++
            [resultLine agent g (if target.hits = 1 then .SUNK else .HIT)] }) := by
  obtain ⟨hpos, hrun⟩ := (handle_valid_guess_spec rules agent opponent g hinv hnew).2 k target hk hg
  refine ⟨hpos, ?_⟩
  rw [handle_valid_guess_eq, hrun]
  have hlook : (modifyAt (fun ship : Ship => { ship with hits := ship.hits - 1 }) k
      opponent.agentState.agentMap.agentShips)[k]?.map (fun ship => ship.hits)
        = some (target.hits - 1) := by
    rw [modifyAt_getElem?, if_pos rfl, hk]
    rfl
  have hcond : ((modifyAt (fun ship : Ship => { ship with hits := ship.hits - 1 }) k
      opponent.agentState.agentMap.agentShips)[k]?.map (fun ship => ship.hits) = some 0)
        ↔ target.hits = 1 := by
    rw [hlook]
    simp only [Option.some.injEq]
    omega
  by_cases h1 : target.hits = 1
  · have hc := hcond.mpr h1
    simp only [handle_valid_guess_hit, guessStart, hc, h1, if_true]
    rfl
  · have hc : ¬ _ := fun h => h1 (hcond.mp h)
    simp only [handle_valid_guess_hit, guessStart, hc, h1, if_false]
    rfl

/-! ### The remaining hits during play -/

theorem resultLine_HIT_ne_SUNK (agent : Agent) (g : CStr) :
    resultLine agent g .HIT ≠ resultLine agent g .SUNK := by
  intro h
  have := congrArg List.head? h
  simp [resultLine, broadcast_line] at this

theorem resultLine_MISS_ne_SUNK (agent : Agent) (g : CStr) :
    resultLine agent g .MISS ≠ resultLine agent g .SUNK := by
  intro h
  have := congrArg List.head? h
  simp [resultLine, broadcast_line] at this

theorem broadcast_line_SUNK (agent : Agent) (g : CStr) :
    broadcast_line agent.agentState.agentId g .SUNK = some (resultLine agent g .SUNK) := rfl

theorem PlayInv.unique (rules : Rules) (G : List CStr) (m : AgentMap) (hinv : PlayInv rules G m)
    (g : CStr) (k j : Nat) (target ship : Ship) (hk : m.agentShips[k]? = some target)
    (hg : g ∈ target.coordinates) (hj : m.agentShips[j]? = some ship) (hne : j ≠ k) :
    g ∉ ship.coordinates := by
  intro hgs
  have hpw := (List.nodup_flatten.mp hinv.distinct).2
  rw [List.pairwise_iff_getElem] at hpw
  obtain ⟨hkl, hke⟩ := List.getElem?_eq_some_iff.mp hk
  obtain ⟨hjl, hje⟩ := List.getElem?_eq_some_iff.mp hj
  rcases Nat.lt_or_gt_of_ne hne with hlt | hgt
  · have := hpw j k (by simpa using hjl) (by simpa using hkl) hlt
    simp only [List.getElem_map, hke, hje] at this
    exact this hgs hg
  · have := hpw k j (by simpa using hkl) (by simpa using hjl) hgt
    simp only [List.getElem_map, hke, hje] at this
    exact this hg hgs

theorem modifyAt_map_coordinates (k : Nat) (l : List Ship) :
    (modifyAt (fun ship : Ship => { ship with hits := ship.hits - 1 }) k l).map
        (fun ship => ship.coordinates) = l.map (fun ship => ship.coordinates) := by
  induction l generalizing k with
  | nil => simp [modifyAt]
  | cons x xs ih =>
    cases k with
    | zero => simp [modifyAt]
    | succ k => simp [modifyAt, ih]

theorem sunkShips_modifyAt (l : List Ship) :
    ∀ (k : Nat) (target : Ship), l[k]? = some target → target.hits > 0 →
      ((modifyAt (fun ship : Ship => { ship with hits := ship.hits - 1 }) k l).filter
          (fun ship => decide (ship.hits = 0))).length =
        (l.filter (fun ship => decide (ship.hits = 0))).length +
          (if target.hits = 1 then 1 else 0) := by
  induction l with
  | nil => intro k target h; simp at h
  | cons x xs ih =>
    intro k target hk hpos
    cases k with
    | zero =>
      simp only [List.getElem?_cons_zero, Option.some.injEq] at hk
      subst hk
      simp only [modifyAt, List.filter_cons]
      have h0 : decide (x.hits = 0) = false := by
        simp only [decide_eq_false_iff_not]; omega
      rw [h0]
      by_cases h1 : x.hits = 1
      · have : decide (x.hits - 1 = 0) = true := by
          simp only [decide_eq_true_eq]; omega
        simp [this, h1]
      · have : decide (x.hits - 1 = 0) = false := by
          simp only [decide_eq_false_iff_not]; omega
        simp [this, h1]
    | succ k =>
      simp only [List.getElem?_cons_succ] at hk
      have := ih k target hk hpos
      simp only [modifyAt, List.filter_cons]
      split
      · simp only [List.length_cons]; omega
      · exact this

/-- One accepted guess on a map in play: the state of the ships stays in order for
the longer list of guesses, one line is sent, the same to both agents, and either
no ship changes (MISS), or exactly the ship with the guess among its coordinates
loses one hit (SUNK when it was its last, HIT otherwise). -/
theorem handle_valid_guess_step (rules : Rules) (agent opponent : Agent) (g : CStr)
    (hinv : PlayInv rules agent.agentState.agentGuesses opponent.agentState.agentMap)
    (hnew : g ∉ agent.agentState.agentGuesses) :
    PlayInv rules (agent.agentState.agentGuesses ++ [g])
      (handle_valid_guess g rules agent opponent).2.agentState.agentMap ∧
    (((∀ ship ∈ opponent.agentState.agentMap.agentShips, g ∉ ship.coordinates) ∧
      (handle_valid_guess g rules agent opponent).2.agentState.agentMap.agentShips =
        opponent.agentState.agentMap.agentShips ∧
      (handle_valid_guess g rules agent opponent).1.hubToAgent =
        agent.hubToAgent ++ [resultLine agent g .MISS] ∧
      (handle_valid_guess g rules agent opponent).2.hubToAgent =
        opponent.hubToAgent ++ [resultLine agent g .MISS]) ∨
     (∃ (k : Nat) (target : Ship),
      opponent.agentState.agentMap.agentShips[k]? = some target ∧ g ∈ target.coordinates ∧
      target.hits > 0 ∧
      (handle_valid_guess g rules agent opponent).2.agentState.agentMap.agentShips =
        modifyAt (fun ship => { ship with hits := ship.hits - 1 }) k
          opponent.agentState.agentMap.agentShips ∧
      (handle_valid_guess g rules agent opponent).1.hubToAgent =
        agent.hubToAgent ++ [resultLine agent g (if target.hits = 1 then .SUNK else .HIT)] ∧
      (handle_valid_guess g rules agent opponent).2.hubToAgent =
        opponent.hubToAgent ++ [resultLine agent g (if target.hits = 1 then .SUNK else .HIT)])) := by
  by_cases hex : ∃ ship ∈ opponent.agentState.agentMap.agentShips, g ∈ ship.coordinates
  · obtain ⟨target, hmem, hg⟩ := hex
    obtain ⟨k, hk⟩ := List.mem_iff_getElem?.mp hmem
    obtain ⟨hpos, hres⟩ := handle_valid_guess_hit_result rules agent opponent g hinv hnew k target hk hg
    rw [hres]
    refine ⟨⟨?_, ?_, ?_, ?_⟩, Or.inr ⟨k, target, hk, hg, hpos, rfl, rfl, rfl⟩⟩
    · show ((modifyAt _ k _).length : Int) = _
      rw [modifyAt_length]; exact hinv.ships
    · intro j ship hj
      have hj' : (modifyAt (fun ship : Ship => { ship with hits := ship.hits - 1 }) k
          opponent.agentState.agentMap.agentShips)[j]? = some ship := hj
      rw [modifyAt_getElem?] at hj'
      split at hj'
      · cases ho : opponent.agentState.agentMap.agentShips[j]? with
        | none => rw [ho] at hj'; simp at hj'
        | some old =>
          rw [ho] at hj'
          simp only [Option.map_some', Option.some.injEq] at hj'
          rw [← hj']
          exact hinv.lengths j old ho
      · exact hinv.lengths j ship hj'
    · show ((modifyAt _ k _).map _).flatten.Nodup
      rw [modifyAt_map_coordinates]; exact hinv.distinct
    · intro ship hship
      obtain ⟨j, hj⟩ := List.mem_iff_getElem?.mp hship
      have hj' : (modifyAt (fun ship : Ship => { ship with hits := ship.hits - 1 }) k
          opponent.agentState.agentMap.agentShips)[j]? = some ship := hj
      rw [modifyAt_getElem?] at hj'
      have hnd : target.coordinates.Nodup :=
        (List.nodup_flatten.mp hinv.distinct).1 _ (List.mem_map.mpr ⟨target, hmem, rfl⟩)
      by_cases hjk : j = k
      · rw [if_pos hjk, hjk, hk] at hj'
        simp only [Option.map_some', Option.some.injEq] at hj'
        rw [← hj']
        show target.hits - 1 = ((List.filter
          (fun c => decide (c ∉ agent.agentState.agentGuesses ++ [g]))
          target.coordinates).length : Int)
        have h1 := hinv.hits target hmem
        have h2 := filter_unguessed_hit agent.agentState.agentGuesses g hnew
          target.coordinates hnd hg
        rw [h1]
        omega
      · rw [if_neg hjk] at hj'
        have hno := PlayInv.unique rules _ _ hinv g k j target ship hk hg hj' hjk
        rw [filter_unguessed_miss _ _ _ hno]
        exact hinv.hits ship (List.getElem?_mem hj')
  · have hmiss : ∀ ship ∈ opponent.agentState.agentMap.agentShips, g ∉ ship.coordinates := by
      intro ship hs hg
      exact hex ⟨ship, hs, hg⟩
    rw [handle_valid_guess_miss rules agent opponent g hinv hnew hmiss]
    refine ⟨⟨hinv.ships, hinv.lengths, hinv.distinct, ?_⟩, Or.inl ⟨hmiss, rfl, rfl, rfl⟩⟩
    intro ship hship
    have hship' : ship ∈ opponent.agentState.agentMap.agentShips := hship
    rw [filter_unguessed_miss _ _ _ (hmiss ship hship')]
    exact hinv.hits ship hship'

theorem getLast?_snoc {α : Type} (l : List α) (x : α) : (l ++ [x]).getLast? = some x := by
  simp

theorem validate_coordinate_zero (rules : Rules) (agent : Agent) (c : CStr)
    (h : validate_coordinate rules agent c = 0) :
    check_coordinate_bounds c rules = 0 ∧ c ∉ agent.agentState.agentGuesses := by
  unfold validate_coordinate at h
  by_cases hb : check_coordinate_bounds c rules = 0
  · rw [if_neg (by simpa using hb)] at h
    refine ⟨hb, ?_⟩
    intro hmem
    have : agent.agentState.agentGuesses.contains c = true := by simpa using hmem
    rw [if_pos this] at h
    exact absurd h (by decide)
  · rw [if_pos hb] at h
    exact absurd h (by decide)

/-- A map accepted by `parse_map_message` under valid rules starts the play in
order: every ship has all its hits left and none is sunk. -/
theorem parse_map_message_play (rules : Rules) (hv : rules.valid) (mapMessage : CStr)
    (m : AgentMap)
    (hrun : parse_map_message (initialise_grids rules initialMap) rules mapMessage = (0, m)) :
    PlayInv rules [] m ∧ sunkShips m = 0 := by
  obtain ⟨hinv, hcount, hmatch, _⟩ := parse_map_message_spec rules hv mapMessage m hrun
  have hlen : (m.agentShips.length : Int) = rules.numberOfShips := by
    rw [hinv.count]; exact hcount
  constructor
  · refine ⟨hlen, ?_, ?_, ?_⟩
    · intro k ship hk
      obtain ⟨_, _, _, hl⟩ := hmatch k ship hk
      exact ⟨hl, (hinv.counters ship (List.getElem?_mem hk)).2⟩
    · have hnd := hinv.nodup
      have hc : m.cells = ((m.agentShips.map (fun ship => ship.coordinates)).flatten).map
          parse_coordinates := by
        rw [List.map_flatten, List.map_map]
        rfl
      rw [hc] at hnd
      exact List.Nodup.of_map _ hnd
    · intro ship hship
      rw [(hinv.counters ship hship).1]
      simp
  · unfold sunkShips
    rw [List.length_eq_zero, List.filter_eq_nil_iff]
    intro ship hship
    obtain ⟨k, hk⟩ := List.mem_iff_getElem?.mp hship
    obtain ⟨_, _, _, hl⟩ := hmatch k ship hk
    have hkl : (k : Int) < rules.numberOfShips := by
      have := (List.getElem?_eq_some_iff.mp hk).1
      omega
    have hge := Rules.valid.length_ge rules hv k hkl
    have hh := (hinv.counters ship hship).1
    simp only [decide_eq_true_eq]
    omega

/-- In every reachable state the ships are in order, and the number of guesses
answered with SUNK is the number of ships without hits left. -/
theorem reachable_inv (rules : Rules) (hv : rules.valid) (guesses : List CStr) (m : AgentMap)
    (sunk : Nat) (hreach : Reachable rules guesses m sunk) :
    PlayInv rules guesses m ∧ sunk = sunkShips m := by
  induction hreach with
  | start mapMessage agentMap hrun =>
    obtain ⟨h1, h2⟩ := parse_map_message_play rules hv mapMessage agentMap hrun
    exact ⟨h1, h2.symm⟩
  | guess agent opponent c sunk _ hacc ih =>
    obtain ⟨hinv, hsunk⟩ := ih
    obtain ⟨_, hnew⟩ := validate_coordinate_zero rules agent c hacc
    obtain ⟨hinv', hcases⟩ := handle_valid_guess_step rules agent opponent c hinv hnew
    refine ⟨hinv', ?_⟩
    rcases hcases with ⟨_, hships, _, hline⟩ | ⟨k, target, hk, _, hpos, hships, _, hline⟩
    · have hne : ¬ ((handle_valid_guess c rules agent opponent).2.hubToAgent.getLast? =
          broadcast_line agent.agentState.agentId c .SUNK) := by
        rw [hline, broadcast_line_SUNK, getLast?_snoc]
        simp only [Option.some.injEq]
        exact resultLine_MISS_ne_SUNK agent c
      rw [if_neg hne, hsunk]
      unfold sunkShips
      rw [hships]
      rfl
    · have hiff : ((handle_valid_guess c rules agent opponent).2.hubToAgent.getLast? =
          broadcast_line agent.agentState.agentId c .SUNK) ↔ target.hits = 1 := by
        rw [hline, broadcast_line_SUNK, getLast?_snoc]
        simp only [Option.some.injEq]
        by_cases h1 : target.hits = 1
        · simp [h1]
        · simp only [h1, if_false, iff_false]
          exact resultLine_HIT_ne_SUNK agent c
      unfold sunkShips
      rw [hships, sunkShips_modifyAt _ k target hk hpos, hsunk]
      unfold sunkShips
      by_cases h1 : target.hits = 1
      · rw [if_pos (hiff.mpr h1), if_pos h1]
      · rw [if_neg (fun h => h1 (hiff.mp h)), if_neg h1]

/-- C2: in every state reachable by accepted guesses from a map accepted by
`parse_map_message` (under valid rules), every ship has `0 <= hits <= length`, and
the number of guesses answered with SUNK so far is the number of ships without
hits left.  A further accepted guess keeps the ships and their coordinates,
lowers the hits of at most one ship, by exactly one, and is answered with one
line sent to both agents, which is SUNK exactly when the hits of a ship go from
1 to 0. -/
theorem remaining_hits_invariant (rules : Rules) (hv : rules.valid) (guesses : List CStr)
    (m : AgentMap) (sunk : Nat) (hreach : Reachable rules guesses m sunk) :
    (∀ ship ∈ m.agentShips, 0 ≤ ship.hits ∧ ship.hits ≤ ship.length) ∧
    sunk = sunkShips m ∧
    ∀ (agent opponent : Agent) (c : CStr),
      agent.agentState.agentGuesses = guesses → opponent.agentState.agentMap = m →
      validate_coordinate rules agent c = 0 →
      (handle_valid_guess c rules agent opponent).2.agentState.agentMap.agentShips.length =
        m.agentShips.length ∧
      (∀ (k : Nat) (ship ship' : Ship), m.agentShips[k]? = some ship →
        (handle_valid_guess c rules agent opponent).2.agentState.agentMap.agentShips[k]?
          = some ship' →
        (ship'.hits = ship.hits ∨ ship'.hits = ship.hits - 1) ∧
          ship'.coordinates = ship.coordinates ∧ ship'.length = ship.length) ∧
      (∀ (k1 k2 : Nat) (s1 s1' s2 s2' : Ship),
        m.agentShips[k1]? = some s1 →
        (handle_valid_guess c rules agent opponent).2.agentState.agentMap.agentShips[k1]?
          = some s1' →
        m.agentShips[k2]? = some s2 →
        (handle_valid_guess c rules agent opponent).2.agentState.agentMap.agentShips[k2]?
          = some s2' →
        s1'.hits ≠ s1.hits → s2'.hits ≠ s2.hits → k1 = k2) ∧
      ∃ t : HubMessage, (t = .SUNK ∨ t = .HIT ∨ t = .MISS) ∧
        (handle_valid_guess c rules agent opponent).1.hubToAgent =
          agent.hubToAgent ++ [resultLine agent c t] ∧
        (handle_valid_guess c rules agent opponent).2.hubToAgent =
          opponent.hubToAgent ++ [resultLine agent c t] ∧
        (t = .SUNK ↔ ∃ (k : Nat) (ship ship' : Ship), m.agentShips[k]? = some ship ∧
          (handle_valid_guess c rules agent opponent).2.agentState.agentMap.agentShips[k]?
            = some ship' ∧ ship.hits = 1 ∧ ship'.hits = 0) := by
  obtain ⟨hinv, hsunk⟩ := reachable_inv rules hv guesses m sunk hreach
  refine ⟨?_, hsunk, ?_⟩
  · intro ship hship
    obtain ⟨k, hk⟩ := List.mem_iff_getElem?.mp hship
    rw [hinv.hits ship hship, (hinv.lengths k ship hk).2]
    refine ⟨by omega, ?_⟩
    have := List.length_filter_le (fun c => decide (c ∉ guesses)) ship.coordinates
    omega
  · intro agent opponent c hguesses hmap hacc
    subst hguesses hmap
    obtain ⟨_, hnew⟩ := validate_coordinate_zero rules agent c hacc
    obtain ⟨_, hcases⟩ := handle_valid_guess_step rules agent opponent c hinv hnew
    rcases hcases with ⟨_, hships, hl1, hl2⟩ | ⟨k, target, hk, _, hpos, hships, hl1, hl2⟩
    · rw [hships]
      refine ⟨rfl, ?_, ?_, .MISS, Or.inr (Or.inr rfl), hl1, hl2, ?_⟩
      · intro j ship ship' h1 h2
        rw [h1] at h2
        simp only [Option.some.injEq] at h2
        subst h2
        exact ⟨Or.inl rfl, rfl, rfl⟩
      · intro k1 k2 s1 s1' s2 s2' h1 h1' _ _ hne _
        rw [h1] at h1'
        simp only [Option.some.injEq] at h1'
        subst h1'
        exact absurd rfl hne
      · constructor
        · intro h; cases h
        · intro ⟨j, ship, ship', h1, h2, h10, h0⟩
          rw [h1] at h2
          simp only [Option.some.injEq] at h2
          subst h2
          omega
    · have hlook : ∀ (j : Nat) (ship ship' : Ship),
          opponent.agentState.agentMap.agentShips[j]? = some ship →
          (modifyAt (fun ship : Ship => { ship with hits := ship.hits - 1 }) k
            opponent.agentState.agentMap.agentShips)[j]? = some ship' →
          (j = k ∧ ship = target ∧ ship' = { ship with hits := ship.hits - 1 }) ∨
            (j ≠ k ∧ ship' = ship) := by
        intro j ship ship' h1 h2
        rw [modifyAt_getElem?, h1] at h2
        by_cases hjk : j = k
        · rw [if_pos hjk] at h2
          simp only [Option.map_some', Option.some.injEq] at h2
          rw [hjk, hk] at h1
          simp only [Option.some.injEq] at h1
          exact Or.inl ⟨hjk, h1.symm, h2.symm⟩
        · rw [if_neg hjk] at h2
          simp only [Option.some.injEq] at h2
          exact Or.inr ⟨hjk, h2.symm⟩
      rw [hships]
      refine ⟨modifyAt_length _ _ _, ?_, ?_,
        (if target.hits = 1 then .SUNK else .HIT), ?_, hl1, hl2, ?_⟩
      · intro j ship ship' h1 h2
        rcases hlook j ship ship' h1 h2 with ⟨_, _, h⟩ | ⟨_, h⟩
        · rw [h]; exact ⟨Or.inr rfl, rfl, rfl⟩
        · rw [h]; exact ⟨Or.inl rfl, rfl, rfl⟩
      · intro k1 k2 s1 s1' s2 s2' h1 h1' h2 h2' hne1 hne2
        rcases hlook k1 s1 s1' h1 h1' with ⟨e1, _, _⟩ | ⟨_, h⟩
        · rcases hlook k2 s2 s2' h2 h2' with ⟨e2, _, _⟩ | ⟨_, h⟩
          · rw [e1, e2]
          · rw [h] at hne2; exact absurd rfl hne2
        · rw [h] at hne1; exact absurd rfl hne1
      · by_cases h1 : target.hits = 1
        · rw [if_pos h1]; exact Or.inl rfl
        · rw [if_neg h1]; exact Or.inr (Or.inl rfl)
      · constructor
        · intro ht
          have h1 : target.hits = 1 := by
            by_contra hne
            rw [if_neg hne] at ht
            cases ht
          refine ⟨k, target, { target with hits := target.hits - 1 }, hk, ?_, h1, ?_⟩
          · rw [modifyAt_getElem?, if_pos rfl, hk]
            rfl
          · show target.hits - 1 = 0
            omega
        · intro ⟨j, ship, ship', h1, h2, h10, h0⟩
          rcases hlook j ship ship' h1 h2 with ⟨_, e, _⟩ | ⟨_, h⟩
          · rw [← e, if_pos h10]
          · rw [h] at h0; omega

/-- Witness of C2: the state after the accepted guess `A1` against the map of
`MAP A1,E`. -/
theorem remaining_hits_invariant_witness :
    exampleRules.valid ∧
    validate_coordinate exampleRules (exampleAgent 1 "") "A1".toList = 0 ∧
    ∀ ship ∈ (handle_valid_guess "A1".toList exampleRules (exampleAgent 1 "")
        (exampleAgent 2 "")).2.agentState.agentMap.agentShips,
      0 ≤ ship.hits ∧ ship.hits ≤ ship.length :=
  ⟨by decide, by decide,
   (remaining_hits_invariant exampleRules (by decide) _ _ _
      (Reachable.guess (exampleAgent 1 "") (exampleAgent 2 "") "A1".toList 0
        (Reachable.start "MAP A1,E".toList exampleMap (by decide)) (by decide))).1⟩

/-! ### The result of a turn -/

theorem broadcast_message_snd (agent opponent : Agent) (agentId : Int) (coordinates : CStr)
    (messageType : HubMessage) :
    (broadcast_message agent opponent agentId coordinates messageType).2.agentState
        = opponent.agentState ∧
    (broadcast_message agent opponent agentId coordinates messageType).2.agentToHub
        = opponent.agentToHub := by
  unfold broadcast_message
  cases broadcast_line agentId coordinates messageType with
  | none => exact ⟨rfl, rfl⟩
  | some line => exact ⟨rfl, rfl⟩

/-- What `handle_valid_guess` leaves of the opponent: its guess history, its id
and its stream to the hub. -/
theorem handle_valid_guess_opponent (coordinates : CStr) (rules : Rules) (agent opponent : Agent) :
    (handle_valid_guess coordinates rules agent opponent).2.agentState.agentGuesses =
      opponent.agentState.agentGuesses ∧
    (handle_valid_guess coordinates rules agent opponent).2.agentState.agentId =
      opponent.agentState.agentId ∧
    (handle_valid_guess coordinates rules agent opponent).2.agentToHub = opponent.agentToHub := by
  have key := handle_valid_guess_ships_induct
    (fun st => st.opponent.agentState.agentGuesses = opponent.agentState.agentGuesses ∧
      st.opponent.agentState.agentId = opponent.agentState.agentId ∧
      st.opponent.agentToHub = opponent.agentToHub)
    coordinates (parse_coordinates coordinates).2 (parse_coordinates coordinates).1 rules
    (by
      intro i st ⟨h1, h2, h3⟩
      unfold handle_valid_guess_hit
      simp only []
      obtain ⟨b1, b2⟩ := broadcast_message_snd st.agent
        { st.opponent with
          agentState := { st.opponent.agentState with
            agentMap := { st.opponent.agentState.agentMap with
              agentGrid := gridSet st.opponent.agentState.agentMap.agentGrid
                (parse_coordinates coordinates).2 (parse_coordinates coordinates).1 HIT_MARKER
              agentShips := modifyAt (fun ship => { ship with hits := ship.hits - 1 }) i
                st.opponent.agentState.agentMap.agentShips } } }
        st.agent.agentState.agentId coordinates
        (if ((modifyAt (fun ship => { ship with hits := ship.hits - 1 }) i
            st.opponent.agentState.agentMap.agentShips)[i]?.map (fun ship => ship.hits)) = some 0
          then .SUNK else .HIT)
      rw [b1, b2]
      exact ⟨h1, h2, h3⟩)
    rules.numberOfShips.toNat 0 (guessStart coordinates agent opponent) ⟨rfl, rfl, rfl⟩
  obtain ⟨k1, k2, k3⟩ := key
  rw [handle_valid_guess_eq]
  split
  · obtain ⟨b1, b2⟩ := broadcast_message_snd
      (handle_valid_guess_ships coordinates (parse_coordinates coordinates).2
        (parse_coordinates coordinates).1 rules rules.numberOfShips.toNat 0
        (guessStart coordinates agent opponent)).agent
      { (handle_valid_guess_ships coordinates (parse_coordinates coordinates).2
          (parse_coordinates coordinates).1 rules rules.numberOfShips.toNat 0
          (guessStart coordinates agent opponent)).opponent with
        agentState := { (handle_valid_guess_ships coordinates (parse_coordinates coordinates).2
            (parse_coordinates coordinates).1 rules rules.numberOfShips.toNat 0
            (guessStart coordinates agent opponent)).opponent.agentState with
          agentMap := { (handle_valid_guess_ships coordinates (parse_coordinates coordinates).2
              (parse_coordinates coordinates).1 rules rules.numberOfShips.toNat 0
              (guessStart coordinates agent opponent)).opponent.agentState.agentMap with
            agentGrid := gridSet (handle_valid_guess_ships coordinates
              (parse_coordinates coordinates).2 (parse_coordinates coordinates).1 rules
              rules.numberOfShips.toNat 0
              (guessStart coordinates agent opponent)).opponent.agentState.agentMap.agentGrid
              (parse_coordinates coordinates).2 (parse_coordinates coordinates).1 MISS_MARKER } } }
      agent.agentState.agentId coordinates .MISS
    rw [b1, b2]
    exact ⟨k1, k2, k3⟩
  · exact ⟨k1, k2, k3⟩

/-- A turn either fails with the result 1, leaving the guess history and map of
the agent and the whole opponent as they were, or it is the acceptance of a
coordinate that `validate_coordinate` let pass, by the same agent after some
prompts. -/
theorem handle_agent_turn_cases (rules : Rules) (opponent : Agent) :
    ∀ (n : Nat) (agent : Agent), agent.agentToHub.length = n →
      ((handle_agent_turn rules agent opponent).1 = 1 ∧
        (handle_agent_turn rules agent opponent).2.1.agentState = agent.agentState ∧
        (handle_agent_turn rules agent opponent).2.2 = opponent) ∨
      ∃ (reader : Agent) (c : CStr), reader.agentState = agent.agentState ∧
        validate_coordinate rules reader c = 0 ∧
        handle_agent_turn rules agent opponent =
          handle_agent_turn_accept rules reader opponent c := by
  intro n
  induction n using Nat.strong_induction_on with
  | _ n ih =>
    intro agent hn
    rw [handle_agent_turn_unfold]
    by_cases he : (parse_input agent.agentToHub).2.1 = true
    · rw [if_pos he]
      exact Or.inl ⟨rfl, rfl, rfl⟩
    · have he' : (parse_input agent.agentToHub).2.1 = false := by simpa using he
      rw [if_neg he]
      have hlen := parse_input_length agent.agentToHub he'
      cases hv : validate_guess_message (parse_input agent.agentToHub).1 with
      | none => exact Or.inl ⟨rfl, rfl, rfl⟩
      | some c =>
        by_cases hvc : validate_coordinate rules
            (prompted agent (parse_input agent.agentToHub).2.2) c = 0
        · refine Or.inr ⟨prompted agent (parse_input agent.agentToHub).2.2, c, rfl, hvc, ?_⟩
          show (if validate_coordinate rules
            (prompted agent (parse_input agent.agentToHub).2.2) c = 0 then _ else _) = _
          rw [if_pos hvc]
        · have hstep : (match some c with
              | none => (1, prompted agent (parse_input agent.agentToHub).2.2, opponent)
              | some coordinates =>
                if validate_coordinate rules (prompted agent (parse_input agent.agentToHub).2.2)
                    coordinates = 0 then
                  handle_agent_turn_accept rules
                    (prompted agent (parse_input agent.agentToHub).2.2) opponent coordinates
                else
                  handle_agent_turn rules (prompted agent (parse_input agent.agentToHub).2.2)
                    opponent) =
              handle_agent_turn rules (prompted agent (parse_input agent.agentToHub).2.2)
                opponent := by
            show (if validate_coordinate rules
              (prompted agent (parse_input agent.agentToHub).2.2) c = 0 then _ else _) = _
            rw [if_neg hvc]
          rw [hstep]
          rcases ih _ (by rw [← hn]; exact hlen)
            (prompted agent (parse_input agent.agentToHub).2.2) rfl with h | h
          · exact Or.inl h
          · obtain ⟨reader, c', h1, h2, h3⟩ := h
            exact Or.inr ⟨reader, c', h1, h2, h3⟩

theorem shipsRemaining_false_iff (rules : Rules) (opponent : Agent)
    (hlen : (opponent.agentState.agentMap.agentShips.length : Int) = rules.numberOfShips) :
    shipsRemaining rules opponent = false ↔
      ∀ ship ∈ opponent.agentState.agentMap.agentShips, ship.hits ≤ 0 := by
  unfold shipsRemaining
  rw [List.any_eq_false]
  constructor
  · intro h ship hship
    obtain ⟨k, hk⟩ := List.mem_iff_getElem?.mp hship
    have hkl := (List.getElem?_eq_some_iff.mp hk).1
    have := h k (List.mem_range.mpr (by omega))
    rw [hk] at this
    simpa using this
  · intro h k _
    cases hk : opponent.agentState.agentMap.agentShips[k]? with
    | none => simp
    | some ship =>
      have := h ship (List.getElem?_mem hk)
      simpa using this

/-- The result of an accepted guess on a map in play: 2 exactly when every ship
of the opponent is left without hits, 0 exactly when one has hits left. -/
theorem handle_agent_turn_accept_status (rules : Rules) (reader opponent : Agent) (c : CStr)
    (hinv : PlayInv rules reader.agentState.agentGuesses opponent.agentState.agentMap)
    (hacc : validate_coordinate rules reader c = 0) :
    ((handle_agent_turn_accept rules reader opponent c).1 = 2 ↔
      ∀ ship ∈ (handle_agent_turn_accept rules reader opponent c).2.2.agentState.agentMap.agentShips,
        ship.hits = 0) ∧
    ((handle_agent_turn_accept rules reader opponent c).1 = 0 ↔
      ∃ ship ∈ (handle_agent_turn_accept rules reader opponent c).2.2.agentState.agentMap.agentShips,
        ship.hits ≠ 0) := by
  obtain ⟨_, hnew⟩ := validate_coordinate_zero rules reader c hacc
  have hstep := (handle_valid_guess_step rules
    { reader with hubToAgent := reader.hubToAgent ++ ["OK".toList] } opponent c hinv hnew).1
  have hiff := shipsRemaining_false_iff rules
    (handle_valid_guess c rules
      { reader with hubToAgent := reader.hubToAgent ++ ["OK".toList] } opponent).2 hstep.ships
  have hnonneg : ∀ ship ∈ (handle_valid_guess c rules
      { reader with hubToAgent := reader.hubToAgent ++ ["OK".toList] }
      opponent).2.agentState.agentMap.agentShips, 0 ≤ ship.hits := by
    intro ship hship
    rw [hstep.hits ship hship]
    omega
  unfold handle_agent_turn_accept
  simp only []
  by_cases hrem : shipsRemaining rules (handle_valid_guess c rules
      { reader with hubToAgent := reader.hubToAgent ++ ["OK".toList] } opponent).2 = true
  · rw [if_pos hrem]
    have hnot : ¬ ∀ ship ∈ (handle_valid_guess c rules
        { reader with hubToAgent := reader.hubToAgent ++ ["OK".toList] }
        opponent).2.agentState.agentMap.agentShips, ship.hits ≤ 0 := by
      intro h
      rw [hiff.mpr h] at hrem
      exact absurd hrem (by decide)
    constructor
    · constructor
      · intro h; exact absurd (show (0 : Int) = 2 from h) (by decide)
      · intro h
        exfalso
        apply hnot
        intro ship hship
        rw [h ship hship]
    · constructor
      · intro _
        by_contra hall
        apply hnot
        intro ship hship
        by_contra hpos
        exact hall ⟨ship, hship, by omega⟩
      · intro _; rfl
  · have hrem' : shipsRemaining rules (handle_valid_guess c rules
        { reader with hubToAgent := reader.hubToAgent ++ ["OK".toList] } opponent).2 = false := by
      simpa using hrem
    rw [if_neg hrem]
    have hall := hiff.mp hrem'
    constructor
    · constructor
      · intro _ ship hship
        have h1 := hall ship hship
        have h2 := hnonneg ship hship
        omega
      · intro _; rfl
    · constructor
      · intro h; exact absurd (show (2 : Int) = 0 from h) (by decide)
      · intro ⟨ship, hship, hne⟩
        have h1 := hall ship hship
        have h2 := hnonneg ship hship
        omega

theorem handle_agent_turn_accept_opponent (rules : Rules) (reader opponent : Agent) (c : CStr) :
    (handle_agent_turn_accept rules reader opponent c).2.2.agentState.agentGuesses =
      opponent.agentState.agentGuesses ∧
    (handle_agent_turn_accept rules reader opponent c).2.2.agentState.agentId =
      opponent.agentState.agentId ∧
    (handle_agent_turn_accept rules reader opponent c).2.2.agentToHub = opponent.agentToHub := by
  have h := handle_valid_guess_opponent c rules
    { reader with hubToAgent := reader.hubToAgent ++ ["OK".toList] } opponent
  unfold handle_agent_turn_accept
  simp only []
  split <;> exact h

/-- What a turn leaves untouched: the id and map of the agent, and the guess
history, id and stream of the opponent. -/
theorem handle_agent_turn_frame (rules : Rules) (agent opponent : Agent) :
    (handle_agent_turn rules agent opponent).2.1.agentState.agentId = agent.agentState.agentId ∧
    (handle_agent_turn rules agent opponent).2.1.agentState.agentMap =
      agent.agentState.agentMap ∧
    (handle_agent_turn rules agent opponent).2.2.agentState.agentGuesses =
      opponent.agentState.agentGuesses ∧
    (handle_agent_turn rules agent opponent).2.2.agentState.agentId =
      opponent.agentState.agentId ∧
    (handle_agent_turn rules agent opponent).2.2.agentToHub = opponent.agentToHub := by
  rcases handle_agent_turn_cases rules opponent _ agent rfl with ⟨_, h2, h3⟩ | ⟨reader, c, h1, _, h3⟩
  · rw [h2, h3]
    exact ⟨rfl, rfl, rfl, rfl, rfl⟩
  · rw [h3]
    obtain ⟨_, ha, _, _⟩ := handle_agent_turn_accept_agent rules reader opponent c
    obtain ⟨o1, o2, o3⟩ := handle_agent_turn_accept_opponent rules reader opponent c
    rw [ha, h1]
    exact ⟨rfl, rfl, o1, o2, o3⟩

theorem hub_play_round_over (rules : Rules) (round : RoundState) (h : round.gameOver = 1) :
    hub_play_round rules round = (0, round) := by
  unfold hub_play_round
  split
  · rw [if_neg (by rw [h]; decide)]
  · rfl

theorem handle_agent_turn_status (rules : Rules) (hv : rules.valid) (agent opponent : Agent)
    (sunk : Nat)
    (hreach : Reachable rules agent.agentState.agentGuesses opponent.agentState.agentMap sunk) :
    ((handle_agent_turn rules agent opponent).1 = 2 ↔
      (handle_agent_turn rules agent opponent).1 ≠ 1 ∧
      ∀ ship ∈ (handle_agent_turn rules agent opponent).2.2.agentState.agentMap.agentShips,
        ship.hits = 0) ∧
    ((handle_agent_turn rules agent opponent).1 = 0 ↔
      (handle_agent_turn rules agent opponent).1 ≠ 1 ∧
      ∃ ship ∈ (handle_agent_turn rules agent opponent).2.2.agentState.agentMap.agentShips,
        ship.hits ≠ 0) := by
  obtain ⟨hinv, _⟩ := reachable_inv rules hv _ _ sunk hreach
  rcases handle_agent_turn_cases rules opponent _ agent rfl with ⟨h1, _, _⟩ | ⟨reader, c, h1, h2, h3⟩
  · constructor
    · constructor
      · intro h; rw [h1] at h; exact absurd h (by decide)
      · intro ⟨h, _⟩; exact absurd h1 h
    · constructor
      · intro h; rw [h1] at h; exact absurd h (by decide)
      · intro ⟨h, _⟩; exact absurd h1 h
  · rw [h3]
    have hinv' : PlayInv rules reader.agentState.agentGuesses opponent.agentState.agentMap := by
      rw [h1]; exact hinv
    obtain ⟨s2, s0⟩ := handle_agent_turn_accept_status rules reader opponent c hinv' h2
    obtain ⟨hor, _⟩ := handle_agent_turn_accept_agent rules reader opponent c
    have hne : (handle_agent_turn_accept rules reader opponent c).1 ≠ 1 := by
      rcases hor with h | h <;> rw [h] <;> decide
    exact ⟨⟨fun h => ⟨hne, s2.mp h⟩, fun h => s2.mpr h.2⟩,
      ⟨fun h => ⟨hne, s0.mp h⟩, fun h => s0.mpr h.2⟩⟩

/-- C3: in a state reachable by accepted guesses from accepted maps (valid
rules), `handle_agent_turn` returns 2 exactly when the turn was no
communications error and every ship of the opponent is left without hits, and
0 exactly when it was none and some ship has hits left.  In `hub_play_game`
(body of its loop, `hub_play_round`): when the turn of player 1 returns 2, DONE
with the id of player 1 is sent to both agents, the round is marked as over,
player 2 is given no turn (nothing is read from its stream) and the round is
left alone from then on; when it returns 0, player 2 moves next, and the same
holds for its turn, after which, on 0, the round goes on with player 1. -/
theorem handle_agent_turn_round_won (rules : Rules) (hv : rules.valid) (round : RoundState)
    (sunk1 sunk2 : Nat)
    (hvalid : round.validRound ≠ 0) (hnotover : round.gameOver = 0)
    (hreach1 : Reachable rules round.player1.agentState.agentGuesses
      round.player2.agentState.agentMap sunk1)
    (hreach2 : Reachable rules round.player2.agentState.agentGuesses
      round.player1.agentState.agentMap sunk2) :
    ((handle_agent_turn rules round.player1 round.player2).1 = 2 ↔
      (handle_agent_turn rules round.player1 round.player2).1 ≠ 1 ∧
      ∀ ship ∈ (handle_agent_turn rules round.player1
          round.player2).2.2.agentState.agentMap.agentShips, ship.hits = 0) ∧
    ((handle_agent_turn rules round.player1 round.player2).1 = 0 ↔
      (handle_agent_turn rules round.player1 round.player2).1 ≠ 1 ∧
      ∃ ship ∈ (handle_agent_turn rules round.player1
          round.player2).2.2.agentState.agentMap.agentShips, ship.hits ≠ 0) ∧
    ((handle_agent_turn rules round.player1 round.player2).1 = 2 →
      hub_play_round rules round =
        (0, roundWon round (handle_agent_turn rules round.player1 round.player2).2.1
          (handle_agent_turn rules round.player1 round.player2).2.2 true) ∧
      (handle_agent_turn rules round.player1 round.player2).2.1.agentState.agentId =
        round.player1.agentState.agentId ∧
      (handle_agent_turn rules round.player1 round.player2).2.2.agentToHub =
        round.player2.agentToHub ∧
      hub_play_round rules (hub_play_round rules round).2 = (0, (hub_play_round rules round).2)) ∧
    ((handle_agent_turn rules round.player1 round.player2).1 = 0 →
      ((handle_agent_turn rules
          (handle_agent_turn rules round.player1 round.player2).2.2
          (handle_agent_turn rules round.player1 round.player2).2.1).1 = 2 ↔
        (handle_agent_turn rules
          (handle_agent_turn rules round.player1 round.player2).2.2
          (handle_agent_turn rules round.player1 round.player2).2.1).1 ≠ 1 ∧
        ∀ ship ∈ (handle_agent_turn rules
          (handle_agent_turn rules round.player1 round.player2).2.2
          (handle_agent_turn rules round.player1
            round.player2).2.1).2.2.agentState.agentMap.agentShips, ship.hits = 0) ∧
      ((handle_agent_turn rules
          (handle_agent_turn rules round.player1 round.player2).2.2
          (handle_agent_turn rules round.player1 round.player2).2.1).1 = 2 →
        hub_play_round rules round =
          (0, roundWon round
            (handle_agent_turn rules
              (handle_agent_turn rules round.player1 round.player2).2.2
              (handle_agent_turn rules round.player1 round.player2).2.1).2.1
            (handle_agent_turn rules
              (handle_agent_turn rules round.player1 round.player2).2.2
              (handle_agent_turn rules round.player1 round.player2).2.1).2.2 false) ∧
        (handle_agent_turn rules
          (handle_agent_turn rules round.player1 round.player2).2.2
          (handle_agent_turn rules round.player1 round.player2).2.1).2.1.agentState.agentId =
          round.player2.agentState.agentId ∧
        hub_play_round rules (hub_play_round rules round).2 =
          (0, (hub_play_round rules round).2)) ∧
      ((handle_agent_turn rules
          (handle_agent_turn rules round.player1 round.player2).2.2
          (handle_agent_turn rules round.player1 round.player2).2.1).1 = 0 →
        hub_play_round rules round =
          (0, { round with
            player1 := (handle_agent_turn rules
              (handle_agent_turn rules round.player1 round.player2).2.2
              (handle_agent_turn rules round.player1 round.player2).2.1).2.2
            player2 := (handle_agent_turn rules
              (handle_agent_turn rules round.player1 round.player2).2.2
              (handle_agent_turn rules round.player1 round.player2).2.1).2.1 }))) := by
  obtain ⟨f1, f2, f3, f4, f5⟩ := handle_agent_turn_frame rules round.player1 round.player2
  obtain ⟨a2, a0⟩ := handle_agent_turn_status rules hv round.player1 round.player2 sunk1 hreach1
  refine ⟨a2, a0, ?_, ?_⟩
  · intro h2
    have heq : hub_play_round rules round =
        (0, roundWon round (handle_agent_turn rules round.player1 round.player2).2.1
          (handle_agent_turn rules round.player1 round.player2).2.2 true) := by
      unfold hub_play_round
      rw [if_pos hvalid, if_pos hnotover]
      simp only []
      rw [if_neg (by rw [h2]; decide), if_pos h2]
      rfl
    refine ⟨heq, f1, f5, ?_⟩
    rw [heq]
    exact hub_play_round_over rules _ rfl
  · intro h0
    obtain ⟨g1, _, _, _, _⟩ := handle_agent_turn_frame rules
      (handle_agent_turn rules round.player1 round.player2).2.2
      (handle_agent_turn rules round.player1 round.player2).2.1
    have hreach2' : Reachable rules
        (handle_agent_turn rules round.player1 round.player2).2.2.agentState.agentGuesses
        (handle_agent_turn rules round.player1 round.player2).2.1.agentState.agentMap sunk2 := by
      rw [f3, f2]; exact hreach2
    obtain ⟨b2, _⟩ := handle_agent_turn_status rules hv _ _ sunk2 hreach2'
    refine ⟨b2, ?_, ?_⟩
    · intro h2
      have heq : hub_play_round rules round =
          (0, roundWon round
            (handle_agent_turn rules
              (handle_agent_turn rules round.player1 round.player2).2.2
              (handle_agent_turn rules round.player1 round.player2).2.1).2.1
            (handle_agent_turn rules
              (handle_agent_turn rules round.player1 round.player2).2.2
              (handle_agent_turn rules round.player1 round.player2).2.1).2.2 false) := by
        unfold hub_play_round
        rw [if_pos hvalid, if_pos hnotover]
        simp only []
        rw [if_neg (by rw [h0]; decide), if_neg (by rw [h0]; decide),
          if_neg (by rw [h2]; decide), if_pos h2]
        rfl
      refine ⟨heq, by rw [g1, f4], ?_⟩
      rw [heq]
      exact hub_play_round_over rules _ rfl
    · intro h00
      unfold hub_play_round
      rw [if_pos hvalid, if_pos hnotover]
      simp only []
      rw [if_neg (by rw [h0]; decide), if_neg (by rw [h0]; decide),
        if_neg (by rw [h00]; decide), if_neg (by rw [h00]; decide)]

/-- Witness of C3: with one ship of length 1 at A1, the guess `A1` of player 1
wins the round: DONE 1 goes to both agents and the guess of player 2 stays
unread. -/
theorem handle_agent_turn_round_won_witness :
    exampleRulesOne.valid ∧
    (handle_agent_turn exampleRulesOne (exampleRoundOne "GUESS A1\n" "GUESS B2\n").player1
      (exampleRoundOne "GUESS A1\n" "GUESS B2\n").player2).1 = 2 ∧
    hub_play_round exampleRulesOne (exampleRoundOne "GUESS A1\n" "GUESS B2\n") =
      (0, roundWon (exampleRoundOne "GUESS A1\n" "GUESS B2\n")
        (handle_agent_turn exampleRulesOne (exampleRoundOne "GUESS A1\n" "GUESS B2\n").player1
          (exampleRoundOne "GUESS A1\n" "GUESS B2\n").player2).2.1
        (handle_agent_turn exampleRulesOne (exampleRoundOne "GUESS A1\n" "GUESS B2\n").player1
          (exampleRoundOne "GUESS A1\n" "GUESS B2\n").player2).2.2 true) ∧
    (hub_play_round exampleRulesOne
      (exampleRoundOne "GUESS A1\n" "GUESS B2\n")).2.player2.hubToAgent =
        ["SUNK 1,A1".toList, "DONE 1".toList] ∧
    (hub_play_round exampleRulesOne
      (exampleRoundOne "GUESS A1\n" "GUESS B2\n")).2.player2.agentToHub = "GUESS B2\n".toList :=
  ⟨by decide, by decide,
   ((handle_agent_turn_round_won exampleRulesOne (by decide)
      (exampleRoundOne "GUESS A1\n" "GUESS B2\n") 0 0 (by decide) (by decide)
      (Reachable.start "MAP A1,E".toList exampleMapOne (by decide))
      (Reachable.start "MAP A1,E".toList exampleMapOne (by decide))).2.2.1 (by decide)).1,
   by decide, by decide⟩

/-! ### A guess spelled with a leading zero -/

/-- C1 (failing input): against the map accepted from `MAP A1,E`, the guess `A01`
is accepted (it is well formed for `check_valid_coordinates`, on the board and
new) and `parse_coordinates` gives it the cell of column 0, row 0, which the
ship covers; `handle_valid_guess` yet reports MISS to both agents and puts the
miss marker on that cell, the ship keeping both hits. -/
theorem guess_A01_reported_MISS_on_ship_cell :
    parse_map_message (initialise_grids exampleRules initialMap) exampleRules
      "MAP A1,E".toList = (0, exampleMap) ∧
    validate_guess_message "GUESS A01".toList = some "A01".toList ∧
    validate_coordinate exampleRules (exampleAgent 1 "") "A01".toList = 0 ∧
    parse_coordinates "A01".toList = (0, 0) ∧
    ((0 : Int), (0 : Int)) ∈ exampleMap.cells ∧
    (handle_valid_guess "A01".toList exampleRules (exampleAgent 1 "")
      (exampleAgent 2 "")).1.hubToAgent = ["MISS 1,A01".toList] ∧
    (handle_valid_guess "A01".toList exampleRules (exampleAgent 1 "")
      (exampleAgent 2 "")).2.hubToAgent = ["MISS 1,A01".toList] ∧
    gridGet exampleMap.agentGrid 0 0 = '1' ∧
    gridGet (handle_valid_guess "A01".toList exampleRules (exampleAgent 1 "")
      (exampleAgent 2 "")).2.agentState.agentMap.agentGrid 0 0 = MISS_MARKER ∧
    (handle_valid_guess "A01".toList exampleRules (exampleAgent 1 "")
      (exampleAgent 2 "")).2.agentState.agentMap.agentShips.map (fun ship => ship.hits) = [2] ∧
    (handle_agent_turn exampleRules (exampleAgent 1 "GUESS A01\n") (exampleAgent 2 "")).1 = 0 := by
  decide

/-! ### The guess history -/

theorem handle_agent_turn_guesses (rules : Rules) (agent opponent : Agent) :
    ((handle_agent_turn rules agent opponent).2.1.agentState.agentGuesses =
        agent.agentState.agentGuesses ∨
      ∃ c, c ∉ agent.agentState.agentGuesses ∧
        (handle_agent_turn rules agent opponent).2.1.agentState.agentGuesses =
          agent.agentState.agentGuesses ++ [c]) ∧
    (handle_agent_turn rules agent opponent).2.2.agentState.agentGuesses =
      opponent.agentState.agentGuesses := by
  obtain ⟨_, _, f3, _, _⟩ := handle_agent_turn_frame rules agent opponent
  refine ⟨?_, f3⟩
  rcases handle_agent_turn_cases rules opponent _ agent rfl with ⟨_, h2, _⟩ | ⟨reader, c, h1, h2, h3⟩
  · exact Or.inl (by rw [h2])
  · right
    obtain ⟨_, hnew⟩ := validate_coordinate_zero rules reader c h2
    obtain ⟨_, ha, _, _⟩ := handle_agent_turn_accept_agent rules reader opponent c
    refine ⟨c, by rw [← h1]; exact hnew, ?_⟩
    rw [h3, ha, h1]

theorem handle_agent_turn_nodup (rules : Rules) (agent opponent : Agent)
    (ha : agent.agentState.agentGuesses.Nodup) (ho : opponent.agentState.agentGuesses.Nodup) :
    (handle_agent_turn rules agent opponent).2.1.agentState.agentGuesses.Nodup ∧
    (handle_agent_turn rules agent opponent).2.2.agentState.agentGuesses.Nodup := by
  obtain ⟨h1, h2⟩ := handle_agent_turn_guesses rules agent opponent
  refine ⟨?_, by rw [h2]; exact ho⟩
  rcases h1 with h | ⟨c, hc, h⟩
  · rw [h]; exact ha
  · rw [h, List.nodup_append]
    refine ⟨ha, by simp, ?_⟩
    intro x hx hx2
    simp only [List.mem_singleton] at hx2
    rw [hx2] at hx
    exact hc hx

theorem hub_play_round_nodup (rules : Rules) (round : RoundState) (h : RoundNodup round) :
    RoundNodup (hub_play_round rules round).2 := by
  obtain ⟨h1, h2⟩ := h
  obtain ⟨a1, a2⟩ := handle_agent_turn_nodup rules round.player1 round.player2 h1 h2
  obtain ⟨b1, b2⟩ := handle_agent_turn_nodup rules _ _ a2 a1
  unfold hub_play_round
  split
  · split
    · simp only []
      split
      · exact ⟨a1, a2⟩
      · split
        · exact ⟨a1, a2⟩
        · split
          · exact ⟨b2, b1⟩
          · split
            · exact ⟨b2, b1⟩
            · exact ⟨b2, b1⟩
    · exact ⟨h1, h2⟩
  · exact ⟨h1, h2⟩

/-! ### Invariants of the gameplay loop -/

theorem hub_play_game_pass_induct (P : RoundState → Prop)
    (hround : ∀ rules round, P round → P (hub_play_round rules round).2)
    (hearly : ∀ round, P round → P (handle_early_exit_round round)) :
    ∀ (count i : Nat) (game : FullGameState), (∀ round ∈ game.rounds, P round) →
      ∀ round ∈ (hub_play_game_pass count i game).game.rounds, P round := by
  intro count
  induction count with
  | zero => intro i game h; exact h
  | succ n ih =>
    intro i game h
    rw [hub_play_game_pass]
    cases hr : game.rounds[i]? with
    | none => exact h
    | some round =>
      simp only []
      have hset : ∀ r ∈ game.rounds.set i (hub_play_round game.rules round).2, P r := by
        intro r hrm
        rcases List.mem_or_eq_of_mem_set hrm with hm | he
        · exact h r hm
        · rw [he]; exact hround _ _ (h round (List.getElem?_mem hr))
      split
      · intro r hrm
        simp only [PassResult.game, handle_early_exit, List.mem_map] at hrm
        obtain ⟨r0, hr0, he⟩ := hrm
        rw [← he]
        exact hearly r0 (hset r0 hr0)
      · split
        · exact hset
        · exact ih (i + 1) _ hset

theorem hub_play_game_induct (P : RoundState → Prop)
    (hround : ∀ rules round, P round → P (hub_play_round rules round).2)
    (hearly : ∀ round, P round → P (handle_early_exit_round round)) :
    ∀ (fuel : Nat) (game : FullGameState), (∀ round ∈ game.rounds, P round) →
      ∀ round ∈ (hub_play_game fuel game).2.rounds, P round := by
  intro fuel
  induction fuel with
  | zero => intro game h; exact h
  | succ n ih =>
    intro game h
    have hp := hub_play_game_pass_induct P hround hearly game.rounds.length 0 game h
    rw [hub_play_game]
    cases hres : hub_play_game_pass game.rounds.length 0 game with
    | returned next => rw [hres] at hp; exact hp
    | allOver next => rw [hres] at hp; exact hp
    | finished next => rw [hres] at hp; exact ih next hp

/-- C4: the accepted-guess history of an agent never holds a coordinate string
twice.  A turn keeps the histories of both agents free of repetitions, and so
does the whole of `hub_play_game`, whatever the agents send; a GUESS whose
coordinate is among the earlier accepted guesses of the agent is rejected by
`validate_coordinate`, and the turn goes on with the same, unchanged history as
a turn of the same agent (the round is not ended by it). -/
theorem guess_history_nodup (rules : Rules) (agent opponent : Agent) :
    (agent.agentState.agentGuesses.Nodup → opponent.agentState.agentGuesses.Nodup →
      (handle_agent_turn rules agent opponent).2.1.agentState.agentGuesses.Nodup ∧
      (handle_agent_turn rules agent opponent).2.2.agentState.agentGuesses.Nodup) ∧
    (∀ (fuel : Nat) (game : FullGameState), (∀ round ∈ game.rounds, RoundNodup round) →
      ∀ round ∈ (hub_play_game fuel game).2.rounds, RoundNodup round) ∧
    (∀ c : CStr, (parse_input agent.agentToHub).2.1 = false →
      validate_guess_message (parse_input agent.agentToHub).1 = some c →
      c ∈ agent.agentState.agentGuesses →
      validate_coordinate rules agent c = 1 ∧
      handle_agent_turn rules agent opponent =
        handle_agent_turn rules (prompted agent (parse_input agent.agentToHub).2.2) opponent ∧
      (prompted agent (parse_input agent.agentToHub).2.2).agentState.agentGuesses =
        agent.agentState.agentGuesses) := by
  refine ⟨handle_agent_turn_nodup rules agent opponent, ?_, ?_⟩
  · intro fuel game h
    exact hub_play_game_induct RoundNodup (fun r round => hub_play_round_nodup r round)
      (by
        intro round hr
        unfold handle_early_exit_round
        split
        · exact hr
        · exact hr)
      fuel game h
  · intro c hline hguess hmem
    have hv := validate_coordinate_rejects rules agent c (Or.inr hmem)
    exact ⟨hv, handle_agent_turn_reprompt rules agent opponent c hline hguess
      (by rw [hv]; decide), rfl⟩

/-- Witness of C4: player 1 guesses `A1`, player 2 `C3`, then player 1 sends `A1`
again and `B1`: the repeated `A1` is not recorded, the history of player 1 is
`A1`, `B1`, and the round ends with the ship sunk; and `validate_coordinate`
rejects `A1` for an agent whose history holds `A1`. -/
theorem guess_history_nodup_witness :
    ((hub_play_game 3 { rules := exampleRules, rounds :=
        [{ player1 := exampleAgent 1 "GUESS A1\nGUESS A1\nGUESS B1\n",
           player2 := exampleAgent 2 "GUESS C3\n",
           roundNumber := 0, gameOver := 0, validRound := 1 }] }).2.rounds.map
      (fun round => (round.player1.agentState.agentGuesses, round.gameOver)) =
      [(["A1".toList, "B1".toList], 1)] ∧
    ∀ round ∈ (hub_play_game 3 { rules := exampleRules, rounds :=
        [{ player1 := exampleAgent 1 "GUESS A1\nGUESS A1\nGUESS B1\n",
           player2 := exampleAgent 2 "GUESS C3\n",
           roundNumber := 0, gameOver := 0, validRound := 1 }] }).2.rounds,
      RoundNodup round) ∧
    validate_coordinate exampleRules (exampleAgentGuessed 1 ["A1".toList] "GUESS A1\n")
      "A1".toList = 1 :=
  ⟨⟨by decide,
    (guess_history_nodup exampleRules (exampleAgent 1 "") (exampleAgent 2 "")).2.1 3 _
      (by
        intro round hr
        simp only [List.mem_singleton] at hr
        subst hr
        exact ⟨List.nodup_nil, List.nodup_nil⟩)⟩,
   ((guess_history_nodup exampleRules (exampleAgentGuessed 1 ["A1".toList] "GUESS A1\n")
      (exampleAgent 2 "")).2.2 "A1".toList (by decide) (by decide) (by decide)).1⟩

/-! ### EARLY -/

theorem broadcast_message_noEarly (agent opponent : Agent) (agentId : Int) (coordinates : CStr)
    (messageType : HubMessage) (ha : NoEarly agent) (ho : NoEarly opponent) :
    NoEarly (broadcast_message agent opponent agentId coordinates messageType).1 ∧
    NoEarly (broadcast_message agent opponent agentId coordinates messageType).2 := by
  unfold broadcast_message
  cases hl : broadcast_line agentId coordinates messageType with
  | none => exact ⟨ha, ho⟩
  | some line =>
    have hne : "EARLY".toList ≠ line := by
      intro h
      have hh := congrArg List.head? h
      unfold broadcast_line at hl
      cases messageType <;> simp at hl <;> (rw [← hl] at hh; simp at hh)
    unfold NoEarly at *
    simp only [List.mem_append, List.mem_singleton]
    exact ⟨fun h => h.elim ha hne, fun h => h.elim ho hne⟩

theorem handle_valid_guess_noEarly (coordinates : CStr) (rules : Rules) (agent opponent : Agent)
    (ha : NoEarly agent) (ho : NoEarly opponent) :
    NoEarly (handle_valid_guess coordinates rules agent opponent).1 ∧
    NoEarly (handle_valid_guess coordinates rules agent opponent).2 := by
  have key := handle_valid_guess_ships_induct
    (fun st => NoEarly st.agent ∧ NoEarly st.opponent)
    coordinates (parse_coordinates coordinates).2 (parse_coordinates coordinates).1 rules
    (by
      intro i st ⟨h1, h2⟩
      unfold handle_valid_guess_hit
      simp only []
      exact broadcast_message_noEarly _ _ _ _ _ h1 h2)
    rules.numberOfShips.toNat 0 (guessStart coordinates agent opponent) ⟨ha, ho⟩
  rw [handle_valid_guess_eq]
  split
  · exact broadcast_message_noEarly _ _ _ _ _ key.1 key.2
  · exact key

theorem handle_agent_turn_accept_noEarly (rules : Rules) (reader opponent : Agent) (c : CStr)
    (ha : NoEarly reader) (ho : NoEarly opponent) :
    NoEarly (handle_agent_turn_accept rules reader opponent c).2.1 ∧
    NoEarly (handle_agent_turn_accept rules reader opponent c).2.2 := by
  have hok : NoEarly { reader with hubToAgent := reader.hubToAgent ++ ["OK".toList] } := by
    unfold NoEarly at *
    simp only [List.mem_append, List.mem_singleton]
    exact fun h => h.elim ha (by decide)
  have h := handle_valid_guess_noEarly c rules _ opponent hok ho
  unfold handle_agent_turn_accept
  simp only []
  split <;> exact h

theorem prompted_noEarly (agent : Agent) (rest : List Char) (ha : NoEarly agent) :
    NoEarly (prompted agent rest) := by
  unfold NoEarly prompted at *
  simp only [List.mem_append, List.mem_singleton]
  exact fun h => h.elim ha (by decide)

theorem handle_agent_turn_unfold_guess (rules : Rules) (agent opponent : Agent) (c : CStr)
    (hline : (parse_input agent.agentToHub).2.1 = false)
    (hguess : validate_guess_message (parse_input agent.agentToHub).1 = some c) :
    handle_agent_turn rules agent opponent =
      if validate_coordinate rules (prompted agent (parse_input agent.agentToHub).2.2) c = 0 then
        handle_agent_turn_accept rules (prompted agent (parse_input agent.agentToHub).2.2)
          opponent c
      else handle_agent_turn rules (prompted agent (parse_input agent.agentToHub).2.2) opponent := by
  rw [handle_agent_turn_unfold]
  simp only [hline, Bool.false_eq_true, if_false, hguess]

theorem handle_agent_turn_noEarly (rules : Rules) (opponent : Agent) (ho : NoEarly opponent) :
    ∀ (n : Nat) (agent : Agent), agent.agentToHub.length = n → NoEarly agent →
      NoEarly (handle_agent_turn rules agent opponent).2.1 ∧
      NoEarly (handle_agent_turn rules agent opponent).2.2 := by
  intro n
  induction n using Nat.strong_induction_on with
  | _ n ih =>
    intro agent hn ha
    have hp := prompted_noEarly agent (parse_input agent.agentToHub).2.2 ha
    by_cases he : (parse_input agent.agentToHub).2.1 = true
    · rw [handle_agent_turn_unfold, if_pos he]
      exact ⟨hp, ho⟩
    · have he' : (parse_input agent.agentToHub).2.1 = false := by simpa using he
      have hlen := parse_input_length agent.agentToHub he'
      cases hv : validate_guess_message (parse_input agent.agentToHub).1 with
      | none =>
        rw [handle_agent_turn_unfold, if_neg he, hv]
        exact ⟨hp, ho⟩
      | some c =>
        rw [handle_agent_turn_unfold_guess rules agent opponent c he' hv]
        split
        · exact handle_agent_turn_accept_noEarly rules _ opponent c hp ho
        · exact ih _ (by rw [← hn]; exact hlen) _ rfl hp

theorem handle_round_end_noEarly (winner loser : Agent) (hw : NoEarly winner)
    (hl : NoEarly loser) :
    NoEarly (handle_round_end winner loser).1 ∧ NoEarly (handle_round_end winner loser).2 := by
  have hne : "EARLY".toList ≠ "DONE ".toList ++ fmtInt winner.agentState.agentId := by
    intro h
    have hh := congrArg List.head? h
    simp at hh
  unfold handle_round_end NoEarly at *
  simp only [List.mem_append, List.mem_singleton]
  exact ⟨fun h => h.elim hw hne, fun h => h.elim hl hne⟩

theorem hub_play_round_noEarly (rules : Rules) (round : RoundState) (h : RoundNoEarly round) :
    RoundNoEarly (hub_play_round rules round).2 := by
  obtain ⟨h1, h2⟩ := h
  obtain ⟨a1, a2⟩ := handle_agent_turn_noEarly rules round.player2 h2 _ round.player1 rfl h1
  obtain ⟨b1, b2⟩ := handle_agent_turn_noEarly rules _ a1 _ _ rfl a2
  obtain ⟨c1, c2⟩ := handle_round_end_noEarly _ _ a1 a2
  obtain ⟨d1, d2⟩ := handle_round_end_noEarly _ _ b1 b2
  unfold hub_play_round
  split
  · split
    · simp only []
      split
      · exact ⟨a1, a2⟩
      · split
        · exact ⟨c1, c2⟩
        · split
          · exact ⟨b2, b1⟩
          · split
            · exact ⟨d2, d1⟩
            · exact ⟨b2, b1⟩
    · exact ⟨h1, h2⟩
  · exact ⟨h1, h2⟩

theorem map_set_same {α β : Type} (f : α → β) (x a : α) :
    ∀ (l : List α) (i : Nat), l[i]? = some a → f x = f a → (l.set i x).map f = l.map f := by
  intro l
  induction l with
  | nil => intro i h; simp at h
  | cons y ys ih =>
    intro i h hf
    cases i with
    | zero =>
      simp only [List.getElem?_cons_zero, Option.some.injEq] at h
      subst h
      simp [hf]
    | succ i =>
      simp only [List.getElem?_cons_succ] at h
      simp [ih i h hf]

theorem hub_play_round_validRound (rules : Rules) (round : RoundState) :
    (hub_play_round rules round).2.validRound = round.validRound := by
  unfold hub_play_round
  split
  · split
    · simp only []
      split
      · rfl
      · split
        · rfl
        · split
          · rfl
          · split <;> rfl
    · rfl
  · rfl

theorem handle_early_exit_round_validRound (round : RoundState) :
    (handle_early_exit_round round).validRound = round.validRound := by
  unfold handle_early_exit_round
  split <;> rfl

theorem hub_play_game_pass_validRound :
    ∀ (count i : Nat) (game : FullGameState),
      (hub_play_game_pass count i game).game.rounds.map (fun round => round.validRound) =
        game.rounds.map (fun round => round.validRound) := by
  intro count
  induction count with
  | zero => intro i game; rfl
  | succ n ih =>
    intro i game
    rw [hub_play_game_pass]
    cases hr : game.rounds[i]? with
    | none => rfl
    | some round =>
      simp only []
      have hset : (game.rounds.set i (hub_play_round game.rules round).2).map
          (fun round => round.validRound) = game.rounds.map (fun round => round.validRound) :=
        map_set_same _ _ round _ i hr (hub_play_round_validRound game.rules round)
      split
      · simp only [PassResult.game, handle_early_exit, List.map_map]
        rw [← hset]
        apply List.map_congr_left
        intro r _
        exact handle_early_exit_round_validRound r
      · split
        · exact hset
        · rw [ih]; exact hset

theorem hub_play_game_validRound :
    ∀ (fuel : Nat) (game : FullGameState),
      (hub_play_game fuel game).2.rounds.map (fun round => round.validRound) =
        game.rounds.map (fun round => round.validRound) := by
  intro fuel
  induction fuel with
  | zero => intro game; rfl
  | succ n ih =>
    intro game
    have hp := hub_play_game_pass_validRound game.rounds.length 0 game
    rw [hub_play_game]
    cases hres : hub_play_game_pass game.rounds.length 0 game with
    | returned next => rw [hres] at hp; exact hp
    | allOver next => rw [hres] at hp; exact hp
    | finished next =>
      rw [hres] at hp
      simp only []
      rw [ih next]; exact hp

/-- A failing turn in the `for` loop: the loop is left at once, with EARLY sent
to the valid rounds of the state reached. -/
theorem hub_play_game_pass_fail (game : FullGameState) (count i : Nat) (round : RoundState)
    (hround : game.rounds[i]? = some round)
    (hfail : (hub_play_round game.rules round).1 = 1) :
    hub_play_game_pass (count + 1) i game =
      .returned (handle_early_exit
        { game with rounds := game.rounds.set i (hub_play_round game.rules round).2 }) := by
  rw [hub_play_game_pass, hround]
  simp only []
  rw [if_pos hfail]

/-- An execution of the `for` loop either was left on a failed turn, with EARLY
sent to the valid rounds of a state that kept `P`, or ends in a state that
keeps `P`. -/
theorem hub_play_game_pass_cases (P : RoundState → Prop)
    (hround : ∀ rules round, P round → P (hub_play_round rules round).2) :
    ∀ (count i : Nat) (game : FullGameState), (∀ round ∈ game.rounds, P round) →
      (∃ (before : FullGameState) (j : Nat) (failed : RoundState),
        before.rounds[j]? = some failed ∧ (hub_play_round before.rules failed).1 = 1 ∧
        (∀ round ∈ before.rounds, P round) ∧
        hub_play_game_pass count i game = .returned (handle_early_exit
          { before with
            rounds := before.rounds.set j (hub_play_round before.rules failed).2 })) ∨
      ((∀ next, hub_play_game_pass count i game ≠ .returned next) ∧
        ∀ round ∈ (hub_play_game_pass count i game).game.rounds, P round) := by
  intro count
  induction count with
  | zero =>
    intro i game h
    exact Or.inr ⟨by intro next hn; simp [hub_play_game_pass] at hn, h⟩
  | succ n ih =>
    intro i game h
    cases hr : game.rounds[i]? with
    | none =>
      right
      rw [hub_play_game_pass, hr]
      exact ⟨by intro next hn; simp at hn, h⟩
    | some round =>
      have hset : ∀ r ∈ game.rounds.set i (hub_play_round game.rules round).2, P r := by
        intro r hrm
        rcases List.mem_or_eq_of_mem_set hrm with hm | he
        · exact h r hm
        · rw [he]; exact hround _ _ (h round (List.getElem?_mem hr))
      by_cases hfail : (hub_play_round game.rules round).1 = 1
      · exact Or.inl ⟨game, i, round, hr, hfail, h,
          hub_play_game_pass_fail game n i round hr hfail⟩
      · rw [hub_play_game_pass, hr]
        simp only []
        rw [if_neg hfail]
        split
        · exact Or.inr ⟨by intro next hn; simp at hn, hset⟩
        · exact ih (i + 1) _ hset

/-- A run of `hub_play_game` either returned 1 on a failed turn, with EARLY sent
to the valid rounds of a state that kept `P`, or did not return 1 and is in a
state that keeps `P`. -/
theorem hub_play_game_cases (P : RoundState → Prop)
    (hround : ∀ rules round, P round → P (hub_play_round rules round).2) :
    ∀ (fuel : Nat) (game : FullGameState), (∀ round ∈ game.rounds, P round) →
      ((hub_play_game fuel game).1 = some 1 ∧
        ∃ (before : FullGameState) (j : Nat) (failed : RoundState),
          before.rounds[j]? = some failed ∧ (hub_play_round before.rules failed).1 = 1 ∧
          (∀ round ∈ before.rounds, P round) ∧
          (hub_play_game fuel game).2 = handle_early_exit
            { before with
              rounds := before.rounds.set j (hub_play_round before.rules failed).2 }) ∨
      ((hub_play_game fuel game).1 ≠ some 1 ∧
        ∀ round ∈ (hub_play_game fuel game).2.rounds, P round) := by
  intro fuel
  induction fuel with
  | zero =>
    intro game h
    exact Or.inr ⟨by simp [hub_play_game], h⟩
  | succ n ih =>
    intro game h
    rcases hub_play_game_pass_cases P hround game.rounds.length 0 game h with
      ⟨before, j, failed, h1, h2, h3, h4⟩ | ⟨hnot, hP⟩
    · left
      rw [hub_play_game, h4]
      exact ⟨rfl, before, j, failed, h1, h2, h3, rfl⟩
    · rw [hub_play_game]
      cases hres : hub_play_game_pass game.rounds.length 0 game with
      | returned next => exact absurd hres (hnot next)
      | allOver next =>
        rw [hres] at hP
        exact Or.inr ⟨by simp, hP⟩
      | finished next =>
        rw [hres] at hP
        exact ih next hP

/-! ### A failed turn -/

theorem hub_play_round_error_iff (rules : Rules) (round : RoundState) :
    (hub_play_round rules round).1 = 1 ↔
      round.validRound ≠ 0 ∧ round.gameOver = 0 ∧
      ((handle_agent_turn rules round.player1 round.player2).1 = 1 ∨
        ((handle_agent_turn rules round.player1 round.player2).1 ≠ 2 ∧
          (handle_agent_turn rules
            (handle_agent_turn rules round.player1 round.player2).2.2
            (handle_agent_turn rules round.player1 round.player2).2.1).1 = 1)) := by
  unfold hub_play_round
  by_cases hv : round.validRound ≠ 0
  · rw [if_pos hv]
    by_cases hg : round.gameOver = 0
    · rw [if_pos hg]
      simp only []
      by_cases h1 : (handle_agent_turn rules round.player1 round.player2).1 = 1
      · rw [if_pos h1]
        exact ⟨fun _ => ⟨hv, hg, Or.inl h1⟩, fun _ => rfl⟩
      · rw [if_neg h1]
        by_cases h2 : (handle_agent_turn rules round.player1 round.player2).1 = 2
        · rw [if_pos h2]
          constructor
          · intro h; exact absurd (show (0 : Int) = 1 from h) (by decide)
          · intro ⟨_, _, h⟩
            rcases h with h | ⟨h, _⟩
            · exact absurd h h1
            · exact absurd h2 h
        · rw [if_neg h2]
          by_cases h3 : (handle_agent_turn rules
              (handle_agent_turn rules round.player1 round.player2).2.2
              (handle_agent_turn rules round.player1 round.player2).2.1).1 = 1
          · rw [if_pos h3]
            exact ⟨fun _ => ⟨hv, hg, Or.inr ⟨h2, h3⟩⟩, fun _ => rfl⟩
          · rw [if_neg h3]
            constructor
            · intro h
              split at h <;> exact absurd (show (0 : Int) = 1 from h) (by decide)
            · intro ⟨_, _, h⟩
              rcases h with h | ⟨_, h⟩
              · exact absurd h h1
              · exact absurd h h3
    · rw [if_neg hg]
      constructor
      · intro h; exact absurd (show (0 : Int) = 1 from h) (by decide)
      · intro ⟨_, h, _⟩; exact absurd h hg
  · rw [if_neg hv]
    constructor
    · intro h; exact absurd (show (0 : Int) = 1 from h) (by decide)
    · intro ⟨h, _⟩; exact absurd h hv

theorem hub_play_game_status :
    ∀ (fuel : Nat) (game : FullGameState),
      (hub_play_game fuel game).1 = none ∨ (hub_play_game fuel game).1 = some 0 ∨
        (hub_play_game fuel game).1 = some 1 := by
  intro fuel
  induction fuel with
  | zero => intro game; exact Or.inl rfl
  | succ n ih =>
    intro game
    rw [hub_play_game]
    cases hub_play_game_pass game.rounds.length 0 game with
    | returned next => exact Or.inr (Or.inr rfl)
    | allOver next => exact Or.inr (Or.inl rfl)
    | finished next => exact ih next

theorem hub_play_game_more_fuel :
    ∀ (fuel more : Nat) (game : FullGameState), (hub_play_game fuel game).1 ≠ none →
      hub_play_game (fuel + more) game = hub_play_game fuel game := by
  intro fuel
  induction fuel with
  | zero => intro more game h; exact absurd rfl h
  | succ n ih =>
    intro more game h
    have hadd : n + 1 + more = (n + more) + 1 := by omega
    rw [hadd, hub_play_game, hub_play_game]
    rw [hub_play_game] at h
    cases hres : hub_play_game_pass game.rounds.length 0 game with
    | returned next => rfl
    | allOver next => rfl
    | finished next =>
      rw [hres] at h
      exact ih more next h

theorem hub_play_game_returned (game next : FullGameState) (more : Nat)
    (h : hub_play_game_pass game.rounds.length 0 game = .returned next) :
    hub_play_game (more + 1) game = (some 1, next) := by
  rw [hub_play_game, h]

theorem handle_early_exit_round_spec (round : RoundState) :
    (round.validRound ≠ 0 →
      (handle_early_exit_round round).player1.hubToAgent =
        round.player1.hubToAgent ++ ["EARLY".toList] ∧
      (handle_early_exit_round round).player2.hubToAgent =
        round.player2.hubToAgent ++ ["EARLY".toList]) ∧
    (round.validRound = 0 → handle_early_exit_round round = round) := by
  unfold handle_early_exit_round
  constructor
  · intro h
    rw [if_pos h]
    exact ⟨rfl, rfl⟩
  · intro h
    rw [if_neg (by rw [h]; decide)]

/-- Counterexample to C8: round 0 fails (player 1 has closed its stream) while
round 1 is valid, not over and has guesses waiting.  `hub_play_game` returns 1;
round 0 keeps its `validRound` flag, and round 1 is given no turn: its agents are
sent EARLY and nothing else, and their guesses stay unread. -/
theorem failed_round_stops_every_round :
    (hub_play_game 5 exampleGameFailing).1 = some 1 ∧
    (hub_play_game 5 exampleGameFailing).2.rounds.map
        (fun round => (round.validRound, round.gameOver)) = [(1, 0), (1, 0)] ∧
    (hub_play_game 5 exampleGameFailing).2.rounds.map
        (fun round => (round.player1.hubToAgent, round.player1.agentToHub,
          round.player2.hubToAgent, round.player2.agentToHub)) =
      [(["YT".toList, "EARLY".toList], [], ["EARLY".toList], "GUESS A1\n".toList),
       (["EARLY".toList], "GUESS A1\n".toList, ["EARLY".toList], "GUESS C3\n".toList)] := by
  decide

/-- C8 as amended: when the turn of a round fails during `hub_play_game`, the
pass is aborted and with it the tournament: the loop is left at once, EARLY
having been sent to the valid rounds, the failing round among them, and
`hub_play_game` returns 1.  Every other round is left as it was, apart from that
EARLY: it is given no further turn.  No round is marked invalid: the
`validRound` flags are the same after `hub_play_game` as before. -/
theorem failed_turn_aborts_tournament (game : FullGameState) (count i : Nat)
    (round : RoundState) (hround : game.rounds[i]? = some round)
    (hfail : (hub_play_round game.rules round).1 = 1) :
    hub_play_game_pass (count + 1) i game =
      .returned (handle_early_exit
        { game with rounds := game.rounds.set i (hub_play_round game.rules round).2 }) ∧
    (∀ (j : Nat) (other : RoundState), j ≠ i → game.rounds[j]? = some other →
      (hub_play_game_pass (count + 1) i game).game.rounds[j]? =
        some (handle_early_exit_round other)) ∧
    (hub_play_game_pass (count + 1) i game).game.rounds[i]? =
      some (handle_early_exit_round (hub_play_round game.rules round).2) ∧
    (hub_play_round game.rules round).2.validRound = round.validRound ∧
    round.validRound ≠ 0 ∧
    (∀ (fuel : Nat) (start : FullGameState),
      (hub_play_game fuel start).2.rounds.map (fun r => r.validRound) =
        start.rounds.map (fun r => r.validRound)) ∧
    (∀ (start next : FullGameState) (more : Nat),
      hub_play_game_pass start.rounds.length 0 start = .returned next →
      hub_play_game (more + 1) start = (some 1, next)) := by
  have hpass := hub_play_game_pass_fail game count i round hround hfail
  have hil : i < game.rounds.length := (List.getElem?_eq_some_iff.mp hround).1
  refine ⟨hpass, ?_, ?_, hub_play_round_validRound _ _,
    ((hub_play_round_error_iff _ _).mp hfail).1, hub_play_game_validRound,
    hub_play_game_returned⟩
  · intro j other hj hother
    rw [hpass]
    simp only [PassResult.game, handle_early_exit, List.getElem?_map, List.getElem?_set]
    rw [if_neg (fun h => hj h.symm), hother]
    rfl
  · rw [hpass]
    simp only [PassResult.game, handle_early_exit, List.getElem?_map, List.getElem?_set]
    simp [hil]

/-- Witness of C8 as amended: the failing round 0 of `exampleGameFailing`. -/
theorem failed_turn_aborts_tournament_witness :
    (hub_play_round exampleGameFailing.rules
      { player1 := exampleAgent 1 "", player2 := exampleAgent 2 "GUESS A1\n",
        roundNumber := 0, gameOver := 0, validRound := 1 }).1 = 1 ∧
    (hub_play_game_pass 2 0 exampleGameFailing).game.rounds[1]? =
      some (handle_early_exit_round
        { player1 := exampleAgent 1 "GUESS A1\n", player2 := exampleAgent 2 "GUESS C3\n",
          roundNumber := 1, gameOver := 0, validRound := 1 }) :=
  ⟨by decide,
   (failed_turn_aborts_tournament exampleGameFailing 1 0
      { player1 := exampleAgent 1 "", player2 := exampleAgent 2 "GUESS A1\n",
        roundNumber := 0, gameOver := 0, validRound := 1 }
      (by decide) (by decide)).2.1 1 _ (by decide) (by decide)⟩

/-- C9: in a run of `hub_play_game` on rounds to which no EARLY was sent before,
either a turn reported a communications error (`hub_play_round` gave 1 for a
round of the state reached): then EARLY is sent to both agents of every round
whose `validRound` flag is set, none having been sent before, `hub_play_game`
returns 1 and `main` exits with status 5; or `hub_play_game` does not return 1,
`main` does not exit with 5, and no EARLY has been sent.  A failing turn ends
the loop on the spot, no further turn being served, and the result 1 stands
whatever number of further passes is allowed. -/
theorem early_exit_on_communications_error (game : FullGameState) (fuel : Nat)
    (hclean : ∀ round ∈ game.rounds, RoundNoEarly round) :
    (((hub_play_game fuel game).1 = some 1 ∧ main_game fuel game = some 5 ∧
        ∃ (before : FullGameState) (j : Nat) (failed : RoundState),
          before.rounds[j]? = some failed ∧ (hub_play_round before.rules failed).1 = 1 ∧
          (∀ round ∈ before.rounds, RoundNoEarly round) ∧
          (hub_play_game fuel game).2 = handle_early_exit
            { before with
              rounds := before.rounds.set j (hub_play_round before.rules failed).2 }) ∨
      ((hub_play_game fuel game).1 ≠ some 1 ∧ main_game fuel game ≠ some 5 ∧
        ∀ round ∈ (hub_play_game fuel game).2.rounds, RoundNoEarly round)) ∧
    (∀ (count i : Nat) (round : RoundState), game.rounds[i]? = some round →
      (hub_play_round game.rules round).1 = 1 →
      hub_play_game_pass (count + 1) i game =
        .returned (handle_early_exit
          { game with rounds := game.rounds.set i (hub_play_round game.rules round).2 })) ∧
    (∀ (next : FullGameState) (more : Nat),
      hub_play_game_pass game.rounds.length 0 game = .returned next →
      hub_play_game (more + 1) game = (some 1, next)) ∧
    (∀ more : Nat, (hub_play_game fuel game).1 = some 1 →
      hub_play_game (fuel + more) game = hub_play_game fuel game) ∧
    (∀ round : RoundState, (hub_play_round game.rules round).1 = 1 ↔
      round.validRound ≠ 0 ∧ round.gameOver = 0 ∧
      ((handle_agent_turn game.rules round.player1 round.player2).1 = 1 ∨
        ((handle_agent_turn game.rules round.player1 round.player2).1 ≠ 2 ∧
          (handle_agent_turn game.rules
            (handle_agent_turn game.rules round.player1 round.player2).2.2
            (handle_agent_turn game.rules round.player1 round.player2).2.1).1 = 1))) ∧
    (∀ state : FullGameState,
      (handle_early_exit state).rounds = state.rounds.map handle_early_exit_round) ∧
    (∀ round : RoundState,
      (round.validRound ≠ 0 →
        (handle_early_exit_round round).player1.hubToAgent =
          round.player1.hubToAgent ++ ["EARLY".toList] ∧
        (handle_early_exit_round round).player2.hubToAgent =
          round.player2.hubToAgent ++ ["EARLY".toList]) ∧
      (round.validRound = 0 → handle_early_exit_round round = round)) := by
  refine ⟨?_, fun count i round h1 h2 => hub_play_game_pass_fail game count i round h1 h2,
    fun next more h => hub_play_game_returned game next more h,
    fun more h => hub_play_game_more_fuel fuel more game (by rw [h]; simp),
    fun round => hub_play_round_error_iff game.rules round,
    fun _ => rfl, handle_early_exit_round_spec⟩
  rcases hub_play_game_cases RoundNoEarly (fun r round => hub_play_round_noEarly r round)
    fuel game hclean with ⟨h1, hex⟩ | ⟨h1, h2⟩
  · left
    refine ⟨h1, ?_, hex⟩
    unfold main_game
    rw [h1]
    rfl
  · right
    refine ⟨h1, ?_, h2⟩
    unfold main_game
    rcases hub_play_game_status fuel game with hs | hs | hs
    · rw [hs]; simp
    · rw [hs]; decide
    · exact absurd hs h1

/-- Witness of C9: `exampleGameFailing`, where the first turn served fails. -/
theorem early_exit_on_communications_error_witness :
    (∀ round ∈ exampleGameFailing.rounds, RoundNoEarly round) ∧
    (hub_play_game 5 exampleGameFailing).1 = some 1 ∧
    main_game 5 exampleGameFailing = some 5 ∧
    (∀ (next : FullGameState) (more : Nat),
      hub_play_game_pass exampleGameFailing.rounds.length 0 exampleGameFailing
        = .returned next →
      hub_play_game (more + 1) exampleGameFailing = (some 1, next)) :=
  ⟨by decide, by decide, by decide,
   (early_exit_on_communications_error exampleGameFailing 5 (by decide)).2.2.1⟩

/-! ### The labels of the own grid -/

theorem mem_cells_of_ship (m : AgentMap) (ship : Ship) (hs : ship ∈ m.agentShips)
    (cell : Int × Int) (hc : cell ∈ ship.cells) : cell ∈ m.cells := by
  unfold AgentMap.cells
  rw [List.mem_flatten]
  exact ⟨ship.cells, List.mem_map.mpr ⟨ship, hs, rfl⟩, hc⟩

theorem add_agent_grid_element_labels (rules : Rules) (m : AgentMap) (init : List Ship)
    (last : Ship) (c : CStr) (hinv : MapInv rules m) (hlab : MapLabels rules m)
    (hships : m.agentShips = init ++ [last]) (hb : check_coordinate_bounds c rules = 0)
    (hmem : parse_coordinates c ∉ m.cells) :
    MapLabels rules { m with
      agentGrid := gridSet m.agentGrid (parse_coordinates c).2 (parse_coordinates c).1
        (convert_to_hex m.shipsAdded)
      agentShips := init ++ [{ last with
        coordinates := last.coordinates ++ [c]
        hits := last.hits + 1
        length := last.length + 1 }] } := by
  obtain ⟨hc0, hcw, hr0, hrh⟩ := check_coordinate_bounds_zero c rules hb
  have hrl : (parse_coordinates c).2.toNat < m.agentGrid.length := by
    rw [hinv.rows]; omega
  have hcl : (parse_coordinates c).1.toNat <
      (m.agentGrid.getD (parse_coordinates c).2.toNat []).length := by
    rw [List.getD_eq_getElem?_getD]
    cases hg : m.agentGrid[(parse_coordinates c).2.toNat]? with
    | none =>
      rw [List.getElem?_eq_none_iff] at hg
      omega
    | some row =>
      simp only [Option.getD_some]
      rw [hinv.cols row (List.getElem?_mem hg)]
      omega
  have hcount : m.shipsAdded = init.length + 1 := by
    have := hinv.count
    rw [hships] at this
    simp at this
    omega
  have hold : ∀ ship ∈ m.agentShips, ∀ cell ∈ ship.cells,
      ¬ (cell.2 = (parse_coordinates c).2 ∧ cell.1 = (parse_coordinates c).1) := by
    intro ship hs cell hcell ⟨h2, h1⟩
    apply hmem
    have : cell = parse_coordinates c := Prod.ext h1 h2
    rw [← this]
    exact mem_cells_of_ship m ship hs cell hcell
  have hlast : last ∈ m.agentShips := by rw [hships]; simp
  constructor
  · intro k ship hk cell hcell
    show gridGet (gridSet _ _ _ _) _ _ = _
    rw [gridGet_gridSet _ _ _ _ _ _ hr0 hrl hc0 hcl]
    by_cases hkl : k < init.length
    · rw [List.getElem?_append_left hkl] at hk
      have hk' : m.agentShips[k]? = some ship := by
        rw [hships, List.getElem?_append_left hkl]; exact hk
      rw [if_neg (hold ship (List.getElem?_mem hk') cell hcell)]
      exact hlab.labels k ship hk' cell hcell
    · have hke : k = init.length := by
        have := (List.getElem?_eq_some_iff.mp hk).1
        simp at this
        omega
      rw [hke, List.getElem?_append_right (le_refl _)] at hk
      simp only [Nat.sub_self, List.getElem?_cons_zero, Option.some.injEq] at hk
      subst hk
      simp only [Ship.cells, List.map_append, List.map_cons, List.map_nil, List.mem_append,
        List.mem_singleton] at hcell
      rcases hcell with hcell | hcell
      · rw [if_neg (hold last hlast cell hcell)]
        have hk' : m.agentShips[k]? = some last := by
          rw [hships, hke, List.getElem?_append_right (le_refl _)]
          simp
        exact hlab.labels k last hk' cell hcell
      · rw [hcell, if_pos ⟨rfl, rfl⟩, hcount, hke]
        push_cast
        rfl
  · intro ship hs cell hcell
    simp only [List.mem_append, List.mem_singleton] at hs
    rcases hs with hs | hs
    · exact hlab.inside ship (by rw [hships]; exact List.mem_append_left _ hs) cell hcell
    · subst hs
      simp only [Ship.cells, List.map_append, List.map_cons, List.map_nil, List.mem_append,
        List.mem_singleton] at hcell
      rcases hcell with hcell | hcell
      · exact hlab.inside last hlast cell hcell
      · rw [hcell]
        exact ⟨hc0, hcw, hr0, hrh⟩

theorem add_agent_ship_loop_labels (rules : Rules) (direction : Direction) :
    ∀ (count : Nat) (cur : CStr) (m : AgentMap) (init : List Ship) (last : Ship) (m' : AgentMap),
      MapInv rules m → MapLabels rules m → m.agentShips = init ++ [last] → m.shipsAdded < 16 →
      add_agent_ship_loop direction rules count cur m = (0, m') → MapLabels rules m' := by
  intro count
  induction count with
  | zero =>
    intro cur m init last m' hinv hlab hships hn hrun
    simp only [add_agent_ship_loop, Prod.mk.injEq, true_and] at hrun
    subst hrun
    exact hlab
  | succ n ih =>
    intro cur m init last m' hinv hlab hships hn hrun
    rw [add_agent_ship_loop] at hrun
    simp only [] at hrun
    by_cases hb2 : check_coordinate_bounds (next_coordinate direction cur) rules = 0
    · rw [if_neg (by rw [hb2]; decide)] at hrun
      obtain ⟨htaken, hfree⟩ := add_agent_grid_element_spec rules m init last
        (next_coordinate direction cur) hinv hships hn hb2
      by_cases hmem : parse_coordinates (next_coordinate direction cur) ∈ m.cells
      · rw [htaken hmem] at hrun
        simp at hrun
      · obtain ⟨heq, hinv1⟩ := hfree hmem
        rw [heq] at hrun
        simp only [ne_eq, not_true_eq_false, if_false] at hrun
        exact ih (next_coordinate direction cur) _ init _ m' hinv1
          (add_agent_grid_element_labels rules m init last _ hinv hlab hships hb2 hmem)
          rfl hn hrun
    · rw [if_pos hb2] at hrun
      simp at hrun

theorem add_agent_ship_labels (rules : Rules) (direction : Direction) (m m' : AgentMap)
    (c : CStr) (hinv : MapInv rules m) (hlab : MapLabels rules m) (hn : m.shipsAdded < 15)
    (hrun : add_agent_ship m c direction rules = (0, m')) : MapLabels rules m' := by
  unfold add_agent_ship at hrun
  by_cases hb : check_coordinate_bounds c rules = 0
  · rw [if_neg (by rw [hb]; decide)] at hrun
    simp only [] at hrun
    have htake : m.agentShips.take m.shipsAdded = m.agentShips := by
      rw [← hinv.count]; exact List.take_length _
    rw [htake] at hrun
    have hinv0 : MapInv rules { m with
        agentShips := m.agentShips ++
          [{ coordinates := [], hits := 0, length := 0, direction := direction }]
        shipsAdded := m.shipsAdded + 1 } := by
      refine ⟨hinv.rows, hinv.cols, ?_, ?_, ?_, ?_⟩
      · intro r col h1 h2 h3 h4
        have := hinv.marked r col h1 h2 h3 h4
        simpa [AgentMap.cells, Ship.cells, List.flatten_append] using this
      · have := hinv.nodup
        simpa [AgentMap.cells, Ship.cells, List.flatten_append] using this
      · simp [hinv.count]
      · intro ship hship
        rcases List.mem_append.mp hship with h | h
        · exact hinv.counters ship h
        · simp only [List.mem_singleton] at h
          rw [h]
          simp
    have hlab0 : MapLabels rules { m with
        agentShips := m.agentShips ++
          [{ coordinates := [], hits := 0, length := 0, direction := direction }]
        shipsAdded := m.shipsAdded + 1 } := by
      constructor
      · intro k ship hk cell hcell
        by_cases hkl : k < m.agentShips.length
        · have hk' : m.agentShips[k]? = some ship := by
            rw [← hk]; exact (List.getElem?_append_left hkl).symm
          exact hlab.labels k ship hk' cell hcell
        · have hke : k = m.agentShips.length := by
            have := (List.getElem?_eq_some_iff.mp hk).1
            simp at this
            omega
          have hk2 : (m.agentShips ++
              [{ coordinates := [], hits := 0, length := 0, direction := direction }])[k]? =
              some ship := hk
          rw [hke, List.getElem?_append_right (le_refl _)] at hk2
          simp only [Nat.sub_self, List.getElem?_cons_zero, Option.some.injEq] at hk2
          subst hk2
          simp [Ship.cells] at hcell
      · intro ship hs cell hcell
        rcases List.mem_append.mp hs with h | h
        · exact hlab.inside ship h cell hcell
        · simp only [List.mem_singleton] at h
          subst h
          simp [Ship.cells] at hcell
    obtain ⟨htaken, hfree⟩ := add_agent_grid_element_spec rules _ m.agentShips
      { coordinates := [], hits := 0, length := 0, direction := direction } c hinv0 rfl
      (by simp only []; omega) hb
    by_cases hmem : parse_coordinates c ∈ AgentMap.cells { m with
        agentShips := m.agentShips ++
          [{ coordinates := [], hits := 0, length := 0, direction := direction }]
        shipsAdded := m.shipsAdded + 1 }
    · rw [htaken hmem] at hrun
      simp at hrun
    · obtain ⟨heq, hinv1⟩ := hfree hmem
      rw [heq] at hrun
      simp only [ne_eq, not_true_eq_false, if_false, Nat.add_sub_cancel] at hrun
      exact add_agent_ship_loop_labels rules direction _ c _ m.agentShips _ m' hinv1
        (add_agent_grid_element_labels rules _ m.agentShips _ c hinv0 hlab0 rfl hb hmem)
        rfl (by simp only []; omega) hrun
  · rw [if_pos hb] at hrun
    simp at hrun


theorem shipsFacing_append (m : AgentMap) (done more : List CStr)
    (h : ShipsFacing m done) : ShipsFacing m (done ++ more) := by
  intro k ship hk
  obtain ⟨entry, he, hd⟩ := h k ship hk
  refine ⟨entry, ?_, hd⟩
  rw [List.getElem?_append_left (List.getElem?_eq_some_iff.mp he).1]
  exact he

theorem parse_map_message_loop_labels (rules : Rules) (hv : rules.valid) :
    ∀ (rest done : List CStr) (m m' : AgentMap),
      MapInv rules m → MapLabels rules m → (m.shipsAdded : Int) ≤ rules.numberOfShips →
      ((m.shipsAdded : Int) < rules.numberOfShips → m.shipsAdded = done.length) →
      ShipsFacing m done →
      parse_map_message_loop rules rest m = (0, m') →
      MapLabels rules m' ∧ ShipsFacing m' (done ++ rest) ∧
        ∀ entry ∈ rest, entry_well_formed entry := by
  have hv' := hv
  obtain ⟨hw1, hw26, hh1, hh26, hn1, hn15, hlen, hall⟩ := hv'
  simp only [MAX_BOARD_WIDTH, MAX_BOARD_HEIGHT, MAX_SHIPS] at hw26 hh26 hn15
  intro rest
  induction rest with
  | nil =>
    intro done m m' hinv hlab hle hlt hface hrun
    rw [parse_map_message_loop] at hrun
    by_cases hcount : (m.shipsAdded : Int) = rules.numberOfShips
    · rw [if_neg (by simpa using hcount)] at hrun
      simp only [Prod.mk.injEq, true_and] at hrun
      subst hrun
      exact ⟨hlab, by simpa using hface, by simp⟩
    · rw [if_pos hcount] at hrun
      simp at hrun
  | cons entry rest ih =>
    intro done m m' hinv hlab hle hlt hface hrun
    rw [parse_map_message_loop] at hrun
    simp only [] at hrun
    by_cases hlen2 : (split_string entry ',' false).length = MAP_TOKEN_LINE_LENGTH
    · rw [if_neg (by simpa using hlen2)] at hrun
      by_cases hchk : (check_valid_coordinates ((split_string entry ',' false).getD 0 [])).1 = 0
      · rw [if_neg (by simpa using hchk)] at hrun
        have happ : done ++ entry :: rest = (done ++ [entry]) ++ rest := by simp
        by_cases hadd : (m.shipsAdded : Int) < rules.numberOfShips
        · rw [if_pos hadd] at hrun
          rw [handle_agent_ship_direction_eq, check_valid_coordinates_snd] at hrun
          cases hd : entry_direction ((split_string entry ',' false).getD 1 []) with
          | none =>
            rw [hd] at hrun
            simp at hrun
          | some d =>
            rw [hd] at hrun
            simp only [] at hrun
            cases hship : add_agent_ship m (strtrim ((split_string entry ',' false).getD 0 []))
                d rules with
            | mk status m1 =>
              rw [hship] at hrun
              simp only [] at hrun
              by_cases hst : status = 0
              · subst hst
                simp only [ne_eq, not_true_eq_false, if_false] at hrun
                obtain ⟨hinv1, hs1, ho1, _, ship, hships, hdir, hcl, _, hcells⟩ :=
                  add_agent_ship_spec rules d m m1 _ hw26 hh26 hinv (by omega) hship
                have hlab1 := add_agent_ship_labels rules d m m1 _ hinv hlab (by omega) hship
                have hdone := hlt hadd
                have hface1 : ShipsFacing m1 (done ++ [entry]) := by
                  intro k sh hk
                  rw [hships] at hk
                  by_cases hkl : k < m.agentShips.length
                  · rw [List.getElem?_append_left hkl] at hk
                    exact shipsFacing_append m done [entry] hface k sh hk
                  · have hke : k = m.agentShips.length := by
                      have := (List.getElem?_eq_some_iff.mp hk).1
                      simp at this
                      omega
                    have hkd : k = done.length := by rw [hke, hinv.count, hdone]
                    rw [hke, List.getElem?_append_right (le_refl _)] at hk
                    simp only [Nat.sub_self, List.getElem?_cons_zero, Option.some.injEq] at hk
                    subst hk
                    refine ⟨entry, ?_, ?_⟩
                    · rw [hkd, List.getElem?_append_right (le_refl _)]
                      simp
                    · rw [hd, hdir]
                obtain ⟨r1, r2, r3⟩ := ih (done ++ [entry]) m1 m' hinv1 hlab1
                  (by rw [hs1]; push_cast; omega)
                  (by intro _; rw [hs1, hdone]; simp)
                  hface1 hrun
                rw [happ]
                refine ⟨r1, r2, ?_⟩
                intro e he
                rcases List.mem_cons.mp he with h | h
                · rw [h]; exact ⟨hlen2, hchk⟩
                · exact r3 e h
              · rw [if_pos hst] at hrun
                simp only [Prod.mk.injEq] at hrun
                exact absurd hrun.1 hst
        · rw [if_neg hadd] at hrun
          obtain ⟨r1, r2, r3⟩ := ih (done ++ [entry]) m m' hinv hlab hle
            (by intro h; exact absurd h hadd)
            (shipsFacing_append m done [entry] hface) hrun
          rw [happ]
          refine ⟨r1, r2, ?_⟩
          intro e he
          rcases List.mem_cons.mp he with h | h
          · rw [h]; exact ⟨hlen2, hchk⟩
          · exact r3 e h
      · rw [if_pos hchk] at hrun
        simp at hrun
    · rw [if_pos hlen2] at hrun
      simp at hrun

theorem initialise_grids_labels (rules : Rules) :
    MapLabels rules { initialise_grids rules initialMap with shipsAdded := 0 } := by
  constructor
  · intro k ship hk
    simp [initialise_grids, initialMap] at hk
  · intro ship hs
    simp [initialise_grids, initialMap] at hs

/-- A successful `parse_map_message` on freshly initialised grids, further: the
cells of ship `k` hold the hexadecimal digit of `k + 1` and lie on the board,
every ship faces the way its entry names, and every entry of the message has
two fields with a start coordinate `check_valid_coordinates` accepts. -/
theorem parse_map_message_labels (rules : Rules) (hv : rules.valid) (mapMessage : CStr)
    (m' : AgentMap)
    (hrun : parse_map_message (initialise_grids rules initialMap) rules mapMessage = (0, m')) :
    MapLabels rules m' ∧ ShipsFacing m' (map_entries mapMessage) ∧
      (∀ entry ∈ map_entries mapMessage, entry_well_formed entry) ∧
      check_message_prefix (strtrim mapMessage) "MAP ".toList ≠ 0 := by
  unfold parse_map_message at hrun
  simp only [] at hrun
  split at hrun
  · simp at hrun
  · rename_i hpre
    have := parse_map_message_loop_labels rules hv _ [] _ m' (initialise_grids_inv rules)
      (initialise_grids_labels rules)
      (by obtain ⟨_, _, _, _, hn1, _⟩ := hv; simp only [MIN_SHIPS] at hn1; simp; omega)
      (by intro _; rfl)
      (by intro k ship hk; simp [initialise_grids, initialMap] at hk)
      hrun
    obtain ⟨h1, h2, h3⟩ := this
    exact ⟨h1, by simpa [map_entries] using h2, by simpa [map_entries] using h3, hpre⟩


theorem convert_to_hex_spec : ∀ n : Nat, n < 16 →
    convert_to_hex (n : Int) = hex_digit_spec n := by
  decide

theorem parse_map_message_loop_well_formed (rules : Rules) :
    ∀ (rest : List CStr) (m m' : AgentMap), parse_map_message_loop rules rest m = (0, m') →
      ∀ entry ∈ rest, entry_well_formed entry := by
  intro rest
  induction rest with
  | nil => intro m m' _ entry he; simp at he
  | cons entry rest ih =>
    intro m m' hrun
    rw [parse_map_message_loop] at hrun
    simp only [] at hrun
    by_cases hlen2 : (split_string entry ',' false).length = MAP_TOKEN_LINE_LENGTH
    · rw [if_neg (by simpa using hlen2)] at hrun
      by_cases hchk : (check_valid_coordinates ((split_string entry ',' false).getD 0 [])).1 = 0
      · rw [if_neg (by simpa using hchk)] at hrun
        have hrest : ∀ e ∈ rest, entry_well_formed e := by
          by_cases hadd : (m.shipsAdded : Int) < rules.numberOfShips
          · rw [if_pos hadd] at hrun
            by_cases hst : (handle_agent_ship_direction
                (check_valid_coordinates ((split_string entry ',' false).getD 0 [])).2
                ((split_string entry ',' false).getD 1 []) m rules).1 = 0
            · rw [if_neg (by simpa using hst)] at hrun
              exact ih _ m' hrun
            · rw [if_pos hst] at hrun
              rw [hrun] at hst
              exact absurd rfl hst
          · rw [if_neg hadd] at hrun
            exact ih _ m' hrun
        intro e he
        rcases List.mem_cons.mp he with h | h
        · rw [h]; exact ⟨hlen2, hchk⟩
        · exact hrest e h
      · rw [if_pos hchk] at hrun
        simp at hrun
    · rw [if_pos hlen2] at hrun
      simp at hrun

theorem parse_map_message_run (rules : Rules) (mapMessage : CStr)
    (h0 : (parse_map_message (initialise_grids rules initialMap) rules mapMessage).1 = 0) :
    parse_map_message (initialise_grids rules initialMap) rules mapMessage =
      (0, (parse_map_message (initialise_grids rules initialMap) rules mapMessage).2) := by
  rw [← h0]

theorem ship_cells_spec_getElem? (start : Int × Int) (direction : Direction) (length : Int)
    (k : Nat) (cell : Int × Int)
    (h : (ship_cells_spec start direction length)[k]? = some cell) :
    cell = moveCell direction start (k : Int) := by
  unfold ship_cells_spec at h
  rw [List.getElem?_map] at h
  cases hr : (List.range length.toNat)[k]? with
  | none => rw [hr] at h; simp at h
  | some j =>
    rw [hr] at h
    simp only [Option.map_some', Option.some.injEq] at h
    have hj := (List.getElem?_eq_some_iff.mp hr).2
    rw [List.getElem_range] at hj
    rw [← h, ← hj]

/-- What a successful `parse_map_message` gives for the ship of every index
below `numberOfShips`: the ship exists, as does its entry, and it faces the
direction the entry names. -/
theorem parse_map_message_ships_exist (rules : Rules) (hv : rules.valid) (mapMessage : CStr)
    (h0 : (parse_map_message (initialise_grids rules initialMap) rules mapMessage).1 = 0) :
    ((parse_map_message (initialise_grids rules initialMap) rules
      mapMessage).2.agentShips.length : Int) = rules.numberOfShips ∧
    ∀ i : Nat, (i : Int) < rules.numberOfShips →
      ∃ (ship : Ship) (entry : CStr),
        (parse_map_message (initialise_grids rules initialMap) rules
          mapMessage).2.agentShips[i]? = some ship ∧
        (map_entries mapMessage)[i]? = some entry ∧
        entry_direction ((split_string entry ',' false).getD 1 []) = some ship.direction ∧
        (ship.coordinates.length : Int) = rules.shipLengths.getD i 0 := by
  have hrun := parse_map_message_run rules mapMessage h0
  obtain ⟨hinv, hcount, hmatch, _⟩ := parse_map_message_spec rules hv mapMessage _ hrun
  obtain ⟨hlab, hface, _, _⟩ := parse_map_message_labels rules hv mapMessage _ hrun
  have hlen : ((parse_map_message (initialise_grids rules initialMap) rules
      mapMessage).2.agentShips.length : Int) = rules.numberOfShips := by
    rw [hinv.count]; exact hcount
  refine ⟨hlen, ?_⟩
  intro i hi
  have hil : i < (parse_map_message (initialise_grids rules initialMap) rules
      mapMessage).2.agentShips.length := by omega
  obtain ⟨entry, he, _, hcl⟩ := hmatch i _ (List.getElem?_eq_getElem hil)
  obtain ⟨entry2, he2, hdir⟩ := hface i _ (List.getElem?_eq_getElem hil)
  rw [he] at he2
  simp only [Option.some.injEq] at he2
  subst he2
  exact ⟨_, entry, List.getElem?_eq_getElem hil, he, hdir, hcl⟩

/-- C11: after `initialise_grids` and a successful `parse_map_message` (valid
rules), a cell of the own grid of the agent is non-blank exactly when a placed
ship covers it; and every cell of the ship of index `k` (identity `k + 1`, at most
`numberOfShips`) holds the upper-case hexadecimal digit of `k + 1`, which is not
the blank marker. -/
theorem own_grid_holds_ship_digits (rules : Rules) (hv : rules.valid) (mapMessage : CStr)
    (agentMap : AgentMap)
    (hrun : parse_map_message (initialise_grids rules initialMap) rules mapMessage =
      (0, agentMap)) :
    (∀ r c : Int, 0 ≤ r → r < rules.height → 0 ≤ c → c < rules.width →
      (gridGet agentMap.agentGrid r c ≠ BLANK_GRID ↔
        ∃ (k : Nat) (ship : Ship), agentMap.agentShips[k]? = some ship ∧ (c, r) ∈ ship.cells)) ∧
    (∀ (k : Nat) (ship : Ship), agentMap.agentShips[k]? = some ship →
      ((k : Int) + 1 ≤ rules.numberOfShips ∧ k + 1 ≤ 15) ∧
      ∀ cell ∈ ship.cells, on_board rules cell ∧
        gridGet agentMap.agentGrid cell.2 cell.1 = hex_digit_spec (k + 1) ∧
        hex_digit_spec (k + 1) ≠ BLANK_GRID) ∧
    agentMap.agentGrid.length = rules.height.toNat ∧
    (∀ row ∈ agentMap.agentGrid, row.length = rules.width.toNat) := by
  obtain ⟨hinv, hcount, _, _⟩ := parse_map_message_spec rules hv mapMessage agentMap hrun
  obtain ⟨hlab, _, _, _⟩ := parse_map_message_labels rules hv mapMessage agentMap hrun
  have hv' := hv
  obtain ⟨_, _, _, _, _, hn15, _, _⟩ := hv'
  simp only [MAX_SHIPS] at hn15
  refine ⟨?_, ?_, hinv.rows, hinv.cols⟩
  · intro r c hr hrh hc hcw
    rw [hinv.marked r c hr hrh hc hcw]
    unfold AgentMap.cells
    rw [List.mem_flatten]
    constructor
    · intro ⟨l, hl, hcell⟩
      obtain ⟨ship, hs, he⟩ := List.mem_map.mp hl
      obtain ⟨k, hk⟩ := List.mem_iff_getElem?.mp hs
      exact ⟨k, ship, hk, by rw [he]; exact hcell⟩
    · intro ⟨k, ship, hk, hcell⟩
      exact ⟨ship.cells, List.mem_map.mpr ⟨ship, List.getElem?_mem hk, rfl⟩, hcell⟩
  · intro k ship hk
    have hkl := (List.getElem?_eq_some_iff.mp hk).1
    have hc := hinv.count
    have hk15 : k + 1 ≤ 15 := by omega
    refine ⟨⟨by omega, hk15⟩, ?_⟩
    intro cell hcell
    have hhex := convert_to_hex_spec (k + 1) (by omega)
    refine ⟨hlab.inside ship (List.getElem?_mem hk) cell hcell, ?_, ?_⟩
    · rw [hlab.labels k ship hk cell hcell, ← hhex]
      push_cast
      rfl
    · rw [← hhex]
      exact convert_to_hex_ne_blank (k + 1) (by omega)

/-- Witness of C11: `MAP B1,S:A3,E` on a 3 x 3 board with ships of lengths 2 and 3;
the grid reads `.1.`, `.1.`, `222`. -/
theorem own_grid_holds_ship_digits_witness :
    exampleRules2.valid ∧
    exampleMap2.agentGrid = [".1.".toList, ".1.".toList, "222".toList] ∧
    (gridGet exampleMap2.agentGrid 0 0 ≠ BLANK_GRID ↔
      ∃ (k : Nat) (ship : Ship), exampleMap2.agentShips[k]? = some ship ∧
        ((0 : Int), (0 : Int)) ∈ ship.cells) :=
  ⟨by decide, by decide,
   (own_grid_holds_ship_digits exampleRules2 (by decide) "MAP B1,S:A3,E".toList exampleMap2
      (by decide)).1 0 0 (by decide) (by decide) (by decide) (by decide)⟩

/-- C12: after a successful `parse_map_message` (valid rules, freshly
initialised grids) there are `numberOfShips` ships, and for every
`i < numberOfShips` the ship of index `i` is the one entry `i` of the message
describes: it faces the direction the entry names, it has `shipLengths[i]`
coordinates, its counters of length and of remaining hits equal that number, its
coordinate of index `k` is the cell of the start coordinate moved `k` steps in
the direction of the ship (`moveCell`: north row - 1, south row + 1, east
column + 1, west column - 1), and all its cells lie on the board. -/
theorem placed_ships_follow_entries (rules : Rules) (hv : rules.valid) (mapMessage : CStr)
    (agentMap : AgentMap)
    (hrun : parse_map_message (initialise_grids rules initialMap) rules mapMessage =
      (0, agentMap)) :
    (agentMap.agentShips.length : Int) = rules.numberOfShips ∧
    ∀ i : Nat, (i : Int) < rules.numberOfShips →
      ∃ (ship : Ship) (entry : CStr), agentMap.agentShips[i]? = some ship ∧
        (map_entries mapMessage)[i]? = some entry ∧
        entry_direction ((split_string entry ',' false).getD 1 []) = some ship.direction ∧
        (ship.coordinates.length : Int) = rules.shipLengths.getD i 0 ∧
        ship.hits = rules.shipLengths.getD i 0 ∧
        ship.length = rules.shipLengths.getD i 0 ∧
        (∀ (k : Nat) (coordinate : CStr), ship.coordinates[k]? = some coordinate →
          parse_coordinates coordinate =
            moveCell ship.direction
              (parse_coordinates (strtrim ((split_string entry ',' false).getD 0 []))) (k : Int) ∧
          on_board rules (parse_coordinates coordinate)) := by
  obtain ⟨hinv, hcount, hmatch, _⟩ := parse_map_message_spec rules hv mapMessage agentMap hrun
  obtain ⟨hlab, hface, _, _⟩ := parse_map_message_labels rules hv mapMessage agentMap hrun
  have hlen : (agentMap.agentShips.length : Int) = rules.numberOfShips := by
    rw [hinv.count]; exact hcount
  refine ⟨hlen, ?_⟩
  intro i hi
  have hil : i < agentMap.agentShips.length := by omega
  have hs : agentMap.agentShips[i]? = some (agentMap.agentShips[i]) :=
    List.getElem?_eq_getElem hil
  obtain ⟨entry, he, hcells, hcl⟩ := hmatch i _ hs
  obtain ⟨entry2, he2, hdir⟩ := hface i _ hs
  rw [he] at he2
  simp only [Option.some.injEq] at he2
  subst he2
  have hmem : agentMap.agentShips[i] ∈ agentMap.agentShips := List.getElem_mem hil
  obtain ⟨hh, hl⟩ := hinv.counters _ hmem
  refine ⟨_, entry, hs, he, hdir, hcl, by rw [hh, hcl], by rw [hl, hcl], ?_⟩
  intro k coordinate hk
  have hcellk : (agentMap.agentShips[i]).cells[k]? = some (parse_coordinates coordinate) := by
    unfold Ship.cells
    rw [List.getElem?_map, hk]
    rfl
  constructor
  · have h2 := hcellk
    rw [hcells] at h2
    unfold entry_cells at h2
    rw [hdir] at h2
    exact ship_cells_spec_getElem? _ _ _ k _ h2
  · exact hlab.inside _ hmem _ (List.getElem?_mem hcellk)

/-- Witness of C12: ship 1 of `MAP B1,S:A3,E` (lengths 2 and 3 on a 3 x 3 board) has
three coordinates, the last being A3 moved two steps east. -/
theorem placed_ships_follow_entries_witness :
    exampleRules2.valid ∧
    exampleMap2.agentShips.map (fun ship => (ship.coordinates, ship.hits, ship.direction)) =
      [(["B1".toList, "B2".toList], 2, .SOUTH),
       (["A3".toList, "B3".toList, "C3".toList], 3, .EAST)] ∧
    (exampleMap2.agentShips.length : Int) = exampleRules2.numberOfShips :=
  ⟨by decide, by decide,
   (placed_ships_follow_entries exampleRules2 (by decide) "MAP B1,S:A3,E".toList exampleMap2
      (by decide)).1⟩

/-- C13: `parse_map_message` returns an error for every message that, once
trimmed, does not start with `MAP `; that has an entry without exactly two fields
between commas; or that has an entry whose first field `check_valid_coordinates`
rejects.  Under valid rules (grids freshly initialised) it also returns an error
when the entry of one of the first `numberOfShips` ships names no direction
among N, E, S, W, when a cell such an entry claims lies off the board, and when
the message has fewer than `numberOfShips` entries. -/
theorem parse_map_message_rejects (rules : Rules) (mapMessage : CStr) :
    (∀ agentMap : AgentMap, check_message_prefix (strtrim mapMessage) "MAP ".toList = 0 →
      (parse_map_message agentMap rules mapMessage).1 ≠ 0) ∧
    (∀ agentMap : AgentMap,
      (∃ entry ∈ map_entries mapMessage,
        (split_string entry ',' false).length ≠ MAP_TOKEN_LINE_LENGTH) →
      (parse_map_message agentMap rules mapMessage).1 ≠ 0) ∧
    (∀ agentMap : AgentMap,
      (∃ entry ∈ map_entries mapMessage,
        (check_valid_coordinates ((split_string entry ',' false).getD 0 [])).1 ≠ 0) →
      (parse_map_message agentMap rules mapMessage).1 ≠ 0) ∧
    (rules.valid →
      (∀ (i : Nat) (entry : CStr), (i : Int) < rules.numberOfShips →
        (map_entries mapMessage)[i]? = some entry →
        entry_direction ((split_string entry ',' false).getD 1 []) = none →
        (parse_map_message (initialise_grids rules initialMap) rules mapMessage).1 ≠ 0) ∧
      (∀ (i : Nat) (entry : CStr), (i : Int) < rules.numberOfShips →
        (map_entries mapMessage)[i]? = some entry →
        (∃ cell ∈ entry_cells rules i entry, ¬ on_board rules cell) →
        (parse_map_message (initialise_grids rules initialMap) rules mapMessage).1 ≠ 0) ∧
      (((map_entries mapMessage).length : Int) < rules.numberOfShips →
        (parse_map_message (initialise_grids rules initialMap) rules mapMessage).1 ≠ 0)) := by
  have hwf : ∀ agentMap : AgentMap, (parse_map_message agentMap rules mapMessage).1 = 0 →
      check_message_prefix (strtrim mapMessage) "MAP ".toList ≠ 0 ∧
      ∀ entry ∈ map_entries mapMessage, entry_well_formed entry := by
    intro agentMap h0
    unfold parse_map_message at h0
    simp only [] at h0
    split at h0
    · exact absurd (show (1 : Int) = 0 from h0) (by decide)
    · rename_i hpre
      refine ⟨hpre, ?_⟩
      exact parse_map_message_loop_well_formed rules (map_entries mapMessage)
        { agentMap with shipsAdded := 0 }
        (parse_map_message_loop rules (map_entries mapMessage)
          { agentMap with shipsAdded := 0 }).2
        (Prod.ext h0 rfl)
  refine ⟨?_, ?_, ?_, ?_⟩
  · intro agentMap hpre h0
    exact (hwf agentMap h0).1 hpre
  · intro agentMap ⟨entry, he, hlen⟩ h0
    exact hlen ((hwf agentMap h0).2 entry he).1
  · intro agentMap ⟨entry, he, hchk⟩ h0
    exact hchk ((hwf agentMap h0).2 entry he).2
  · intro hv
    refine ⟨?_, ?_, ?_⟩
    · intro i entry hi he hd h0
      obtain ⟨_, hall⟩ := parse_map_message_ships_exist rules hv mapMessage h0
      obtain ⟨ship, entry2, _, he2, hdir, _⟩ := hall i hi
      rw [he] at he2
      simp only [Option.some.injEq] at he2
      subst he2
      rw [hd] at hdir
      exact absurd hdir (by simp)
    · intro i entry hi he ⟨cell, hcell, hoff⟩ h0
      have hrun := parse_map_message_run rules mapMessage h0
      obtain ⟨hinv, hcount, hmatch, _⟩ := parse_map_message_spec rules hv mapMessage _ hrun
      obtain ⟨hlab, _, _, _⟩ := parse_map_message_labels rules hv mapMessage _ hrun
      have hil : i < (parse_map_message (initialise_grids rules initialMap) rules
          mapMessage).2.agentShips.length := by
        have := hinv.count
        omega
      obtain ⟨entry2, he2, hcells, _⟩ := hmatch i _ (List.getElem?_eq_getElem hil)
      rw [he] at he2
      simp only [Option.some.injEq] at he2
      subst he2
      apply hoff
      exact hlab.inside _ (List.getElem_mem hil) cell (by rw [hcells]; exact hcell)
    · intro hfew h0
      obtain ⟨_, hall⟩ := parse_map_message_ships_exist rules hv mapMessage h0
      have hn : 0 < rules.numberOfShips := by
        obtain ⟨_, _, _, _, hn1, _⟩ := hv
        simp only [MIN_SHIPS] at hn1
        omega
      obtain ⟨ship, entry2, _, he2, _⟩ := hall (rules.numberOfShips - 1).toNat (by omega)
      have := (List.getElem?_eq_some_iff.mp he2).1
      omega

/-- Witness of C13 on a 3 x 3 board with ships of lengths 2 and 3: a message
without the prefix, an entry of three fields, a start coordinate `1B`, the
direction `X`, a ship running off the board from B3 to the east, and a message
of one entry are all refused. -/
theorem parse_map_message_rejects_witness :
    exampleRules2.valid ∧
    (parse_map_message initialMap exampleRules2 "B1,S:A3,E".toList).1 ≠ 0 ∧
    (parse_map_message initialMap exampleRules2 "MAP B1,S,S:A3,E".toList).1 ≠ 0 ∧
    (parse_map_message initialMap exampleRules2 "MAP 1B,S:A3,E".toList).1 ≠ 0 ∧
    (parse_map_message (initialise_grids exampleRules2 initialMap) exampleRules2
      "MAP B1,X:A3,E".toList).1 ≠ 0 ∧
    (parse_map_message (initialise_grids exampleRules2 initialMap) exampleRules2
      "MAP B1,S:B3,E".toList).1 ≠ 0 ∧
    (parse_map_message (initialise_grids exampleRules2 initialMap) exampleRules2
      "MAP B1,S".toList).1 ≠ 0 :=
  ⟨by decide,
   (parse_map_message_rejects exampleRules2 "B1,S:A3,E".toList).1 initialMap (by decide),
   (parse_map_message_rejects exampleRules2 "MAP B1,S,S:A3,E".toList).2.1 initialMap
      ⟨"B1,S,S".toList, by decide, by decide⟩,
   (parse_map_message_rejects exampleRules2 "MAP 1B,S:A3,E".toList).2.2.1 initialMap
      ⟨"1B,S".toList, by decide, by decide⟩,
   ((parse_map_message_rejects exampleRules2 "MAP B1,X:A3,E".toList).2.2.2 (by decide)).1
      0 "B1,X".toList (by decide) (by decide) (by decide),
   ((parse_map_message_rejects exampleRules2 "MAP B1,S:B3,E".toList).2.2.2 (by decide)).2.1
      1 "B3,E".toList (by decide) (by decide) ⟨(3, 2), by decide, by decide⟩,
   ((parse_map_message_rejects exampleRules2 "MAP B1,S".toList).2.2.2 (by decide)).2.2
      (by decide)⟩

/-! ### The syntax of a coordinate -/

/-- C17, at failing inputs: `check_valid_coordinates` accepts `a1` (a lower-case
letter), `[1` (no letter), `A+1` (a sign before the row) and `A 1` (a blank
before the row), none of which is one upper-case letter followed by the decimal
digits of a positive integer; and it rejects `A27`, which is one. -/
theorem check_valid_coordinates_accepts_lower_case :
    ((check_valid_coordinates "a1".toList).1 = 0 ∧ coordinate_token_spec "a1".toList = false) ∧
    ((check_valid_coordinates "[1".toList).1 = 0 ∧ coordinate_token_spec "[1".toList = false) ∧
    ((check_valid_coordinates "A+1".toList).1 = 0 ∧ coordinate_token_spec "A+1".toList = false) ∧
    ((check_valid_coordinates "A 1".toList).1 = 0 ∧ coordinate_token_spec "A 1".toList = false) ∧
    ((check_valid_coordinates "A27".toList).1 = 1 ∧ coordinate_token_spec "A27".toList = true) := by
  decide

/-! ### Reading the rules file -/

theorem read_rule_message_width_cases (rules : Rules) (token : CStr) :
    read_rule_message_width rules token = (.READ_INVALID, rules) ∨
    ∃ width : Int, MIN_BOARD_WIDTH ≤ width ∧ width ≤ MAX_BOARD_WIDTH ∧
      read_rule_message_width rules token = (.READ_HEIGHT, { rules with width := width }) := by
  unfold read_rule_message_width
  simp only []
  split
  · exact Or.inl rfl
  · rename_i h
    exact Or.inr ⟨_, by omega, by omega, rfl⟩

theorem read_rule_message_height_cases (rules : Rules) (token : CStr) :
    read_rule_message_height rules token = (.READ_INVALID, rules) ∨
    ∃ height : Int, MIN_BOARD_HEIGHT ≤ height ∧ height ≤ MAX_BOARD_HEIGHT ∧
      read_rule_message_height rules token = (.READ_SHIPS, { rules with height := height }) := by
  unfold read_rule_message_height
  simp only []
  split
  · exact Or.inl rfl
  · rename_i h
    exact Or.inr ⟨_, by omega, by omega, rfl⟩

theorem read_rule_message_ships_cases (rules : Rules) (token : CStr) :
    read_rule_message_ships rules token = (.READ_INVALID, rules) ∨
    ∃ n : Int, MIN_SHIPS ≤ n ∧ n ≤ MAX_SHIPS ∧
      read_rule_message_ships rules token = (.READ_LENGTHS, { rules with numberOfShips := n }) := by
  unfold read_rule_message_ships
  simp only []
  split
  · exact Or.inl rfl
  · rename_i h
    exact Or.inr ⟨_, by omega, by omega, rfl⟩

theorem read_rule_message_lengths_cases (rules : Rules) (token : CStr) (shipsAdded : Nat) :
    read_rule_message_lengths rules token shipsAdded = (.READ_INVALID, rules) ∨
    ∃ l : Int, MIN_SHIP_LENGTH ≤ l ∧
      read_rule_message_lengths rules token shipsAdded =
        (if (shipsAdded : Int) = rules.numberOfShips then .READ_DONE else .READ_LENGTHS,
         { rules with shipLengths := rules.shipLengths.take (shipsAdded - 1) ++ [l] }) := by
  unfold read_rule_message_lengths
  simp only []
  split
  · exact Or.inl rfl
  · rename_i h
    refine Or.inr ⟨longToInt (strtol token).1, by omega, ?_⟩
    split <;> rfl

theorem read_rule_dimensions_cases (rules : Rules) (line : CStr) :
    (read_rule_dimensions rules line).1 = .READ_INVALID ∨
    ∃ width height : Int, (MIN_BOARD_WIDTH ≤ width ∧ width ≤ MAX_BOARD_WIDTH ∧
      MIN_BOARD_HEIGHT ≤ height ∧ height ≤ MAX_BOARD_HEIGHT) ∧
      read_rule_dimensions rules line =
        (.READ_SHIPS, { rules with width := width, height := height }) := by
  unfold read_rule_dimensions
  simp only []
  split
  · exact Or.inl rfl
  · rcases read_rule_message_width_cases rules ((split_string line ' ' true).getD 0 []) with
      hw | ⟨w, hw1, hw2, hw⟩
    · rw [hw]
      exact Or.inl rfl
    · rw [hw]
      simp only [reduceCtorEq, if_false]
      rcases read_rule_message_height_cases { rules with width := w }
          ((split_string line ' ' true).getD 1 []) with hh | ⟨h, hh1, hh2, hh⟩
      · rw [hh]
        exact Or.inl rfl
      · rw [hh]
        simp only [reduceCtorEq, if_false]
        exact Or.inr ⟨w, h, ⟨hw1, hw2, hh1, hh2⟩, rfl⟩

theorem parse_rules_file_loop_inv :
    ∀ (lines : List CStr) (state : RuleReadState) (shipsAdded : Nat) (rules : Rules),
      RulesReadInv state shipsAdded rules →
      RulesReadInv (parse_rules_file_loop lines state shipsAdded rules).1
        (parse_rules_file_loop lines state shipsAdded rules).2.1
        (parse_rules_file_loop lines state shipsAdded rules).2.2 := by
  intro lines
  induction lines with
  | nil => intro state shipsAdded rules h; exact h
  | cons line rest ih =>
    intro state shipsAdded rules h
    by_cases hc : is_comment (strtrim line) = true
    · have : parse_rules_file_loop (line :: rest) state shipsAdded rules =
          parse_rules_file_loop rest state shipsAdded rules := by
        cases state <;> simp only [parse_rules_file_loop, hc, if_true]
      rw [this]
      exact ih _ _ _ h
    · by_cases he : strtrim line = []
      · have : parse_rules_file_loop (line :: rest) state shipsAdded rules =
            parse_rules_file_loop rest state shipsAdded rules := by
          cases state <;> simp only [parse_rules_file_loop, he, if_true, ite_self]
        rw [this]
        exact ih _ _ _ h
      · cases state with
        | READ_WIDTH =>
          simp only [parse_rules_file_loop, hc, he, Bool.false_eq_true, if_false]
          exact ih _ _ _ h
        | READ_DONE =>
          simp only [parse_rules_file_loop, hc, he, Bool.false_eq_true, if_false]
          exact h
        | READ_INVALID =>
          simp only [parse_rules_file_loop, hc, he, Bool.false_eq_true, if_false]
          exact h
        | READ_HEIGHT =>
          simp only [parse_rules_file_loop, hc, he, Bool.false_eq_true, if_false]
          rcases read_rule_dimensions_cases rules (strtrim line) with hd | ⟨w, hh, hdim, hd⟩
          · apply ih
            rw [hd]
            trivial
          · apply ih
            rw [hd]
            exact ⟨hdim, h.1, h.2⟩
        | READ_SHIPS =>
          simp only [parse_rules_file_loop, hc, he, Bool.false_eq_true, if_false]
          rcases read_rule_message_ships_cases rules (strtrim line) with hs | ⟨n, hn1, hn2, hs⟩
          · apply ih
            rw [hs]
            trivial
          · apply ih
            rw [hs]
            obtain ⟨hdim, hl, hk⟩ := h
            refine ⟨hdim, ⟨hn1, hn2⟩, ?_, ?_, ?_⟩
            · simp only [MIN_SHIPS] at hn1
              rw [hk]
              show ((0 : Nat) : Int) < n
              omega
            · show rules.shipLengths.length = shipsAdded
              rw [hl, hk]
              rfl
            · show ∀ l ∈ rules.shipLengths, MIN_SHIP_LENGTH ≤ l
              rw [hl]
              intro l hl'
              simp at hl'
        | READ_LENGTHS =>
          simp only [parse_rules_file_loop, hc, he, Bool.false_eq_true, if_false]
          rcases read_rule_message_lengths_cases rules (strtrim line) (shipsAdded + 1) with
            hs | ⟨l, hl1, hs⟩
          · apply ih
            rw [hs]
            trivial
          · apply ih
            rw [hs]
            obtain ⟨hdim, hships, hlt, hlen, hall⟩ := h
            have htake : rules.shipLengths.take (shipsAdded + 1 - 1) = rules.shipLengths := by
              rw [Nat.add_sub_cancel, ← hlen]
              exact List.take_length _
            rw [htake]
            have hall' : ∀ x ∈ rules.shipLengths ++ [l], MIN_SHIP_LENGTH ≤ x := by
              intro x hx
              rcases List.mem_append.mp hx with hx | hx
              · exact hall x hx
              · simp only [List.mem_singleton] at hx
                rw [hx]; exact hl1
            by_cases hdone : ((shipsAdded + 1 : Nat) : Int) = rules.numberOfShips
            · rw [if_pos hdone]
              refine ⟨⟨hdim.1, hdim.2.1, hdim.2.2.1, hdim.2.2.2, hships.1, hships.2, ?_, hall'⟩,
                hdone⟩
              show ((rules.shipLengths ++ [l]).length : Int) = rules.numberOfShips
              rw [← hdone, List.length_append, hlen]
              rfl
            · rw [if_neg hdone]
              refine ⟨hdim, hships, ?_, ?_, hall'⟩
              · show ((shipsAdded + 1 : Nat) : Int) < rules.numberOfShips
                push_cast at hdone ⊢
                omega
              · show (rules.shipLengths ++ [l]).length = shipsAdded + 1
                rw [List.length_append, hlen]
                rfl

/-- C14: whenever `parse_rules_file` returns 0, the rules it leaves are valid:
width and height in 1..26, 1..15 ships, as many lengths stored as there are
ships, each length at least 1. -/
theorem parse_rules_file_valid (rules : Rules) (rulesFile : List Char)
    (h : (parse_rules_file rules rulesFile).1 = 0) :
    (parse_rules_file rules rulesFile).2.valid := by
  unfold parse_rules_file at h ⊢
  simp only [] at h ⊢
  split
  · rename_i hsize
    rw [if_pos hsize] at h
    exact absurd (show (1 : Int) = 0 from h) (by decide)
  · rename_i hsize
    rw [if_neg hsize] at h
    have hinv := parse_rules_file_loop_inv (parse_file rulesFile) .READ_HEIGHT 0
      { rules with numberOfShips := 0, shipLengths := [] } ⟨rfl, rfl⟩
    split
    · rename_i hdone
      rw [hdone.1] at hinv
      exact hinv.1
    · rename_i hdone
      rw [if_neg hdone] at h
      exact absurd (show (1 : Int) = 0 from h) (by decide)

/-- Witness of C14: a rules file with a comment and an empty line, for a board of
width 3 and height 4 with ships of lengths 1 and 2. -/
theorem parse_rules_file_valid_witness :
    parse_rules_file emptyRules "# c\n3 4\n\n2\n 1\n2\n".toList =
      (0, { height := 4, width := 3, numberOfShips := 2, shipLengths := [1, 2] }) ∧
    (parse_rules_file emptyRules "# c\n3 4\n\n2\n 1\n2\n".toList).2.valid :=
  ⟨by decide, parse_rules_file_valid emptyRules "# c\n3 4\n\n2\n 1\n2\n".toList (by decide)⟩

/-! ### Decimal numbers -/

theorem digitChar_spec : ∀ k : Nat, k < 10 →
    isdigit (Nat.digitChar k) = true ∧ (Nat.digitChar k).toNat - '0'.toNat = k := by
  decide

theorem strtolDigits_append (digits : CStr) (hd : ∀ c ∈ digits, isdigit c = true) :
    ∀ (acc : Nat) (rest : CStr),
      strtolDigits acc (digits ++ rest) = strtolDigits (digitsValue acc digits) rest := by
  induction digits with
  | nil => intro acc rest; rfl
  | cons c cs ih =>
    intro acc rest
    have hc : isdigit c = true := hd c (by simp)
    rw [List.cons_append, strtolDigits, if_pos hc, ih (fun x hx => hd x (by simp [hx]))]
    rfl

theorem toDigitsCore_spec : ∀ (fuel n : Nat) (ds : List Char), n < fuel →
    ∃ l : List Char, Nat.toDigitsCore 10 fuel n ds = l ++ ds ∧ l ≠ [] ∧
      (∀ c ∈ l, isdigit c = true) ∧ ∀ acc, digitsValue acc l = acc * 10 ^ l.length + n := by
  intro fuel
  induction fuel with
  | zero => intro n ds h; omega
  | succ f ih =>
    intro n ds hn
    obtain ⟨hdig, hval⟩ := digitChar_spec (n % 10) (Nat.mod_lt _ (by decide))
    rw [Nat.toDigitsCore]
    by_cases h0 : n / 10 = 0
    · rw [if_pos h0]
      refine ⟨[Nat.digitChar (n % 10)], rfl, by simp, ?_, ?_⟩
      · intro c hc
        simp only [List.mem_singleton] at hc
        rw [hc]; exact hdig
      · intro acc
        simp only [digitsValue, List.foldl_cons, List.foldl_nil, List.length_singleton, pow_one]
        rw [hval]
        omega
    · rw [if_neg h0]
      obtain ⟨l, hl, _, hall, hv⟩ := ih (n / 10) (Nat.digitChar (n % 10) :: ds) (by omega)
      refine ⟨l ++ [Nat.digitChar (n % 10)], ?_, by simp, ?_, ?_⟩
      · rw [hl]; simp
      · intro c hc
        rcases List.mem_append.mp hc with h | h
        · exact hall c h
        · simp only [List.mem_singleton] at h
          rw [h]; exact hdig
      · intro acc
        have := hv acc
        simp only [digitsValue] at this
        simp only [digitsValue, List.foldl_append, List.foldl_cons, List.foldl_nil,
          List.length_append, List.length_singleton]
        rw [this, hval, pow_succ]
        have := Nat.div_add_mod n 10
        nlinarith [Nat.div_add_mod n 10]

/-- The digits `%d` writes for a natural number: a non-empty string of decimal
digits whose value is the number. -/
theorem toDigits_spec (n : Nat) :
    Nat.toDigits 10 n ≠ [] ∧ (∀ c ∈ Nat.toDigits 10 n, isdigit c = true) ∧
      digitsValue 0 (Nat.toDigits 10 n) = n := by
  obtain ⟨l, hl, hne, hall, hv⟩ := toDigitsCore_spec (n + 1) n [] (by omega)
  have : Nat.toDigits 10 n = l := by
    unfold Nat.toDigits
    rw [hl]; simp
  rw [this]
  refine ⟨hne, hall, ?_⟩
  rw [hv 0]
  simp

theorem isdigit_props : ∀ n : Nat, n < 128 → isdigit (Char.ofNat n) = true →
    isspace (Char.ofNat n) = false ∧ Char.ofNat n ≠ ',' ∧ Char.ofNat n ≠ '-' ∧
      Char.ofNat n ≠ '+' ∧ Char.ofNat n ≠ '\n' ∧ Char.ofNat n ≠ '\x00' := by
  decide

theorem isdigit_not (c : Char) (h : isdigit c = true) :
    isspace c = false ∧ c ≠ ',' ∧ c ≠ '-' ∧ c ≠ '+' ∧ c ≠ '\n' ∧ c ≠ '\x00' := by
  have hlt : c.toNat < 128 := by
    unfold isdigit at h
    simp only [Bool.and_eq_true, decide_eq_true_eq] at h
    have : '9'.toNat = 57 := by decide
    omega
  have := isdigit_props c.toNat hlt (by rw [Char.ofNat_toNat]; exact h)
  rw [Char.ofNat_toNat] at this
  exact this

/-- What `strtol` reads from the text `%d` writes for a natural number within the
range of `long`: the number, with nothing left. -/
theorem strtol_toDigits (n : Nat) (hn : (n : Int) ≤ 9223372036854775807) :
    strtol (Nat.toDigits 10 n) = ((n : Int), []) := by
  obtain ⟨hne, hall, hv⟩ := toDigits_spec n
  cases hd : Nat.toDigits 10 n with
  | nil => exact absurd hd hne
  | cons c cs =>
    rw [hd] at hall hv
    have hc : isdigit c = true := hall c (by simp)
    obtain ⟨hsp, _, hminus, hplus, _, _⟩ := isdigit_not c hc
    have hrun : strtolDigits 0 (c :: cs) = (n, []) := by
      have := strtolDigits_append (c :: cs) hall 0 []
      rw [List.append_nil] at this
      rw [this, hv]
      rfl
    have hm : strtol.match_1 (fun _ => Bool × List Char) (c :: cs) (fun r => (true, r))
        (fun r => (false, r)) (fun r => (false, r)) = (false, c :: cs) := by
      split
      · rename_i r h; simp only [List.cons.injEq] at h; exact absurd h.1 hminus
      · rename_i r h; simp only [List.cons.injEq] at h; exact absurd h.1 hplus
      · rfl
    unfold strtol
    simp only [List.dropWhile_cons, hsp, Bool.false_eq_true, if_false, hm, hc, if_true, hrun]
    unfold clampLong
    rw [if_neg (by omega), if_neg (by omega)]

/-! ### The RULES message -/

/-- The text `%d` writes for a number from 0 to the largest `int`: a number token
that `strtol` reads back in full. -/
theorem fmtInt_token (k : Int) (h0 : 0 ≤ k) (h1 : k ≤ 2147483647) :
    fmtInt k ≠ [] ∧ (∀ c ∈ fmtInt k, isdigit c = true) ∧ strtol (fmtInt k) = (k, []) ∧
      longToInt k = k := by
  have hf : fmtInt k = Nat.toDigits 10 k.toNat := by
    unfold fmtInt
    rw [if_neg (by omega)]
    congr 1
    omega
  obtain ⟨hne, hall, _⟩ := toDigits_spec k.toNat
  have hs := strtol_toDigits k.toNat (by omega)
  rw [hf]
  refine ⟨hne, hall, ?_, ?_⟩
  · rw [hs]
    congr 1
    omega
  · unfold longToInt
    omega

theorem dropWhile_none (p : Char → Bool) (s : CStr) (h : ∀ c ∈ s, p c = false) :
    s.dropWhile p = s := by
  cases s with
  | nil => rfl
  | cons c cs =>
    rw [List.dropWhile_cons, h c (by simp)]
    simp

theorem strtrim_none (s : CStr) (h : ∀ c ∈ s, isspace c = false) : strtrim s = s := by
  unfold strtrim
  rw [dropWhile_none isspace s.reverse (fun c hc => h c (List.mem_reverse.mp hc)),
    List.reverse_reverse, dropWhile_none isspace s h]

theorem strtrim_digits (s : CStr) (h : ∀ c ∈ s, isdigit c = true) : strtrim s = s :=
  strtrim_none s (fun c hc => (isdigit_not c (h c hc)).1)

theorem split_string_loop_token (token : CStr) (h : ',' ∉ token) :
    ∀ (seg rest : CStr),
      split_string_loop ',' false (token ++ rest) seg true =
        split_string_loop ',' false rest (seg ++ token) true := by
  induction token with
  | nil => intro seg rest; simp
  | cons c cs ih =>
    intro seg rest
    have hc : c ≠ ',' := fun e => h (by rw [e]; simp)
    rw [List.cons_append, split_string_loop, if_neg (fun hh => hc hh.1), if_pos hc,
      ih (fun hm => h (List.mem_cons_of_mem _ hm))]
    simp

theorem comma_terminated_cons (token : CStr) (tokens : List CStr) :
    comma_terminated (token :: tokens) = token ++ ',' :: comma_terminated tokens := by
  simp [comma_terminated]

theorem comma_terminated_ne_nil (token : CStr) (tokens : List CStr) :
    comma_terminated (token :: tokens) ≠ [] := by
  rw [comma_terminated_cons]
  simp

/-- Splitting at the commas gives back the tokens that were joined. -/
theorem split_string_comma_terminated :
    ∀ tokens : List CStr, tokens ≠ [] → (∀ token ∈ tokens, ',' ∉ token) →
      split_string_loop ',' false (comma_terminated tokens).dropLast [] true = tokens := by
  intro tokens
  induction tokens with
  | nil => intro h; exact absurd rfl h
  | cons token rest ih =>
    intro _ hall
    have ht : ',' ∉ token := hall token (by simp)
    rw [comma_terminated_cons]
    cases rest with
    | nil =>
      have : (token ++ ',' :: comma_terminated []).dropLast = token ++ [] := by
        simp [comma_terminated]
      rw [this, split_string_loop_token token ht]
      simp [split_string_loop]
    | cons next more =>
      have hne := comma_terminated_ne_nil next more
      have : (token ++ ',' :: comma_terminated (next :: more)).dropLast =
          token ++ ',' :: (comma_terminated (next :: more)).dropLast := by
        rw [List.dropLast_append_of_ne_nil _ (by simp), List.dropLast_cons_of_ne_nil hne]
      rw [this, split_string_loop_token token ht, split_string_loop]
      simp only [true_and, if_true, Bool.not_false, List.nil_append]
      rw [ih (by simp) (fun t htm => hall t (List.mem_cons_of_mem _ htm))]

theorem mem_comma_terminated (tokens : List CStr) (c : Char) (h : c ∈ comma_terminated tokens) :
    c = ',' ∨ ∃ token ∈ tokens, c ∈ token := by
  unfold comma_terminated at h
  rw [List.mem_flatten] at h
  obtain ⟨l, hl, hc⟩ := h
  obtain ⟨token, ht, he⟩ := List.mem_map.mp hl
  rw [← he] at hc
  rcases List.mem_append.mp hc with h1 | h1
  · exact Or.inr ⟨token, ht, h1⟩
  · simp only [List.mem_singleton] at h1
    exact Or.inl h1

/-- The loop of `generate_rules_message` appends every length with its comma. -/
theorem generate_rules_message_loop (lengths : List Int) (start : CStr) :
    ∀ n : Nat, n ≤ lengths.length →
      (List.range n).foldl
        (fun message i => message ++ (fmtInt (lengths.getD i 0) ++ [','])) start =
      start ++ comma_terminated ((lengths.take n).map fmtInt) := by
  intro n
  induction n with
  | zero => intro _; simp [comma_terminated]
  | succ k ih =>
    intro hk
    rw [List.range_succ, List.foldl_append, ih (by omega)]
    have hget : lengths.getD k 0 = lengths[k] := by
      rw [List.getD_eq_getElem?_getD, List.getElem?_eq_getElem (by omega)]
      rfl
    have htake : lengths.take (k + 1) = lengths.take k ++ [lengths[k]] := by
      rw [List.take_succ, List.getElem?_eq_getElem (by omega)]
      rfl
    simp only [List.foldl_cons, List.foldl_nil, hget, htake, comma_terminated, List.map_append,
      List.map_cons, List.map_nil, List.flatten_append, List.flatten_cons, List.flatten_nil,
      List.append_assoc, List.append_nil]

/-- The message `generate_rules_message` writes for rules with as many lengths
as ships: `RULES `, the numbers separated by commas, and a newline. -/
theorem generate_rules_message_eq (rules : Rules)
    (hlen : (rules.shipLengths.length : Int) = rules.numberOfShips) :
    generate_rules_message rules =
      "RULES ".toList ++ (comma_terminated (rules_tokens rules)).dropLast ++ ['\n'] := by
  unfold generate_rules_message
  simp only []
  have hn : rules.numberOfShips.toNat = rules.shipLengths.length := by omega
  rw [generate_rules_message_loop rules.shipLengths _ _ (by omega), hn, List.take_length]
  have hjoin : "RULES ".toList ++ fmtInt rules.width ++ [','] ++ fmtInt rules.height ++ [','] ++
      fmtInt rules.numberOfShips ++ [','] ++ comma_terminated (rules.shipLengths.map fmtInt) =
      "RULES ".toList ++ comma_terminated (rules_tokens rules) := by
    simp [comma_terminated, rules_tokens]
  rw [hjoin, List.dropLast_append_of_ne_nil _ (by
    unfold rules_tokens
    exact comma_terminated_ne_nil _ _)]

theorem strtrim_line (pre s : CStr) (a : Char) (rest : CStr) (hpre : pre = a :: rest)
    (ha : isspace a = false) (hs : s ≠ []) (hall : ∀ c ∈ s, isspace c = false) :
    strtrim (pre ++ s ++ ['\n']) = pre ++ s ∧ strtrim (pre ++ s) = pre ++ s := by
  have hlast : pre ++ s = (pre ++ s.dropLast) ++ [s.getLast hs] := by
    rw [List.append_assoc, List.dropLast_append_getLast]
  have hz : isspace (s.getLast hs) = false := hall _ (List.getLast_mem hs)
  have hr : (pre ++ s).rdropWhile isspace = pre ++ s := by
    rw [hlast]
    exact List.rdropWhile_concat_neg _ _ _ (by rw [hz]; decide)
  have hd : (pre ++ s).dropWhile isspace = pre ++ s := by
    rw [hpre, List.cons_append, List.dropWhile_cons, ha]
    simp
  constructor
  · rw [strtrim_eq, List.rdropWhile_concat_pos _ _ _ (by decide), hr, hd]
  · rw [strtrim_eq, hr, hd]

theorem read_rule_message_width_fmtInt (rules : Rules) (w : Int) (h1 : 1 ≤ w) (h2 : w ≤ 26) :
    read_rule_message_width rules (fmtInt w) = (.READ_HEIGHT, { rules with width := w }) := by
  obtain ⟨_, _, hs, hl⟩ := fmtInt_token w (by omega) (by omega)
  unfold read_rule_message_width
  simp only [hs, hl, MIN_BOARD_WIDTH, MAX_BOARD_WIDTH]
  rw [if_neg (by simp; omega)]

theorem read_rule_message_height_fmtInt (rules : Rules) (h : Int) (h1 : 1 ≤ h) (h2 : h ≤ 26) :
    read_rule_message_height rules (fmtInt h) = (.READ_SHIPS, { rules with height := h }) := by
  obtain ⟨_, _, hs, hl⟩ := fmtInt_token h (by omega) (by omega)
  unfold read_rule_message_height
  simp only [hs, hl, MIN_BOARD_HEIGHT, MAX_BOARD_HEIGHT]
  rw [if_neg (by simp; omega)]

theorem read_rule_message_ships_fmtInt (rules : Rules) (n : Int) (h1 : 1 ≤ n) (h2 : n ≤ 15) :
    read_rule_message_ships rules (fmtInt n) =
      (.READ_LENGTHS, { rules with numberOfShips := n }) := by
  obtain ⟨_, _, hs, hl⟩ := fmtInt_token n (by omega) (by omega)
  unfold read_rule_message_ships
  simp only [hs, hl, MIN_SHIPS, MAX_SHIPS]
  rw [if_neg (by simp; omega)]

theorem read_rule_message_lengths_fmtInt (rules : Rules) (l : Int) (shipsAdded : Nat)
    (h1 : 1 ≤ l) (h2 : l ≤ 2147483647) :
    read_rule_message_lengths rules (fmtInt l) shipsAdded =
      (if (shipsAdded : Int) = rules.numberOfShips then .READ_DONE else .READ_LENGTHS,
       { rules with shipLengths := rules.shipLengths.take (shipsAdded - 1) ++ [l] }) := by
  obtain ⟨_, _, hs, hl⟩ := fmtInt_token l (by omega) h2
  unfold read_rule_message_lengths
  simp only [hs, hl, MIN_SHIP_LENGTH]
  rw [if_neg (by simp; omega)]
  split <;> rfl

/-- The agent reading the lengths of a RULES message: every length is stored,
and the state READ_DONE is reached with the last. -/
theorem parse_rule_message_loop_lengths :
    ∀ (rest done : List Int) (rules : Rules), rules.shipLengths = done →
      ((done.length + rest.length : Nat) : Int) = rules.numberOfShips → rest ≠ [] →
      (∀ l ∈ rest, 1 ≤ l ∧ l ≤ 2147483647) →
      parse_rule_message_loop (rest.map fmtInt) .READ_LENGTHS done.length rules =
        (.READ_DONE, done.length + rest.length,
          { rules with shipLengths := done ++ rest }) := by
  intro rest
  induction rest with
  | nil => intro done rules _ _ h; exact absurd rfl h
  | cons l more ih =>
    intro done rules hdone hcount _ hall
    obtain ⟨hl1, hl2⟩ := hall l (by simp)
    obtain ⟨_, hdig, _, _⟩ := fmtInt_token l (by omega) hl2
    rw [List.map_cons, parse_rule_message_loop]
    simp only [strtrim_digits _ hdig]
    rw [read_rule_message_lengths_fmtInt rules l (done.length + 1) hl1 hl2]
    have htake : rules.shipLengths.take (done.length + 1 - 1) = done := by
      rw [Nat.add_sub_cancel, hdone, List.take_length]
    rw [htake]
    cases more with
    | nil =>
      have hfin : ((done.length + 1 : Nat) : Int) = rules.numberOfShips := by
        rw [← hcount]; rfl
      rw [if_pos hfin]
      simp [parse_rule_message_loop]
    | cons l2 more2 =>
      have hnot : ¬ ((done.length + 1 : Nat) : Int) = rules.numberOfShips := by
        rw [← hcount]
        simp only [List.length_cons]
        push_cast
        omega
      rw [if_neg hnot]
      have := ih (done ++ [l]) { rules with shipLengths := done ++ [l] } rfl
        (by rw [← hcount]; simp only [List.length_append, List.length_cons,
          List.length_singleton, List.length_nil]; congr 1; omega)
        (by simp) (fun x hx => hall x (List.mem_cons_of_mem _ hx))
      simp only [List.length_append, List.length_singleton] at this
      rw [this]
      simp only [List.length_cons, List.append_assoc, List.singleton_append]
      congr 2
      omega

/-- C16: for valid rules whose lengths are values of an `int`, `parse_rule_message`
of the agent, applied to the trimmed line `generate_rules_message` of the hub
writes, returns 0 and leaves exactly those rules; the trimmed line is also what
`parse_input` reads from the stream the message was written to. -/
theorem rules_message_round_trip (rules start : Rules) (hv : rules.valid)
    (hint : ∀ l ∈ rules.shipLengths, l ≤ 2147483647) :
    parse_rule_message start (strtrim (generate_rules_message rules)) = (0, rules) ∧
    parse_input (generate_rules_message rules) =
      (strtrim (generate_rules_message rules), false, []) := by
  have hv' := hv
  obtain ⟨hw1, hw26, hh1, hh26, hn1, hn15, hlen, hall⟩ := hv'
  simp only [MIN_BOARD_WIDTH, MAX_BOARD_WIDTH, MIN_BOARD_HEIGHT, MAX_BOARD_HEIGHT, MIN_SHIPS,
    MAX_SHIPS, MIN_SHIP_LENGTH] at hw1 hw26 hh1 hh26 hn1 hn15 hall
  have hdigits : ∀ token ∈ rules_tokens rules, ∀ c ∈ token, isdigit c = true := by
    intro token ht
    unfold rules_tokens at ht
    simp only [List.cons_append, List.nil_append, List.mem_cons, List.mem_map] at ht
    rcases ht with h | h | h | ⟨l, hl, h⟩
    · rw [h]; exact (fmtInt_token _ (by omega) (by omega)).2.1
    · rw [h]; exact (fmtInt_token _ (by omega) (by omega)).2.1
    · rw [h]; exact (fmtInt_token _ (by omega) (by omega)).2.1
    · rw [← h]; exact (fmtInt_token _ (by have := hall l hl; omega) (hint l hl)).2.1
  have hbody : ∀ c ∈ (comma_terminated (rules_tokens rules)).dropLast,
      isspace c = false ∧ c ≠ '\n' ∧ c ≠ '\x00' := by
    intro c hc
    rcases mem_comma_terminated _ c (List.mem_of_mem_dropLast hc) with h | ⟨token, ht, hct⟩
    · rw [h]; decide
    · obtain ⟨h1, _, _, _, h5, h6⟩ := isdigit_not c (hdigits token ht c hct)
      exact ⟨h1, h5, h6⟩
  have hne : (comma_terminated (rules_tokens rules)).dropLast ≠ [] := by
    unfold rules_tokens
    rw [List.cons_append, comma_terminated_cons]
    have h1 := (fmtInt_token rules.width (by omega) (by omega)).1
    rw [List.dropLast_append_of_ne_nil _ (by simp)]
    simp [h1]
  have hmsg := generate_rules_message_eq rules hlen
  obtain ⟨htrim, htrim2⟩ := strtrim_line "RULES ".toList
    (comma_terminated (rules_tokens rules)).dropLast 'R' "ULES ".toList rfl (by decide) hne
    (fun c hc => (hbody c hc).1)
  constructor
  · rw [hmsg, htrim]
    unfold parse_rule_message
    simp only []
    rw [htrim2]
    have hpre : check_message_prefix
        ("RULES ".toList ++ (comma_terminated (rules_tokens rules)).dropLast) "RULES ".toList
        = 1 := by
      unfold check_message_prefix
      rw [if_pos (by simp)]
    rw [hpre]
    simp only [one_ne_zero, if_false]
    have hsub : index_substring
        ("RULES ".toList ++ (comma_terminated (rules_tokens rules)).dropLast) "RULES ".length =
        (comma_terminated (rules_tokens rules)).dropLast := by
      unfold index_substring
      exact List.drop_left' rfl
    rw [hsub]
    have hsplit : split_string (comma_terminated (rules_tokens rules)).dropLast ',' false =
        rules_tokens rules := by
      unfold split_string
      exact split_string_comma_terminated _ (by simp [rules_tokens])
        (fun token ht hc => by
          have := (isdigit_not ',' (hdigits token ht ',' hc)).2.1
          exact this rfl)
    rw [hsplit]
    have hloop : parse_rule_message_loop (rules_tokens rules) .READ_WIDTH 0
        { start with numberOfShips := 0, shipLengths := [] } =
        (.READ_DONE, rules.shipLengths.length, rules) := by
      unfold rules_tokens
      simp only [List.cons_append, List.nil_append, parse_rule_message_loop]
      rw [strtrim_digits _ (fmtInt_token rules.width (by omega) (by omega)).2.1,
        strtrim_digits _ (fmtInt_token rules.height (by omega) (by omega)).2.1,
        strtrim_digits _ (fmtInt_token rules.numberOfShips (by omega) (by omega)).2.1,
        read_rule_message_width_fmtInt _ _ hw1 hw26]
      simp only []
      rw [read_rule_message_height_fmtInt _ _ hh1 hh26]
      simp only []
      rw [read_rule_message_ships_fmtInt _ _ hn1 hn15]
      simp only []
      have := parse_rule_message_loop_lengths rules.shipLengths []
        { height := rules.height, width := rules.width, numberOfShips := rules.numberOfShips,
          shipLengths := [] } rfl (by simpa using hlen)
        (by intro h; rw [h] at hlen; simp at hlen; omega)
        (fun l hl => ⟨hall l hl, hint l hl⟩)
      simp only [List.length_nil, Nat.zero_add, List.nil_append] at this
      exact this
    rw [hloop]
    simp only []
    rw [if_pos ⟨trivial, by omega⟩]
  · rw [hmsg, htrim]
    unfold parse_input
    have hloop : ∀ (s acc : CStr), (∀ c ∈ s, c ≠ '\n') →
        parse_input_loop (s ++ ['\n']) acc = (acc ++ s, false, []) := by
      intro s
      induction s with
      | nil => intro acc _; simp [parse_input_loop]
      | cons c cs ih =>
        intro acc h
        rw [List.cons_append, parse_input_loop, if_neg (h c (by simp)),
          ih _ (fun x hx => h x (List.mem_cons_of_mem _ hx))]
        simp
    have hnl : ∀ c ∈ "RULES ".toList ++ (comma_terminated (rules_tokens rules)).dropLast,
        c ≠ '\n' ∧ c ≠ '\x00' := by
      intro c hc
      rcases List.mem_append.mp hc with h | h
      · have hpre : ∀ x ∈ "RULES ".toList, x ≠ '\n' ∧ x ≠ '\x00' := by decide
        exact hpre c h
      · exact (hbody c h).2
    rw [hloop _ [] (fun c hc => (hnl c hc).1)]
    simp only [List.nil_append]
    have htake : ("RULES ".toList ++ (comma_terminated (rules_tokens rules)).dropLast).takeWhile
        (fun c => decide (c ≠ '\x00')) =
        "RULES ".toList ++ (comma_terminated (rules_tokens rules)).dropLast := by
      rw [List.takeWhile_eq_self_iff]
      intro c hc
      simpa using (hnl c hc).2
    rw [htake, htrim2]

/-- Witness of C16: the message `RULES 3,3,2,2,3` of the rules of a 3 x 3 board with
ships of lengths 2 and 3. -/
theorem rules_message_round_trip_witness :
    exampleRules2.valid ∧ (∀ l ∈ exampleRules2.shipLengths, l ≤ 2147483647) ∧
    generate_rules_message exampleRules2 = "RULES 3,3,2,2,3\n".toList ∧
    parse_rule_message emptyRules (strtrim (generate_rules_message exampleRules2)) =
      (0, exampleRules2) :=
  ⟨by decide, by decide, by decide,
   (rules_message_round_trip exampleRules2 emptyRules (by decide) (by decide)).1⟩

/-! ### Numbers outside the range of `int` in the rules file -/

/-- C15, at failing inputs: `parse_rules_file` returns 0 for a file whose line of
dimensions gives the width 4294967297, for one whose number of ships is
4294967297, and for one whose ship length is -4294967295; each of these numbers
is stored as 1, its value in an `int`. -/
theorem parse_rules_file_accepts_wrapped_numbers :
    (dimensions_line_spec "4294967297 3".toList = false ∧
      parse_rules_file emptyRules "4294967297 3\n1\n2\n".toList =
        (0, { height := 3, width := 1, numberOfShips := 1, shipLengths := [2] })) ∧
    (decimal_in_range_spec "4294967297".toList 1 15 = false ∧
      parse_rules_file emptyRules "3 3\n4294967297\n2\n".toList =
        (0, { height := 3, width := 3, numberOfShips := 1, shipLengths := [2] })) ∧
    (decimal_at_least_spec "-4294967295".toList 1 = false ∧
      parse_rules_file emptyRules "3 3\n1\n-4294967295\n".toList =
        (0, { height := 3, width := 3, numberOfShips := 1, shipLengths := [1] })) := by
  decide

/-! ### One pass over the rounds -/

/-- A round that is invalid or over is left alone by the loop body, which
reports no error. -/
theorem hub_play_round_skip (rules : Rules) (round : RoundState)
    (h : round.validRound = 0 ∨ round.gameOver ≠ 0) : hub_play_round rules round = (0, round) := by
  unfold hub_play_round
  by_cases hv : round.validRound ≠ 0
  · rw [if_pos hv]
    rcases h with h | h
    · exact absurd h hv
    · rw [if_neg h]
  · rw [if_neg hv]

theorem pass_rounds_spec_over (rules : Rules) :
    ∀ rounds : List RoundState,
      (∀ round ∈ rounds, round.validRound = 0 ∨ round.gameOver ≠ 0) →
      pass_rounds_spec rules rounds = (rounds, false) := by
  intro rounds
  induction rounds with
  | nil => intro _; rfl
  | cons round rest ih =>
    intro h
    have hskip := hub_play_round_skip rules round (h round (by simp))
    rw [pass_rounds_spec, hskip, ih (fun r hr => h r (List.mem_cons_of_mem _ hr))]
    simp

theorem allGamesOver_iff (game : FullGameState) :
    allGamesOver game = true ↔
      ∀ round ∈ game.rounds, round.validRound = 0 ∨ round.gameOver ≠ 0 := by
  unfold allGamesOver
  rw [List.all_eq_true]
  constructor
  · intro h round hr
    have := h round hr
    simp only [Bool.not_eq_true', Bool.and_eq_false_iff, decide_eq_false_iff_not, ne_eq,
      not_not] at this
    exact this
  · intro h round hr
    have := h round hr
    simp only [Bool.not_eq_true', Bool.and_eq_false_iff, decide_eq_false_iff_not, ne_eq,
      not_not]
    exact this

theorem set_append_cons {α : Type} (pre rest : List α) (x y : α) :
    (pre ++ x :: rest).set pre.length y = pre ++ y :: rest := by
  induction pre with
  | nil => rfl
  | cons a l ih => simp [ih]

/-- The `for` loop of `hub_play_game` from round `pre.length` on, the rounds
before it having been served: it serves the remaining rounds as
`pass_rounds_spec` says. -/
theorem hub_play_game_pass_spec :
    ∀ (rest pre : List RoundState) (game : FullGameState), game.rounds = pre ++ rest →
      ((pass_rounds_spec game.rules rest).2 = true →
        hub_play_game_pass rest.length pre.length game =
          .returned (handle_early_exit
            { game with rounds := pre ++ (pass_rounds_spec game.rules rest).1 })) ∧
      ((pass_rounds_spec game.rules rest).2 = false →
        (∀ next, hub_play_game_pass rest.length pre.length game ≠ .returned next) ∧
        (hub_play_game_pass rest.length pre.length game).game =
          { game with rounds := pre ++ (pass_rounds_spec game.rules rest).1 }) := by
  intro rest
  induction rest with
  | nil =>
    intro pre game hg
    constructor
    · intro h; exact absurd h (by simp [pass_rounds_spec])
    · intro _
      refine ⟨by intro next h; simp [hub_play_game_pass] at h, ?_⟩
      simp only [List.length_nil, hub_play_game_pass, PassResult.game, pass_rounds_spec,
        List.append_nil]
      rw [← List.append_nil pre, ← hg]
  | cons round more ih =>
    intro pre game hg
    have hget : game.rounds[pre.length]? = some round := by
      rw [hg, List.getElem?_append_right (le_refl _)]
      simp
    have hset : game.rounds.set pre.length (hub_play_round game.rules round).2 =
        (pre ++ [(hub_play_round game.rules round).2]) ++ more := by
      rw [hg, set_append_cons]
      simp
    rw [List.length_cons, hub_play_game_pass, hget]
    simp only []
    rw [pass_rounds_spec]
    by_cases hfail : (hub_play_round game.rules round).1 = 1
    · rw [if_pos hfail, if_pos hfail]
      constructor
      · intro _
        rw [hset]
        simp
      · intro h; exact absurd h (by simp)
    · rw [if_neg hfail, if_neg hfail]
      simp only []
      have hpre : (pre ++ [(hub_play_round game.rules round).2]).length = pre.length + 1 := by
        simp
      have hih := ih (pre ++ [(hub_play_round game.rules round).2])
        { game with rounds := game.rounds.set pre.length (hub_play_round game.rules round).2 }
        hset
      rw [hpre] at hih
      simp only [List.append_assoc, List.singleton_append] at hih
      by_cases hover : allGamesOver
          { game with
            rounds := game.rounds.set pre.length (hub_play_round game.rules round).2 } = true
      · rw [if_pos hover]
        have hall := (allGamesOver_iff _).mp hover
        have hmore : pass_rounds_spec game.rules more = (more, false) := by
          apply pass_rounds_spec_over
          intro r hr
          apply hall r
          show r ∈ game.rounds.set pre.length (hub_play_round game.rules round).2
          rw [hset]
          exact List.mem_append_right _ hr
        rw [hmore]
        constructor
        · intro h; exact absurd h (by simp)
        · intro _
          refine ⟨by intro next h; simp at h, ?_⟩
          simp only [PassResult.game]
          rw [hset]
          simp
      · rw [if_neg hover]
        constructor
        · intro h
          rw [hih.1 h]
        · intro h
          obtain ⟨h1, h2⟩ := hih.2 h
          exact ⟨h1, h2⟩

/-- The number of guesses a turn accepts: none when it fails with the result 1,
else exactly one, added to the history of the agent whose turn it is. -/
theorem handle_agent_turn_count (rules : Rules) (agent opponent : Agent) :
    ((handle_agent_turn rules agent opponent).1 = 1 ∧
      (handle_agent_turn rules agent opponent).2.1.agentState.agentGuesses =
        agent.agentState.agentGuesses) ∨
    (((handle_agent_turn rules agent opponent).1 = 0 ∨
        (handle_agent_turn rules agent opponent).1 = 2) ∧
      (handle_agent_turn rules agent opponent).2.1.agentState.agentGuesses.length =
        agent.agentState.agentGuesses.length + 1) := by
  rcases handle_agent_turn_cases rules opponent _ agent rfl with ⟨h1, h2, _⟩ | ⟨reader, c, h1, _, h3⟩
  · exact Or.inl ⟨h1, by rw [h2]⟩
  · right
    obtain ⟨hs, ha, _, _⟩ := handle_agent_turn_accept_agent rules reader opponent c
    rw [h3, ha, h1]
    exact ⟨hs, by simp⟩

/-- What serving a valid round that is not over adds to the guess histories when
no turn fails: one guess of player 1, and one of player 2 unless the guess of
player 1 ended the round. -/
theorem hub_play_round_guesses (rules : Rules) (round : RoundState)
    (hv : round.validRound ≠ 0) (hg : round.gameOver = 0)
    (hok : (hub_play_round rules round).1 ≠ 1) :
    (hub_play_round rules round).2.player1.agentState.agentGuesses.length =
      round.player1.agentState.agentGuesses.length + 1 ∧
    ((hub_play_round rules round).2.player2.agentState.agentGuesses.length =
        round.player2.agentState.agentGuesses.length + 1 ∨
      ((hub_play_round rules round).2.gameOver = 1 ∧
        (hub_play_round rules round).2.player2.agentState.agentGuesses =
          round.player2.agentState.agentGuesses)) := by
  have hone := handle_agent_turn_count rules round.player1 round.player2
  obtain ⟨_, _, f3, _, _⟩ := handle_agent_turn_frame rules round.player1 round.player2
  have htwo := handle_agent_turn_count rules
    (handle_agent_turn rules round.player1 round.player2).2.2
    (handle_agent_turn rules round.player1 round.player2).2.1
  obtain ⟨_, _, g3, _, _⟩ := handle_agent_turn_frame rules
    (handle_agent_turn rules round.player1 round.player2).2.2
    (handle_agent_turn rules round.player1 round.player2).2.1
  unfold hub_play_round at hok ⊢
  rw [if_pos hv, if_pos hg] at hok ⊢
  simp only [] at hok ⊢
  by_cases h1 : (handle_agent_turn rules round.player1 round.player2).1 = 1
  · rw [if_pos h1] at hok
    exact absurd rfl hok
  · rw [if_neg h1] at hok ⊢
    rcases hone with ⟨hbad, _⟩ | ⟨_, hlen1⟩
    · exact absurd hbad h1
    · by_cases h2 : (handle_agent_turn rules round.player1 round.player2).1 = 2
      · rw [if_pos h2]
        exact ⟨hlen1, Or.inr ⟨rfl, f3⟩⟩
      · rw [if_neg h2] at hok ⊢
        by_cases h3 : (handle_agent_turn rules
            (handle_agent_turn rules round.player1 round.player2).2.2
            (handle_agent_turn rules round.player1 round.player2).2.1).1 = 1
        · rw [if_pos h3] at hok
          exact absurd rfl hok
        · rw [if_neg h3]
          rcases htwo with ⟨hbad, _⟩ | ⟨_, hlen2⟩
          · exact absurd hbad h3
          · rw [f3] at hlen2
            split
            · simp only [handle_round_end]
              exact ⟨by rw [g3]; exact hlen1, Or.inl hlen2⟩
            · exact ⟨by rw [g3]; exact hlen1, Or.inl hlen2⟩

/-- Counterexample to C19: in one pass over a tournament of one round, both
players having guesses waiting, the round is advanced by two accepted guesses,
one of each agent; and in one pass over `exampleGameFailing`, where the turn of
round 0 fails, round 1 (valid, not over, guesses waiting) is served no turn. -/
theorem pass_serves_both_players :
    (hub_play_game_pass 1 0 exampleGameTwoGuesses).game.rounds.map
        (fun round => (round.player1.agentState.agentGuesses,
          round.player2.agentState.agentGuesses, round.gameOver)) =
      [(["C3".toList], ["B3".toList], 0)] ∧
    (hub_play_game_pass 2 0 exampleGameFailing).game.rounds.map
        (fun round => (round.player1.agentState.agentGuesses, round.player1.agentToHub,
          round.validRound, round.gameOver)) =
      [([], [], 1, 0), ([], "GUESS A1\n".toList, 1, 0)] := by
  decide

/-- C19 as amended: one pass of the `for` loop of `hub_play_game` takes the rounds
in increasing order, each at most once, and serves each through the loop body
`hub_play_round`, whose result depends on that round alone.  A round that is
invalid or over is left as it is.  A valid round that is not over is given a turn
of player 1 and, unless that turn ended the round, a turn of player 2: when no
turn fails, one guess of player 1 is accepted, and one of player 2 unless the
round is over.  When no turn of any round fails, every round is served exactly
once; at the first failing turn the pass stops, EARLY is sent, and the rounds
after the failing one are served no turn. -/
theorem hub_play_game_pass_serves_rounds (game : FullGameState) :
    ((pass_rounds_spec game.rules game.rounds).2 = true →
      hub_play_game_pass game.rounds.length 0 game =
        .returned (handle_early_exit
          { game with rounds := (pass_rounds_spec game.rules game.rounds).1 })) ∧
    ((pass_rounds_spec game.rules game.rounds).2 = false →
      (∀ next, hub_play_game_pass game.rounds.length 0 game ≠ .returned next) ∧
      (hub_play_game_pass game.rounds.length 0 game).game =
        { game with rounds := (pass_rounds_spec game.rules game.rounds).1 }) ∧
    ((∀ round ∈ game.rounds, (hub_play_round game.rules round).1 ≠ 1) →
      pass_rounds_spec game.rules game.rounds =
        (game.rounds.map (fun round => (hub_play_round game.rules round).2), false)) ∧
    (∀ round : RoundState, round.validRound = 0 ∨ round.gameOver ≠ 0 →
      hub_play_round game.rules round = (0, round)) ∧
    (∀ round : RoundState, round.validRound ≠ 0 → round.gameOver = 0 →
      (hub_play_round game.rules round).1 ≠ 1 →
      (hub_play_round game.rules round).2.player1.agentState.agentGuesses.length =
        round.player1.agentState.agentGuesses.length + 1 ∧
      ((hub_play_round game.rules round).2.player2.agentState.agentGuesses.length =
          round.player2.agentState.agentGuesses.length + 1 ∨
        ((hub_play_round game.rules round).2.gameOver = 1 ∧
          (hub_play_round game.rules round).2.player2.agentState.agentGuesses =
            round.player2.agentState.agentGuesses))) := by
  have hspec := hub_play_game_pass_spec game.rounds [] game rfl
  simp only [List.length_nil, List.nil_append] at hspec
  refine ⟨hspec.1, hspec.2, ?_, hub_play_round_skip game.rules,
    hub_play_round_guesses game.rules⟩
  generalize game.rounds = rounds
  induction rounds with
  | nil => intro _; rfl
  | cons round rest ih =>
    intro h
    rw [pass_rounds_spec, if_neg (h round (by simp)),
      ih (fun r hr => h r (List.mem_cons_of_mem _ hr))]
    rfl

/-- Witness of C19 as amended: the pass over `exampleGameTwoGuesses`, where no turn
fails, serves its round through `hub_play_round`. -/
theorem hub_play_game_pass_serves_rounds_witness :
    (pass_rounds_spec exampleGameTwoGuesses.rules exampleGameTwoGuesses.rounds).2 = false ∧
    (hub_play_game_pass exampleGameTwoGuesses.rounds.length 0 exampleGameTwoGuesses).game =
      { exampleGameTwoGuesses with
        rounds := (pass_rounds_spec exampleGameTwoGuesses.rules exampleGameTwoGuesses.rounds).1 } :=
  ⟨by decide, ((hub_play_game_pass_serves_rounds exampleGameTwoGuesses).2.1 (by decide)).2⟩

/-! ### Rounds that could not be started -/

theorem set_getElem?_self {α : Type} (a : α) :
    ∀ (l : List α) (i : Nat), l[i]? = some a → l.set i a = l := by
  intro l
  induction l with
  | nil => intro i h; simp at h
  | cons x xs ih =>
    intro i h
    cases i with
    | zero =>
      simp only [List.getElem?_cons_zero, Option.some.injEq] at h
      rw [h]; rfl
    | succ j =>
      simp only [List.getElem?_cons_succ] at h
      simp [ih j h]

/-- The `for` loop of `hub_play_game` leaves an invalid round exactly as it
is. -/
theorem hub_play_game_pass_invalid (k : Nat) (dead : RoundState) (hd : dead.validRound = 0) :
    ∀ (count i : Nat) (game : FullGameState), game.rounds[k]? = some dead →
      (hub_play_game_pass count i game).game.rounds[k]? = some dead := by
  intro count
  induction count with
  | zero => intro i game h; exact h
  | succ n ih =>
    intro i game h
    rw [hub_play_game_pass]
    cases hr : game.rounds[i]? with
    | none => exact h
    | some round =>
      simp only []
      have hset : (game.rounds.set i (hub_play_round game.rules round).2)[k]? = some dead := by
        by_cases hik : i = k
        · subst hik
          rw [hr] at h
          simp only [Option.some.injEq] at h
          subst h
          rw [hub_play_round_skip game.rules round (Or.inl hd), set_getElem?_self round _ _ hr]
          exact hr
        · rw [List.getElem?_set_ne hik]
          exact h
      split
      · simp only [PassResult.game, handle_early_exit, List.getElem?_map, hset, Option.map_some']
        rw [(handle_early_exit_round_spec dead).2 hd]
      · split
        · exact hset
        · exact ih (i + 1) _ hset

/-- A run of `hub_play_game` leaves an invalid round exactly as it is. -/
theorem hub_play_game_invalid (k : Nat) (dead : RoundState) (hd : dead.validRound = 0) :
    ∀ (fuel : Nat) (game : FullGameState), game.rounds[k]? = some dead →
      (hub_play_game fuel game).2.rounds[k]? = some dead := by
  intro fuel
  induction fuel with
  | zero => intro game h; exact h
  | succ n ih =>
    intro game h
    have hp := hub_play_game_pass_invalid k dead hd game.rounds.length 0 game h
    rw [hub_play_game]
    cases hres : hub_play_game_pass game.rounds.length 0 game with
    | returned next => rw [hres] at hp; exact hp
    | allOver next => rw [hres] at hp; exact hp
    | finished next => rw [hres] at hp; exact ih next hp

theorem initialise_agents_spawn_loop_getElem? (spawned : Nat → Int × Int) :
    ∀ (rounds : List RoundState) (i k : Nat),
      (initialise_agents_spawn_loop spawned i rounds)[k]? =
        rounds[k]?.map (initialise_agents_spawn (spawned (i + k))) := by
  intro rounds
  induction rounds with
  | nil => intro i k; simp [initialise_agents_spawn_loop]
  | cons round rest ih =>
    intro i k
    cases k with
    | zero => simp [initialise_agents_spawn_loop]
    | succ j =>
      simp only [initialise_agents_spawn_loop, List.getElem?_cons_succ]
      rw [ih (i + 1) j]
      have : i + 1 + j = i + (j + 1) := by omega
      rw [this]

/-- The flag of a round after the first loop of `initialise_agents`: set exactly
when both processes were started. -/
theorem initialise_agents_spawn_valid (spawned : Int × Int) (round : RoundState) :
    (initialise_agents_spawn spawned round).validRound ≠ 0 ↔ spawned.1 = 0 ∧ spawned.2 = 0 := by
  unfold initialise_agents_spawn kill_round
  simp only []
  by_cases h1 : spawned.1 = 0 <;> by_cases h2 : spawned.2 = 0 <;> simp [h1, h2]

/-- The flag of a round after the second loop of `initialise_agents`: a round
that is invalid is not touched, and a round is valid afterwards only if it was
before and both handshakes succeeded. -/
theorem initialise_agents_handshake_valid (rules : Rules) (rulesMessage : CStr)
    (round : RoundState) :
    (round.validRound = 0 → initialise_agents_handshake rules rulesMessage round = round) ∧
    ((initialise_agents_handshake rules rulesMessage round).validRound ≠ 0 ↔
      round.validRound ≠ 0 ∧ (send_rules rules rulesMessage round.player1).1 = 0 ∧
        (send_rules rules rulesMessage round.player2).1 = 0) := by
  unfold initialise_agents_handshake kill_round
  constructor
  · intro h
    rw [if_neg (by rw [h]; decide)]
  · by_cases hv : round.validRound ≠ 0
    · rw [if_pos hv]
      simp only []
      by_cases h1 : (send_rules rules rulesMessage round.player1).1 = 0
      · rw [if_neg (by rw [h1]; decide)]
        by_cases h2 : (send_rules rules rulesMessage round.player2).1 = 0
        · rw [if_neg (by rw [h2]; decide)]
          exact ⟨fun _ => ⟨hv, h1, h2⟩, fun _ => hv⟩
        · rw [if_pos h2]
          exact ⟨fun h => absurd rfl h, fun h => absurd h.2.2 h2⟩
      · rw [if_pos h1]
        exact ⟨fun h => absurd rfl h, fun h => absurd h.2.1 h1⟩
    · rw [if_neg hv]
      exact ⟨fun h => absurd h hv, fun h => absurd h.1 hv⟩

/-- C20: `kill_round` clears the flag `validRound`, and a cleared flag is never
set again: after the first loop of `initialise_agents` the flag of a round is set
exactly when both its processes were started; the second loop does not touch an
invalid round and keeps a round valid only if both handshakes succeed; and
`hub_play_game` changes no flag.  An invalid round is left exactly as it is by
`hub_play_game`, so that no YT is sent to and nothing is read from its agents.
The other rounds are still served: every round is started and handshaken on its
own, whatever became of the others, and the `for` loop of `hub_play_game` goes on
past an invalid round to the next one. -/
theorem invalid_round_is_excluded (game : FullGameState) :
    (∀ round : RoundState, (kill_round round).validRound = 0) ∧
    (∀ (spawned : Int × Int) (round : RoundState),
      (initialise_agents_spawn spawned round).validRound ≠ 0 ↔
        spawned.1 = 0 ∧ spawned.2 = 0) ∧
    (∀ (rulesMessage : CStr) (round : RoundState),
      (round.validRound = 0 →
        initialise_agents_handshake game.rules rulesMessage round = round) ∧
      ((initialise_agents_handshake game.rules rulesMessage round).validRound ≠ 0 ↔
        round.validRound ≠ 0 ∧ (send_rules game.rules rulesMessage round.player1).1 = 0 ∧
          (send_rules game.rules rulesMessage round.player2).1 = 0)) ∧
    (∀ (spawned : Nat → Int × Int) (started : FullGameState),
      initialise_agents spawned game = some started →
      started.rules = game.rules ∧
      (∃ round ∈ started.rounds, round.validRound ≠ 0) ∧
      ∀ k : Nat, started.rounds[k]? = game.rounds[k]?.map (fun round =>
        initialise_agents_handshake game.rules (generate_rules_message game.rules)
          (initialise_agents_spawn (spawned k) round))) ∧
    (∀ fuel : Nat,
      (hub_play_game fuel game).2.rounds.map (fun round => round.validRound) =
        game.rounds.map (fun round => round.validRound)) ∧
    (∀ (fuel k : Nat) (dead : RoundState), game.rounds[k]? = some dead → dead.validRound = 0 →
      (hub_play_game fuel game).2.rounds[k]? = some dead) ∧
    (∀ (count k : Nat) (dead : RoundState), game.rounds[k]? = some dead → dead.validRound = 0 →
      hub_play_game_pass (count + 1) k game =
        if allGamesOver game = true then .allOver game
        else hub_play_game_pass count (k + 1) game) := by
  refine ⟨fun _ => rfl, initialise_agents_spawn_valid,
    fun rulesMessage round => initialise_agents_handshake_valid game.rules rulesMessage round,
    ?_, fun fuel => hub_play_game_validRound fuel game,
    fun fuel k dead h hd => hub_play_game_invalid k dead hd fuel game h, ?_⟩
  · intro spawned started hstart
    unfold initialise_agents at hstart
    simp only [] at hstart
    split at hstart
    · rename_i hany
      simp only [Option.some.injEq] at hstart
      subst hstart
      refine ⟨rfl, ?_, ?_⟩
      · rw [List.any_eq_true] at hany
        obtain ⟨round, hr, hv⟩ := hany
        exact ⟨round, hr, by simpa using hv⟩
      · intro k
        simp only [List.getElem?_map, initialise_agents_spawn_loop_getElem?, Nat.zero_add,
          Option.map_map]
        rfl
    · exact absurd hstart (by simp)
  · intro count k dead h hd
    rw [hub_play_game_pass, h]
    simp only []
    rw [hub_play_round_skip game.rules dead (Or.inl hd), set_getElem?_self dead _ _ h]
    simp

/-- Witness of C20: in `exampleGameConfigured` the first process of round 0 fails
to start.  Round 0 is invalid after `initialise_agents` and is the same after
`hub_play_game`, with nothing sent to its agents, while round 1 is handshaken and
played to its end, won by player 1. -/
theorem invalid_round_is_excluded_witness :
    exampleGameStarted.rounds.map (fun round => round.validRound) = [0, 1] ∧
    (hub_play_game 5 exampleGameStarted).1 = some 0 ∧
    (hub_play_game 5 exampleGameStarted).2.rounds.map
        (fun round => (round.validRound, round.gameOver, round.player1.hubToAgent)) =
      [(0, 0, []),
       (1, 1, ["RULES 3,3,1,2".toList, "YT".toList, "OK".toList, "MISS 1,C3".toList,
          "MISS 2,B3".toList, "YT".toList, "OK".toList, "HIT 1,A1".toList, "MISS 2,C2".toList,
          "YT".toList, "OK".toList, "SUNK 1,B1".toList, "DONE 1".toList])] ∧
    (hub_play_game 5 exampleGameStarted).2.rounds[0]? = exampleGameStarted.rounds[0]? :=
  ⟨by decide, by decide, by decide,
   (invalid_round_is_excluded exampleGameStarted).2.2.2.2.2.1 5 0
      { player1 := { exampleFreshAgent "" with
          agentState := { agentId := 1, agentMap := initialMap, agentGuesses := [] } },
        player2 := { exampleFreshAgent "" with
          agentState := { agentId := 2, agentMap := initialMap, agentGuesses := [] } },
        roundNumber := 0, gameOver := 0, validRound := 0 }
      (by decide) (by decide)⟩

/-! ### The order of the accepted guesses -/

theorem alternating_snoc : ∀ (n : Nat) (first second : Int),
    alternating first second n ++ [if n % 2 = 0 then first else second] =
      alternating first second (n + 1) := by
  intro n
  induction n with
  | zero => intro first second; rfl
  | succ k ih =>
    intro first second
    have h := ih second first
    rw [alternating, List.cons_append]
    rw [show alternating first second (k + 1 + 1) =
      first :: alternating second first (k + 1) from rfl, ← h]
    congr 2
    rcases Nat.mod_two_eq_zero_or_one k with hk | hk
    · have : (k + 1) % 2 = 1 := by omega
      simp [hk, this]
    · have : (k + 1) % 2 = 0 := by omega
      simp [hk, this]

theorem alternating_chain : ∀ (n : Nat) (first second : Int), first ≠ second →
    List.Chain' (fun a b => a ≠ b) (alternating first second n) ∧
      ((alternating first second n).head? = none ∨
        (alternating first second n).head? = some first) := by
  intro n
  induction n with
  | zero => intro first second _; exact ⟨List.chain'_nil, Or.inl rfl⟩
  | succ k ih =>
    intro first second hne
    obtain ⟨hc, hh⟩ := ih second first (Ne.symm hne)
    refine ⟨?_, Or.inr rfl⟩
    rw [alternating]
    cases hk : alternating second first k with
    | nil => exact List.chain'_singleton _
    | cons x xs =>
      rw [hk] at hc hh
      rw [List.chain'_cons]
      refine ⟨?_, hc⟩
      rcases hh with h | h
      · simp at h
      · simp only [List.head?_cons, Option.some.injEq] at h
        rw [h]; exact hne

theorem line_guesser_lines (g : CStr) :
    line_guesser ('H' :: 'I' :: 'T' :: ' ' :: '1' :: ',' :: g) = some 1 ∧
    line_guesser ('S' :: 'U' :: 'N' :: 'K' :: ' ' :: '1' :: ',' :: g) = some 1 ∧
    line_guesser ('M' :: 'I' :: 'S' :: 'S' :: ' ' :: '1' :: ',' :: g) = some 1 ∧
    line_guesser ('H' :: 'I' :: 'T' :: ' ' :: '2' :: ',' :: g) = some 2 ∧
    line_guesser ('S' :: 'U' :: 'N' :: 'K' :: ' ' :: '2' :: ',' :: g) = some 2 ∧
    line_guesser ('M' :: 'I' :: 'S' :: 'S' :: ' ' :: '2' :: ',' :: g) = some 2 ∧
    line_guesser ('D' :: 'O' :: 'N' :: 'E' :: ' ' :: g) = none := by
  have e1 : "HIT 1,".toList = ['H', 'I', 'T', ' ', '1', ','] := rfl
  have e2 : "SUNK 1,".toList = ['S', 'U', 'N', 'K', ' ', '1', ','] := rfl
  have e3 : "MISS 1,".toList = ['M', 'I', 'S', 'S', ' ', '1', ','] := rfl
  have e4 : "HIT 2,".toList = ['H', 'I', 'T', ' ', '2', ','] := rfl
  have e5 : "SUNK 2,".toList = ['S', 'U', 'N', 'K', ' ', '2', ','] := rfl
  have e6 : "MISS 2,".toList = ['M', 'I', 'S', 'S', ' ', '2', ','] := rfl
  unfold line_guesser
  rw [e1, e2, e3, e4, e5, e6]
  simp [List.isPrefixOf]

theorem line_guesser_result (agent : Agent) (g : CStr) (messageType : HubMessage)
    (ht : messageType = .HIT ∨ messageType = .SUNK ∨ messageType = .MISS) :
    (agent.agentState.agentId = 1 → line_guesser (resultLine agent g messageType) = some 1) ∧
    (agent.agentState.agentId = 2 → line_guesser (resultLine agent g messageType) = some 2) := by
  have h1 : fmtInt 1 = ['1'] := by decide
  have h2 : fmtInt 2 = ['2'] := by decide
  obtain ⟨l1, l2, l3, l4, l5, l6, _⟩ := line_guesser_lines g
  constructor
  · intro hid
    unfold resultLine broadcast_line
    rw [hid, h1]
    rcases ht with h | h | h <;> subst h
    · exact l1
    · exact l2
    · exact l3
  · intro hid
    unfold resultLine broadcast_line
    rw [hid, h2]
    rcases ht with h | h | h <;> subst h
    · exact l4
    · exact l5
    · exact l6

theorem filterMap_snoc_none {α β : Type} (f : α → Option β) (l : List α) (x : α)
    (h : f x = none) : (l ++ [x]).filterMap f = l.filterMap f := by
  simp [List.filterMap_append, h]

theorem filterMap_snoc_some {α β : Type} (f : α → Option β) (l : List α) (x : α) (y : β)
    (h : f x = some y) : (l ++ [x]).filterMap f = l.filterMap f ++ [y] := by
  simp [List.filterMap_append, h]

theorem accepted_guessers_prompts (lines : List CStr) (k : Nat) :
    (lines ++ List.replicate k "YT".toList).filterMap line_guesser =
      lines.filterMap line_guesser := by
  induction k with
  | zero => simp
  | succ n ih =>
    have hyt : line_guesser "YT".toList = none := by decide
    rw [List.replicate_succ', ← List.append_assoc, filterMap_snoc_none _ _ _ hyt, ih]

/-- A turn unfolded: after some prompts the agent either fails, or has a guess
accepted that `validate_coordinate` let pass. -/
theorem handle_agent_turn_prompts (rules : Rules) (opponent : Agent) :
    ∀ (n : Nat) (agent : Agent), agent.agentToHub.length = n →
      ∃ (k : Nat) (rest : List Char),
        handle_agent_turn rules agent opponent =
          (1, { agent with
                hubToAgent := agent.hubToAgent ++ List.replicate k "YT".toList
                agentToHub := rest }, opponent) ∨
        ∃ c : CStr,
          validate_coordinate rules
            { agent with
              hubToAgent := agent.hubToAgent ++ List.replicate k "YT".toList
              agentToHub := rest } c = 0 ∧
          handle_agent_turn rules agent opponent =
            handle_agent_turn_accept rules
              { agent with
                hubToAgent := agent.hubToAgent ++ List.replicate k "YT".toList
                agentToHub := rest } opponent c := by
  intro n
  induction n using Nat.strong_induction_on with
  | _ n ih =>
    intro agent hn
    have hp : prompted agent (parse_input agent.agentToHub).2.2 =
        { agent with
          hubToAgent := agent.hubToAgent ++ List.replicate 1 "YT".toList
          agentToHub := (parse_input agent.agentToHub).2.2 } := rfl
    by_cases he : (parse_input agent.agentToHub).2.1 = true
    · refine ⟨1, (parse_input agent.agentToHub).2.2, Or.inl ?_⟩
      rw [handle_agent_turn_unfold, if_pos he, hp]
    · have he' : (parse_input agent.agentToHub).2.1 = false := by simpa using he
      have hlen := parse_input_length agent.agentToHub he'
      cases hv : validate_guess_message (parse_input agent.agentToHub).1 with
      | none =>
        refine ⟨1, (parse_input agent.agentToHub).2.2, Or.inl ?_⟩
        rw [handle_agent_turn_unfold, if_neg he, hv, hp]
      | some c =>
        rw [handle_agent_turn_unfold_guess rules agent opponent c he' hv]
        by_cases hvc : validate_coordinate rules
            (prompted agent (parse_input agent.agentToHub).2.2) c = 0
        · rw [if_pos hvc]
          exact ⟨1, (parse_input agent.agentToHub).2.2, Or.inr ⟨c, hvc, rfl⟩⟩
        · rw [if_neg hvc]
          obtain ⟨k, rest, h⟩ := ih _ (by rw [← hn]; exact hlen)
            (prompted agent (parse_input agent.agentToHub).2.2) rfl
          have hlines : (prompted agent (parse_input agent.agentToHub).2.2).hubToAgent ++
              List.replicate k "YT".toList =
              agent.hubToAgent ++ List.replicate (k + 1) "YT".toList := by
            show (agent.hubToAgent ++ ["YT".toList]) ++ _ = _
            rw [List.append_assoc, List.replicate_succ]
            rfl
          have hag : ({ prompted agent (parse_input agent.agentToHub).2.2 with
              hubToAgent := (prompted agent (parse_input agent.agentToHub).2.2).hubToAgent ++
                List.replicate k "YT".toList
              agentToHub := rest } : Agent) =
              { agent with
                hubToAgent := agent.hubToAgent ++ List.replicate (k + 1) "YT".toList
                agentToHub := rest } := by
            rw [hlines]
            rfl
          rw [hag] at h
          exact ⟨k + 1, rest, h⟩

/-- What a turn of an agent with the id 1 or 2 adds to the accepted guesses, on
maps in play: nothing when it fails with the result 1, and otherwise one guess
of that agent, in the results sent to both agents. -/
theorem handle_agent_turn_trace (rules : Rules) (agent opponent : Agent) (id : Int)
    (hid : agent.agentState.agentId = id) (h12 : id = 1 ∨ id = 2)
    (hinv : PlayInv rules agent.agentState.agentGuesses opponent.agentState.agentMap) :
    ((handle_agent_turn rules agent opponent).1 = 1 ∧
      accepted_guessers (handle_agent_turn rules agent opponent).2.1 = accepted_guessers agent ∧
      (handle_agent_turn rules agent opponent).2.1.agentState = agent.agentState ∧
      (handle_agent_turn rules agent opponent).2.2 = opponent) ∨
    ((handle_agent_turn rules agent opponent).1 ≠ 1 ∧
      accepted_guessers (handle_agent_turn rules agent opponent).2.1 =
        accepted_guessers agent ++ [id] ∧
      accepted_guessers (handle_agent_turn rules agent opponent).2.2 =
        accepted_guessers opponent ++ [id] ∧
      PlayInv rules (handle_agent_turn rules agent opponent).2.1.agentState.agentGuesses
        (handle_agent_turn rules agent opponent).2.2.agentState.agentMap) := by
  obtain ⟨k, rest, h | ⟨c, hvc, h⟩⟩ := handle_agent_turn_prompts rules opponent _ agent rfl
  · left
    rw [h]
    refine ⟨rfl, ?_, rfl, rfl⟩
    exact accepted_guessers_prompts agent.hubToAgent k
  · right
    rw [h]
    obtain ⟨_, hnew⟩ := validate_coordinate_zero rules _ c hvc
    have hstep := handle_valid_guess_step rules
      { agent with
        hubToAgent := (agent.hubToAgent ++ List.replicate k "YT".toList) ++ ["OK".toList]
        agentToHub := rest } opponent c hinv hnew
    have hyt := accepted_guessers_prompts agent.hubToAgent k
    have hok : line_guesser "OK".toList = none := by decide
    have hstat := (handle_agent_turn_accept_agent rules
      { agent with
        hubToAgent := agent.hubToAgent ++ List.replicate k "YT".toList
        agentToHub := rest } opponent c).1
    have hguess := (handle_agent_turn_accept_agent rules
      { agent with
        hubToAgent := agent.hubToAgent ++ List.replicate k "YT".toList
        agentToHub := rest } opponent c).2.1
    have hres : ∀ messageType : HubMessage,
        messageType = .HIT ∨ messageType = .SUNK ∨ messageType = .MISS →
        line_guesser (resultLine
          { agent with
            hubToAgent := (agent.hubToAgent ++ List.replicate k "YT".toList) ++ ["OK".toList]
            agentToHub := rest } c messageType) = some id := by
      intro messageType ht
      obtain ⟨r1, r2⟩ := line_guesser_result
        { agent with
          hubToAgent := (agent.hubToAgent ++ List.replicate k "YT".toList) ++ ["OK".toList]
          agentToHub := rest } c messageType ht
      rcases h12 with h | h
      · rw [h]; exact r1 (by rw [← h]; exact hid)
      · rw [h]; exact r2 (by rw [← h]; exact hid)
    have hacc : handle_agent_turn_accept rules
        { agent with
          hubToAgent := agent.hubToAgent ++ List.replicate k "YT".toList
          agentToHub := rest } opponent c =
        (if shipsRemaining rules (handle_valid_guess c rules
            { agent with
              hubToAgent := (agent.hubToAgent ++ List.replicate k "YT".toList) ++ ["OK".toList]
              agentToHub := rest } opponent).2 = true then 0 else 2,
         (handle_valid_guess c rules
            { agent with
              hubToAgent := (agent.hubToAgent ++ List.replicate k "YT".toList) ++ ["OK".toList]
              agentToHub := rest } opponent).1,
         (handle_valid_guess c rules
            { agent with
              hubToAgent := (agent.hubToAgent ++ List.replicate k "YT".toList) ++ ["OK".toList]
              agentToHub := rest } opponent).2) := by
      unfold handle_agent_turn_accept
      simp only []
      split <;> rfl
    have hne : (handle_agent_turn_accept rules
        { agent with
          hubToAgent := agent.hubToAgent ++ List.replicate k "YT".toList
          agentToHub := rest } opponent c).1 ≠ 1 := by
      rcases hstat with h0 | h2
      · rw [h0]; decide
      · rw [h2]; decide
    have hty : ∀ (b : Prop) [Decidable b],
        (if b then HubMessage.SUNK else HubMessage.HIT) = .HIT ∨
        (if b then HubMessage.SUNK else HubMessage.HIT) = .SUNK ∨
        (if b then HubMessage.SUNK else HubMessage.HIT) = .MISS := by
      intro b _
      split
      · exact Or.inr (Or.inl rfl)
      · exact Or.inl rfl
    refine ⟨hne, ?_, ?_, ?_⟩
    · rw [hacc]
      simp only [accepted_guessers]
      rcases hstep.2 with ⟨_, _, ha, _⟩ | ⟨_, target, _, _, _, _, ha, _⟩
      · rw [ha, filterMap_snoc_some _ _ _ _ (hres .MISS (Or.inr (Or.inr rfl))),
          filterMap_snoc_none _ _ _ hok, hyt]
      · rw [ha, filterMap_snoc_some _ _ _ _ (hres _ (hty _)),
          filterMap_snoc_none _ _ _ hok, hyt]
    · rw [hacc]
      simp only [accepted_guessers]
      rcases hstep.2 with ⟨_, _, _, ho⟩ | ⟨_, target, _, _, _, _, _, ho⟩
      · rw [ho, filterMap_snoc_some _ _ _ _ (hres .MISS (Or.inr (Or.inr rfl)))]
      · rw [ho, filterMap_snoc_some _ _ _ _ (hres _ (hty _))]
    · rw [hguess]
      rw [hacc]
      exact hstep.1

theorem handle_round_end_trace (winner loser : Agent) :
    (handle_round_end winner loser).1.agentState = winner.agentState ∧
    (handle_round_end winner loser).2.agentState = loser.agentState ∧
    accepted_guessers (handle_round_end winner loser).1 = accepted_guessers winner ∧
    accepted_guessers (handle_round_end winner loser).2 = accepted_guessers loser := by
  have hdone : line_guesser ("DONE ".toList ++ fmtInt winner.agentState.agentId) = none :=
    (line_guesser_lines (fmtInt winner.agentState.agentId)).2.2.2.2.2.2
  refine ⟨rfl, rfl, ?_, ?_⟩
  · exact filterMap_snoc_none _ _ _ hdone
  · exact filterMap_snoc_none _ _ _ hdone

theorem handle_early_exit_round_alternates (round : RoundState) (h : RoundAlternates round) :
    RoundAlternates (handle_early_exit_round round) := by
  have hearly : line_guesser "EARLY".toList = none := by decide
  obtain ⟨n, h1, h2⟩ := h
  unfold handle_early_exit_round
  split
  · refine ⟨n, ?_, ?_⟩
    · rw [← h1]; exact filterMap_snoc_none _ _ _ hearly
    · rw [← h2]; exact filterMap_snoc_none _ _ _ hearly
  · exact ⟨n, h1, h2⟩

theorem RoundTurns.alternates (rules : Rules) (round : RoundState) (h : RoundTurns rules round) :
    RoundAlternates round := by
  obtain ⟨n, h1, h2, _⟩ := h.turns
  exact ⟨n, h1, h2⟩

/-- Serving a round keeps the order of its accepted guesses: player 1 and
player 2 alternate, and unless a turn failed or the round ended, player 2 has
answered the guess of player 1. -/
theorem hub_play_round_turns (rules : Rules) (round : RoundState)
    (hS : RoundTurns rules round) :
    RoundAlternates (hub_play_round rules round).2 ∧
    ((hub_play_round rules round).1 ≠ 1 → RoundTurns rules (hub_play_round rules round).2) := by
  by_cases hskip : round.validRound = 0 ∨ round.gameOver ≠ 0
  · rw [hub_play_round_skip rules round hskip]
    exact ⟨hS.alternates, fun _ => hS⟩
  · have hv : round.validRound ≠ 0 := fun h => hskip (Or.inl h)
    have hg : round.gameOver = 0 := by
      by_contra h
      exact hskip (Or.inr h)
    obtain ⟨n, ht1, ht2, heven⟩ := hS.turns
    have hn : n % 2 = 0 := by
      rcases heven with h | h
      · exact h
      · exact absurd hg h
    have hs1 : alternating 1 2 n ++ [1] = alternating 1 2 (n + 1) := by
      have := alternating_snoc n 1 2
      rw [if_pos hn] at this
      exact this
    have hs2 : alternating 1 2 (n + 1) ++ [2] = alternating 1 2 (n + 2) := by
      have := alternating_snoc (n + 1) 1 2
      rw [if_neg (by omega)] at this
      exact this
    obtain ⟨f1, f2, f3, f4, _⟩ := handle_agent_turn_frame rules round.player1 round.player2
    have hone := handle_agent_turn_trace rules round.player1 round.player2 1 hS.id1
      (Or.inl rfl) hS.play1
    unfold hub_play_round
    rw [if_pos hv, if_pos hg]
    simp only []
    rcases hone with ⟨hst, ha, _, ho⟩ | ⟨hst, ha, ho, hplay⟩
    · rw [if_pos hst]
      refine ⟨⟨n, ?_, ?_⟩, fun h => absurd rfl h⟩
      · show accepted_guessers (handle_agent_turn rules round.player1 round.player2).2.1 = _
        rw [ha, ht1]
      · show accepted_guessers (handle_agent_turn rules round.player1 round.player2).2.2 = _
        rw [ho, ht2]
    · rw [if_neg hst]
      rw [ht1, hs1] at ha
      rw [ht2, hs1] at ho
      have hplay2 : PlayInv rules
          (handle_agent_turn rules round.player1 round.player2).2.2.agentState.agentGuesses
          (handle_agent_turn rules round.player1 round.player2).2.1.agentState.agentMap := by
        rw [f3, f2]; exact hS.play2
      have hid1 : (handle_agent_turn rules round.player1 round.player2).2.1.agentState.agentId
          = 1 := by rw [f1]; exact hS.id1
      have hid2 : (handle_agent_turn rules round.player1 round.player2).2.2.agentState.agentId
          = 2 := by rw [f4]; exact hS.id2
      by_cases hwin : (handle_agent_turn rules round.player1 round.player2).1 = 2
      · rw [if_pos hwin]
        obtain ⟨e1, e2, e3, e4⟩ := handle_round_end_trace
          (handle_agent_turn rules round.player1 round.player2).2.1
          (handle_agent_turn rules round.player1 round.player2).2.2
        have hturns : accepted_guessers (handle_round_end
              (handle_agent_turn rules round.player1 round.player2).2.1
              (handle_agent_turn rules round.player1 round.player2).2.2).1 =
              alternating 1 2 (n + 1) ∧
            accepted_guessers (handle_round_end
              (handle_agent_turn rules round.player1 round.player2).2.1
              (handle_agent_turn rules round.player1 round.player2).2.2).2 =
              alternating 1 2 (n + 1) := ⟨by rw [e3, ha], by rw [e4, ho]⟩
        refine ⟨⟨n + 1, hturns.1, hturns.2⟩, fun _ =>
          ⟨?_, ?_, ?_, ?_, ⟨n + 1, hturns.1, hturns.2, Or.inr ?_⟩⟩⟩
        · dsimp only
          rw [e1]; exact hid1
        · dsimp only
          rw [e2]; exact hid2
        · dsimp only
          rw [e1, e2]; exact hplay
        · dsimp only
          rw [e1, e2]; exact hplay2
        · dsimp only
          decide
      · rw [if_neg hwin]
        obtain ⟨g1, g2, g3, g4, _⟩ := handle_agent_turn_frame rules
          (handle_agent_turn rules round.player1 round.player2).2.2
          (handle_agent_turn rules round.player1 round.player2).2.1
        have htwo := handle_agent_turn_trace rules
          (handle_agent_turn rules round.player1 round.player2).2.2
          (handle_agent_turn rules round.player1 round.player2).2.1 2 hid2 (Or.inr rfl) hplay2
        rcases htwo with ⟨hst2, hb, _, hbo⟩ | ⟨hst2, hb, hbo, hplayb⟩
        · rw [if_pos hst2]
          refine ⟨⟨n + 1, ?_, ?_⟩, fun h => absurd rfl h⟩
          · show accepted_guessers (handle_agent_turn rules _ _).2.2 = _
            rw [hbo, ha]
          · show accepted_guessers (handle_agent_turn rules _ _).2.1 = _
            rw [hb, ho]
        · rw [if_neg hst2]
          rw [ho, hs2] at hb
          rw [ha, hs2] at hbo
          have hplayb1 : PlayInv rules
              (handle_agent_turn rules (handle_agent_turn rules round.player1 round.player2).2.2
                (handle_agent_turn rules round.player1 round.player2).2.1).2.2.agentState.agentGuesses
              (handle_agent_turn rules (handle_agent_turn rules round.player1 round.player2).2.2
                (handle_agent_turn rules round.player1 round.player2).2.1).2.1.agentState.agentMap := by
            rw [g3, g2]; exact hplay
          have hidb1 : (handle_agent_turn rules
              (handle_agent_turn rules round.player1 round.player2).2.2
              (handle_agent_turn rules round.player1 round.player2).2.1).2.2.agentState.agentId
              = 1 := by rw [g4]; exact hid1
          have hidb2 : (handle_agent_turn rules
              (handle_agent_turn rules round.player1 round.player2).2.2
              (handle_agent_turn rules round.player1 round.player2).2.1).2.1.agentState.agentId
              = 2 := by rw [g1]; exact hid2
          by_cases hwin2 : (handle_agent_turn rules
              (handle_agent_turn rules round.player1 round.player2).2.2
              (handle_agent_turn rules round.player1 round.player2).2.1).1 = 2
          · rw [if_pos hwin2]
            obtain ⟨e1, e2, e3, e4⟩ := handle_round_end_trace
              (handle_agent_turn rules (handle_agent_turn rules round.player1 round.player2).2.2
                (handle_agent_turn rules round.player1 round.player2).2.1).2.1
              (handle_agent_turn rules (handle_agent_turn rules round.player1 round.player2).2.2
                (handle_agent_turn rules round.player1 round.player2).2.1).2.2
            have hturns : accepted_guessers (handle_round_end
                  (handle_agent_turn rules
                    (handle_agent_turn rules round.player1 round.player2).2.2
                    (handle_agent_turn rules round.player1 round.player2).2.1).2.1
                  (handle_agent_turn rules
                    (handle_agent_turn rules round.player1 round.player2).2.2
                    (handle_agent_turn rules round.player1 round.player2).2.1).2.2).2 =
                  alternating 1 2 (n + 2) ∧
                accepted_guessers (handle_round_end
                  (handle_agent_turn rules
                    (handle_agent_turn rules round.player1 round.player2).2.2
                    (handle_agent_turn rules round.player1 round.player2).2.1).2.1
                  (handle_agent_turn rules
                    (handle_agent_turn rules round.player1 round.player2).2.2
                    (handle_agent_turn rules round.player1 round.player2).2.1).2.2).1 =
                  alternating 1 2 (n + 2) := ⟨by rw [e4, hbo], by rw [e3, hb]⟩
            refine ⟨⟨n + 2, hturns.1, hturns.2⟩, fun _ =>
              ⟨?_, ?_, ?_, ?_, ⟨n + 2, hturns.1, hturns.2, Or.inr ?_⟩⟩⟩
            · dsimp only
              rw [e2]; exact hidb1
            · dsimp only
              rw [e1]; exact hidb2
            · dsimp only
              rw [e1, e2]; exact hplayb1
            · dsimp only
              rw [e1, e2]; exact hplayb
            · dsimp only
              decide
          · rw [if_neg hwin2]
            refine ⟨⟨n + 2, hbo, hb⟩, fun _ => ?_⟩
            exact ⟨hidb1, hidb2, hplayb1, hplayb, ⟨n + 2, hbo, hb, Or.inl (by omega)⟩⟩

theorem hub_play_round_in_order (rules : Rules) (round : RoundState)
    (h : RoundInOrder rules round) :
    RoundAlternates (hub_play_round rules round).2 ∧
    ((hub_play_round rules round).1 ≠ 1 → RoundInOrder rules (hub_play_round rules round).2) := by
  by_cases hv : round.validRound = 0
  · rw [hub_play_round_skip rules round (Or.inl hv)]
    exact ⟨h.1, fun _ => h⟩
  · obtain ⟨hw, hs⟩ := hub_play_round_turns rules round (h.2 hv)
    exact ⟨hw, fun hok => ⟨hw, fun _ => hs hok⟩⟩

theorem hub_play_game_pass_in_order (rules : Rules) :
    ∀ (count i : Nat) (game : FullGameState), game.rules = rules →
      (∀ round ∈ game.rounds, RoundInOrder rules round) →
      (∀ round ∈ (hub_play_game_pass count i game).game.rounds, RoundAlternates round) ∧
      ((∀ next, hub_play_game_pass count i game ≠ .returned next) →
        (hub_play_game_pass count i game).game.rules = rules ∧
        ∀ round ∈ (hub_play_game_pass count i game).game.rounds, RoundInOrder rules round) := by
  intro count
  induction count with
  | zero =>
    intro i game hr h
    exact ⟨fun round hm => (h round hm).1, fun _ => ⟨hr, h⟩⟩
  | succ n ih =>
    intro i game hr h
    rw [hub_play_game_pass]
    cases hget : game.rounds[i]? with
    | none => exact ⟨fun round hm => (h round hm).1, fun _ => ⟨hr, h⟩⟩
    | some round =>
      simp only []
      obtain ⟨hw, hs⟩ := hub_play_round_in_order rules round (h round (List.getElem?_mem hget))
      rw [hr]
      have hsetW : ∀ r ∈ game.rounds.set i (hub_play_round rules round).2, RoundAlternates r := by
        intro r hrm
        rcases List.mem_or_eq_of_mem_set hrm with hm | he
        · exact (h r hm).1
        · rw [he]; exact hw
      by_cases hfail : (hub_play_round rules round).1 = 1
      · rw [if_pos hfail]
        constructor
        · intro r hrm
          simp only [PassResult.game, handle_early_exit, List.mem_map] at hrm
          obtain ⟨r0, hr0, he⟩ := hrm
          rw [← he]
          exact handle_early_exit_round_alternates r0 (hsetW r0 hr0)
        · intro hnot
          exact absurd rfl (hnot _)
      · rw [if_neg hfail]
        have hsetS : ∀ r ∈ game.rounds.set i (hub_play_round rules round).2,
            RoundInOrder rules r := by
          intro r hrm
          rcases List.mem_or_eq_of_mem_set hrm with hm | he
          · exact h r hm
          · rw [he]; exact hs hfail
        split
        · exact ⟨hsetW, fun _ => ⟨rfl, hsetS⟩⟩
        · exact ih (i + 1) _ rfl hsetS

theorem hub_play_game_in_order (rules : Rules) :
    ∀ (fuel : Nat) (game : FullGameState), game.rules = rules →
      (∀ round ∈ game.rounds, RoundInOrder rules round) →
      ∀ round ∈ (hub_play_game fuel game).2.rounds, RoundAlternates round := by
  intro fuel
  induction fuel with
  | zero => intro game _ h round hm; exact (h round hm).1
  | succ n ih =>
    intro game hr h
    obtain ⟨hw, hs⟩ := hub_play_game_pass_in_order rules game.rounds.length 0 game hr h
    rw [hub_play_game]
    cases hres : hub_play_game_pass game.rounds.length 0 game with
    | returned next => rw [hres] at hw; exact hw
    | allOver next => rw [hres] at hw; exact hw
    | finished next =>
      rw [hres] at hs
      obtain ⟨h1, h2⟩ := hs (by intro x hx; simp at hx)
      exact ih next h1 h2

theorem line_guesser_rules (rules : Rules) (hv : rules.valid) :
    line_guesser ((generate_rules_message rules).takeWhile (fun c => c ≠ '\n')) = none := by
  obtain ⟨_, _, _, _, _, _, hlen, _⟩ := hv
  rw [generate_rules_message_eq rules hlen]
  have e1 : "HIT 1,".toList = ['H', 'I', 'T', ' ', '1', ','] := rfl
  have e2 : "SUNK 1,".toList = ['S', 'U', 'N', 'K', ' ', '1', ','] := rfl
  have e3 : "MISS 1,".toList = ['M', 'I', 'S', 'S', ' ', '1', ','] := rfl
  have e4 : "HIT 2,".toList = ['H', 'I', 'T', ' ', '2', ','] := rfl
  have e5 : "SUNK 2,".toList = ['S', 'U', 'N', 'K', ' ', '2', ','] := rfl
  have e6 : "MISS 2,".toList = ['M', 'I', 'S', 'S', ' ', '2', ','] := rfl
  have e7 : "RULES ".toList = ['R', 'U', 'L', 'E', 'S', ' '] := rfl
  unfold line_guesser
  rw [e1, e2, e3, e4, e5, e6, e7]
  simp [List.isPrefixOf, List.takeWhile]

/-- The handshake with a fresh agent: its id and empty guess history are kept,
no result of a guess is sent, and when `send_rules` returns 0 the map it leaves
is in play. -/
theorem send_rules_fresh (rules : Rules) (hv : rules.valid) (agent : Agent)
    (hfresh : FreshAgent agent) :
    (send_rules rules (generate_rules_message rules) agent).2.agentState.agentId =
      agent.agentState.agentId ∧
    (send_rules rules (generate_rules_message rules) agent).2.agentState.agentGuesses = [] ∧
    accepted_guessers (send_rules rules (generate_rules_message rules) agent).2 = [] ∧
    ((send_rules rules (generate_rules_message rules) agent).1 = 0 →
      PlayInv rules [] (send_rules rules (generate_rules_message rules) agent).2.agentState.agentMap)
    := by
  obtain ⟨hmap, hguess, hlines⟩ := hfresh
  have hline := line_guesser_rules rules hv
  have hacc : ([] ++ [(generate_rules_message rules).takeWhile (fun c => c ≠ '\n')]).filterMap
      line_guesser = [] := by
    rw [filterMap_snoc_none _ _ _ hline]
    rfl
  unfold send_rules
  simp only []
  rw [hmap, hlines]
  by_cases he : (parse_input agent.agentToHub).2.1 = true
  · rw [if_pos he]
    refine ⟨rfl, hguess, hacc, fun h => absurd (show (1 : Int) = 0 from h) (by decide)⟩
  · rw [if_neg he]
    refine ⟨rfl, hguess, hacc, ?_⟩
    intro h0
    have hparse : (parse_map_message (initialise_grids rules initialMap) rules
        (parse_input agent.agentToHub).1).1 = 0 := by
      by_contra hne
      simp only [] at h0
      rw [if_neg hne] at h0
      exact absurd (show (1 : Int) = 0 from h0) (by decide)
    exact (parse_map_message_play rules hv (parse_input agent.agentToHub).1 _
      (parse_map_message_run rules _ hparse)).1

/-- A round of fresh agents after both loops of `initialise_agents`: its state is
the one `hub_play_game` starts from. -/
theorem initialise_agents_round_in_order (rules : Rules) (hv : rules.valid)
    (spawned : Int × Int) (round : RoundState) (h1 : FreshAgent round.player1)
    (h2 : FreshAgent round.player2) :
    RoundInOrder rules (initialise_agents_handshake rules (generate_rules_message rules)
      (initialise_agents_spawn spawned round)) := by
  have hp1 : (initialise_agents_spawn spawned round).player1 =
      { round.player1 with
        agentState := { round.player1.agentState with agentId := 1 } } := by
    unfold initialise_agents_spawn kill_round
    simp only []
    split <;> split <;> rfl
  have hp2 : (initialise_agents_spawn spawned round).player2 =
      { round.player2 with
        agentState := { round.player2.agentState with agentId := 2 } } := by
    unfold initialise_agents_spawn kill_round
    simp only []
    split <;> split <;> rfl
  have hf1 : FreshAgent (initialise_agents_spawn spawned round).player1 := by
    rw [hp1]; exact h1
  have hf2 : FreshAgent (initialise_agents_spawn spawned round).player2 := by
    rw [hp2]; exact h2
  have hi1 : (initialise_agents_spawn spawned round).player1.agentState.agentId = 1 := by
    rw [hp1]
  have hi2 : (initialise_agents_spawn spawned round).player2.agentState.agentId = 2 := by
    rw [hp2]
  generalize initialise_agents_spawn spawned round = started at hf1 hf2 hi1 hi2
  obtain ⟨a1, a2, a3, a4⟩ := send_rules_fresh rules hv started.player1 hf1
  obtain ⟨b1, b2, b3, b4⟩ := send_rules_fresh rules hv started.player2 hf2
  have hacc1 : accepted_guessers started.player1 = [] := by
    unfold accepted_guessers
    rw [hf1.2.2]
    rfl
  have hacc2 : accepted_guessers started.player2 = [] := by
    unfold accepted_guessers
    rw [hf2.2.2]
    rfl
  unfold initialise_agents_handshake kill_round
  by_cases hvalid : started.validRound ≠ 0
  · rw [if_pos hvalid]
    simp only []
    by_cases hs1 : (send_rules rules (generate_rules_message rules) started.player1).1 = 0
    · rw [if_neg (by rw [hs1]; decide)]
      by_cases hs2 : (send_rules rules (generate_rules_message rules) started.player2).1 = 0
      · rw [if_neg (by rw [hs2]; decide)]
        refine ⟨⟨0, a3, b3⟩, fun _ => ⟨?_, ?_, ?_, ?_, ⟨0, a3, b3, Or.inl rfl⟩⟩⟩
        · dsimp only
          rw [a1]; exact hi1
        · dsimp only
          rw [b1]; exact hi2
        · dsimp only
          rw [a2]; exact b4 hs2
        · dsimp only
          rw [b2]; exact a4 hs1
      · rw [if_pos hs2]
        exact ⟨⟨0, a3, b3⟩, fun h => absurd rfl h⟩
    · rw [if_pos hs1]
      exact ⟨⟨0, a3, hacc2⟩, fun h => absurd rfl h⟩
  · rw [if_neg hvalid]
    exact ⟨⟨0, hacc1, hacc2⟩, fun h => absurd h hvalid⟩

/-- The tournament `initialise_agents` hands to `hub_play_game`, when the rules
are valid and the agents fresh: every round is in order. -/
theorem initialise_agents_in_order (spawned : Nat → Int × Int) (configured started : FullGameState)
    (hv : configured.rules.valid)
    (hfresh : ∀ round ∈ configured.rounds, FreshAgent round.player1 ∧ FreshAgent round.player2)
    (hstart : initialise_agents spawned configured = some started) :
    started.rules = configured.rules ∧
    ∀ round ∈ started.rounds, RoundInOrder started.rules round := by
  unfold initialise_agents at hstart
  simp only [] at hstart
  split at hstart
  · simp only [Option.some.injEq] at hstart
    subst hstart
    refine ⟨rfl, ?_⟩
    intro round hm
    obtain ⟨k, hk⟩ := List.mem_iff_getElem?.mp hm
    simp only [List.getElem?_map, initialise_agents_spawn_loop_getElem?, Nat.zero_add,
      Option.map_map] at hk
    cases hc : configured.rounds[k]? with
    | none => rw [hc] at hk; simp at hk
    | some r0 =>
      rw [hc] at hk
      simp only [Option.map_some', Function.comp, Option.some.injEq] at hk
      rw [← hk]
      obtain ⟨f1, f2⟩ := hfresh r0 (List.getElem?_mem hc)
      exact initialise_agents_round_in_order configured.rules hv (spawned k) r0 f1 f2
  · exact absurd hstart (by simp)

/-- C18: in every run of `hub_play_game` (any number of passes) from rounds in
order (the accepted guesses so far alternate, or none was answered yet; the
valid rounds are between two turns on maps in play, the agents having the ids 1
and 2): the agents whose guesses were accepted in a round, in the order of
acceptance as the results sent to either agent of the round tell, alternate
between player 1 and player 2 and start with player 1, so that no agent has two
guesses accepted in a row.  A turn adds no accepted guess when it fails and one
guess of the agent whose turn it is otherwise.  The rounds `initialise_agents`
hands over, for valid rules and fresh agents, are in order. -/
theorem accepted_guesses_alternate (game : FullGameState) (fuel : Nat)
    (hstart : ∀ round ∈ game.rounds, RoundInOrder game.rules round) :
    (∀ round ∈ (hub_play_game fuel game).2.rounds,
      (∃ n : Nat, accepted_guessers round.player1 = alternating 1 2 n ∧
        accepted_guessers round.player2 = alternating 1 2 n) ∧
      List.Chain' (fun a b => a ≠ b) (accepted_guessers round.player1) ∧
      ((accepted_guessers round.player1).head? = none ∨
        (accepted_guessers round.player1).head? = some 1)) ∧
    (∀ (agent opponent : Agent) (id : Int), agent.agentState.agentId = id → id = 1 ∨ id = 2 →
      PlayInv game.rules agent.agentState.agentGuesses opponent.agentState.agentMap →
      ((handle_agent_turn game.rules agent opponent).1 = 1 ∧
        accepted_guessers (handle_agent_turn game.rules agent opponent).2.1 =
          accepted_guessers agent ∧
        accepted_guessers (handle_agent_turn game.rules agent opponent).2.2 =
          accepted_guessers opponent) ∨
      ((handle_agent_turn game.rules agent opponent).1 ≠ 1 ∧
        accepted_guessers (handle_agent_turn game.rules agent opponent).2.1 =
          accepted_guessers agent ++ [id] ∧
        accepted_guessers (handle_agent_turn game.rules agent opponent).2.2 =
          accepted_guessers opponent ++ [id])) ∧
    (∀ (spawned : Nat → Int × Int) (configured : FullGameState), configured.rules.valid →
      (∀ round ∈ configured.rounds, FreshAgent round.player1 ∧ FreshAgent round.player2) →
      initialise_agents spawned configured = some game →
      ∀ round ∈ game.rounds, RoundInOrder game.rules round) := by
  refine ⟨?_, ?_, fun spawned configured hv hfresh hst =>
    (initialise_agents_in_order spawned configured game hv hfresh hst).2⟩
  · intro round hm
    have hw := hub_play_game_in_order game.rules fuel game rfl hstart round hm
    obtain ⟨n, h1, h2⟩ := hw
    obtain ⟨hc, hh⟩ := alternating_chain n 1 2 (by decide)
    refine ⟨⟨n, h1, h2⟩, ?_, ?_⟩
    · rw [h1]; exact hc
    · rw [h1]; exact hh
  · intro agent opponent id hid h12 hinv
    rcases handle_agent_turn_trace game.rules agent opponent id hid h12 hinv with
      ⟨h1, h2, _, h4⟩ | ⟨h1, h2, h3, _⟩
    · exact Or.inl ⟨h1, h2, by rw [h4]⟩
    · exact Or.inr ⟨h1, h2, h3⟩

/-- Witness of C18: the tournament `exampleGameStarted`, as `initialise_agents`
hands it over: round 0 is invalid, round 1 is played to its end; the accepted
guesses of round 1 are those of players 1, 2, 1, 2 and 1, who wins. -/
theorem accepted_guesses_alternate_witness :
    (hub_play_game 5 exampleGameStarted).2.rounds.map
        (fun round => (accepted_guessers round.player1, round.gameOver)) =
      [([], 0), ([1, 2, 1, 2, 1], 1)] ∧
    ∀ round ∈ (hub_play_game 5 exampleGameStarted).2.rounds,
      (∃ n : Nat, accepted_guessers round.player1 = alternating 1 2 n ∧
        accepted_guessers round.player2 = alternating 1 2 n) ∧
      List.Chain' (fun a b => a ≠ b) (accepted_guessers round.player1) ∧
      ((accepted_guessers round.player1).head? = none ∨
        (accepted_guessers round.player1).head? = some 1) :=
  ⟨by decide,
   (accepted_guesses_alternate exampleGameStarted 5
      (initialise_agents_in_order (fun i => if i = 0 then (1, 0) else (0, 0))
        exampleGameConfigured exampleGameStarted (by decide) (by decide) (by decide)).2).1⟩

/-! ### A hit followed by the sinking guess -/

/-- C23: on the 3 x 3 board with one ship of length 2, the opponent's map read
from `MAP A1,E` holds one ship on A1 and B1.  The turn of agent 2 with the
guess A1 returns 0 and broadcasts `HIT 2,A1`; its next turn with the guess B1
returns 2 and broadcasts `SUNK 2,B1`; `handle_round_end` then sends `DONE 2`,
the id of the guessing agent, to both agents. -/
theorem scenario_hit_then_sunk_then_done :
    (parse_map_message (initialise_grids exampleRules initialMap) exampleRules
        "MAP A1,E".toList).1 = 0 ∧
    exampleMap.agentShips.map (fun ship => ship.coordinates) = [["A1".toList, "B1".toList]] ∧
    (handle_agent_turn exampleRules (exampleAgent 2 "GUESS A1\nGUESS B1\n")
        (exampleAgent 1 "")).1 = 0 ∧
    (handle_agent_turn exampleRules (exampleAgent 2 "GUESS A1\nGUESS B1\n")
        (exampleAgent 1 "")).2.1.hubToAgent =
      ["YT".toList, "OK".toList, "HIT 2,A1".toList] ∧
    (handle_agent_turn exampleRules (exampleAgent 2 "GUESS A1\nGUESS B1\n")
        (exampleAgent 1 "")).2.2.hubToAgent = ["HIT 2,A1".toList] ∧
    (handle_agent_turn exampleRules
        (handle_agent_turn exampleRules (exampleAgent 2 "GUESS A1\nGUESS B1\n")
          (exampleAgent 1 "")).2.1
        (handle_agent_turn exampleRules (exampleAgent 2 "GUESS A1\nGUESS B1\n")
          (exampleAgent 1 "")).2.2).1 = 2 ∧
    (handle_agent_turn exampleRules
        (handle_agent_turn exampleRules (exampleAgent 2 "GUESS A1\nGUESS B1\n")
          (exampleAgent 1 "")).2.1
        (handle_agent_turn exampleRules (exampleAgent 2 "GUESS A1\nGUESS B1\n")
          (exampleAgent 1 "")).2.2).2.2.hubToAgent =
      ["HIT 2,A1".toList, "SUNK 2,B1".toList] ∧
    (hub_play_round exampleRules
        { player1 := exampleAgent 1 "GUESS C3\nGUESS C2\n",
          player2 := exampleAgent 2 "GUESS A1\nGUESS B1\n",
          roundNumber := 0, gameOver := 0, validRound := 1 }).2.gameOver = 0 ∧
    (hub_play_round exampleRules
        (hub_play_round exampleRules
          { player1 := exampleAgent 1 "GUESS C3\nGUESS C2\n",
            player2 := exampleAgent 2 "GUESS A1\nGUESS B1\n",
            roundNumber := 0, gameOver := 0, validRound := 1 }).2).2.gameOver = 1 ∧
    (hub_play_round exampleRules
        (hub_play_round exampleRules
          { player1 := exampleAgent 1 "GUESS C3\nGUESS C2\n",
            player2 := exampleAgent 2 "GUESS A1\nGUESS B1\n",
            roundNumber := 0, gameOver := 0, validRound := 1 }).2).2.player1.hubToAgent =
      ["YT".toList, "OK".toList, "MISS 1,C3".toList, "HIT 2,A1".toList,
       "YT".toList, "OK".toList, "MISS 1,C2".toList, "SUNK 2,B1".toList, "DONE 2".toList] ∧
    (hub_play_round exampleRules
        (hub_play_round exampleRules
          { player1 := exampleAgent 1 "GUESS C3\nGUESS C2\n",
            player2 := exampleAgent 2 "GUESS A1\nGUESS B1\n",
            roundNumber := 0, gameOver := 0, validRound := 1 }).2).2.player2.hubToAgent =
      ["MISS 1,C3".toList, "YT".toList, "OK".toList, "HIT 2,A1".toList,
       "MISS 1,C2".toList, "YT".toList, "OK".toList, "SUNK 2,B1".toList, "DONE 2".toList] := by
  decide

/-! ### Acceptance of a guess and the opponent -/

/-- The guesses of the agent after its turn do not depend on the opponent. -/
theorem handle_agent_turn_agent_state (rules : Rules) (opponent other : Agent) :
    ∀ (n : Nat) (agent : Agent), agent.agentToHub.length = n →
      (handle_agent_turn rules agent opponent).2.1.agentState =
        (handle_agent_turn rules agent other).2.1.agentState := by
  intro n
  induction n using Nat.strong_induction_on with
  | _ n ih =>
    intro agent hn
    rw [handle_agent_turn_unfold rules agent opponent, handle_agent_turn_unfold rules agent other]
    by_cases he : (parse_input agent.agentToHub).2.1 = true
    · rw [if_pos he, if_pos he]
    · rw [if_neg he, if_neg he]
      cases hv : validate_guess_message (parse_input agent.agentToHub).1 with
      | none => rfl
      | some coordinates =>
        simp only []
        by_cases hc : validate_coordinate rules
            (prompted agent (parse_input agent.agentToHub).2.2) coordinates = 0
        · rw [if_pos hc, if_pos hc]
          obtain ⟨_, h1, _, _⟩ := handle_agent_turn_accept_agent rules
            (prompted agent (parse_input agent.agentToHub).2.2) opponent coordinates
          obtain ⟨_, h2, _, _⟩ := handle_agent_turn_accept_agent rules
            (prompted agent (parse_input agent.agentToHub).2.2) other coordinates
          rw [h1, h2]
        · rw [if_neg hc, if_neg hc]
          have hlt := parse_input_length agent.agentToHub (by simpa using he)
          exact ih _ (by rw [← hn]; exact hlt) _ rfl

/-- C28: `validate_coordinate` gives the same result for two agents with the
same accepted guesses, whatever else differs between the two states; a
coordinate on the board that the agent has not guessed is accepted also when the
opponent has guessed it; and the guesses an agent holds after its turn are the
same whoever the opponent is. -/
theorem guess_acceptance_ignores_opponent (rules : Rules) (agent other opponent rival : Agent)
    (coordinates : CStr)
    (h : agent.agentState.agentGuesses = other.agentState.agentGuesses) :
    validate_coordinate rules agent coordinates = validate_coordinate rules other coordinates ∧
    (check_coordinate_bounds coordinates rules = 0 →
      coordinates ∉ agent.agentState.agentGuesses →
      coordinates ∈ opponent.agentState.agentGuesses →
      validate_coordinate rules agent coordinates = 0) ∧
    (handle_agent_turn rules agent opponent).2.1.agentState =
      (handle_agent_turn rules agent rival).2.1.agentState := by
  refine ⟨?_, ?_, handle_agent_turn_agent_state rules opponent rival _ agent rfl⟩
  · unfold validate_coordinate
    rw [h]
  · intro hb hn _
    unfold validate_coordinate
    rw [if_neg (by simpa using hb), if_neg (by simpa using hn)]

theorem guess_acceptance_ignores_opponent_witness :
    (exampleAgent 2 "GUESS A1\n").agentState.agentGuesses =
      (exampleAgentGuessed 1 [] "").agentState.agentGuesses ∧
    "A1".toList ∈ (exampleAgentGuessed 1 ["A1".toList] "").agentState.agentGuesses ∧
    validate_coordinate exampleRules (exampleAgent 2 "GUESS A1\n") "A1".toList = 0 ∧
    (handle_agent_turn exampleRules (exampleAgent 2 "GUESS A1\n")
        (exampleAgentGuessed 1 ["A1".toList] "")).2.1.agentState =
      (handle_agent_turn exampleRules (exampleAgent 2 "GUESS A1\n")
        (exampleAgentGuessed 1 [] "")).2.1.agentState :=
  ⟨by decide, by decide,
   (guess_acceptance_ignores_opponent exampleRules (exampleAgent 2 "GUESS A1\n")
      (exampleAgentGuessed 1 [] "") (exampleAgentGuessed 1 ["A1".toList] "")
      (exampleAgentGuessed 1 [] "") "A1".toList (by decide)).2.1
      (by decide) (by decide) (by decide),
   (guess_acceptance_ignores_opponent exampleRules (exampleAgent 2 "GUESS A1\n")
      (exampleAgentGuessed 1 [] "") (exampleAgentGuessed 1 ["A1".toList] "")
      (exampleAgentGuessed 1 [] "") "A1".toList (by decide)).2.2⟩

/-! ### Lines of a file -/

theorem parse_file_loop_newline (a b : List Char) :
    ∀ textLine : List Char,
      parse_file_loop (a ++ '\n' :: b) textLine =
        parse_file_loop (a ++ ['\n']) textLine ++ parse_file_loop b [] := by
  induction a with
  | nil =>
    intro textLine
    simp [parse_file_loop]
  | cons c a ih =>
    intro textLine
    by_cases hc : c = '\n'
    · rw [List.cons_append, List.cons_append]
      simp only [parse_file_loop, hc, if_true]
      rw [ih []]
      rfl
    · rw [List.cons_append, List.cons_append]
      simp only [parse_file_loop, hc, if_false]
      exact ih _

theorem parse_file_loop_line (line : List Char) (h : '\n' ∉ line) :
    ∀ textLine : List Char,
      parse_file_loop (line ++ ['\n']) textLine =
        [(textLine ++ line).takeWhile (fun c => c ≠ '\x00')] := by
  induction line with
  | nil =>
    intro textLine
    simp [parse_file_loop]
  | cons c line ih =>
    intro textLine
    have hc : c ≠ '\n' := fun e => h (by simp [e])
    rw [List.cons_append]
    simp only [parse_file_loop, hc, if_false]
    rw [ih (fun hm => h (by simp [hm]))]
    simp

theorem parse_file_loop_terminated (a : List Char) :
    ∀ textLine : List Char, ∃ t : List CStr, (t = [] ∨ t = [[]]) ∧
      parse_file_loop (a ++ ['\n']) textLine = parse_file_loop a textLine ++ t := by
  induction a with
  | nil =>
    intro textLine
    by_cases ht : textLine = []
    · exact ⟨[[]], Or.inr rfl, by simp [parse_file_loop, ht]⟩
    · exact ⟨[], Or.inl rfl, by simp [parse_file_loop, ht]⟩
  | cons c a ih =>
    intro textLine
    by_cases hc : c = '\n'
    · obtain ⟨t, ht, he⟩ := ih []
      refine ⟨t, ht, ?_⟩
      rw [List.cons_append]
      simp only [parse_file_loop, hc, if_true]
      rw [he]
      rfl
    · obtain ⟨t, ht, he⟩ := ih (textLine ++ [c])
      refine ⟨t, ht, ?_⟩
      rw [List.cons_append]
      simp only [parse_file_loop, hc, if_false]
      exact he

/-- The lines of a text that continues after a line boundary. -/
theorem parse_file_at_boundary (pre post : List Char)
    (hpre : pre = [] ∨ pre.getLast? = some '\n') :
    parse_file (pre ++ post) = parse_file pre ++ parse_file post := by
  rcases hpre with h | h
  · rw [h]; rfl
  · rcases List.eq_nil_or_concat pre with h0 | ⟨q, b, hq⟩
    · rw [h0] at h; exact absurd h (by simp)
    · rw [hq] at h
      have hb : b = '\n' := by simpa using h
      rw [hq, hb]
      unfold parse_file
      rw [List.concat_eq_append, List.append_assoc, List.singleton_append,
        parse_file_loop_newline]

/-! ### Lines the rules file ignores -/

theorem dropWhile_space_prefix (sp : CStr) (h : ∀ c ∈ sp, isspace c = true) (rest : CStr) :
    (sp ++ rest).dropWhile isspace = rest.dropWhile isspace := by
  induction sp with
  | nil => rfl
  | cons c sp ih =>
    rw [List.cons_append, List.dropWhile_cons, h c (by simp)]
    exact ih (fun x hx => h x (by simp [hx]))

theorem dropWhile_keeps (p : Char → Bool) (x : Char) (hx : p x = false) (v : CStr) :
    ∀ u : CStr, ∃ w : CStr, (u ++ x :: v).dropWhile p = w ++ x :: v := by
  intro u
  induction u with
  | nil => exact ⟨[], by simp [List.dropWhile_cons, hx]⟩
  | cons c u ih =>
    by_cases hc : p c = true
    · obtain ⟨w, hw⟩ := ih
      exact ⟨w, by rw [List.cons_append, List.dropWhile_cons, if_pos hc]; exact hw⟩
    · exact ⟨c :: u, by rw [List.cons_append, List.dropWhile_cons, if_neg hc]⟩

/-- A line that is blank up to white space or starts with the comment marker
after its leading white space is skipped by the readers of the rules file and
of the configuration file. -/
theorem ignored_line_skipped (line : CStr) (h : ignored_line_spec line = true) :
    is_comment (strtrim line) = true ∨ strtrim line = [] := by
  unfold ignored_line_spec at h
  cases hd : line.dropWhile isspace with
  | nil =>
    right
    have hall : ∀ c ∈ line, isspace c = true := by
      simpa [List.dropWhile_eq_nil_iff] using hd
    rw [strtrim_eq, List.dropWhile_eq_nil_iff]
    intro c hc
    exact hall c ((List.rdropWhile_prefix isspace line).subset hc)
  | cons c rest =>
    left
    rw [hd] at h
    have hc : c = '#' := by simpa using h
    have hsplit : line = line.takeWhile isspace ++ '#' :: rest := by
      rw [← hc, ← hd, List.takeWhile_append_dropWhile]
    have hsp : ∀ x ∈ line.takeWhile isspace, isspace x = true :=
      fun x hx => List.mem_takeWhile_imp hx
    obtain ⟨w, hw⟩ := dropWhile_keeps isspace '#' (by decide) (line.takeWhile isspace).reverse
      rest.reverse
    have hr : line.rdropWhile isspace = line.takeWhile isspace ++ '#' :: w.reverse := by
      rw [List.rdropWhile]
      nth_rewrite 1 [hsplit]
      rw [List.reverse_append, List.reverse_cons, List.append_assoc, List.singleton_append, hw]
      simp
    rw [strtrim_eq, hr, dropWhile_space_prefix _ hsp, List.dropWhile_cons,
      if_neg (by decide)]
    rfl

theorem ignored_line_spec_cut (line : CStr) (h : ignored_line_spec line = true) :
    ignored_line_spec (line.takeWhile (fun c => c ≠ '\x00')) = true := by
  unfold ignored_line_spec at h ⊢
  have hsplit : line = line.takeWhile isspace ++ line.dropWhile isspace :=
    (List.takeWhile_append_dropWhile _ _).symm
  have hsp : ∀ x ∈ line.takeWhile isspace, isspace x = true :=
    fun x hx => List.mem_takeWhile_imp hx
  have hcut : ∀ rest : CStr,
      (line.takeWhile isspace ++ rest).takeWhile (fun c => c ≠ '\x00') =
        line.takeWhile isspace ++ rest.takeWhile (fun c => c ≠ '\x00') := by
    intro rest
    rw [List.takeWhile_append_of_pos]
    intro x hx
    have := hsp x hx
    have hx0 : x ≠ '\x00' := by
      intro e; rw [e] at this; exact absurd this (by decide)
    simpa using hx0
  cases hd : line.dropWhile isspace with
  | nil =>
    rw [hsplit, hd, List.append_nil, List.takeWhile_eq_self_iff.mpr]
    · rw [List.dropWhile_eq_nil_iff.mpr]
      intro x hx
      exact hsp x hx
    · intro x hx
      have := hsp x hx
      have hx0 : x ≠ '\x00' := by
        intro e; rw [e] at this; exact absurd this (by decide)
      simpa using hx0
  | cons c rest =>
    rw [hd] at h
    have hc : c = '#' := by simpa using h
    rw [hsplit, hd, hcut, hc, dropWhile_space_prefix _ hsp]
    rfl

theorem parse_rules_file_loop_done :
    ∀ (lines : List CStr) (shipsAdded : Nat) (rules : Rules),
      parse_rules_file_loop lines .READ_DONE shipsAdded rules =
        (.READ_DONE, shipsAdded, rules) := by
  intro lines
  induction lines with
  | nil => intro shipsAdded rules; rfl
  | cons line rest ih =>
    intro shipsAdded rules
    by_cases hc : is_comment (strtrim line) = true
    · simp only [parse_rules_file_loop, hc, if_true]
      exact ih _ _
    · by_cases he : strtrim line = []
      · simp only [parse_rules_file_loop, he, if_true, ite_self]
        exact ih _ _
      · simp only [parse_rules_file_loop, hc, he, Bool.false_eq_true, if_false]

theorem parse_rules_file_loop_skip (line : CStr) (rest : List CStr)
    (h : is_comment (strtrim line) = true ∨ strtrim line = [])
    (state : RuleReadState) (shipsAdded : Nat) (rules : Rules) :
    parse_rules_file_loop (line :: rest) state shipsAdded rules =
      parse_rules_file_loop rest state shipsAdded rules := by
  rcases h with hc | he
  · simp only [parse_rules_file_loop, hc, if_true]
  · simp only [parse_rules_file_loop, he, if_true, ite_self]

/-- The loop over the lines of the rules file gives the same result on the
lines that are not ignored. -/
theorem parse_rules_file_loop_filter :
    ∀ (lines : List CStr) (state : RuleReadState) (shipsAdded : Nat) (rules : Rules),
      parse_rules_file_loop lines state shipsAdded rules =
        parse_rules_file_loop (lines.filter (fun line => !ignored_line_spec line))
          state shipsAdded rules := by
  intro lines
  induction lines with
  | nil => intro state shipsAdded rules; rfl
  | cons line rest ih =>
    intro state shipsAdded rules
    by_cases hi : ignored_line_spec line = true
    · rw [parse_rules_file_loop_skip line rest (ignored_line_skipped line hi),
        List.filter_cons_of_neg (by simp [hi])]
      exact ih _ _ _
    · rw [List.filter_cons_of_pos (by simpa using hi)]
      by_cases hs : is_comment (strtrim line) = true ∨ strtrim line = []
      · rw [parse_rules_file_loop_skip line rest hs, parse_rules_file_loop_skip line _ hs]
        exact ih _ _ _
      · have hc : ¬ is_comment (strtrim line) = true := fun e => hs (Or.inl e)
        have he : ¬ strtrim line = [] := fun e => hs (Or.inr e)
        cases state <;>
          simp only [parse_rules_file_loop, hc, he, Bool.false_eq_true, if_false] <;>
          exact ih _ _ _

/-- Two sources with the same lines, the ignored ones left out, give the same
outcome, and the same rules when it is a success. -/
theorem parse_rules_file_content (rules : Rules) (a b : List Char)
    (h : (parse_file a).filter (fun line => !ignored_line_spec line) =
      (parse_file b).filter (fun line => !ignored_line_spec line)) :
    (parse_rules_file rules a).1 = (parse_rules_file rules b).1 ∧
    ((parse_rules_file rules a).1 = 0 → parse_rules_file rules b = parse_rules_file rules a) := by
  have hR : parse_rules_file_loop (parse_file a) .READ_HEIGHT 0
        { rules with numberOfShips := 0, shipLengths := [] } =
      parse_rules_file_loop (parse_file b) .READ_HEIGHT 0
        { rules with numberOfShips := 0, shipLengths := [] } := by
    rw [parse_rules_file_loop_filter (parse_file a), h, ← parse_rules_file_loop_filter]
  have hnil : ∀ l : List CStr, l.length < MINIMUM_FILE_LINES → l = [] := by
    intro l hl
    cases l with
    | nil => rfl
    | cons x xs => simp [MINIMUM_FILE_LINES] at hl
  unfold parse_rules_file
  simp only []
  by_cases ha : (parse_file a).length < MINIMUM_FILE_LINES
  · rw [if_pos ha]
    by_cases hb : (parse_file b).length < MINIMUM_FILE_LINES
    · rw [if_pos hb]
      exact ⟨rfl, fun _ => rfl⟩
    · rw [if_neg hb, ← hR, hnil _ ha]
      simp [parse_rules_file_loop]
  · rw [if_neg ha]
    by_cases hb : (parse_file b).length < MINIMUM_FILE_LINES
    · rw [if_pos hb, hR, hnil _ hb]
      simp [parse_rules_file_loop]
    · rw [if_neg hb, hR]
      exact ⟨rfl, fun _ => rfl⟩

/-- C27: a line that is blank, holds white space only, or starts with `#` after
its leading white space, inserted at the start of a rules source or after one
of its newlines, changes neither the outcome of `parse_rules_file` nor, on
success, the rules; the same holds for any two sources that have the same lines
once such lines are left out, that is for any number of inserted lines. -/
theorem ignored_lines_do_not_change_rules (rules : Rules) :
    (∀ pre post line : List Char, (pre = [] ∨ pre.getLast? = some '\n') → '\n' ∉ line →
      ignored_line_spec line = true →
      (parse_rules_file rules (pre ++ line ++ '\n' :: post)).1 =
        (parse_rules_file rules (pre ++ post)).1 ∧
      ((parse_rules_file rules (pre ++ post)).1 = 0 →
        parse_rules_file rules (pre ++ line ++ '\n' :: post) =
          parse_rules_file rules (pre ++ post))) ∧
    (∀ source inserted : List Char,
      (parse_file source).filter (fun line => !ignored_line_spec line) =
        (parse_file inserted).filter (fun line => !ignored_line_spec line) →
      (parse_rules_file rules inserted).1 = (parse_rules_file rules source).1 ∧
      ((parse_rules_file rules source).1 = 0 →
        parse_rules_file rules inserted = parse_rules_file rules source)) := by
  refine ⟨?_, ?_⟩
  · intro pre post line hpre hline hi
    have hlines : parse_file (pre ++ line ++ '\n' :: post) =
        parse_file pre ++ ([line.takeWhile (fun c => c ≠ '\x00')] ++ parse_file post) := by
      rw [List.append_assoc, parse_file_at_boundary pre _ hpre]
      unfold parse_file
      rw [parse_file_loop_newline, parse_file_loop_line line hline, List.nil_append]
    have hfilter : (parse_file (pre ++ post)).filter (fun line => !ignored_line_spec line) =
        (parse_file (pre ++ line ++ '\n' :: post)).filter
          (fun line => !ignored_line_spec line) := by
      rw [hlines, parse_file_at_boundary pre post hpre, List.filter_append, List.filter_append,
        List.filter_append, List.filter_cons_of_neg (by
          show ¬ ((!ignored_line_spec (line.takeWhile (fun c => c ≠ '\x00'))) = true)
          rw [ignored_line_spec_cut line hi]
          decide)]
      rfl
    obtain ⟨h1, h2⟩ := parse_rules_file_content rules _ _ hfilter
    exact ⟨h1.symm, h2⟩
  · intro source inserted h
    obtain ⟨h1, h2⟩ := parse_rules_file_content rules _ _ h
    exact ⟨h1.symm, h2⟩

theorem ignored_lines_do_not_change_rules_witness :
    ignored_line_spec "  # ships".toList = true ∧
    parse_rules_file emptyRules "3 3\n1\n2\n".toList =
      (0, { height := 3, width := 3, numberOfShips := 1, shipLengths := [2] }) ∧
    parse_rules_file emptyRules ("3 3\n".toList ++ "  # ships".toList ++ '\n' :: "1\n2\n".toList) =
      parse_rules_file emptyRules ("3 3\n".toList ++ "1\n2\n".toList) ∧
    parse_rules_file emptyRules "\n3 3\n \n# one ship\n1\n\t\n2".toList =
      parse_rules_file emptyRules "3 3\n1\n2\n".toList :=
  ⟨by decide, by decide,
   ((ignored_lines_do_not_change_rules emptyRules).1 "3 3\n".toList "1\n2\n".toList
      "  # ships".toList (Or.inr (by decide)) (by decide) (by decide)).2 (by decide),
   ((ignored_lines_do_not_change_rules emptyRules).2 "3 3\n1\n2\n".toList
      "\n3 3\n \n# one ship\n1\n\t\n2".toList (by decide)).2 (by decide)⟩

/-! ### Lines after the last ship length -/

theorem parse_rules_file_loop_done_append (more : List CStr) :
    ∀ (lines : List CStr) (state : RuleReadState) (shipsAdded : Nat) (rules : Rules),
      (parse_rules_file_loop lines state shipsAdded rules).1 = .READ_DONE →
      parse_rules_file_loop (lines ++ more) state shipsAdded rules =
        parse_rules_file_loop lines state shipsAdded rules := by
  intro lines
  induction lines with
  | nil =>
    intro state shipsAdded rules h
    have hs : state = .READ_DONE := h
    rw [hs, List.nil_append, parse_rules_file_loop_done]
    rfl
  | cons line rest ih =>
    intro state shipsAdded rules h
    rw [List.cons_append]
    by_cases hs : is_comment (strtrim line) = true ∨ strtrim line = []
    · rw [parse_rules_file_loop_skip line _ hs] at h ⊢
      rw [parse_rules_file_loop_skip line _ hs]
      exact ih _ _ _ h
    · have hc : ¬ is_comment (strtrim line) = true := fun e => hs (Or.inl e)
      have he : ¬ strtrim line = [] := fun e => hs (Or.inr e)
      cases state <;>
        simp only [parse_rules_file_loop, hc, he, Bool.false_eq_true, if_false] at h ⊢ <;>
        exact ih _ _ _ h

/-- A source that `parse_rules_file` accepts although two more lines follow the
length of its one ship. -/
theorem parse_rules_file_accepts_trailing_lines :
    parse_rules_file emptyRules "3 3\n1\n2\n5\nabc\n".toList =
      (0, { height := 3, width := 3, numberOfShips := 1, shipLengths := [2] }) := by
  decide

/-- C30 (amended): `parse_rules_file` stops reading at the line that holds the
length of the last ship: whatever follows an accepted source on further lines,
the source is accepted with the same rules; and an accepted source has left
exactly `numberOfShips` lengths. -/
theorem parse_rules_file_stops_when_done (rules : Rules) (source extra : List Char)
    (h : (parse_rules_file rules source).1 = 0) :
    parse_rules_file rules (source ++ '\n' :: extra) = parse_rules_file rules source ∧
    ((parse_rules_file rules source).2.shipLengths.length : Int) =
      (parse_rules_file rules source).2.numberOfShips := by
  have hinv := parse_rules_file_loop_inv (parse_file source) .READ_HEIGHT 0
    { rules with numberOfShips := 0, shipLengths := [] } ⟨rfl, rfl⟩
  obtain ⟨t, _, ht⟩ := parse_file_loop_terminated source []
  have hlines : parse_file (source ++ '\n' :: extra) =
      parse_file source ++ (t ++ parse_file extra) := by
    unfold parse_file
    rw [parse_file_loop_newline, ht, List.append_assoc]
  unfold parse_rules_file at h ⊢
  simp only [] at h ⊢
  by_cases hsize : (parse_file source).length < MINIMUM_FILE_LINES
  · rw [if_pos hsize] at h
    exact absurd (show (1 : Int) = 0 from h) (by decide)
  · rw [if_neg hsize] at h ⊢
    by_cases hdone : (parse_rules_file_loop (parse_file source) .READ_HEIGHT 0
          { rules with numberOfShips := 0, shipLengths := [] }).1 = .READ_DONE ∧
        (((parse_rules_file_loop (parse_file source) .READ_HEIGHT 0
          { rules with numberOfShips := 0, shipLengths := [] }).2.1 : Nat) : Int) ≥
        (parse_rules_file_loop (parse_file source) .READ_HEIGHT 0
          { rules with numberOfShips := 0, shipLengths := [] }).2.2.numberOfShips
    · have hsize2 : ¬ (parse_file (source ++ '\n' :: extra)).length < MINIMUM_FILE_LINES := by
        rw [hlines, List.length_append]
        omega
      rw [if_neg hsize2, hlines, parse_rules_file_loop_done_append _ _ _ _ _ hdone.1,
        if_pos hdone]
      refine ⟨rfl, ?_⟩
      rw [hdone.1] at hinv
      exact hinv.1.2.2.2.2.2.2.1
    · rw [if_neg hdone] at h
      exact absurd (show (1 : Int) = 0 from h) (by decide)

theorem parse_rules_file_stops_when_done_witness :
    (parse_rules_file emptyRules "3 3\n1\n2".toList).1 = 0 ∧
    parse_rules_file emptyRules ("3 3\n1\n2".toList ++ '\n' :: "5\nabc\n".toList) =
      parse_rules_file emptyRules "3 3\n1\n2".toList :=
  ⟨by decide,
   (parse_rules_file_stops_when_done emptyRules "3 3\n1\n2".toList "5\nabc\n".toList
      (by decide)).1⟩

/-! ### Starting a child process -/

/-- C21: `initialise_child_process` returns a value other than 0 in the parent
exactly when a pipe could not be made, `fork` failed or the `read` on the error
pipe failed.  A byte delivered by that `read` (the child could not `execl`)
gives 0, like a pipe closed by a successful `execl`: the round of such a child
is still valid after the first loop of `initialise_agents`, the RULES message is
sent to it, and the round is killed only when no MAP line can be read. -/
theorem exec_failure_is_reported_as_success :
    (∀ calls : SpawnCalls, initialise_child_process calls ≠ 0 ↔
      (calls.pipeFailed = true ∨ calls.pid = -1 ∨ calls.errorRead < 0)) ∧
    initialise_child_process exampleExecFailed = 0 ∧
    initialise_child_process exampleExecDone = 0 ∧
    (initialise_agents_spawn
      (initialise_child_process exampleExecFailed, initialise_child_process exampleExecDone)
      { player1 := exampleFreshAgent "", player2 := exampleFreshAgent "MAP A1,E\n",
        roundNumber := 0, gameOver := 0, validRound := 0 }).validRound = 1 ∧
    (initialise_agents_handshake exampleRules (generate_rules_message exampleRules)
      (initialise_agents_spawn
        (initialise_child_process exampleExecFailed, initialise_child_process exampleExecDone)
        { player1 := exampleFreshAgent "", player2 := exampleFreshAgent "MAP A1,E\n",
          roundNumber := 0, gameOver := 0, validRound := 0 })).player1.hubToAgent =
      ["RULES 3,3,1,2".toList] ∧
    (initialise_agents_handshake exampleRules (generate_rules_message exampleRules)
      (initialise_agents_spawn
        (initialise_child_process exampleExecFailed, initialise_child_process exampleExecDone)
        { player1 := exampleFreshAgent "", player2 := exampleFreshAgent "MAP A1,E\n",
          roundNumber := 0, gameOver := 0, validRound := 0 })).validRound = 0 := by
  refine ⟨?_, by decide, by decide, by decide, by decide, by decide⟩
  intro calls
  unfold initialise_child_process
  by_cases h1 : calls.pipeFailed = true
  · rw [if_pos h1]
    exact ⟨fun _ => Or.inl h1, fun _ => by decide⟩
  · rw [if_neg h1]
    by_cases h2 : calls.pid = -1
    · rw [if_pos h2]
      exact ⟨fun _ => Or.inr (Or.inl h2), fun _ => by decide⟩
    · rw [if_neg h2]
      by_cases h3 : calls.errorRead < 0
      · rw [if_pos h3]
        exact ⟨fun _ => Or.inr (Or.inr h3), fun _ => by decide⟩
      · rw [if_neg h3]
        constructor
        · intro h; exact absurd rfl h
        · intro h
          rcases h with h | h | h
          · exact absurd h h1
          · exact absurd h h2
          · exact absurd h h3

/-! ### The exit status after the agents were started -/

theorem hub_play_game_pass_allOver :
    ∀ (count i : Nat) (game next : FullGameState),
      hub_play_game_pass count i game = .allOver next → allGamesOver next = true := by
  intro count
  induction count with
  | zero => intro i game next h; simp [hub_play_game_pass] at h
  | succ n ih =>
    intro i game next h
    rw [hub_play_game_pass] at h
    cases hr : game.rounds[i]? with
    | none => rw [hr] at h; simp at h
    | some round =>
      rw [hr] at h
      simp only [] at h
      split at h
      · simp at h
      · split at h
        · rename_i hall
          simp only [PassResult.allOver.injEq] at h
          rw [← h]
          exact hall
        · exact ih _ _ _ h

theorem hub_play_game_allOver :
    ∀ (fuel : Nat) (game : FullGameState), (hub_play_game fuel game).1 = some 0 →
      allGamesOver (hub_play_game fuel game).2 = true := by
  intro fuel
  induction fuel with
  | zero => intro game h; simp [hub_play_game] at h
  | succ n ih =>
    intro game h
    rw [hub_play_game] at h ⊢
    cases hres : hub_play_game_pass game.rounds.length 0 game with
    | returned next => rw [hres] at h; simp at h
    | allOver next => exact hub_play_game_pass_allOver _ _ _ _ hres
    | finished next => rw [hres] at h; exact ih next h

/-- C22: `initialise_agents` ends the hub, with the status 4, exactly when no
round is valid after the spawning loop and the handshake loop; otherwise the
game goes on with the rounds as the two loops left them.  The hub then exits
with 0 exactly when `hub_play_game` returns 0, and every round is then invalid
or over; it exits with 5 exactly when `hub_play_game` returns 1.  In the
tournament `exampleGameConfigured` round 0 is made invalid at the start, round
1 is played to its end and the status is 0. -/
theorem agent_error_iff_no_valid_round (spawned : Nat → Int × Int) (fuel : Nat)
    (game : FullGameState) :
    (main_agents spawned fuel game = some 4 ↔
      ∀ round ∈ (initialise_agents_spawn_loop spawned 0 game.rounds).map
          (initialise_agents_handshake game.rules (generate_rules_message game.rules)),
        round.validRound = 0) ∧
    (initialise_agents spawned game =
        some { game with
          rounds := (initialise_agents_spawn_loop spawned 0 game.rounds).map
            (initialise_agents_handshake game.rules (generate_rules_message game.rules)) } ↔
      ∃ round ∈ (initialise_agents_spawn_loop spawned 0 game.rounds).map
          (initialise_agents_handshake game.rules (generate_rules_message game.rules)),
        round.validRound ≠ 0) ∧
    (main_agents spawned fuel game = some 0 ↔
      ∃ started, initialise_agents spawned game = some started ∧
        (hub_play_game fuel started).1 = some 0 ∧
        allGamesOver (hub_play_game fuel started).2 = true) ∧
    (main_agents spawned fuel game = some 5 ↔
      ∃ started, initialise_agents spawned game = some started ∧
        (hub_play_game fuel started).1 = some 1) ∧
    main_agents (fun i => if i = 0 then (1, 0) else (0, 0)) 3 exampleGameConfigured = some 0 ∧
    main_agents (fun _ => (1, 0)) 3 exampleGameConfigured = some 4 := by
  have hany : ((initialise_agents_spawn_loop spawned 0 game.rounds).map
        (initialise_agents_handshake game.rules (generate_rules_message game.rules))).any
        (fun round => decide (round.validRound ≠ 0)) = true ↔
      ∃ round ∈ (initialise_agents_spawn_loop spawned 0 game.rounds).map
          (initialise_agents_handshake game.rules (generate_rules_message game.rules)),
        round.validRound ≠ 0 := by
    rw [List.any_eq_true]
    constructor
    · rintro ⟨round, hm, hd⟩
      exact ⟨round, hm, by simpa using hd⟩
    · rintro ⟨round, hm, hd⟩
      exact ⟨round, hm, by simpa using hd⟩
  have hstatus : ∀ started : FullGameState,
      (main_game fuel started ≠ some 4) ∧
      (main_game fuel started = some 0 ↔ (hub_play_game fuel started).1 = some 0) ∧
      (main_game fuel started = some 5 ↔ (hub_play_game fuel started).1 = some 1) := by
    intro started
    unfold main_game
    rcases hub_play_game_status fuel started with h | h | h <;> rw [h] <;>
      simp [main_exit_status]
  refine ⟨?_, ?_, ?_, ?_, by decide, by decide⟩
  · unfold main_agents initialise_agents
    simp only []
    split
    · rename_i started heq
      split at heq
      · simp at heq
      · rename_i hno
        refine ⟨fun _ => ?_, fun _ => rfl⟩
        intro round hm
        by_contra hv
        exact hno (hany.mpr ⟨round, hm, hv⟩)
    · rename_i started heq
      split at heq
      · rename_i hyes
        obtain ⟨round, hm, hv⟩ := hany.mp hyes
        constructor
        · intro h; exact absurd h (hstatus started).1
        · intro h; exact absurd (h round hm) hv
      · simp at heq
  · unfold initialise_agents
    simp only []
    constructor
    · intro h
      split at h
      · rename_i hyes; exact hany.mp hyes
      · simp at h
    · intro h
      rw [if_pos (hany.mpr h)]
  · unfold main_agents
    cases hi : initialise_agents spawned game with
    | none =>
      simp only []
      constructor
      · intro h; exact absurd h (by decide)
      · rintro ⟨started, hs, _⟩; simp at hs
    | some started =>
      simp only []
      constructor
      · intro h
        have h0 := (hstatus started).2.1.mp h
        exact ⟨started, rfl, h0, hub_play_game_allOver fuel started h0⟩
      · rintro ⟨s, hs, h0, _⟩
        simp only [Option.some.injEq] at hs
        rw [← hs] at h0
        exact (hstatus started).2.1.mpr h0
  · unfold main_agents
    cases hi : initialise_agents spawned game with
    | none =>
      simp only []
      constructor
      · intro h; exact absurd h (by decide)
      · rintro ⟨started, hs, _⟩; simp at hs
    | some started =>
      simp only []
      constructor
      · intro h
        exact ⟨started, rfl, (hstatus started).2.2.mp h⟩
      · rintro ⟨s, hs, h1⟩
        simp only [Option.some.injEq] at hs
        rw [← hs] at h1
        exact (hstatus started).2.2.mpr h1

theorem agent_error_iff_no_valid_round_witness :
    main_agents (fun _ => (1, 0)) 3 exampleGameConfigured = some 4 ∧
    ∀ round ∈ (initialise_agents_spawn_loop (fun _ => (1, 0)) 0 exampleGameConfigured.rounds).map
        (initialise_agents_handshake exampleGameConfigured.rules
          (generate_rules_message exampleGameConfigured.rules)),
      round.validRound = 0 :=
  ⟨by decide,
   (agent_error_iff_no_valid_round (fun _ => (1, 0)) 3 exampleGameConfigured).1.mp (by decide)⟩

/-! ### The configuration file -/

theorem modifyHead_self (l : List CStr) : l.modifyHead (fun first => first) = l := by
  cases l <;> rfl

theorem split_string_loop_splitOn (line : CStr) :
    ∀ seg : CStr, split_string_loop ',' false line seg true =
      (line.splitOn ',').modifyHead (fun first => seg ++ first) := by
  induction line with
  | nil => intro seg; simp [split_string_loop, List.splitOn, List.splitOnP_nil]
  | cons c rest ih =>
    intro seg
    rw [List.splitOn, List.splitOnP_cons]
    by_cases hc : c = ','
    · rw [split_string_loop, if_pos ⟨hc, rfl⟩, if_pos (by simp [hc])]
      have := ih []
      simp only [Bool.not_false, List.nil_append] at this ⊢
      rw [this, modifyHead_self]
      simp [List.splitOn]
    · rw [split_string_loop, if_neg (fun h => hc h.1), if_pos hc, if_neg (by simp [hc]), ih]
      simp [List.splitOn, List.modifyHead_modifyHead, Function.comp_def]

/-- With `removeWhitespace` false, `split_string` cuts a line at every comma. -/
theorem split_string_splitOn (line : CStr) :
    split_string line ',' false = line.splitOn ',' := by
  unfold split_string
  rw [show (!false) = true from rfl, split_string_loop_splitOn]
  cases h : line.splitOn ',' with
  | nil => rfl
  | cons a l => simp

theorem splitOn_length (line : CStr) :
    (line.splitOn ',').length = line.count ',' + 1 := by
  induction line with
  | nil => simp [List.splitOn, List.splitOnP_nil]
  | cons c rest ih =>
    rw [List.splitOn, List.splitOnP_cons]
    by_cases hc : c = ','
    · rw [if_pos (by simp [hc]), List.length_cons, ← List.splitOn, ih, hc]
      simp
    · rw [if_neg (by simp [hc]), List.length_modifyHead, ← List.splitOn, ih,
        List.count_cons_of_ne (fun e => hc e.symm)]

theorem count_dropWhile_space (line : CStr) :
    (line.dropWhile isspace).count ',' = line.count ',' := by
  induction line with
  | nil => rfl
  | cons c rest ih =>
    rw [List.dropWhile_cons]
    by_cases hc : isspace c = true
    · rw [if_pos hc, ih, List.count_cons_of_ne]
      intro e
      rw [← e] at hc
      exact absurd hc (by decide)
    · rw [if_neg hc]

theorem count_strtrim (line : CStr) : (strtrim line).count ',' = line.count ',' := by
  unfold strtrim
  rw [count_dropWhile_space, List.count_reverse, count_dropWhile_space, List.count_reverse]

/-- A line skipped by the readers of the files is ignored in the words of the
specification. -/
theorem skipped_line_ignored (line : CStr)
    (h : is_comment (strtrim line) = true ∨ strtrim line = []) :
    ignored_line_spec line = true := by
  unfold ignored_line_spec
  cases hd : line.dropWhile isspace with
  | nil => rfl
  | cons c rest =>
    have hcs : isspace c = false := by
      have := List.head_dropWhile_not isspace line (by rw [hd]; simp)
      simpa [hd] using this
    have hsplit : line = line.takeWhile isspace ++ c :: rest := by
      rw [← hd, List.takeWhile_append_dropWhile]
    have hsp : ∀ x ∈ line.takeWhile isspace, isspace x = true :=
      fun x hx => List.mem_takeWhile_imp hx
    obtain ⟨w, hw⟩ := dropWhile_keeps isspace c hcs (line.takeWhile isspace).reverse
      rest.reverse
    have hr : line.rdropWhile isspace = line.takeWhile isspace ++ c :: w.reverse := by
      rw [List.rdropWhile]
      nth_rewrite 1 [hsplit]
      rw [List.reverse_append, List.reverse_cons, List.append_assoc, List.singleton_append, hw]
      simp
    have ht : strtrim line = c :: w.reverse := by
      rw [strtrim_eq, hr, dropWhile_space_prefix _ hsp, List.dropWhile_cons,
        if_neg (by rw [hcs]; decide)]
    rw [ht] at h
    rcases h with h | h
    · exact h
    · exact absurd h (by simp)

theorem parse_config_file_loop_skip (line : CStr) (rest : List CStr) (rounds : List RoundConfig)
    (h : ignored_line_spec line = true) :
    parse_config_file_loop (line :: rest) rounds = parse_config_file_loop rest rounds := by
  rcases ignored_line_skipped line h with hc | he
  · simp only [parse_config_file_loop, hc, if_true]
  · simp only [parse_config_file_loop, he, if_true, ite_self]

theorem parse_config_file_loop_read (line : CStr) (rest : List CStr) (rounds : List RoundConfig)
    (h : ignored_line_spec line = false) :
    parse_config_file_loop (line :: rest) rounds =
      if (line.splitOn ',').length ≠ 4 then (1, rounds)
      else parse_config_file_loop rest (rounds ++ [config_round_spec rounds.length line]) := by
  have hc : ¬ is_comment (strtrim line) = true := by
    intro e
    rw [skipped_line_ignored line (Or.inl e)] at h
    exact absurd h (by decide)
  have he : ¬ strtrim line = [] := by
    intro e
    rw [skipped_line_ignored line (Or.inr e)] at h
    exact absurd h (by decide)
  have hlen : ((split_string (strtrim line) ',' false).map strtrim).length =
      (line.splitOn ',').length := by
    rw [List.length_map, split_string_splitOn, splitOn_length, splitOn_length, count_strtrim]
  rw [split_string_splitOn] at hlen
  simp only [parse_config_file_loop, hc, he, Bool.false_eq_true, if_false,
    CONFIG_FILE_FIELD_NUMBER, split_string_splitOn, config_round_spec]
  rw [hlen]

theorem parse_config_file_loop_spec :
    ∀ (lines : List CStr) (rounds : List RoundConfig),
      ((parse_config_file_loop lines rounds).1 = 0 ↔
        ∀ line ∈ lines, ignored_line_spec line = false → (line.splitOn ',').length = 4) ∧
      ((parse_config_file_loop lines rounds).1 = 0 →
        (parse_config_file_loop lines rounds).2 =
          rounds ++ config_rounds_spec rounds.length
            (lines.filter (fun line => !ignored_line_spec line))) := by
  intro lines
  induction lines with
  | nil =>
    intro rounds
    exact ⟨⟨fun _ line hm => by simp at hm, fun _ => rfl⟩,
      fun _ => by simp [parse_config_file_loop, config_rounds_spec]⟩
  | cons line rest ih =>
    intro rounds
    cases hi : ignored_line_spec line with
    | true =>
      rw [parse_config_file_loop_skip line rest rounds hi,
        List.filter_cons_of_neg (by simp [hi])]
      obtain ⟨h1, h2⟩ := ih rounds
      refine ⟨?_, h2⟩
      rw [h1]
      constructor
      · intro h x hx hxi
        rcases List.mem_cons.mp hx with e | hm
        · rw [e, hi] at hxi; exact absurd hxi (by decide)
        · exact h x hm hxi
      · intro h x hx hxi
        exact h x (List.mem_cons_of_mem _ hx) hxi
    | false =>
      rw [parse_config_file_loop_read line rest rounds hi,
        List.filter_cons_of_pos (by simp [hi])]
      by_cases hf : (line.splitOn ',').length = 4
      · rw [if_neg (by simpa using hf)]
        obtain ⟨h1, h2⟩ := ih (rounds ++ [config_round_spec rounds.length line])
        constructor
        · rw [h1]
          constructor
          · intro h x hx hxi
            rcases List.mem_cons.mp hx with e | hm
            · rw [e]; exact hf
            · exact h x hm hxi
          · intro h x hx hxi
            exact h x (List.mem_cons_of_mem _ hx) hxi
        · intro h0
          rw [h2 h0, List.length_append, List.length_singleton, List.append_assoc]
          rfl
      · rw [if_pos hf]
        constructor
        · constructor
          · intro h; exact absurd (show (1 : Int) = 0 from h) (by decide)
          · intro h; exact absurd (h line (List.mem_cons_self _ _) hi) hf
        · intro h; exact absurd (show (1 : Int) = 0 from h) (by decide)

/-- C25: for a configuration source of at least one line, `parse_config_file`
returns 0 exactly when every line that is neither blank nor a comment is cut by
its commas into four fields; it then leaves one round for each such line, in
the order of the file and numbered from 0, with the trimmed fields as the
program and the map file of player 1 and the program and the map file of
player 2. -/
theorem parse_config_file_rounds (configFile : List Char)
    (h : 1 ≤ (parse_file configFile).length) :
    ((parse_config_file configFile).1 = 0 ↔
      ∀ line ∈ parse_file configFile, ignored_line_spec line = false →
        (line.splitOn ',').length = 4) ∧
    ((parse_config_file configFile).1 = 0 →
      (parse_config_file configFile).2 =
        config_rounds_spec 0
          ((parse_file configFile).filter (fun line => !ignored_line_spec line))) := by
  unfold parse_config_file
  simp only []
  rw [if_neg (by simp only [MINIMUM_FILE_LINES]; omega)]
  obtain ⟨h1, h2⟩ := parse_config_file_loop_spec (parse_file configFile) []
  exact ⟨h1, fun h0 => by rw [h2 h0]; rfl⟩

theorem parse_config_file_rounds_witness :
    (parse_config_file "# rounds\n./a, map1 ,./b,map2\n\n  ./c,map3,./d,map4".toList).1 = 0 ∧
    (parse_config_file "# rounds\n./a, map1 ,./b,map2\n\n  ./c,map3,./d,map4".toList).2 =
      [{ player1ExecFilePath := "./a".toList, player1MapFilePath := "map1".toList,
         player2ExecFilePath := "./b".toList, player2MapFilePath := "map2".toList,
         roundNumber := 0 },
       { player1ExecFilePath := "./c".toList, player1MapFilePath := "map3".toList,
         player2ExecFilePath := "./d".toList, player2MapFilePath := "map4".toList,
         roundNumber := 1 }] ∧
    (parse_config_file "./a,map1,./b\n".toList).1 = 1 ∧
    (parse_config_file "".toList).1 = 1 :=
  ⟨(parse_config_file_rounds "# rounds\n./a, map1 ,./b,map2\n\n  ./c,map3,./d,map4".toList
      (by decide)).1.mpr (by decide),
   by decide, by decide, by decide⟩

/-! ### The arguments of an agent -/

theorem validate_seed_fmtInt (k : Int) (h0 : 1 ≤ k) (h1 : k ≤ 2147483647) :
    validate_seed (fmtInt k) = k := by
  obtain ⟨_, hall, hs, hl⟩ := fmtInt_token k (by omega) h1
  unfold validate_seed
  simp only []
  rw [strtrim_digits _ hall, hs]
  simp only []
  rw [hl, if_neg]
  simp only [MINIMUM_AGENT_SEED, ne_eq, not_true_eq_false, or_false, not_lt]
  exact h0

theorem validate_player_id_fmtInt (k : Int) (h : k = 1 ∨ k = 2) :
    validate_player_id (fmtInt k) = k := by
  rcases h with h | h <;> rw [h] <;> decide

theorem fmtInt_injective (a b : Int) (ha : 0 ≤ a) (ha1 : a ≤ 2147483647) (hb : 0 ≤ b)
    (hb1 : b ≤ 2147483647) (h : fmtInt a = fmtInt b) : a = b := by
  obtain ⟨_, _, hsa, _⟩ := fmtInt_token a ha ha1
  obtain ⟨_, _, hsb, _⟩ := fmtInt_token b hb hb1
  rw [h, hsb] at hsa
  exact (Prod.mk.inj hsa).1.symm

/-- C26: for a round number from 0 on and an agent id 1 or 2, where the seed,
twice the round number plus the id, is in the range of `int` (so that the
expression of the source has a value in C), the hub passes the decimal texts of
the id and of that seed; the seed is at least 1; `validate_player_id` and
`validate_seed` give back the id and the seed; and two agents that are passed
the same seed have the same round number and id. -/
theorem agent_arguments_round_trip (agent : Agent) (roundNumber : Int)
    (hid : agent.agentState.agentId = 1 ∨ agent.agentState.agentId = 2)
    (hr : 0 ≤ roundNumber)
    (hfit : 2 * roundNumber + agent.agentState.agentId ≤ 2147483647) :
    initialise_agent_parameters agent roundNumber =
      (fmtInt agent.agentState.agentId, fmtInt (2 * roundNumber + agent.agentState.agentId)) ∧
    1 ≤ 2 * roundNumber + agent.agentState.agentId ∧
    validate_player_id (initialise_agent_parameters agent roundNumber).1 =
      agent.agentState.agentId ∧
    validate_seed (initialise_agent_parameters agent roundNumber).2 =
      2 * roundNumber + agent.agentState.agentId ∧
    ∀ (other : Agent) (otherRound : Int),
      (other.agentState.agentId = 1 ∨ other.agentState.agentId = 2) → 0 ≤ otherRound →
      2 * otherRound + other.agentState.agentId ≤ 2147483647 →
      (initialise_agent_parameters other otherRound).2 =
        (initialise_agent_parameters agent roundNumber).2 →
      otherRound = roundNumber ∧ other.agentState.agentId = agent.agentState.agentId := by
  have hpos : 1 ≤ 2 * roundNumber + agent.agentState.agentId := by omega
  have hparams : ∀ (a : Agent) (r : Int), (a.agentState.agentId = 1 ∨ a.agentState.agentId = 2) →
      0 ≤ r → 2 * r + a.agentState.agentId ≤ 2147483647 →
      initialise_agent_parameters a r =
        (fmtInt a.agentState.agentId, fmtInt (2 * r + a.agentState.agentId)) := by
    intro a r ha h0 h1
    unfold initialise_agent_parameters
    simp only [SEED_ROUND_MULTIPLIER]
    rw [(fmtInt_token (2 * r + a.agentState.agentId) (by omega) h1).2.2.2]
  rw [hparams agent roundNumber hid hr hfit]
  refine ⟨rfl, hpos, validate_player_id_fmtInt _ hid, validate_seed_fmtInt _ hpos hfit, ?_⟩
  intro other otherRound hoid hor hofit heq
  rw [hparams other otherRound hoid hor hofit] at heq
  have := fmtInt_injective _ _ (by omega) hofit (by omega) hfit heq
  omega

theorem agent_arguments_round_trip_witness :
    initialise_agent_parameters (exampleAgent 2 "") 3 = ("2".toList, "8".toList) ∧
    validate_player_id "2".toList = 2 ∧ validate_seed "8".toList = 8 :=
  ⟨(agent_arguments_round_trip (exampleAgent 2 "") 3 (Or.inr rfl) (by decide) (by decide)).1,
   by decide, by decide⟩

/-! ### The hang-up signal -/

theorem kill_foldl (killed : List Int) :
    ∀ children : List Child, killed.foldl kill children =
      children.map (fun child =>
        if child.pid ∈ killed then { child with running := false } else child) := by
  induction killed with
  | nil => intro children; simp
  | cons pid rest ih =>
    intro children
    rw [List.foldl_cons, ih, kill, List.map_map]
    apply List.map_congr_left
    intro child _
    by_cases h1 : child.pid = pid
    · simp [h1]
    · by_cases h2 : child.pid ∈ rest
      · simp [h1, h2]
      · simp [h1, h2]

theorem wait_loop_ended :
    ∀ (children : List Child) (fuel : Nat), children.length < fuel →
      (∀ child ∈ children, child.running = false ∧ 0 < child.pid) →
      wait_loop fuel children = (true, []) := by
  intro children
  induction children with
  | nil =>
    intro fuel hf _
    obtain ⟨k, rfl⟩ : ∃ k, fuel = k + 1 := ⟨fuel - 1, by omega⟩
    rfl
  | cons child rest ih =>
    intro fuel hf hall
    obtain ⟨k, rfl⟩ : ∃ k, fuel = k + 1 := ⟨fuel - 1, by omega⟩
    obtain ⟨hrun, hpid⟩ := hall child (List.mem_cons_self _ _)
    have hw : wait (child :: rest) = some (child.pid, rest) := by
      simp [wait, reap, hrun]
    rw [wait_loop, hw]
    simp only []
    rw [if_pos (by omega)]
    exact ih k (by simp only [List.length_cons] at hf; omega)
      (fun c hc => hall c (List.mem_cons_of_mem _ hc))

theorem reap_length :
    ∀ (children rest : List Child) (pid : Int), reap children = some (pid, rest) →
      rest.length + 1 = children.length := by
  intro children
  induction children with
  | nil => intro rest pid h; simp [reap] at h
  | cons child cs ih =>
    intro rest pid h
    rw [reap] at h
    by_cases hrun : child.running = true
    · rw [if_pos hrun] at h
      cases hr : reap cs with
      | none => rw [hr] at h; simp at h
      | some r =>
        rw [hr] at h
        simp only [Option.map_some', Option.some.injEq, Prod.mk.injEq] at h
        have := ih r.2 r.1 (by rw [hr])
        rw [← h.2]
        simp only [List.length_cons]
        omega
    · rw [if_neg hrun] at h
      simp only [Option.some.injEq, Prod.mk.injEq] at h
      rw [h.2]
      rfl

/-- More fuel than children changes nothing: the fuel of `signal_handler` is
never used up. -/
theorem wait_loop_fuel :
    ∀ (n : Nat) (children : List Child) (fuel1 fuel2 : Nat), children.length = n →
      n < fuel1 → n < fuel2 → wait_loop fuel1 children = wait_loop fuel2 children := by
  intro n
  induction n with
  | zero =>
    intro children fuel1 fuel2 hl h1 h2
    obtain ⟨k1, rfl⟩ : ∃ k, fuel1 = k + 1 := ⟨fuel1 - 1, by omega⟩
    obtain ⟨k2, rfl⟩ : ∃ k, fuel2 = k + 1 := ⟨fuel2 - 1, by omega⟩
    rw [List.length_eq_zero.mp hl]
    rfl
  | succ m ih =>
    intro children fuel1 fuel2 hl h1 h2
    obtain ⟨k1, rfl⟩ : ∃ k, fuel1 = k + 1 := ⟨fuel1 - 1, by omega⟩
    obtain ⟨k2, rfl⟩ : ∃ k, fuel2 = k + 1 := ⟨fuel2 - 1, by omega⟩
    cases children with
    | nil => simp at hl
    | cons child cs =>
      rw [wait_loop, wait_loop]
      cases hw : wait (child :: cs) with
      | none => rfl
      | some r =>
        simp only []
        by_cases hres : r.1 ≥ 0
        · rw [if_pos hres, if_pos hres]
          have hlen := reap_length (child :: cs) r.2 r.1 hw
          exact ih r.2 k1 k2 (by rw [← hlen] at hl; omega) (by omega) (by omega)
        · rw [if_neg hres, if_neg hres]


/-- On SIGHUP in a tournament with one valid round the handler ends the hub
with nothing written to the two agents, where `handle_early_exit` would have
sent EARLY to both. -/
theorem hang_up_sends_no_EARLY :
    exampleGameTwoGuesses.rounds.map (fun round => round.validRound) = [1] ∧
    (signal_handler SIGHUP examplePids exampleChildren exampleGameTwoGuesses).map
        (fun r => (r.exitStatus, r.game.rounds.map
          (fun round => (round.player1.hubToAgent, round.player2.hubToAgent)))) =
      some (some 6, [([], [])]) ∧
    (handle_early_exit exampleGameTwoGuesses).rounds.map
        (fun round => (round.player1.hubToAgent, round.player2.hubToAgent)) =
      [(["EARLY".toList], ["EARLY".toList])] := by
  decide

/-- C29 (amended): once both agents of every round have been started, so that
the pid fields hold pids of children of the hub and every child of the hub is
an agent of a round, the handler on SIGHUP sends signal 9 to the pids of both
agents of every round, valid or not, in the order of the rounds; all children
have then ended, the loop of `wait` ends with no child left, and the hub ends
with the status 6.  The game is as it was: nothing is written to any agent, so
that no EARLY is sent.  On SIGPIPE the handler returns and the hub goes on. -/
theorem signal_handler_kills_and_exits (game : FullGameState) (pids : Nat → Int × Int)
    (children : List Child)
    (hchildren : ∀ child ∈ children, 0 < child.pid ∧
      ∃ i, i < game.rounds.length ∧ (child.pid = (pids i).1 ∨ child.pid = (pids i).2))
    (hpids : ∀ i, i < game.rounds.length →
      (∃ child ∈ children, child.pid = (pids i).1) ∧
      (∃ child ∈ children, child.pid = (pids i).2)) :
    (∃ r : HangUp, signal_handler SIGHUP pids children game = some r ∧
      r.exitStatus = some 6 ∧ r.children = [] ∧ r.game = game ∧
      r.killed = (List.range game.rounds.length).flatMap (fun i => [(pids i).1, (pids i).2]) ∧
      (∀ pid ∈ r.killed, ∃ child ∈ children, child.pid = pid) ∧
      (∀ child ∈ r.killed.foldl kill children, child.running = false) ∧
      wait_loop ((r.killed.foldl kill children).length + 1) (r.killed.foldl kill children) =
        (true, [])) ∧
    signal_handler SIGPIPE pids children game = none := by
  have hmem : ∀ child ∈ children, child.pid ∈
      (List.range game.rounds.length).flatMap (fun i => [(pids i).1, (pids i).2]) := by
    intro child hc
    obtain ⟨_, i, hi, hp⟩ := hchildren child hc
    rw [List.mem_flatMap]
    refine ⟨i, List.mem_range.mpr hi, ?_⟩
    rcases hp with h | h <;> simp [h]
  have hended : ∀ child ∈
      ((List.range game.rounds.length).flatMap (fun i => [(pids i).1, (pids i).2])).foldl
        kill children, child.running = false ∧ 0 < child.pid := by
    intro child hc
    rw [kill_foldl, List.mem_map] at hc
    obtain ⟨c, hcmem, rfl⟩ := hc
    rw [if_pos (hmem c hcmem)]
    exact ⟨rfl, (hchildren c hcmem).1⟩
  have hloop := wait_loop_ended _ _ (Nat.lt_succ_self _) hended
  refine ⟨⟨HangUp.mk
      ((List.range game.rounds.length).flatMap (fun i => [(pids i).1, (pids i).2]))
      [] game (some 6),
    ?_, rfl, rfl, rfl, rfl, ?_, fun child hc => (hended child hc).1, hloop⟩, rfl⟩
  · show (if SIGHUP = SIGPIPE then none else if SIGHUP = SIGHUP then _ else none) = _
    rw [if_neg (by decide), if_pos rfl]
    simp only []
    rw [hloop]
    rfl
  · intro pid hpid
    rw [List.mem_flatMap] at hpid
    obtain ⟨i, hi, hp⟩ := hpid
    obtain ⟨h1, h2⟩ := hpids i (List.mem_range.mp hi)
    rcases List.mem_cons.mp hp with e | hp'
    · rw [e]; exact h1
    · rw [List.mem_singleton.mp hp']; exact h2

theorem signal_handler_kills_and_exits_witness :
    (∃ r : HangUp,
      signal_handler SIGHUP examplePids exampleChildrenTwoRounds exampleGameConfigured = some r ∧
      r.exitStatus = some 6 ∧ r.children = [] ∧ r.game = exampleGameConfigured ∧
      r.killed = (List.range exampleGameConfigured.rounds.length).flatMap
        (fun i => [(examplePids i).1, (examplePids i).2]) ∧
      (∀ pid ∈ r.killed, ∃ child ∈ exampleChildrenTwoRounds, child.pid = pid) ∧
      (∀ child ∈ r.killed.foldl kill exampleChildrenTwoRounds, child.running = false) ∧
      wait_loop ((r.killed.foldl kill exampleChildrenTwoRounds).length + 1)
        (r.killed.foldl kill exampleChildrenTwoRounds) = (true, [])) ∧
    (signal_handler SIGHUP examplePids exampleChildrenTwoRounds exampleGameConfigured).map
      (fun r => r.killed) = some [100, 101, 102, 103] :=
  ⟨(signal_handler_kills_and_exits exampleGameConfigured examplePids exampleChildrenTwoRounds
      (by decide) (by decide)).1, by decide⟩

/-- A child of the hub that runs and is no agent of a round is not sent the
signal: the handler stays in `wait` and the hub does not end.  With no round and
no child the hub ends at once. -/
theorem signal_handler_waits_for_running_child :
    (signal_handler SIGHUP examplePids
        (exampleChildren ++ [{ pid := 200, running := true }]) exampleGameTwoGuesses).map
      (fun r => (r.killed, r.children, r.exitStatus)) =
      some ([100, 101], [{ pid := 200, running := true }], none) ∧
    (signal_handler SIGHUP examplePids [] { exampleGameTwoGuesses with rounds := [] }).map
      (fun r => (r.killed, r.children, r.exitStatus)) = some ([], [], some 6) := by
  decide

/-! ### The lines an agent accepts -/

theorem check_message_prefix_ne_zero (message pre : CStr) :
    check_message_prefix message pre ≠ 0 ↔ pre.isPrefixOf message = true := by
  unfold check_message_prefix
  by_cases h : pre.isPrefixOf message = true
  · rw [if_pos h]
    exact ⟨fun _ => h, fun _ => by decide⟩
  · rw [if_neg h]
    exact ⟨fun e => absurd rfl e, fun e => absurd e h⟩

theorem check_message_YT (line : CStr) :
    check_message line = .YT ↔ "YT".toList.isPrefixOf line = true := by
  unfold check_message
  simp only [check_message_prefix_ne_zero]
  by_cases h : "YT".toList.isPrefixOf line = true
  · rw [if_pos h]
    exact ⟨fun _ => h, fun _ => rfl⟩
  · rw [if_neg h]
    constructor
    · intro e
      split_ifs at e
    · intro e
      exact absurd e h

theorem play_game_step_guessed (game : AgentState) (line : CStr) :
    (play_game_step game line).guessed = true ↔ check_message line = .YT := by
  unfold play_game_step
  cases check_message line <;> simp only [] <;> split <;>
    simp only [Bool.false_eq_true, reduceCtorEq]

/-- C24: a line that starts with `YT` is taken as YT whatever follows: the agent
makes a guess and no communications error results, where a line that goes on
after `OK` or `EARLY` is refused; a guess is made for the lines that start with
`YT` and for no other line.  On the stream `YTX`, `DONE 1` the loop of
`play_game` makes one guess and returns 0. -/
theorem line_starting_with_YT_is_answered (game : AgentState) (rest : CStr) :
    check_message ("YT".toList ++ rest) = .YT ∧
    (∀ line : CStr, (play_game_step game line).guessed = true ↔
      "YT".toList.isPrefixOf line = true) ∧
    play_game_step game ("YT".toList ++ rest) =
      { result := 0, gameOver := 0, guessed := true, game := game } ∧
    play_game_step exampleAgentState "YTX".toList =
      { result := 0, gameOver := 0, guessed := true, game := exampleAgentState } ∧
    play_game_step exampleAgentState "OKX".toList =
      { result := 1, gameOver := 1, guessed := false, game := exampleAgentState } ∧
    play_game_step exampleAgentState "EARLYX".toList =
      { result := 1, gameOver := 1, guessed := false, game := exampleAgentState } ∧
    play_game_step exampleAgentState "YT".toList =
      { result := 0, gameOver := 0, guessed := true, game := exampleAgentState } ∧
    play_game_loop 3 exampleAgentState "YTX\nDONE 1\n".toList 0 =
      some (0, exampleAgentState, 1) := by
  have hc : check_message ("YT".toList ++ rest) = .YT := by
    simp [check_message, check_message_prefix]
  refine ⟨hc, fun line => (play_game_step_guessed game line).trans (check_message_YT line),
    ?_, by decide, by decide, by decide, by decide, by decide⟩
  unfold play_game_step
  rw [hc]
  rfl

/-! ### Two accepted guesses at one cell -/

/-- C32: after the accepted guess `A1` the guess `A01` is accepted from the same
agent, although `parse_coordinates` gives both the cell of column 0 and row 0;
and on the board of one cell two turns of one agent accept `A01` and `A001`, so
that its history holds two guesses, both at the only cell. -/
theorem same_cell_is_accepted_twice :
    validate_guess_message "GUESS A01".toList = some "A01".toList ∧
    validate_coordinate exampleRules (exampleAgentGuessed 1 ["A1".toList] "") "A01".toList = 0 ∧
    parse_coordinates "A01".toList = parse_coordinates "A1".toList ∧
    (handle_agent_turn exampleRules (exampleAgentGuessed 1 ["A1".toList] "GUESS A01\n")
        (exampleAgent 2 "")).1 = 0 ∧
    (handle_agent_turn exampleRules (exampleAgentGuessed 1 ["A1".toList] "GUESS A01\n")
        (exampleAgent 2 "")).2.1.agentState.agentGuesses = ["A1".toList, "A01".toList] ∧
    exampleRulesCell.width * exampleRulesCell.height = 1 ∧
    (handle_agent_turn exampleRulesCell
        (handle_agent_turn exampleRulesCell (exampleAgentCell 1 "GUESS A01\nGUESS A001\n")
          (exampleAgentCell 2 "")).2.1
        (handle_agent_turn exampleRulesCell (exampleAgentCell 1 "GUESS A01\nGUESS A001\n")
          (exampleAgentCell 2 "")).2.2).1 = 0 ∧
    (handle_agent_turn exampleRulesCell
        (handle_agent_turn exampleRulesCell (exampleAgentCell 1 "GUESS A01\nGUESS A001\n")
          (exampleAgentCell 2 "")).2.1
        (handle_agent_turn exampleRulesCell (exampleAgentCell 1 "GUESS A01\nGUESS A001\n")
          (exampleAgentCell 2 "")).2.2).2.1.agentState.agentGuesses =
      ["A01".toList, "A001".toList] ∧
    ["A01".toList, "A001".toList].map parse_coordinates = [(0, 0), (0, 0)] := by
  decide

/-! ### A broadcast line for a cell off the board -/

/-- C36: on the 3 x 3 board the agent accepts the line `SUNK 1,Z9`, the cell of
which is column 25, row 8; `validate_broadcast_message` returns 0 for it, and so
does the step of `play_game`.  The same holds for `HIT 2,z26`. -/
theorem broadcast_line_off_the_board_is_accepted :
    exampleRules.width = 3 ∧ exampleRules.height = 3 ∧
    check_message "SUNK 1,Z9".toList = .SUNK ∧
    (validate_broadcast_message exampleAgentState "SUNK 1,Z9".toList .SUNK).1 = 0 ∧
    (play_game_step exampleAgentState "SUNK 1,Z9".toList).result = 0 ∧
    parse_coordinates "Z9".toList = (25, 8) ∧
    check_coordinate_bounds "Z9".toList exampleRules = 1 ∧
    (validate_broadcast_message exampleAgentState "HIT 2,z26".toList .HIT).1 = 0 ∧
    parse_coordinates "z26".toList = (57, 25) ∧
    check_coordinate_bounds "z26".toList exampleRules = 1 := by
  decide

/-! ### Trimming -/

theorem rdropWhile_rtakeWhile (s : CStr) :
    s.rdropWhile isspace ++ s.rtakeWhile isspace = s := by
  rw [List.rdropWhile, List.rtakeWhile, ← List.reverse_append,
    List.takeWhile_append_dropWhile, List.reverse_reverse]

/-- C38: `strtrim` leaves the string between a leading and a trailing run of
white space: the string is the run, the result and the run; the result neither
starts nor ends with white space, so that both runs are maximal and the
characters between them are kept as they are; a string of white space only
gives the empty string; and trimming the result again changes nothing. -/
theorem strtrim_removes_surrounding_white_space (s : CStr) :
    (∃ lead trail : CStr, s = lead ++ strtrim s ++ trail ∧
      (∀ c ∈ lead, isspace c = true) ∧ (∀ c ∈ trail, isspace c = true)) ∧
    (∀ c, (strtrim s).head? = some c → isspace c = false) ∧
    (∀ c, (strtrim s).getLast? = some c → isspace c = false) ∧
    ((∀ c ∈ s, isspace c = true) → strtrim s = []) ∧
    strtrim (strtrim s) = strtrim s := by
  refine ⟨⟨(s.rdropWhile isspace).takeWhile isspace, s.rtakeWhile isspace, ?_, ?_, ?_⟩,
    ?_, ?_, ?_, strtrim_idem s⟩
  · rw [strtrim_eq, List.takeWhile_append_dropWhile, rdropWhile_rtakeWhile]
  · intro c hc
    exact List.mem_takeWhile_imp hc
  · intro c hc
    exact List.mem_rtakeWhile_imp hc
  · intro c hc
    rw [strtrim_eq] at hc
    cases hd : (s.rdropWhile isspace).dropWhile isspace with
    | nil => rw [hd] at hc; simp at hc
    | cons a rest =>
      have hne : (s.rdropWhile isspace).dropWhile isspace ≠ [] := by rw [hd]; simp
      have := List.head_dropWhile_not isspace (s.rdropWhile isspace) hne
      rw [hd] at hc
      simp only [List.head?_cons, Option.some.injEq] at hc
      simp only [hd, List.head_cons] at this
      rw [← hc]
      exact this
  · intro c hc
    by_cases hne : strtrim s = []
    · rw [hne] at hc; simp at hc
    · have hsuf : strtrim s <:+ s.rdropWhile isspace := by
        rw [strtrim_eq]; exact List.dropWhile_suffix _
      have hr : s.rdropWhile isspace ≠ [] := by
        intro e
        rw [e] at hsuf
        exact hne (List.suffix_nil.mp hsuf)
      have hlast := hsuf.getLast hne
      rw [List.getLast?_eq_getLast _ hne, Option.some.injEq] at hc
      have hnot := List.rdropWhile_last_not (p := isspace) (l := s) hr
      rw [← hc, hlast]
      simpa using hnot
  · intro hall
    rw [strtrim_eq, List.dropWhile_eq_nil_iff]
    intro c hc
    exact hall c ((List.rdropWhile_prefix isspace s).subset hc)

theorem strtrim_removes_surrounding_white_space_witness :
    strtrim " \t A 1 \r\n".toList = "A 1".toList ∧
    strtrim " \t\n".toList = [] ∧
    (∀ c, (strtrim " \t A 1 \r\n".toList).head? = some c → isspace c = false) :=
  ⟨by decide, by decide,
   (strtrim_removes_surrounding_white_space " \t A 1 \r\n".toList).2.1⟩

/-! ### Splitting at a delimiter -/

theorem split_string_loop_cut (delimiter : Char) (line : CStr) :
    ∀ seg : CStr, split_string_loop delimiter false line seg true =
      (line.splitOn delimiter).modifyHead (fun first => seg ++ first) := by
  induction line with
  | nil => intro seg; simp [split_string_loop, List.splitOn, List.splitOnP_nil]
  | cons c rest ih =>
    intro seg
    rw [List.splitOn, List.splitOnP_cons]
    by_cases hc : c = delimiter
    · rw [split_string_loop, if_pos ⟨hc, rfl⟩, if_pos (by simp [hc])]
      have := ih []
      simp only [Bool.not_false, List.nil_append] at this ⊢
      rw [this, modifyHead_self]
      simp [List.splitOn]
    · rw [split_string_loop, if_neg (fun h => hc h.1), if_pos hc, if_neg (by simp [hc]), ih]
      simp [List.splitOn, List.modifyHead_modifyHead, Function.comp_def]

/-- With `removeWhitespace` false, `split_string` cuts a line at every
occurrence of the delimiter. -/
theorem split_string_cut (line : CStr) (delimiter : Char) :
    split_string line delimiter false = line.splitOn delimiter := by
  unfold split_string
  rw [show (!false) = true from rfl, split_string_loop_cut]
  cases h : line.splitOn delimiter with
  | nil => rfl
  | cons a l => simp

theorem splitOn_count (delimiter : Char) (line : CStr) :
    (line.splitOn delimiter).length = line.count delimiter + 1 ∧
    ∀ segment ∈ line.splitOn delimiter, delimiter ∉ segment := by
  induction line with
  | nil => simp [List.splitOn, List.splitOnP_nil]
  | cons c rest ih =>
    obtain ⟨ih1, ih2⟩ := ih
    rw [List.splitOn, List.splitOnP_cons]
    by_cases hc : c = delimiter
    · rw [if_pos (by simp [hc]), ← List.splitOn]
      refine ⟨by rw [List.length_cons, ih1, hc]; simp, ?_⟩
      intro segment hs
      rcases List.mem_cons.mp hs with e | hm
      · rw [e]; simp
      · exact ih2 segment hm
    · rw [if_neg (by simp [hc]), ← List.splitOn]
      refine ⟨by rw [List.length_modifyHead, ih1,
        List.count_cons_of_ne (fun e => hc e.symm)], ?_⟩
      intro segment hs
      cases hsplit : rest.splitOn delimiter with
      | nil => rw [hsplit] at hs; simp at hs
      | cons first more =>
        rw [hsplit] at hs ih2
        simp only [List.modifyHead_cons, List.mem_cons] at hs
        rcases hs with e | hm
        · rw [e]
          intro hd
          rcases List.mem_cons.mp hd with e2 | hm2
          · exact hc e2.symm
          · exact ih2 first (by simp) hm2
        · exact ih2 segment (by simp [hm])

/-- C39: with `removeWhitespace` false, `split_string` gives one segment more
than the delimiter occurs in the line, no segment holds the delimiter, and the
segments joined with the delimiter are the line. -/
theorem split_string_segments (line : CStr) (delimiter : Char) :
    (split_string line delimiter false).length = line.count delimiter + 1 ∧
    (∀ segment ∈ split_string line delimiter false, delimiter ∉ segment) ∧
    [delimiter].intercalate (split_string line delimiter false) = line := by
  rw [split_string_cut]
  exact ⟨(splitOn_count delimiter line).1, (splitOn_count delimiter line).2,
    List.intercalate_splitOn line delimiter⟩

theorem split_string_segments_witness :
    split_string ":A1,N::B2,E:".toList ':' false =
      ["".toList, "A1,N".toList, "".toList, "B2,E".toList, "".toList] ∧
    (∀ segment ∈ split_string ":A1,N::B2,E:".toList ':' false, ':' ∉ segment) :=
  ⟨by decide, (split_string_segments ":A1,N::B2,E:".toList ':').2.1⟩

/-! ### The result line of a guess -/

/-- C31: for a guess accepted by `validate_coordinate` in a state reachable
from a map accepted by `parse_map_message`, `handle_valid_guess` appends one
line to what was sent to the guessing agent and the same line to what was sent
to the opponent: `HIT`, `MISS` or `SUNK`, a blank, the id of the guessing agent,
a comma and the guessed coordinate. -/
theorem one_result_line_for_both_agents (rules : Rules) (hv : rules.valid)
    (agent opponent : Agent) (sunk : Nat) (coordinates : CStr)
    (hreach : Reachable rules agent.agentState.agentGuesses opponent.agentState.agentMap sunk)
    (hacc : validate_coordinate rules agent coordinates = 0) :
    ∃ word : CStr, (word = "HIT".toList ∨ word = "MISS".toList ∨ word = "SUNK".toList) ∧
      (handle_valid_guess coordinates rules agent opponent).1.hubToAgent =
        agent.hubToAgent ++
          [word ++ ' ' :: (fmtInt agent.agentState.agentId ++ ',' :: coordinates)] ∧
      (handle_valid_guess coordinates rules agent opponent).2.hubToAgent =
        opponent.hubToAgent ++
          [word ++ ' ' :: (fmtInt agent.agentState.agentId ++ ',' :: coordinates)] := by
  obtain ⟨hinv, _⟩ := reachable_inv rules hv _ _ _ hreach
  obtain ⟨_, hnew⟩ := validate_coordinate_zero rules agent coordinates hacc
  obtain ⟨_, hstep⟩ := handle_valid_guess_step rules agent opponent coordinates hinv hnew
  rcases hstep with ⟨_, _, h1, h2⟩ | ⟨k, target, _, _, _, _, h1, h2⟩
  · exact ⟨"MISS".toList, Or.inr (Or.inl rfl), h1, h2⟩
  · by_cases ht : target.hits = 1
    · rw [if_pos ht] at h1 h2
      exact ⟨"SUNK".toList, Or.inr (Or.inr rfl), h1, h2⟩
    · rw [if_neg ht] at h1 h2
      exact ⟨"HIT".toList, Or.inl rfl, h1, h2⟩

theorem one_result_line_for_both_agents_witness :
    validate_coordinate exampleRules (exampleAgent 2 "") "B1".toList = 0 ∧
    (handle_valid_guess "B1".toList exampleRules (exampleAgent 2 "")
        (exampleAgent 1 "")).1.hubToAgent = ["HIT 2,B1".toList] ∧
    ∃ word : CStr, (word = "HIT".toList ∨ word = "MISS".toList ∨ word = "SUNK".toList) ∧
      (handle_valid_guess "B1".toList exampleRules (exampleAgent 2 "")
          (exampleAgent 1 "")).1.hubToAgent =
        (exampleAgent 2 "").hubToAgent ++
          [word ++ ' ' :: (fmtInt (exampleAgent 2 "").agentState.agentId ++
            ',' :: "B1".toList)] ∧
      (handle_valid_guess "B1".toList exampleRules (exampleAgent 2 "")
          (exampleAgent 1 "")).2.hubToAgent =
        (exampleAgent 1 "").hubToAgent ++
          [word ++ ' ' :: (fmtInt (exampleAgent 2 "").agentState.agentId ++
            ',' :: "B1".toList)] :=
  ⟨by decide, by decide,
   one_result_line_for_both_agents exampleRules (by decide) (exampleAgent 2 "")
     (exampleAgent 1 "") 0 "B1".toList
     (Reachable.start "MAP A1,E".toList exampleMap (by decide)) (by decide)⟩

/-! ### What a guess leaves unchanged -/

theorem gridGet_gridSet_other (g : List (List Char)) (r c r' c' : Int) (v : Char)
    (h : ¬ (r' = r ∧ c' = c)) :
    gridGet (gridSet g r c v) r' c' = gridGet g r' c' := by
  by_cases hcond : 0 ≤ r ∧ 0 ≤ c ∧ c.toNat < (g.getD r.toNat []).length
  · have hrl : r.toNat < g.length := by
      by_contra hge
      have : g.getD r.toNat [] = [] := by
        rw [List.getD_eq_getElem?_getD, List.getElem?_eq_none (by omega)]
        rfl
      rw [this] at hcond
      simp at hcond
    rw [gridGet_gridSet g r c r' c' v hcond.1 hrl hcond.2.1 hcond.2.2, if_neg h]
  · unfold gridSet
    rw [if_neg hcond]

/-- C37: what `handle_valid_guess` leaves of the state for an accepted guess
in a state reachable from an accepted map.  The guessing agent keeps its id and
map and has the guess appended to its history.  The opponent keeps its id, its
history, its opponent grid and the count of its ships; every cell of its own
grid other than the guessed one holds what it held; every ship keeps its
coordinates, its length and its direction, and its hits stay or go down by one;
the hits of at most one ship change. -/
theorem handle_valid_guess_changes_only (rules : Rules) (hv : rules.valid)
    (agent opponent : Agent) (sunk : Nat) (coordinates : CStr)
    (hreach : Reachable rules agent.agentState.agentGuesses opponent.agentState.agentMap sunk)
    (hacc : validate_coordinate rules agent coordinates = 0) :
    (handle_valid_guess coordinates rules agent opponent).1.agentState =
      { agent.agentState with
        agentGuesses := agent.agentState.agentGuesses ++ [coordinates] } ∧
    (handle_valid_guess coordinates rules agent opponent).2.agentState.agentId =
      opponent.agentState.agentId ∧
    (handle_valid_guess coordinates rules agent opponent).2.agentState.agentGuesses =
      opponent.agentState.agentGuesses ∧
    (handle_valid_guess coordinates rules agent opponent).2.agentState.agentMap.opponentGrid =
      opponent.agentState.agentMap.opponentGrid ∧
    (handle_valid_guess coordinates rules agent opponent).2.agentState.agentMap.shipsAdded =
      opponent.agentState.agentMap.shipsAdded ∧
    (∀ row column : Int,
      ¬ (row = (parse_coordinates coordinates).2 ∧ column = (parse_coordinates coordinates).1) →
      gridGet (handle_valid_guess coordinates rules agent
          opponent).2.agentState.agentMap.agentGrid row column =
        gridGet opponent.agentState.agentMap.agentGrid row column) ∧
    (handle_valid_guess coordinates rules agent opponent).2.agentState.agentMap.agentShips.length =
      opponent.agentState.agentMap.agentShips.length ∧
    (∀ (k : Nat) (ship ship' : Ship),
      opponent.agentState.agentMap.agentShips[k]? = some ship →
      (handle_valid_guess coordinates rules agent
        opponent).2.agentState.agentMap.agentShips[k]? = some ship' →
      ship'.coordinates = ship.coordinates ∧ ship'.length = ship.length ∧
        ship'.direction = ship.direction ∧
        (ship'.hits = ship.hits ∨ ship'.hits = ship.hits - 1)) ∧
    (∀ (k1 k2 : Nat) (s1 s1' s2 s2' : Ship),
      opponent.agentState.agentMap.agentShips[k1]? = some s1 →
      (handle_valid_guess coordinates rules agent
        opponent).2.agentState.agentMap.agentShips[k1]? = some s1' →
      opponent.agentState.agentMap.agentShips[k2]? = some s2 →
      (handle_valid_guess coordinates rules agent
        opponent).2.agentState.agentMap.agentShips[k2]? = some s2' →
      s1' ≠ s1 → s2' ≠ s2 → k1 = k2) := by
  obtain ⟨hinv, _⟩ := reachable_inv rules hv _ _ _ hreach
  obtain ⟨_, hnew⟩ := validate_coordinate_zero rules agent coordinates hacc
  obtain ⟨ha, _, _⟩ := handle_valid_guess_agent coordinates rules agent opponent
  obtain ⟨o1, o2, _⟩ := handle_valid_guess_opponent coordinates rules agent opponent
  refine ⟨ha, o2, o1, ?_⟩
  by_cases hmiss : ∀ ship ∈ opponent.agentState.agentMap.agentShips,
      coordinates ∉ ship.coordinates
  · rw [handle_valid_guess_miss rules agent opponent coordinates hinv hnew hmiss]
    refine ⟨rfl, rfl, ?_, rfl, ?_, ?_⟩
    · intro row column hne
      exact gridGet_gridSet_other _ _ _ _ _ _ hne
    · intro k ship ship' h1 h2
      have h2' : opponent.agentState.agentMap.agentShips[k]? = some ship' := h2
      rw [h1] at h2'
      simp only [Option.some.injEq] at h2'
      rw [← h2']
      exact ⟨rfl, rfl, rfl, Or.inl rfl⟩
    · intro k1 k2 s1 s1' s2 s2' h1 h1' _ _ hne _
      have h1'' : opponent.agentState.agentMap.agentShips[k1]? = some s1' := h1'
      rw [h1] at h1''
      simp only [Option.some.injEq] at h1''
      exact absurd h1''.symm hne
  · push_neg at hmiss
    obtain ⟨target, hmem, hg⟩ := hmiss
    obtain ⟨k, hk⟩ := List.mem_iff_getElem?.mp hmem
    obtain ⟨_, heq⟩ := handle_valid_guess_hit_result rules agent opponent coordinates hinv hnew
      k target hk hg
    rw [heq]
    have hget : ∀ j : Nat,
        (modifyAt (fun ship : Ship => { ship with hits := ship.hits - 1 }) k
          opponent.agentState.agentMap.agentShips)[j]? =
        if j = k then (opponent.agentState.agentMap.agentShips[j]?).map
          (fun ship => { ship with hits := ship.hits - 1 })
        else opponent.agentState.agentMap.agentShips[j]? := by
      intro j
      exact modifyAt_getElem? _ _ _ _
    refine ⟨rfl, rfl, ?_, modifyAt_length _ _ _, ?_, ?_⟩
    · intro row column hne
      exact gridGet_gridSet_other _ _ _ _ _ _ hne
    · intro j ship ship' h1 h2
      have h2' := h2
      dsimp only at h2'
      rw [hget j, h1] at h2'
      by_cases hj : j = k
      · rw [if_pos hj] at h2'
        simp only [Option.map_some', Option.some.injEq] at h2'
        rw [← h2']
        exact ⟨rfl, rfl, rfl, Or.inr rfl⟩
      · rw [if_neg hj] at h2'
        simp only [Option.some.injEq] at h2'
        rw [← h2']
        exact ⟨rfl, rfl, rfl, Or.inl rfl⟩
    · intro k1 k2 s1 s1' s2 s2' h1 h1' h2 h2' hne1 hne2
      have e1 := h1'
      have e2 := h2'
      dsimp only at e1 e2
      rw [hget k1, h1] at e1
      rw [hget k2, h2] at e2
      by_cases hk1 : k1 = k
      · by_cases hk2 : k2 = k
        · rw [hk1, hk2]
        · rw [if_neg hk2] at e2
          simp only [Option.some.injEq] at e2
          exact absurd e2.symm hne2
      · rw [if_neg hk1] at e1
        simp only [Option.some.injEq] at e1
        exact absurd e1.symm hne1

theorem handle_valid_guess_changes_only_witness :
    validate_coordinate exampleRules (exampleAgent 2 "") "B1".toList = 0 ∧
    (handle_valid_guess "B1".toList exampleRules (exampleAgent 2 "")
        (exampleAgent 1 "")).1.agentState =
      { (exampleAgent 2 "").agentState with
        agentGuesses := (exampleAgent 2 "").agentState.agentGuesses ++ ["B1".toList] } ∧
    (handle_valid_guess "B1".toList exampleRules (exampleAgent 2 "")
        (exampleAgent 1 "")).2.agentState.agentMap.agentGrid =
      ["1*.".toList, "...".toList, "...".toList] ∧
    (handle_valid_guess "B1".toList exampleRules (exampleAgent 2 "")
        (exampleAgent 1 "")).2.agentState.agentMap.agentShips.map (fun ship => ship.hits) = [1] :=
  ⟨by decide,
   (handle_valid_guess_changes_only exampleRules (by decide) (exampleAgent 2 "")
     (exampleAgent 1 "") 0 "B1".toList
     (Reachable.start "MAP A1,E".toList exampleMap (by decide)) (by decide)).1,
   by decide, by decide⟩

/-! ### The characters of an accepted coordinate -/

theorem strtol_sign (body : CStr) : ∃ (neg : Bool) (afterSign : CStr),
    strtol.match_1 (fun _ => Bool × List Char) body (fun r => (true, r))
      (fun r => (false, r)) (fun r => (false, r)) = (neg, afterSign) ∧
    (body = afterSign ∨ body = '-' :: afterSign ∨ body = '+' :: afterSign) := by
  split
  · exact ⟨true, _, rfl, Or.inr (Or.inl rfl)⟩
  · exact ⟨false, _, rfl, Or.inr (Or.inr rfl)⟩
  · exact ⟨false, _, rfl, Or.inl rfl⟩

theorem strtolDigits_consumed :
    ∀ (l : CStr) (acc : Nat), (strtolDigits acc l).2 = [] → ∀ x ∈ l, isdigit x = true := by
  intro l
  induction l with
  | nil => intro acc _ x hx; simp at hx
  | cons c cs ih =>
    intro acc h x hx
    rw [strtolDigits] at h
    by_cases hc : isdigit c = true
    · rw [if_pos hc] at h
      rcases List.mem_cons.mp hx with e | hm
      · rw [e]; exact hc
      · exact ih _ h x hm
    · rw [if_neg hc] at h
      simp at h

/-- A string that `strtol` reads to its end holds white space, a sign and
digits only. -/
theorem strtol_consumed (s : CStr) (h : (strtol s).2 = []) :
    ∀ x ∈ s, isspace x = true ∨ x = '-' ∨ x = '+' ∨ isdigit x = true := by
  obtain ⟨neg, afterSign, hm, hshape⟩ := strtol_sign (s.dropWhile isspace)
  unfold strtol at h
  simp only [hm] at h
  have key : s = [] ∨ ∀ x ∈ afterSign, isdigit x = true := by
    cases afterSign with
    | nil => left; simpa using h
    | cons c cs =>
      simp only [] at h
      by_cases hc : isdigit c = true
      · rw [if_pos hc] at h
        right
        exact strtolDigits_consumed _ 0 h
      · rw [if_neg hc] at h
        left
        exact h
  intro x hx
  rcases key with e | hd
  · rw [e] at hx; simp at hx
  · rw [← List.takeWhile_append_dropWhile isspace s, List.mem_append] at hx
    rcases hx with hx | hx
    · exact Or.inl (List.mem_takeWhile_imp hx)
    · rcases hshape with e | e | e
      · rw [e] at hx; exact Or.inr (Or.inr (Or.inr (hd x hx)))
      · rw [e] at hx
        rcases List.mem_cons.mp hx with e2 | hm2
        · exact Or.inr (Or.inl e2)
        · exact Or.inr (Or.inr (Or.inr (hd x hm2)))
      · rw [e] at hx
        rcases List.mem_cons.mp hx with e2 | hm2
        · exact Or.inr (Or.inr (Or.inl e2))
        · exact Or.inr (Or.inr (Or.inr (hd x hm2)))

/-- What `check_valid_coordinates` has found when it returns 0. -/
theorem check_valid_coordinates_accepted (c : CStr) (h : (check_valid_coordinates c).1 = 0) :
    2 ≤ (strtrim c).length ∧ 65 ≤ firstChar (strtrim c) ∧
    (strtol ((strtrim c).drop 1)).2 = [] ∧
    1 ≤ longToInt (strtol ((strtrim c).drop 1)).1 ∧
    longToInt (strtol ((strtrim c).drop 1)).1 ≤ 26 := by
  unfold check_valid_coordinates at h
  simp only [] at h
  by_cases hlen : (strtrim c).length < MINIMUM_COORDINATE_LENGTH
  · rw [if_pos hlen] at h
    exact absurd (show (1 : Int) = 0 from h) (by decide)
  · rw [if_neg hlen] at h
    by_cases hbad : ¬ (charVal MIN_COLUMN_LABEL ≤ firstChar (strtrim c) ∨
          firstChar (strtrim c) ≥ charVal MAX_COLUMN_LABEL) ∨
        (longToInt (strtol (parse_coordinate_row (strtrim c))).1 < MIN_BOARD_HEIGHT ∨
          longToInt (strtol (parse_coordinate_row (strtrim c))).1 > MAX_BOARD_HEIGHT) ∨
        (strtol (parse_coordinate_row (strtrim c))).2 ≠ []
    · rw [if_pos hbad] at h
      exact absurd (show (1 : Int) = 0 from h) (by decide)
    · simp only [not_or, not_not, not_lt, MIN_BOARD_HEIGHT, MAX_BOARD_HEIGHT,
        MINIMUM_COORDINATE_LENGTH] at hbad hlen
      obtain ⟨h1, ⟨h2, h3⟩, h4⟩ := hbad
      have h65 : charVal MIN_COLUMN_LABEL = 65 := by decide
      have h90 : charVal MAX_COLUMN_LABEL = 90 := by decide
      rw [h65, h90] at h1
      refine ⟨hlen, by omega, h4, h2, by unfold parse_coordinate_row at h3; omega⟩

/-- No character of an accepted coordinate is a comma or a colon. -/
theorem accepted_coordinate_chars (c : CStr) (h : (check_valid_coordinates c).1 = 0) :
    ∀ x ∈ strtrim c, x ≠ ',' ∧ x ≠ ':' := by
  obtain ⟨hlen, hfirst, hrest, _, _⟩ := check_valid_coordinates_accepted c h
  cases ht : strtrim c with
  | nil => intro x hx; simp at hx
  | cons a rest =>
    rw [ht] at hfirst hrest
    intro x hx
    rcases List.mem_cons.mp hx with e | hm
    · rw [e]
      constructor
      · intro e2
        rw [e2] at hfirst
        exact absurd (show (65 : Int) ≤ charVal ',' from hfirst) (by decide)
      · intro e2
        rw [e2] at hfirst
        exact absurd (show (65 : Int) ≤ charVal ':' from hfirst) (by decide)
    · have := strtol_consumed rest hrest x hm
      rcases this with h1 | h1 | h1 | h1
      · constructor <;> (intro e2; rw [e2] at h1; exact absurd h1 (by decide))
      · rw [h1]; constructor <;> decide
      · rw [h1]; constructor <;> decide
      · constructor <;> (intro e2; rw [e2] at h1; exact absurd h1 (by decide))

/-- A string that neither starts nor ends with white space is left as it is. -/
theorem strtrim_fixed (s : CStr) (a : Char) (rest : CStr) (hs : s = a :: rest)
    (ha : isspace a = false) (hl : ∀ c, s.getLast? = some c → isspace c = false) :
    strtrim s = s := by
  have hne : s ≠ [] := by rw [hs]; simp
  have hr : s.rdropWhile isspace = s := by
    rw [List.rdropWhile_eq_self_iff]
    intro hne'
    have := hl _ (List.getLast?_eq_getLast _ hne')
    simp [this]
  rw [strtrim_eq, hr, hs, List.dropWhile_cons, if_neg (by simp [ha])]

/-- The last character of a trimmed string is no white space. -/
theorem strtrim_last (s : CStr) : ∀ c, (strtrim s).getLast? = some c → isspace c = false := by
  intro c hc
  by_cases hne : strtrim s = []
  · rw [hne] at hc; simp at hc
  · have hsuf : strtrim s <:+ s.rdropWhile isspace := by
      rw [strtrim_eq]; exact List.dropWhile_suffix _
    have hr : s.rdropWhile isspace ≠ [] := by
      intro e
      rw [e] at hsuf
      exact hne (List.suffix_nil.mp hsuf)
    have hlast := hsuf.getLast hne
    rw [List.getLast?_eq_getLast _ hne, Option.some.injEq] at hc
    have hnot := List.rdropWhile_last_not (p := isspace) (l := s) hr
    rw [← hc, hlast]
    simpa using hnot

/-- Cutting the text of an id, a comma and an accepted coordinate at the comma
gives the two back. -/
theorem split_string_id_coordinate (idText c : CStr) (hid : ',' ∉ idText) (hc : ',' ∉ c) :
    split_string (idText ++ ',' :: c) ',' false = [idText, c] := by
  unfold split_string
  rw [show (!false) = true from rfl, split_string_loop_token idText hid [] (',' :: c),
    List.nil_append, split_string_loop, if_pos ⟨rfl, rfl⟩]
  have := split_string_loop_token c hc [] []
  rw [List.append_nil, List.nil_append] at this
  rw [show (!false) = true from rfl, this]
  rfl

/-- The agent's reading of a line that holds, after its prefix, the id 1 or 2,
a comma and an accepted coordinate: the line is accepted and the guess marked
on the boards. -/
theorem validate_broadcast_message_line (st : AgentState) (line idText c : CStr) (id : Int)
    (t : HubMessage)
    (hdrop : (if t = .HIT then index_substring line "HIT ".length
      else index_substring line "MISS ".length) = idText ++ ',' :: c)
    (hid : (idText = ['1'] ∧ id = 1) ∨ (idText = ['2'] ∧ id = 2))
    (hc : check_valid_coordinates c = (0, c)) :
    validate_broadcast_message st line t =
      (0, { st with
            agentMap := handle_broadcast_message st.agentMap id c st.agentId t }) := by
  have hc0 : (check_valid_coordinates c).1 = 0 := by rw [hc]
  have htc : strtrim c = c := by
    rw [← check_valid_coordinates_snd, hc]
  obtain ⟨hlen, _, _, _, _⟩ := check_valid_coordinates_accepted c hc0
  rw [htc] at hlen
  have hchars := accepted_coordinate_chars c hc0
  rw [htc] at hchars
  have hcomma : ',' ∉ c := fun hm => (hchars ',' hm).1 rfl
  have hne : c ≠ [] := by
    intro e; rw [e] at hlen; simp at hlen
  have hidc : ',' ∉ idText := by
    rcases hid with ⟨e, _⟩ | ⟨e, _⟩ <;> rw [e] <;> decide
  have hidv : validate_player_id idText = id := by
    rcases hid with ⟨e, e2⟩ | ⟨e, e2⟩ <;> rw [e, e2] <;> decide
  have hid0 : ¬ id < 0 := by
    rcases hid with ⟨_, e2⟩ | ⟨_, e2⟩ <;> rw [e2] <;> decide
  have htrim : strtrim (idText ++ ',' :: c) = idText ++ ',' :: c := by
    have hlast : ∀ x, (idText ++ ',' :: c).getLast? = some x → isspace x = false := by
      intro x hx
      have e : idText ++ ',' :: c = (idText ++ [',']) ++ c := by simp
      rw [e, List.getLast?_append, List.getLast?_eq_getLast _ hne] at hx
      have hx' : c.getLast hne = x := by simpa [Option.or] using hx
      have := strtrim_last c x (by rw [htc, List.getLast?_eq_getLast _ hne, hx'])
      exact this
    rcases hid with ⟨e, _⟩ | ⟨e, _⟩
    · rw [e] at hlast ⊢
      exact strtrim_fixed _ '1' (',' :: c) rfl (by decide) hlast
    · rw [e] at hlast ⊢
      exact strtrim_fixed _ '2' (',' :: c) rfl (by decide) hlast
  unfold validate_broadcast_message
  simp only [hdrop, htrim, split_string_id_coordinate idText c hidc hcomma,
    BROADCAST_MESSAGE_LENGTH, List.length_cons, List.length_nil, ne_eq, not_true_eq_false,
    if_false, List.getD_cons_zero, List.getD_cons_succ, hidv, hid0, hc]

theorem check_valid_coordinates_trimmed (c : CStr) :
    check_valid_coordinates (strtrim c) = check_valid_coordinates c := by
  unfold check_valid_coordinates
  rw [strtrim_idem]

/-- The coordinate of a GUESS message that `validate_guess_message` lets pass is
trimmed and accepted by `check_valid_coordinates`. -/
theorem validate_guess_message_coordinates (message c : CStr)
    (h : validate_guess_message message = some c) : check_valid_coordinates c = (0, c) := by
  unfold validate_guess_message at h
  simp only [] at h
  split at h
  · simp at h
  · split at h
    · simp at h
    · rename_i hz
      simp only [Option.some.injEq] at h
      have hz' : (check_valid_coordinates
          (strtrim (index_substring (strtrim message) "GUESS ".length))).1 = 0 := by
        simpa using hz
      rw [check_valid_coordinates_snd] at h
      rw [← h, check_valid_coordinates_trimmed]
      exact Prod.ext hz' (check_valid_coordinates_snd _)

/-- The line the hub sends for the guess of agent 1 or 2 at an accepted
coordinate is taken by an agent for the kind of message it is and accepted. -/
theorem broadcast_line_read (id : Int) (hid : id = 1 ∨ id = 2) (c : CStr)
    (hc : check_valid_coordinates c = (0, c)) (t : HubMessage)
    (ht : t = .HIT ∨ t = .SUNK ∨ t = .MISS) :
    check_message ((broadcast_line id c t).getD []) = t ∧
    ∀ st : AgentState, validate_broadcast_message st ((broadcast_line id c t).getD []) t =
      (0, { st with
            agentMap := handle_broadcast_message st.agentMap id c st.agentId t }) := by
  rcases hid with e | e <;> rcases ht with e2 | e2 | e2 <;> subst e <;> subst e2 <;>
    refine ⟨by simp [check_message, check_message_prefix, broadcast_line, fmtInt], fun st => ?_⟩
  · exact validate_broadcast_message_line st _ ['1'] c 1 .HIT rfl (Or.inl ⟨rfl, rfl⟩) hc
  · exact validate_broadcast_message_line st _ ['1'] c 1 .SUNK rfl (Or.inl ⟨rfl, rfl⟩) hc
  · exact validate_broadcast_message_line st _ ['1'] c 1 .MISS rfl (Or.inl ⟨rfl, rfl⟩) hc
  · exact validate_broadcast_message_line st _ ['2'] c 2 .HIT rfl (Or.inr ⟨rfl, rfl⟩) hc
  · exact validate_broadcast_message_line st _ ['2'] c 2 .SUNK rfl (Or.inr ⟨rfl, rfl⟩) hc
  · exact validate_broadcast_message_line st _ ['2'] c 2 .MISS rfl (Or.inr ⟨rfl, rfl⟩) hc

/-- What the two agents of a round make of the line the hub sends for a guess
of one of them: each accepts it; the one that did not guess marks the cell on
its own grid, the one that guessed on its opponent grid. -/
theorem agents_read_result (rules : Rules) (agent : Agent) (c : CStr) (t : HubMessage)
    (guesserState opponentState : AgentState)
    (ht : t = .HIT ∨ t = .SUNK ∨ t = .MISS)
    (hid : agent.agentState.agentId = 1 ∨ agent.agentState.agentId = 2)
    (hc : check_valid_coordinates c = (0, c))
    (hb : check_coordinate_bounds c rules = 0)
    (hgid : guesserState.agentId = agent.agentState.agentId)
    (hoid : opponentState.agentId ≠ agent.agentState.agentId)
    (hrows : guesserState.agentMap.opponentGrid.length = rules.height.toNat)
    (hcols : ∀ row ∈ guesserState.agentMap.opponentGrid, row.length = rules.width.toNat) :
    check_message (resultLine agent c t) = t ∧
    (validate_broadcast_message opponentState (resultLine agent c t) t).1 = 0 ∧
    (validate_broadcast_message opponentState (resultLine agent c t) t).2.agentMap.agentGrid =
      gridSet opponentState.agentMap.agentGrid (parse_coordinates c).2 (parse_coordinates c).1
        (if t = .MISS then MISS_MARKER else HIT_MARKER) ∧
    (validate_broadcast_message guesserState (resultLine agent c t) t).1 = 0 ∧
    gridGet (validate_broadcast_message guesserState (resultLine agent c t)
        t).2.agentMap.opponentGrid (parse_coordinates c).2 (parse_coordinates c).1 =
      (if t = .MISS then MISS_MARKER else HIT_MARKER) := by
  obtain ⟨hcm, hvb⟩ := broadcast_line_read agent.agentState.agentId hid c hc t ht
  have hline : resultLine agent c t = (broadcast_line agent.agentState.agentId c t).getD [] :=
    rfl
  obtain ⟨b1, b2, b3, b4⟩ := check_coordinate_bounds_zero c rules hb
  rw [hline, hvb opponentState, hvb guesserState]
  refine ⟨hcm, rfl, ?_, rfl, ?_⟩
  · show (handle_broadcast_message opponentState.agentMap agent.agentState.agentId c
      opponentState.agentId t).agentGrid = _
    unfold handle_broadcast_message
    simp only []
    rw [if_neg (fun e => hoid e.symm)]
  · show gridGet (handle_broadcast_message guesserState.agentMap agent.agentState.agentId c
      guesserState.agentId t).opponentGrid _ _ = _
    unfold handle_broadcast_message
    simp only []
    rw [if_pos hgid.symm]
    have hrl : (parse_coordinates c).2.toNat < guesserState.agentMap.opponentGrid.length := by
      rw [hrows]; omega
    have hcl : (parse_coordinates c).1.toNat <
        (guesserState.agentMap.opponentGrid.getD (parse_coordinates c).2.toNat []).length := by
      rw [hcols _ (by
        rw [List.getD_eq_getElem?_getD, List.getElem?_eq_getElem hrl]
        exact List.getElem_mem _)]
      omega
    rw [gridGet_gridSet _ _ _ _ _ _ b3 hrl b1 hcl, if_pos ⟨rfl, rfl⟩]

/-- C34: the hub resolves a guess accepted from one agent of a round, in a
state reachable from an accepted map, and sends one line to both agents; the
hub marks the guessed cell on its copy of the opponent's own grid.  The
opponent accepts the line and marks the same cell with the same marker: when
its own grid was equal to the copy of the hub before, it is equal to it after.
The guessing agent accepts the line and its opponent grid then holds that
marker at the guessed cell. -/
theorem hub_and_agent_grids_stay_in_step (rules : Rules) (hv : rules.valid)
    (agent opponent : Agent) (sunk : Nat) (message coordinates : CStr)
    (guesserState opponentState : AgentState)
    (hreach : Reachable rules agent.agentState.agentGuesses opponent.agentState.agentMap sunk)
    (hguess : validate_guess_message message = some coordinates)
    (hacc : validate_coordinate rules agent coordinates = 0)
    (hids : (agent.agentState.agentId = 1 ∧ opponent.agentState.agentId = 2) ∨
      (agent.agentState.agentId = 2 ∧ opponent.agentState.agentId = 1))
    (hgid : guesserState.agentId = agent.agentState.agentId)
    (hoid : opponentState.agentId = opponent.agentState.agentId)
    (hgrid : opponentState.agentMap.agentGrid = opponent.agentState.agentMap.agentGrid)
    (hrows : guesserState.agentMap.opponentGrid.length = rules.height.toNat)
    (hcols : ∀ row ∈ guesserState.agentMap.opponentGrid, row.length = rules.width.toNat) :
    ∃ (line : CStr) (marker : Char),
      (handle_valid_guess coordinates rules agent opponent).1.hubToAgent =
        agent.hubToAgent ++ [line] ∧
      (handle_valid_guess coordinates rules agent opponent).2.hubToAgent =
        opponent.hubToAgent ++ [line] ∧
      (check_message line = .HIT ∨ check_message line = .SUNK ∨ check_message line = .MISS) ∧
      (marker = HIT_MARKER ∨ marker = MISS_MARKER) ∧
      (handle_valid_guess coordinates rules agent opponent).2.agentState.agentMap.agentGrid =
        gridSet opponent.agentState.agentMap.agentGrid (parse_coordinates coordinates).2
          (parse_coordinates coordinates).1 marker ∧
      (validate_broadcast_message opponentState line (check_message line)).1 = 0 ∧
      (validate_broadcast_message opponentState line (check_message line)).2.agentMap.agentGrid =
        (handle_valid_guess coordinates rules agent opponent).2.agentState.agentMap.agentGrid ∧
      (validate_broadcast_message guesserState line (check_message line)).1 = 0 ∧
      gridGet (validate_broadcast_message guesserState line
          (check_message line)).2.agentMap.opponentGrid (parse_coordinates coordinates).2
          (parse_coordinates coordinates).1 = marker := by
  obtain ⟨hinv, _⟩ := reachable_inv rules hv _ _ _ hreach
  obtain ⟨hb, hnew⟩ := validate_coordinate_zero rules agent coordinates hacc
  have hc := validate_guess_message_coordinates message coordinates hguess
  have hid : agent.agentState.agentId = 1 ∨ agent.agentState.agentId = 2 := by
    rcases hids with ⟨h, _⟩ | ⟨h, _⟩
    · exact Or.inl h
    · exact Or.inr h
  have hne : opponentState.agentId ≠ agent.agentState.agentId := by
    rw [hoid]
    rcases hids with ⟨h1, h2⟩ | ⟨h1, h2⟩ <;> rw [h1, h2] <;> decide
  have hread : ∀ t : HubMessage, t = .HIT ∨ t = .SUNK ∨ t = .MISS →
      _ := fun t ht =>
    agents_read_result rules agent coordinates t guesserState opponentState ht hid hc hb hgid
      hne hrows hcols
  by_cases hmiss : ∀ ship ∈ opponent.agentState.agentMap.agentShips,
      coordinates ∉ ship.coordinates
  · obtain ⟨r1, r2, r3, r4, r5⟩ := hread .MISS (Or.inr (Or.inr rfl))
    rw [handle_valid_guess_miss rules agent opponent coordinates hinv hnew hmiss]
    refine ⟨resultLine agent coordinates .MISS, MISS_MARKER, rfl, rfl, ?_, Or.inr rfl, rfl,
      ?_, ?_, ?_, ?_⟩
    · rw [r1]; exact Or.inr (Or.inr rfl)
    · rw [r1]; exact r2
    · rw [r1, r3, hgrid]; rfl
    · rw [r1]; exact r4
    · rw [r1, r5]; rfl
  · push_neg at hmiss
    obtain ⟨target, hmem, hg⟩ := hmiss
    obtain ⟨k, hk⟩ := List.mem_iff_getElem?.mp hmem
    obtain ⟨_, heq⟩ := handle_valid_guess_hit_result rules agent opponent coordinates hinv hnew
      k target hk hg
    rw [heq]
    by_cases hlast : target.hits = 1
    · obtain ⟨r1, r2, r3, r4, r5⟩ := hread .SUNK (Or.inr (Or.inl rfl))
      rw [if_pos hlast]
      refine ⟨resultLine agent coordinates .SUNK, HIT_MARKER, rfl, rfl, ?_, Or.inl rfl, rfl,
        ?_, ?_, ?_, ?_⟩
      · rw [r1]; exact Or.inr (Or.inl rfl)
      · rw [r1]; exact r2
      · rw [r1, r3, hgrid]; rfl
      · rw [r1]; exact r4
      · rw [r1, r5]; rfl
    · obtain ⟨r1, r2, r3, r4, r5⟩ := hread .HIT (Or.inl rfl)
      rw [if_neg hlast]
      refine ⟨resultLine agent coordinates .HIT, HIT_MARKER, rfl, rfl, ?_, Or.inl rfl, rfl,
        ?_, ?_, ?_, ?_⟩
      · rw [r1]; exact Or.inl rfl
      · rw [r1]; exact r2
      · rw [r1, r3, hgrid]; rfl
      · rw [r1]; exact r4
      · rw [r1, r5]; rfl

theorem hub_and_agent_grids_stay_in_step_witness :
    (handle_valid_guess "B1".toList exampleRules (exampleAgent 2 "")
        (exampleAgent 1 "")).2.hubToAgent = ["HIT 2,B1".toList] ∧
    (validate_broadcast_message exampleAgentState "HIT 2,B1".toList .HIT).2.agentMap.agentGrid =
      (handle_valid_guess "B1".toList exampleRules (exampleAgent 2 "")
        (exampleAgent 1 "")).2.agentState.agentMap.agentGrid ∧
    ∃ (line : CStr) (marker : Char),
      (handle_valid_guess "B1".toList exampleRules (exampleAgent 2 "")
        (exampleAgent 1 "")).1.hubToAgent = (exampleAgent 2 "").hubToAgent ++ [line] ∧
      (handle_valid_guess "B1".toList exampleRules (exampleAgent 2 "")
        (exampleAgent 1 "")).2.hubToAgent = (exampleAgent 1 "").hubToAgent ++ [line] ∧
      (check_message line = .HIT ∨ check_message line = .SUNK ∨ check_message line = .MISS) ∧
      (marker = HIT_MARKER ∨ marker = MISS_MARKER) ∧
      (handle_valid_guess "B1".toList exampleRules (exampleAgent 2 "")
          (exampleAgent 1 "")).2.agentState.agentMap.agentGrid =
        gridSet (exampleAgent 1 "").agentState.agentMap.agentGrid
          (parse_coordinates "B1".toList).2 (parse_coordinates "B1".toList).1 marker ∧
      (validate_broadcast_message exampleAgentState line (check_message line)).1 = 0 ∧
      (validate_broadcast_message exampleAgentState line
          (check_message line)).2.agentMap.agentGrid =
        (handle_valid_guess "B1".toList exampleRules (exampleAgent 2 "")
          (exampleAgent 1 "")).2.agentState.agentMap.agentGrid ∧
      (validate_broadcast_message (exampleAgent 2 "").agentState line
        (check_message line)).1 = 0 ∧
      gridGet (validate_broadcast_message (exampleAgent 2 "").agentState line
          (check_message line)).2.agentMap.opponentGrid (parse_coordinates "B1".toList).2
          (parse_coordinates "B1".toList).1 = marker :=
  ⟨by decide, by decide,
   hub_and_agent_grids_stay_in_step exampleRules (by decide) (exampleAgent 2 "")
     (exampleAgent 1 "") 0 "GUESS B1".toList "B1".toList (exampleAgent 2 "").agentState
     exampleAgentState (Reachable.start "MAP A1,E".toList exampleMap (by decide))
     (by decide) (by decide) (Or.inr ⟨rfl, rfl⟩) rfl rfl rfl (by decide) (by decide)⟩

/-! ### The accesses of the hub to grids and ships -/

theorem add_agent_ship_loop_touched_bounds (direction : Direction) (rules : Rules) :
    ∀ (count : Nat) (cur : CStr) (m : AgentMap),
      ∀ c ∈ add_agent_ship_loop_touched direction rules count cur m,
        check_coordinate_bounds c rules = 0 := by
  intro count
  induction count with
  | zero => intro cur m c hc; simp [add_agent_ship_loop_touched] at hc
  | succ n ih =>
    intro cur m c hc
    rw [add_agent_ship_loop_touched] at hc
    simp only [] at hc
    by_cases hb : check_coordinate_bounds (next_coordinate direction cur) rules ≠ 0
    · rw [if_pos hb] at hc; simp at hc
    · rw [if_neg hb] at hc
      have hb0 : check_coordinate_bounds (next_coordinate direction cur) rules = 0 := by
        simpa using hb
      split at hc
      · simp only [List.mem_singleton] at hc
        rw [hc]; exact hb0
      · rcases List.mem_cons.mp hc with e | hm
        · rw [e]; exact hb0
        · exact ih _ _ c hm

theorem add_agent_ship_touched_bounds (m : AgentMap) (start : CStr) (direction : Direction)
    (rules : Rules) :
    ∀ c ∈ add_agent_ship_touched m start direction rules,
      check_coordinate_bounds c rules = 0 := by
  intro c hc
  unfold add_agent_ship_touched at hc
  by_cases hb : check_coordinate_bounds start rules ≠ 0
  · rw [if_pos hb] at hc; simp at hc
  · rw [if_neg hb] at hc
    have hb0 : check_coordinate_bounds start rules = 0 := by simpa using hb
    simp only [] at hc
    split at hc
    · simp only [List.mem_singleton] at hc
      rw [hc]; exact hb0
    · rcases List.mem_cons.mp hc with e | hm
      · rw [e]; exact hb0
      · exact add_agent_ship_loop_touched_bounds direction rules _ _ _ c hm

theorem handle_agent_ship_direction_touched_bounds (position direction : CStr) (m : AgentMap)
    (rules : Rules) :
    ∀ c ∈ handle_agent_ship_direction_touched position direction m rules,
      check_coordinate_bounds c rules = 0 := by
  intro c hc
  unfold handle_agent_ship_direction_touched at hc
  simp only [] at hc
  split_ifs at hc
  · exact add_agent_ship_touched_bounds _ _ _ _ c hc
  · exact add_agent_ship_touched_bounds _ _ _ _ c hc
  · exact add_agent_ship_touched_bounds _ _ _ _ c hc
  · exact add_agent_ship_touched_bounds _ _ _ _ c hc
  · simp at hc

theorem parse_map_message_loop_touched_bounds (rules : Rules) :
    ∀ (entries : List CStr) (m : AgentMap),
      ∀ c ∈ parse_map_message_loop_touched rules entries m,
        check_coordinate_bounds c rules = 0 := by
  intro entries
  induction entries with
  | nil => intro m c hc; simp [parse_map_message_loop_touched] at hc
  | cons entry rest ih =>
    intro m c hc
    rw [parse_map_message_loop_touched] at hc
    simp only [] at hc
    split at hc
    · simp at hc
    · split at hc
      · simp at hc
      · split at hc
        · rcases List.mem_append.mp hc with h1 | h2
          · exact handle_agent_ship_direction_touched_bounds _ _ _ _ c h1
          · split at h2
            · simp at h2
            · exact ih _ c h2
        · exact ih _ c hc

theorem parse_map_message_touched_bounds (m : AgentMap) (rules : Rules) (mapMessage : CStr) :
    ∀ c ∈ parse_map_message_touched m rules mapMessage,
      check_coordinate_bounds c rules = 0 := by
  intro c hc
  unfold parse_map_message_touched at hc
  simp only [] at hc
  split at hc
  · simp at hc
  · exact parse_map_message_loop_touched_bounds rules _ _ c hc

theorem add_agent_grid_element_ships (m m' : AgentMap) (c : CStr) (rules : Rules)
    (h : add_agent_grid_element m c rules = (0, m')) :
    m'.agentShips = modifyAt
      (fun ship => { ship with
        coordinates := ship.coordinates ++ [c]
        hits := ship.hits + 1
        length := ship.length + 1 })
      (m.shipsAdded - 1) m.agentShips ∧
    m'.shipsAdded = m.shipsAdded := by
  unfold add_agent_grid_element at h
  simp only [] at h
  split at h
  · simp only [Prod.mk.injEq, true_and] at h
    rw [← h]
    exact ⟨rfl, rfl⟩
  · simp only [Prod.mk.injEq] at h
    exact absurd h.1 (by decide)

theorem add_agent_ship_loop_touched_ships (direction : Direction) (rules : Rules) :
    ∀ (count : Nat) (cur : CStr) (m : AgentMap) (init : List Ship) (last : Ship)
      (m' : AgentMap),
      m.agentShips = init ++ [last] → m.shipsAdded = init.length + 1 →
      add_agent_ship_loop direction rules count cur m = (0, m') →
      ∃ last' : Ship, m'.agentShips = init ++ [last'] ∧
        last'.coordinates =
          last.coordinates ++ add_agent_ship_loop_touched direction rules count cur m ∧
        m'.shipsAdded = m.shipsAdded := by
  intro count
  induction count with
  | zero =>
    intro cur m init last m' hs hn h
    simp only [add_agent_ship_loop, Prod.mk.injEq, true_and] at h
    rw [← h]
    exact ⟨last, hs, by simp [add_agent_ship_loop_touched], rfl⟩
  | succ n ih =>
    intro cur m init last m' hs hn h
    rw [add_agent_ship_loop] at h
    rw [add_agent_ship_loop_touched]
    simp only [] at h ⊢
    by_cases hb : check_coordinate_bounds (next_coordinate direction cur) rules ≠ 0
    · rw [if_pos hb] at h
      exact absurd (Prod.mk.inj h).1 (by decide)
    · rw [if_neg hb] at h ⊢
      by_cases hr : (add_agent_grid_element m (next_coordinate direction cur) rules).1 ≠ 0
      · rw [if_pos hr] at h
        exact absurd (Prod.mk.inj h).1 (by decide)
      · rw [if_neg hr] at h ⊢
        have hr0 : add_agent_grid_element m (next_coordinate direction cur) rules =
            (0, (add_agent_grid_element m (next_coordinate direction cur) rules).2) :=
          Prod.ext (by simpa using hr) rfl
        obtain ⟨e1, e2⟩ := add_agent_grid_element_ships _ _ _ _ hr0
        rw [hs, hn, Nat.add_sub_cancel, modifyAt_last] at e1
        obtain ⟨last', h1, h2, h3⟩ := ih _ _ init _ m' e1 (by rw [e2, hn]) h
        refine ⟨last', h1, ?_, by rw [h3, e2]⟩
        rw [h2]
        simp

theorem add_agent_ship_touched_ships (m m' : AgentMap) (c : CStr) (direction : Direction)
    (rules : Rules) (hlen : m.agentShips.length = m.shipsAdded)
    (h : add_agent_ship m c direction rules = (0, m')) :
    ∃ ship : Ship, m'.agentShips = m.agentShips ++ [ship] ∧
      ship.coordinates = add_agent_ship_touched m c direction rules ∧
      m'.shipsAdded = m.shipsAdded + 1 := by
  unfold add_agent_ship at h
  unfold add_agent_ship_touched
  by_cases hb : check_coordinate_bounds c rules ≠ 0
  · rw [if_pos hb] at h
    exact absurd (Prod.mk.inj h).1 (by decide)
  · rw [if_neg hb] at h ⊢
    simp only [] at h ⊢
    rw [← hlen, List.take_length] at h ⊢
    by_cases hr : (add_agent_grid_element
        { m with
          agentShips := m.agentShips ++
            [{ coordinates := [], hits := 0, length := 0, direction := direction }]
          shipsAdded := m.agentShips.length + 1 } c rules).1 ≠ 0
    · rw [if_pos hr] at h
      exact absurd (Prod.mk.inj h).1 (by decide)
    · rw [if_neg hr] at h ⊢
      have hr0 : add_agent_grid_element
          { m with
            agentShips := m.agentShips ++
              [{ coordinates := [], hits := 0, length := 0, direction := direction }]
            shipsAdded := m.agentShips.length + 1 } c rules =
          (0, (add_agent_grid_element
            { m with
              agentShips := m.agentShips ++
                [{ coordinates := [], hits := 0, length := 0, direction := direction }]
              shipsAdded := m.agentShips.length + 1 } c rules).2) :=
        Prod.ext (by simpa using hr) rfl
      obtain ⟨e1, e2⟩ := add_agent_grid_element_ships _ _ _ _ hr0
      simp only [Nat.add_sub_cancel] at e1 e2
      rw [modifyAt_last] at e1
      obtain ⟨last', h1, h2, h3⟩ := add_agent_ship_loop_touched_ships direction rules _ _ _
        m.agentShips _ m' e1 e2 h
      refine ⟨last', h1, ?_, by rw [h3, e2]⟩
      rw [h2]
      rfl

theorem handle_agent_ship_direction_touched_ships (position direction : CStr)
    (m m' : AgentMap) (rules : Rules) (hlen : m.agentShips.length = m.shipsAdded)
    (h : handle_agent_ship_direction position direction m rules = (0, m')) :
    ∃ ship : Ship, m'.agentShips = m.agentShips ++ [ship] ∧
      ship.coordinates = handle_agent_ship_direction_touched position direction m rules ∧
      m'.shipsAdded = m.shipsAdded + 1 := by
  unfold handle_agent_ship_direction at h
  unfold handle_agent_ship_direction_touched
  simp only [] at h ⊢
  split_ifs at h ⊢
  · exact add_agent_ship_touched_ships _ _ _ _ _ hlen h
  · exact add_agent_ship_touched_ships _ _ _ _ _ hlen h
  · exact add_agent_ship_touched_ships _ _ _ _ _ hlen h
  · exact add_agent_ship_touched_ships _ _ _ _ _ hlen h
  · exact absurd (Prod.mk.inj h).1 (by decide)

theorem parse_map_message_loop_touched_ships (rules : Rules) :
    ∀ (entries : List CStr) (m m' : AgentMap), m.agentShips.length = m.shipsAdded →
      parse_map_message_loop rules entries m = (0, m') →
      (m'.agentShips.map (fun ship => ship.coordinates)).flatten =
        (m.agentShips.map (fun ship => ship.coordinates)).flatten ++
          parse_map_message_loop_touched rules entries m := by
  intro entries
  induction entries with
  | nil =>
    intro m m' _ h
    rw [parse_map_message_loop] at h
    split at h
    · exact absurd (Prod.mk.inj h).1 (by decide)
    · simp only [Prod.mk.injEq, true_and] at h
      rw [← h]
      simp [parse_map_message_loop_touched]
  | cons entry rest ih =>
    intro m m' hlen h
    rw [parse_map_message_loop] at h
    rw [parse_map_message_loop_touched]
    simp only [] at h ⊢
    split at h
    · exact absurd (Prod.mk.inj h).1 (by decide)
    · rename_i h2
      rw [if_neg h2]
      split at h
      · exact absurd (Prod.mk.inj h).1 (by decide)
      · rename_i hchk
        rw [if_neg hchk]
        split at h
        · rename_i hlt
          rw [if_pos hlt]
          split at h
          · rename_i hr
            rw [h] at hr
            exact absurd rfl hr
          · rename_i hr
            rw [if_neg hr]
            have hr0 : handle_agent_ship_direction
                (check_valid_coordinates ((split_string entry ',' false).getD 0 [])).2
                ((split_string entry ',' false).getD 1 []) m rules =
                (0, (handle_agent_ship_direction
                  (check_valid_coordinates ((split_string entry ',' false).getD 0 [])).2
                  ((split_string entry ',' false).getD 1 []) m rules).2) :=
              Prod.ext (by simpa using hr) rfl
            obtain ⟨ship, e1, e2, e3⟩ :=
              handle_agent_ship_direction_touched_ships _ _ _ _ _ hlen hr0
            rw [ih _ m' (by rw [e1, e3, List.length_append, hlen]; rfl) h, e1, ← e2]
            simp
        · rename_i hlt
          rw [if_neg hlt]
          exact ih _ m' hlen h

/-- While an accepted MAP message is read, the coordinates handed to
`add_agent_grid_element` are the coordinates of the ships placed. -/
theorem parse_map_message_touched_ships (rules : Rules) (mapMessage : CStr) (m' : AgentMap)
    (h : parse_map_message (initialise_grids rules initialMap) rules mapMessage = (0, m')) :
    parse_map_message_touched (initialise_grids rules initialMap) rules mapMessage =
      (m'.agentShips.map (fun ship => ship.coordinates)).flatten := by
  unfold parse_map_message at h
  unfold parse_map_message_touched
  simp only [] at h ⊢
  split at h
  · exact absurd (Prod.mk.inj h).1 (by decide)
  · rename_i hp
    rw [if_neg hp]
    have := parse_map_message_loop_touched_ships rules _ _ m' (by rfl) h
    rw [this]
    rfl

/-- In every state reachable by accepted guesses the own grid of the map has the
size of the board. -/
theorem reachable_grid_shape (rules : Rules) (hv : rules.valid) (guesses : List CStr)
    (m : AgentMap) (sunk : Nat) (hreach : Reachable rules guesses m sunk) :
    m.agentGrid.length = rules.height.toNat ∧
    ∀ row ∈ m.agentGrid, row.length = rules.width.toNat := by
  induction hreach with
  | start mapMessage agentMap hrun =>
    obtain ⟨hinv, _⟩ := parse_map_message_spec rules hv mapMessage agentMap hrun
    exact ⟨hinv.rows, hinv.cols⟩
  | guess agent opponent c sunk hsub hacc ih =>
    obtain ⟨hinv, _⟩ := reachable_inv rules hv _ _ _ hsub
    obtain ⟨_, hnew⟩ := validate_coordinate_zero rules agent c hacc
    obtain ⟨i1, i2⟩ := ih
    by_cases hmiss : ∀ ship ∈ opponent.agentState.agentMap.agentShips, c ∉ ship.coordinates
    · rw [handle_valid_guess_miss rules agent opponent c hinv hnew hmiss]
      exact ⟨by dsimp only; rw [gridSet_length]; exact i1,
        gridSet_row_length _ _ _ _ _ i2⟩
    · push_neg at hmiss
      obtain ⟨target, hmem, hg⟩ := hmiss
      obtain ⟨k, hk⟩ := List.mem_iff_getElem?.mp hmem
      obtain ⟨_, heq⟩ := handle_valid_guess_hit_result rules agent opponent c hinv hnew
        k target hk hg
      rw [heq]
      exact ⟨by dsimp only; rw [gridSet_length]; exact i1,
        gridSet_row_length _ _ _ _ _ i2⟩

theorem playInv_indices (rules : Rules) (guesses : List CStr) (m : AgentMap)
    (hinv : PlayInv rules guesses m) (i : Nat) (hi : (i : Int) < rules.numberOfShips) :
    ∃ ship : Ship, m.agentShips[i]? = some ship ∧
      (ship.coordinates.length : Int) = rules.shipLengths.getD i 0 := by
  have hlt : i < m.agentShips.length := by
    have := hinv.ships
    omega
  exact ⟨m.agentShips[i], List.getElem?_eq_getElem hlt,
    (hinv.lengths i _ (List.getElem?_eq_getElem hlt)).1⟩

/-- C35: the coordinates handed to `add_agent_grid_element` while a MAP message
is read, whatever the message, lie on the board; for an accepted message they
are the coordinates of the ships placed, and the grid has the size of the
board.  For a guess accepted in a state reachable from an accepted map, the
cell `handle_valid_guess` writes lies on the board and inside the grid, the
opponent has `numberOfShips` ships and the rules as many lengths, and the ship
of every index below `numberOfShips` holds as many coordinates as the rules give
it, before and after the guess: the loops of `handle_valid_guess` over the
ships and their coordinates stay inside both. -/
theorem hub_accesses_stay_in_bounds (rules : Rules) (hv : rules.valid) :
    (∀ (agentMap : AgentMap) (mapMessage : CStr),
      ∀ c ∈ parse_map_message_touched agentMap rules mapMessage,
        0 ≤ (parse_coordinates c).2 ∧ (parse_coordinates c).2 < rules.height ∧
        0 ≤ (parse_coordinates c).1 ∧ (parse_coordinates c).1 < rules.width) ∧
    (∀ (mapMessage : CStr) (m' : AgentMap),
      parse_map_message (initialise_grids rules initialMap) rules mapMessage = (0, m') →
      parse_map_message_touched (initialise_grids rules initialMap) rules mapMessage =
        (m'.agentShips.map (fun ship => ship.coordinates)).flatten ∧
      m'.agentGrid.length = rules.height.toNat ∧
      ∀ row ∈ m'.agentGrid, row.length = rules.width.toNat) ∧
    (∀ (agent opponent : Agent) (sunk : Nat) (c : CStr),
      Reachable rules agent.agentState.agentGuesses opponent.agentState.agentMap sunk →
      validate_coordinate rules agent c = 0 →
      (0 ≤ (parse_coordinates c).2 ∧ (parse_coordinates c).2 < rules.height ∧
        0 ≤ (parse_coordinates c).1 ∧ (parse_coordinates c).1 < rules.width) ∧
      ((parse_coordinates c).2.toNat < opponent.agentState.agentMap.agentGrid.length ∧
        (parse_coordinates c).1.toNat <
          (opponent.agentState.agentMap.agentGrid.getD (parse_coordinates c).2.toNat
            []).length) ∧
      (opponent.agentState.agentMap.agentShips.length : Int) = rules.numberOfShips ∧
      (rules.shipLengths.length : Int) = rules.numberOfShips ∧
      ∀ i : Nat, (i : Int) < rules.numberOfShips →
        (∃ ship : Ship, opponent.agentState.agentMap.agentShips[i]? = some ship ∧
          (ship.coordinates.length : Int) = rules.shipLengths.getD i 0) ∧
        (∃ ship : Ship,
          (handle_valid_guess c rules agent opponent).2.agentState.agentMap.agentShips[i]? =
            some ship ∧
          (ship.coordinates.length : Int) = rules.shipLengths.getD i 0)) := by
  refine ⟨?_, ?_, ?_⟩
  · intro agentMap mapMessage c hc
    obtain ⟨b1, b2, b3, b4⟩ := check_coordinate_bounds_zero c rules
      (parse_map_message_touched_bounds agentMap rules mapMessage c hc)
    exact ⟨b3, b4, b1, b2⟩
  · intro mapMessage m' h
    obtain ⟨hinv, _⟩ := parse_map_message_spec rules hv mapMessage m' h
    exact ⟨parse_map_message_touched_ships rules mapMessage m' h, hinv.rows, hinv.cols⟩
  · intro agent opponent sunk c hreach hacc
    obtain ⟨hinv, _⟩ := reachable_inv rules hv _ _ _ hreach
    obtain ⟨hb, hnew⟩ := validate_coordinate_zero rules agent c hacc
    obtain ⟨b1, b2, b3, b4⟩ := check_coordinate_bounds_zero c rules hb
    obtain ⟨g1, g2⟩ := reachable_grid_shape rules hv _ _ _ hreach
    obtain ⟨hinv', _⟩ := handle_valid_guess_step rules agent opponent c hinv hnew
    have hrl : (parse_coordinates c).2.toNat < opponent.agentState.agentMap.agentGrid.length := by
      rw [g1]; omega
    refine ⟨⟨b3, b4, b1, b2⟩, ⟨hrl, ?_⟩, hinv.ships, hv.2.2.2.2.2.2.1, ?_⟩
    · rw [g2 _ (by
        rw [List.getD_eq_getElem?_getD, List.getElem?_eq_getElem hrl]
        exact List.getElem_mem _)]
      omega
    · intro i hi
      exact ⟨playInv_indices rules _ _ hinv i hi, playInv_indices rules _ _ hinv' i hi⟩

theorem hub_accesses_stay_in_bounds_witness :
    parse_map_message_touched (initialise_grids exampleRules2 initialMap) exampleRules2
        "MAP B1,S:A3,E".toList =
      ["B1".toList, "B2".toList, "A3".toList, "B3".toList, "C3".toList] ∧
    parse_map_message_touched (initialise_grids exampleRules2 initialMap) exampleRules2
        "MAP B1,S:A2,E".toList =
      ["B1".toList, "B2".toList, "A2".toList, "B2".toList] ∧
    parse_map_message_touched (initialise_grids exampleRules2 initialMap) exampleRules2
        "MAP B1,S:A3,E".toList =
      (exampleMap2.agentShips.map (fun ship => ship.coordinates)).flatten ∧
    ∀ c ∈ parse_map_message_touched (initialise_grids exampleRules2 initialMap) exampleRules2
        "MAP B1,S:A2,E".toList,
      0 ≤ (parse_coordinates c).2 ∧ (parse_coordinates c).2 < exampleRules2.height ∧
      0 ≤ (parse_coordinates c).1 ∧ (parse_coordinates c).1 < exampleRules2.width :=
  ⟨by decide, by decide,
   ((hub_accesses_stay_in_bounds exampleRules2 (by decide)).2.1 "MAP B1,S:A3,E".toList
      exampleMap2 (by decide)).1,
   (hub_accesses_stay_in_bounds exampleRules2 (by decide)).1
      (initialise_grids exampleRules2 initialMap) "MAP B1,S:A2,E".toList⟩

/-! ### The guesses of agent A -/

theorem charAdd_ofNat : ∀ n : Nat, 65 ≤ n → n < 91 →
    charAdd (Char.ofNat n) 1 = Char.ofNat (n + 1) ∧
    charAdd (Char.ofNat n) (-1) = Char.ofNat (n - 1) ∧
    charAdd (Char.ofNat n) 1 ≠ '\x00' ∧ charAdd (Char.ofNat n) (-1) ≠ '\x00' ∧
    charVal (Char.ofNat n) = n := by
  decide

theorem fmtInt_small : ∀ k : Nat, k < 28 →
    atoi (fmtInt (k : Int)) = (k : Int) ∧ 1 ≤ (fmtInt (k : Int)).length ∧
    (fmtInt (k : Int)).length ≤ 2 := by
  decide

theorem cell_text_row (col row : Nat) (hr : row < 27) :
    atoi (parse_coordinate_row (cell_text (col, row))) = (row : Int) + 1 ∧
    1 ≤ (fmtInt ((row : Int) + 1)).length ∧ (fmtInt ((row : Int) + 1)).length ≤ 2 := by
  have := fmtInt_small (row + 1) (by omega)
  have e : ((row + 1 : Nat) : Int) = (row : Int) + 1 := by push_cast; rfl
  rw [e] at this
  exact this

theorem cell_text_first (col row : Nat) (hc : col < 26) :
    firstChar (cell_text (col, row)) = 65 + (col : Int) := by
  have := (charAdd_ofNat (65 + col) (by omega) (by omega)).2.2.2.2
  show charVal (Char.ofNat (65 + col)) = _
  rw [this]
  push_cast
  rfl

theorem increment_row_text (col row : Nat) (hr : row < 26) :
    increment_row (cell_text (col, row)) 1 = cell_text (col, row + 1) := by
  obtain ⟨h1, h2, _⟩ := cell_text_row col row (by omega)
  obtain ⟨_, _, h3⟩ := cell_text_row col (row + 1) (by omega)
  have e : ((row + 1 : Nat) : Int) + 1 = (row : Int) + 1 + 1 := by push_cast; rfl
  rw [e] at h3
  show List.take ((cell_text (col, row)).length + 1)
    (Char.ofNat (65 + col) ::
      fmtInt (atoi (parse_coordinate_row (cell_text (col, row))) + 1)) = _
  rw [h1, List.take_of_length_le]
  · show _ = Char.ofNat (65 + col) :: fmtInt (((row + 1 : Nat) : Int) + 1)
    rw [e]
  · show (fmtInt ((row : Int) + 1 + 1)).length + 1 ≤ (fmtInt ((row : Int) + 1)).length + 1 + 1
    omega

theorem increment_column_text (col row : Nat) (hc : col < 26) :
    (col + 1 < 26 → increment_column (cell_text (col, row)) 1 = cell_text (col + 1, row)) ∧
    (1 ≤ col → increment_column (cell_text (col, row)) (-1) = cell_text (col - 1, row)) := by
  obtain ⟨h1, h2, h3, h4, _⟩ := charAdd_ofNat (65 + col) (by omega) (by omega)
  constructor
  · intro _
    show (if charAdd (Char.ofNat (65 + col)) 1 = '\x00' then []
      else charAdd (Char.ofNat (65 + col)) 1 :: fmtInt ((row : Int) + 1)) = _
    rw [if_neg h3, h1]
    rfl
  · intro hpos
    show (if charAdd (Char.ofNat (65 + col)) (-1) = '\x00' then []
      else charAdd (Char.ofNat (65 + col)) (-1) :: fmtInt ((row : Int) + 1)) = _
    rw [if_neg h4, h2]
    have : 65 + col - 1 = 65 + (col - 1) := by omega
    rw [this]
    rfl

theorem succ_div_mod (w n : Nat) (hw : 0 < w) :
    (n % w + 1 < w → (n + 1) / w = n / w ∧ (n + 1) % w = n % w + 1) ∧
    (n % w + 1 = w → (n + 1) / w = n / w + 1 ∧ (n + 1) % w = 0) := by
  have hdm := Nat.div_add_mod n w
  constructor
  · intro hlt
    have e : n + 1 = (n % w + 1) + w * (n / w) := by omega
    rw [e, Nat.add_mul_div_left _ _ hw, Nat.add_mul_mod_self_left,
      Nat.div_eq_of_lt hlt, Nat.mod_eq_of_lt hlt]
    omega
  · intro heq
    have e : n + 1 = 0 + w * (n / w + 1) := by
      rw [Nat.mul_add]; omega
    rw [e, Nat.add_mul_div_left _ _ hw, Nat.add_mul_mod_self_left]
    simp [Nat.mod_eq_of_lt hw]

/-- One call of `make_guess` after the guess at cell number `n` of the
boustrophedon order gives the guess at cell number `n + 1`. -/
theorem make_guess_step (rules : Rules) (hv : rules.valid) (guesses : List CStr) (n : Nat)
    (hn : n < rules.width.toNat * rules.height.toNat) :
    make_guess rules (guesses ++ [cell_text (boustrophedon_cell rules.width.toNat n)]) =
      guesses ++ [cell_text (boustrophedon_cell rules.width.toNat n)] ++
        [cell_text (boustrophedon_cell rules.width.toNat (n + 1))] := by
  obtain ⟨w1, w2, h1, h2, _⟩ := hv
  simp only [MIN_BOARD_WIDTH, MAX_BOARD_WIDTH, MIN_BOARD_HEIGHT, MAX_BOARD_HEIGHT] at w1 w2 h1 h2
  have hw : 0 < rules.width.toNat := by omega
  have hwidth : rules.width = (rules.width.toNat : Int) := by omega
  have hk : n % rules.width.toNat < rules.width.toNat := Nat.mod_lt _ hw
  have hq : n / rules.width.toNat < rules.height.toNat :=
    (Nat.div_lt_iff_lt_mul hw).mpr (by rw [Nat.mul_comm]; exact hn)
  have hq26 : n / rules.width.toNat < 26 := by omega
  obtain ⟨s1, s2⟩ := succ_div_mod rules.width.toNat n hw
  unfold make_guess
  rw [getLast?_snoc]
  simp only []
  congr 1
  congr 1
  generalize hW : rules.width.toNat = W at *
  unfold boustrophedon_cell
  have hnn : (0 : Int) ≤ ((n / W : Nat) : Int) := Int.ofNat_nonneg _
  by_cases hpar : (n / W) % 2 = 0
  · rw [if_pos hpar]
    obtain ⟨r1, _, _⟩ := cell_text_row (n % W) (n / W) (by omega)
    rw [r1, cell_text_first _ _ (by omega)]
    have hodd : Int.tmod ((n / W : Nat) + 1 : Int) 2 = 1 := by
      rw [@Int.tmod_eq_emod (((n / W : Nat) : Int) + 1) 2 (by omega) (by omega)]
      omega
    rw [if_pos hodd]
    by_cases hend : n % W + 1 = W
    · obtain ⟨d1, d2⟩ := s2 hend
      rw [if_pos (by unfold ROW_OFFSET; omega), increment_row_text _ _ hq26, d1, d2,
        if_neg (by omega)]
      congr 2
      omega
    · obtain ⟨d1, d2⟩ := s1 (by omega)
      rw [if_neg (by unfold ROW_OFFSET; omega),
        (increment_column_text _ _ (by omega)).1 (by omega), d1, d2, if_pos hpar]
  · rw [if_neg hpar]
    obtain ⟨r1, _, _⟩ := cell_text_row (W - 1 - n % W) (n / W) (by omega)
    rw [r1, cell_text_first _ _ (by omega)]
    have hodd : ¬ Int.tmod ((n / W : Nat) + 1 : Int) 2 = 1 := by
      rw [@Int.tmod_eq_emod (((n / W : Nat) : Int) + 1) 2 (by omega) (by omega)]
      omega
    have heven : Int.tmod ((n / W : Nat) + 1 : Int) 2 = 0 := by
      rw [@Int.tmod_eq_emod (((n / W : Nat) : Int) + 1) 2 (by omega) (by omega)]
      omega
    rw [if_neg hodd, if_pos heven]
    have hA : charVal 'A' = 65 := by decide
    rw [hA]
    by_cases hend : n % W + 1 = W
    · obtain ⟨d1, d2⟩ := s2 hend
      rw [if_pos (by omega), increment_row_text _ _ hq26, d1, d2, if_pos (by omega)]
      congr 2
      omega
    · obtain ⟨d1, d2⟩ := s1 (by omega)
      rw [if_neg (by omega), (increment_column_text _ _ (by omega)).2 (by omega), d1, d2,
        if_neg hpar]
      congr 2

theorem parse_coordinates_cell_text (col row : Nat) (hc : col < 26) (hr : row < 27) :
    parse_coordinates (cell_text (col, row)) = ((col : Int), (row : Int)) := by
  unfold parse_coordinates
  rw [cell_text_first col row hc, (cell_text_row col row hr).1]
  have hA : charVal 'A' = 65 := by decide
  rw [hA]
  congr 1 <;> omega

theorem make_guesses_length (rules : Rules) (n : Nat) :
    (make_guesses rules n).length = n := by
  induction n with
  | zero => rfl
  | succ n ih =>
    show (make_guess rules (make_guesses rules n)).length = n + 1
    unfold make_guess
    split <;> simp [ih]

/-- The guesses of agent A are the cells of the board in boustrophedon order,
up to the first guess below the board. -/
theorem make_guesses_cells (rules : Rules) (hv : rules.valid) :
    ∀ n : Nat, n ≤ rules.width.toNat * rules.height.toNat + 1 →
      make_guesses rules n =
        (List.range n).map (fun k => cell_text (boustrophedon_cell rules.width.toNat k)) := by
  have hw : 0 < rules.width.toNat := by
    obtain ⟨w1, _⟩ := hv
    simp only [MIN_BOARD_WIDTH] at w1
    omega
  intro n
  induction n with
  | zero => intro _; rfl
  | succ n ih =>
    intro hn
    cases n with
    | zero =>
      show make_guess rules [] = [cell_text (boustrophedon_cell rules.width.toNat 0)]
      have e : boustrophedon_cell rules.width.toNat 0 = (0, 0) := by
        simp [boustrophedon_cell]
      rw [e]
      rfl
    | succ m =>
      have e := ih (by omega)
      show make_guess rules (make_guesses rules (m + 1)) = _
      rw [e, List.range_succ, List.map_append, List.map_cons, List.map_nil,
        make_guess_step rules hv _ m (by omega)]
      rw [List.range_succ (m + 1), List.map_append, List.range_succ, List.map_append]
      rfl

theorem boustrophedon_cell_bounds (w h n : Nat) (hw : 0 < w) (hn : n < w * h) :
    (boustrophedon_cell w n).1 < w ∧ (boustrophedon_cell w n).2 < h := by
  have hk : n % w < w := Nat.mod_lt _ hw
  have hq : n / w < h := (Nat.div_lt_iff_lt_mul hw).mpr (by rw [Nat.mul_comm]; exact hn)
  unfold boustrophedon_cell
  constructor
  · show (if (n / w) % 2 = 0 then n % w else w - 1 - n % w) < w
    split <;> omega
  · exact hq

theorem boustrophedon_cell_injective (w n m : Nat) (hw : 0 < w)
    (h : boustrophedon_cell w n = boustrophedon_cell w m) : n = m := by
  have hk : n % w < w := Nat.mod_lt _ hw
  have hk' : m % w < w := Nat.mod_lt _ hw
  unfold boustrophedon_cell at h
  obtain ⟨h1, h2⟩ := Prod.mk.inj h
  rw [h2] at h1
  have hmod : n % w = m % w := by
    split at h1 <;> omega
  rw [← Nat.div_add_mod n w, ← Nat.div_add_mod m w, h2, hmod]

theorem boustrophedon_cell_number (w h col row : Nat) (hc : col < w) (hr : row < h) :
    row * w + (if row % 2 = 0 then col else w - 1 - col) < w * h ∧
    boustrophedon_cell w (row * w + (if row % 2 = 0 then col else w - 1 - col)) =
      (col, row) := by
  have hw : 0 < w := by omega
  have hlt : (if row % 2 = 0 then col else w - 1 - col) < w := by split <;> omega
  constructor
  · calc row * w + (if row % 2 = 0 then col else w - 1 - col)
        < row * w + w := by omega
      _ = (row + 1) * w := by rw [Nat.add_mul, Nat.one_mul]
      _ ≤ h * w := Nat.mul_le_mul_right w (by omega)
      _ = w * h := Nat.mul_comm _ _
  · unfold boustrophedon_cell
    have e : row * w + (if row % 2 = 0 then col else w - 1 - col) =
        (if row % 2 = 0 then col else w - 1 - col) + w * row := by
      rw [Nat.mul_comm]; omega
    rw [e, Nat.add_mul_div_left _ _ hw, Nat.add_mul_mod_self_left, Nat.div_eq_of_lt hlt,
      Nat.mod_eq_of_lt hlt, Nat.zero_add]
    by_cases hp : row % 2 = 0
    · rw [if_pos hp, if_pos hp]
    · rw [if_neg hp, if_neg hp]
      congr 1
      omega

theorem cell_text_well_formed : ∀ col : Fin 26, ∀ row : Fin 26,
    check_valid_coordinates (cell_text (col.val, row.val)) = (0, cell_text (col.val, row.val)) := by
  decide

/-- C40: for valid rules with width `w` and height `h`, the first `w * h`
guesses that `make_guess` of agent A produces are the cells of the board in
boustrophedon order (rows from the top, a row of odd number from left to right,
a row of even number from right to left), `A1` first; they are well-formed
coordinates inside the board, pairwise distinct as texts and as cells, and
every cell of the board is among them. -/
theorem make_guess_covers_board_in_boustrophedon_order (rules : Rules) (w h : Nat)
    (hv : rules.valid) (hw : rules.width = (w : Int)) (hh : rules.height = (h : Int)) :
    (make_guesses rules (w * h)).length = w * h ∧
    make_guesses rules (w * h) =
      (List.range (w * h)).map (fun n => cell_text (boustrophedon_cell w n)) ∧
    (make_guesses rules (w * h)).map parse_coordinates =
      (List.range (w * h)).map
        (fun n => (((boustrophedon_cell w n).1 : Int), ((boustrophedon_cell w n).2 : Int))) ∧
    (make_guesses rules (w * h)).head? = some "A1".toList ∧
    (make_guesses rules (w * h)).Nodup ∧
    ((make_guesses rules (w * h)).map parse_coordinates).Nodup ∧
    (∀ g ∈ make_guesses rules (w * h),
      check_valid_coordinates g = (0, g) ∧ check_coordinate_bounds g rules = 0) ∧
    (∀ col row : Nat, col < w → row < h →
      ((col : Int), (row : Int)) ∈ (make_guesses rules (w * h)).map parse_coordinates) := by
  have hwn : rules.width.toNat = w := by omega
  have hhn : rules.height.toNat = h := by omega
  have hcells := make_guesses_cells rules hv (w * h) (by rw [hwn, hhn]; omega)
  rw [hwn] at hcells
  obtain ⟨w1, w2, h1, h2, _⟩ := hv
  simp only [MIN_BOARD_WIDTH, MAX_BOARD_WIDTH, MIN_BOARD_HEIGHT, MAX_BOARD_HEIGHT] at w1 w2 h1 h2
  have hwpos : 0 < w := by omega
  have hbound : ∀ n, n < w * h →
      (boustrophedon_cell w n).1 < w ∧ (boustrophedon_cell w n).2 < h :=
    fun n hn => boustrophedon_cell_bounds w h n hwpos hn
  have hparse : (make_guesses rules (w * h)).map parse_coordinates =
      (List.range (w * h)).map
        (fun n => (((boustrophedon_cell w n).1 : Int), ((boustrophedon_cell w n).2 : Int))) := by
    rw [hcells, List.map_map]
    apply List.map_congr_left
    intro n hn
    obtain ⟨b1, b2⟩ := hbound n (List.mem_range.mp hn)
    exact parse_coordinates_cell_text (boustrophedon_cell w n).1 (boustrophedon_cell w n).2
      (by omega) (by omega)
  have hnodup : ((make_guesses rules (w * h)).map parse_coordinates).Nodup := by
    rw [hparse]
    apply List.Nodup.map_on _ (List.nodup_range _)
    intro n _ m _ hnm
    obtain ⟨e1, e2⟩ := Prod.mk.inj hnm
    exact boustrophedon_cell_injective w n m hwpos
      (Prod.ext (Int.ofNat_inj.mp e1) (Int.ofNat_inj.mp e2))
  refine ⟨make_guesses_length rules _, hcells, hparse, ?_, hnodup.of_map _, hnodup, ?_, ?_⟩
  · obtain ⟨k, hk⟩ : ∃ k, w * h = k + 1 :=
      ⟨w * h - 1, by have : 0 < w * h := Nat.mul_pos hwpos (by omega); omega⟩
    rw [hcells, hk, List.range_succ_eq_map]
    have e : boustrophedon_cell w 0 = (0, 0) := by simp [boustrophedon_cell]
    simp only [List.map_cons, List.head?_cons, e]
    rfl
  · intro g hg
    rw [hcells] at hg
    obtain ⟨n, hn, rfl⟩ := List.mem_map.mp hg
    obtain ⟨b1, b2⟩ := hbound n (List.mem_range.mp hn)
    constructor
    · exact cell_text_well_formed ⟨(boustrophedon_cell w n).1, by omega⟩
        ⟨(boustrophedon_cell w n).2, by omega⟩
    · unfold check_coordinate_bounds
      have e := parse_coordinates_cell_text (boustrophedon_cell w n).1
        (boustrophedon_cell w n).2 (by omega) (by omega)
      simp only []
      rw [e, if_neg]
      simp only []
      omega
  · intro col row hc hr
    obtain ⟨n1, n2⟩ := boustrophedon_cell_number w h col row hc hr
    rw [hparse]
    refine List.mem_map.mpr ⟨_, List.mem_range.mpr n1, ?_⟩
    rw [n2]

theorem make_guess_covers_board_in_boustrophedon_order_witness :
    (make_guesses exampleRules 9).length = 9 ∧
    make_guesses exampleRules 9 =
      (List.range 9).map (fun n => cell_text (boustrophedon_cell 3 n)) ∧
    (make_guesses exampleRules 9).map parse_coordinates =
      (List.range 9).map
        (fun n => (((boustrophedon_cell 3 n).1 : Int), ((boustrophedon_cell 3 n).2 : Int))) ∧
    (make_guesses exampleRules 9).head? = some "A1".toList ∧
    (make_guesses exampleRules 9).Nodup ∧
    ((make_guesses exampleRules 9).map parse_coordinates).Nodup ∧
    (∀ g ∈ make_guesses exampleRules 9,
      check_valid_coordinates g = (0, g) ∧ check_coordinate_bounds g exampleRules = 0) ∧
    (∀ col row : Nat, col < 3 → row < 3 →
      ((col : Int), (row : Int)) ∈ (make_guesses exampleRules 9).map parse_coordinates) :=
  make_guess_covers_board_in_boustrophedon_order exampleRules 3 3 (by decide) rfl rfl

/-- The nine guesses of agent A on the board of three columns and three rows. -/
theorem make_guesses_three_by_three :
    make_guesses exampleRules 9 =
      ["A1", "B1", "C1", "C2", "B2", "A2", "A3", "B3", "C3"].map String.toList := by
  decide

/-! ### The MAP message of an agent -/

theorem split_string_loop_chars (delimiter : Char) (removeWhitespace : Bool) :
    ∀ (line seg : CStr) (afterText : Bool),
      ∀ t ∈ split_string_loop delimiter removeWhitespace line seg afterText,
        ∀ c ∈ t, c ∈ seg ∨ c ∈ line := by
  intro line
  induction line with
  | nil =>
    intro seg afterText t ht c hc
    rw [split_string_loop] at ht
    split at ht
    · rw [List.mem_singleton.mp ht] at hc; exact Or.inl hc
    · simp at ht
  | cons x rest ih =>
    intro seg afterText t ht c hc
    rw [split_string_loop] at ht
    split at ht
    · rcases List.mem_cons.mp ht with e | hm
      · rw [e] at hc; exact Or.inl hc
      · rcases ih _ _ t hm c hc with h | h
        · simp at h
        · exact Or.inr (List.mem_cons_of_mem _ h)
    · split at ht
      · rcases ih _ _ t ht c hc with h | h
        · rcases List.mem_append.mp h with h1 | h1
          · exact Or.inl h1
          · rw [List.mem_singleton.mp h1]; exact Or.inr (List.mem_cons_self _ _)
        · exact Or.inr (List.mem_cons_of_mem _ h)
      · rcases ih _ _ t ht c hc with h | h
        · exact Or.inl h
        · exact Or.inr (List.mem_cons_of_mem _ h)

theorem split_string_chars (line : CStr) (delimiter : Char) (removeWhitespace : Bool) :
    ∀ t ∈ split_string line delimiter removeWhitespace, ∀ c ∈ t, c ∈ line := by
  intro t ht c hc
  rcases split_string_loop_chars delimiter removeWhitespace line [] _ t ht c hc with h | h
  · simp at h
  · exact h

theorem parse_file_loop_chars :
    ∀ (file textLine : List Char), '\n' ∉ textLine →
      ∀ l ∈ parse_file_loop file textLine, ∀ c ∈ l, c ≠ '\n' ∧ c ≠ '\x00' := by
  intro file
  induction file with
  | nil =>
    intro textLine hno l hl c hc
    rw [parse_file_loop] at hl
    split at hl
    · rw [List.mem_singleton.mp hl] at hc
      refine ⟨fun e => hno (e ▸ (List.takeWhile_sublist _).subset hc), ?_⟩
      simpa using List.mem_takeWhile_imp hc
    · simp at hl
  | cons next rest ih =>
    intro textLine hno l hl c hc
    rw [parse_file_loop] at hl
    split at hl
    · rcases List.mem_cons.mp hl with e | hm
      · rw [e] at hc
        refine ⟨fun e => hno (e ▸ (List.takeWhile_sublist _).subset hc), ?_⟩
        simpa using List.mem_takeWhile_imp hc
      · exact ih [] (by simp) l hm c hc
    · rename_i hne
      refine ih (textLine ++ [next]) ?_ l hl c hc
      intro hmem
      rcases List.mem_append.mp hmem with h | h
      · exact hno h
      · exact hne (List.mem_singleton.mp h).symm

theorem strtrim_mem (s : CStr) : ∀ c ∈ strtrim s, c ∈ s := by
  intro c hc
  rw [strtrim_eq] at hc
  exact (List.rdropWhile_prefix isspace s).subset ((List.dropWhile_suffix isspace).subset hc)

theorem entry_direction_convert (direction : Direction) :
    entry_direction [convert_direction direction] = some direction := by
  cases direction <;> decide

theorem convert_direction_char (direction : Direction) :
    isspace (convert_direction direction) = false ∧ convert_direction direction ≠ ',' ∧
    convert_direction direction ≠ ':' ∧ convert_direction direction ≠ '\n' ∧
    convert_direction direction ≠ '\x00' ∧ convert_direction direction ≠ '%' := by
  cases direction <;> decide

theorem accepted_coordinate_plain (c : CStr) (h : (check_valid_coordinates c).1 = 0) :
    ∀ x ∈ strtrim c, x ≠ '%' := by
  obtain ⟨hlen, hfirst, hrest, _, _⟩ := check_valid_coordinates_accepted c h
  cases ht : strtrim c with
  | nil => intro x hx; simp at hx
  | cons a rest =>
    rw [ht] at hfirst hrest
    intro x hx
    rcases List.mem_cons.mp hx with e | hm
    · rw [e]
      intro e2
      rw [e2] at hfirst
      exact absurd (show (65 : Int) ≤ charVal '%' from hfirst) (by decide)
    · have := strtol_consumed rest hrest x hm
      rcases this with h1 | h1 | h1 | h1
      · intro e2; rw [e2] at h1; exact absurd h1 (by decide)
      · rw [h1]; decide
      · rw [h1]; decide
      · intro e2; rw [e2] at h1; exact absurd h1 (by decide)

theorem parse_input_loop_line (body rest : List Char) (h : '\n' ∉ body) :
    ∀ input : CStr, parse_input_loop (body ++ '\n' :: rest) input = (input ++ body, false, rest) := by
  induction body with
  | nil => intro input; simp [parse_input_loop]
  | cons c cs ih =>
    intro input
    have hc : c ≠ '\n' := fun e => h (e ▸ List.mem_cons_self _ _)
    rw [List.cons_append, parse_input_loop, if_neg hc,
      ih (fun hm => h (List.mem_cons_of_mem _ hm))]
    simp

/-- The ships that `parse_map_file` adds from the lines of the file are added
again, to the same map, by the loop of `parse_map_message` run on their
entries. -/
theorem parse_map_file_loop_replay (rules : Rules) (hv : rules.valid) :
    ∀ (lines : List CStr) (m m' : AgentMap), MapInv rules m →
      (m.shipsAdded : Int) ≤ rules.numberOfShips →
      (∀ line ∈ lines, ∀ c ∈ line, c ≠ '\n' ∧ c ≠ '\x00') →
      parse_map_file_loop rules lines m = (0, m') →
      ∃ newShips : List Ship, m'.agentShips = m.agentShips ++ newShips ∧
        (m'.shipsAdded : Int) = rules.numberOfShips ∧
        m'.agentShips.length = m'.shipsAdded ∧
        (∀ ship ∈ newShips, check_valid_coordinates (ship.coordinates.getD 0 []) =
            (0, ship.coordinates.getD 0 []) ∧
          ∀ x ∈ ship.coordinates.getD 0 [], x ≠ '\n' ∧ x ≠ '\x00') ∧
        parse_map_message_loop rules (newShips.map ship_entry) m = (0, m') := by
  obtain ⟨_, w2, _, h2, _, n2, _, _⟩ := hv
  simp only [MAX_BOARD_WIDTH, MAX_BOARD_HEIGHT, MAX_SHIPS] at w2 h2 n2
  intro lines
  induction lines with
  | nil =>
    intro m m' hinv _ _ hrun
    rw [parse_map_file_loop] at hrun
    by_cases hcount : (m.shipsAdded : Int) ≠ rules.numberOfShips
    · rw [if_pos hcount] at hrun
      exact absurd (show (1 : Int) = 0 from congrArg Prod.fst hrun) (by decide)
    · rw [if_neg hcount] at hrun
      have hm : m' = m := (congrArg Prod.snd hrun).symm
      subst hm
      refine ⟨[], (List.append_nil _).symm, not_not.mp hcount, hinv.count, by simp, ?_⟩
      rw [List.map_nil, parse_map_message_loop, if_neg hcount]
  | cons line rest ih =>
    intro m m' hinv hle hclean hrun
    have hrest : ∀ l ∈ rest, ∀ c ∈ l, c ≠ '\n' ∧ c ≠ '\x00' :=
      fun l hl => hclean l (List.mem_cons_of_mem _ hl)
    rw [parse_map_file_loop] at hrun
    simp only [] at hrun
    by_cases hcom : firstChar ((split_string line ' ' true).getD 0 []) = charVal COMMENT_MARKER
    · rw [if_pos hcom] at hrun
      exact ih m m' hinv hle hrest hrun
    · rw [if_neg hcom] at hrun
      by_cases hbad : (split_string line ' ' true).length ≠ MAP_TOKEN_LINE_LENGTH ∨
          (check_valid_coordinates ((split_string line ' ' true).getD 0 [])).1 ≠ 0
      · rw [if_pos hbad] at hrun
        exact absurd (show (1 : Int) = 0 from congrArg Prod.fst hrun) (by decide)
      · rw [if_neg hbad] at hrun
        obtain ⟨hlen, hok⟩ := not_or.mp hbad
        have hlen2 : (split_string line ' ' true).length = 2 := not_not.mp hlen
        have hok0 : (check_valid_coordinates ((split_string line ' ' true).getD 0 [])).1 = 0 :=
          not_not.mp hok
        by_cases hmore : (m.shipsAdded : Int) < rules.numberOfShips
        · rw [if_pos hmore] at hrun
          generalize htok : (split_string line ' ' true).getD 0 [] = token at hrun hok0
          generalize hdir : (split_string line ' ' true).getD 1 [] = dirToken at hrun
          have htokmem : token ∈ split_string line ' ' true := by
            rw [← htok, List.getD_eq_getElem _ _ (by omega)]
            exact List.getElem_mem _
          rw [check_valid_coordinates_snd] at hrun
          by_cases hr : (handle_agent_ship_direction (strtrim token) dirToken m rules).1 ≠ 0
          · rw [if_pos hr] at hrun
            exact absurd (congrArg Prod.fst hrun) hr
          · rw [if_neg hr] at hrun
            have hr0 := not_not.mp hr
            rw [handle_agent_ship_direction_eq] at hr0 hrun
            cases hd : entry_direction dirToken with
            | none =>
              rw [hd] at hr0
              exact absurd (show (1 : Int) = 0 from hr0) (by decide)
            | some d =>
              rw [hd] at hr0 hrun
              simp only [] at hr0 hrun
              have hnat : m.shipsAdded < 15 := by omega
              obtain ⟨inv', hadd, _, _, ship, s1, s2, _, s3, _⟩ :=
                add_agent_ship_spec rules d m (add_agent_ship m (strtrim token) d rules).2
                  (strtrim token) w2 h2 hinv hnat (Prod.ext hr0 rfl)
              obtain ⟨ships', e1, e2, e3, e4, e5⟩ :=
                ih _ m' inv' (by rw [hadd]; push_cast; omega) hrest hrun
              have hc0 : ship.coordinates.getD 0 [] = strtrim token := by
                cases hcs : ship.coordinates with
                | nil => rw [hcs] at s3; simp at s3
                | cons a l => rw [hcs] at s3; simpa using s3
              have hvalid : check_valid_coordinates (strtrim token) = (0, strtrim token) := by
                rw [check_valid_coordinates_trimmed]
                exact Prod.ext hok0 (check_valid_coordinates_snd token)
              refine ⟨ship :: ships', ?_, e2, e3, ?_, ?_⟩
              · rw [e1, s1, List.append_assoc, List.singleton_append]
              · intro sh hsh
                rcases List.mem_cons.mp hsh with e | hm
                · rw [e, hc0]
                  refine ⟨hvalid, fun x hx => ?_⟩
                  exact hclean line (List.mem_cons_self _ _) x
                    (split_string_chars line ' ' true token htokmem x (strtrim_mem token x hx))
                · exact e4 sh hm
              · have hsplit : split_string (ship_entry ship) ',' false =
                    [strtrim token, [convert_direction d]] := by
                  unfold ship_entry
                  rw [hc0, s2]
                  exact split_string_id_coordinate (strtrim token) [convert_direction d]
                    (fun hm => (accepted_coordinate_chars token hok0 _ hm).1 rfl)
                    (fun hm => (convert_direction_char d).2.1 (List.mem_singleton.mp hm).symm)
                rw [List.map_cons, parse_map_message_loop]
                simp only []
                rw [hsplit]
                have hlenq : ¬ ([strtrim token, [convert_direction d]].length ≠
                    MAP_TOKEN_LINE_LENGTH) := fun hq => hq rfl
                rw [if_neg hlenq]
                simp only [List.getD_cons_zero, List.getD_cons_succ]
                rw [hvalid]
                simp only []
                rw [if_neg (by decide), if_pos hmore, handle_agent_ship_direction_eq,
                  entry_direction_convert]
                simp only []
                rw [if_neg (fun hq => hq hr0)]
                exact e5
        · rw [if_neg hmore] at hrun
          exact ih m m' hinv hle hrest hrun

theorem send_map_message_fold (ships : List Ship) (start : CStr) :
    ∀ k : Nat, k ≤ ships.length →
      (List.range k).foldl
        (fun message i =>
          message ++ ((ships.getD i
              { coordinates := [], hits := 0, length := 0, direction := .NORTH }).coordinates.getD
                0 [] ++
            [',', convert_direction (ships.getD i
              { coordinates := [], hits := 0, length := 0, direction := .NORTH }).direction, ':']))
        start =
      start ++ ((ships.take k).map (fun ship => ship_entry ship ++ [':'])).flatten := by
  intro k
  induction k with
  | zero => intro _; simp
  | succ k ih =>
    intro hk
    have hk' : k < ships.length := by omega
    have hg : ∀ d : Ship, ships.getD k d = ships[k] := fun d => List.getD_eq_getElem _ _ hk'
    rw [List.range_succ, List.foldl_append, ih (by omega), List.foldl_cons, List.foldl_nil,
      hg, List.take_succ, List.getElem?_eq_getElem hk']
    simp only [Option.toList, List.map_append, List.flatten_append, List.map_cons, List.map_nil,
      List.flatten_cons, List.flatten_nil, List.append_nil, List.append_assoc, ship_entry,
      List.cons_append, List.nil_append]

theorem flatten_colon_terminated (e : CStr) (es : List CStr) :
    (List.map (fun x => x ++ [':']) (e :: es)).flatten = [':'].intercalate (e :: es) ++ [':'] := by
  induction es generalizing e with
  | nil => simp [List.intercalate]
  | cons a es ih =>
    have := ih a
    simp only [List.map_cons, List.flatten_cons] at this ⊢
    rw [this]
    simp [List.intercalate, List.intersperse]

theorem intercalate_colon_mem (es : List CStr) :
    ∀ x ∈ [':'].intercalate es, x = ':' ∨ ∃ e ∈ es, x ∈ e := by
  intro x hx
  cases es with
  | nil => simp [List.intercalate] at hx
  | cons e es =>
    have hmem : x ∈ (List.map (fun x => x ++ [':']) (e :: es)).flatten := by
      rw [flatten_colon_terminated]
      exact List.mem_append_left _ hx
    obtain ⟨l, hl, hxl⟩ := List.mem_flatten.mp hmem
    obtain ⟨e', he', rfl⟩ := List.mem_map.mp hl
    rcases List.mem_append.mp hxl with h | h
    · exact Or.inr ⟨e', he', h⟩
    · exact Or.inl (List.mem_singleton.mp h)

theorem intercalate_colon_last (es : List CStr) (l : CStr) :
    ∃ front : CStr, [':'].intercalate (es ++ [l]) = front ++ l := by
  induction es with
  | nil => exact ⟨[], by simp [List.intercalate]⟩
  | cons e es ih =>
    obtain ⟨front, hf⟩ := ih
    refine ⟨e ++ ':' :: front, ?_⟩
    cases es with
    | nil =>
      simp only [List.nil_append] at hf
      simp [List.intercalate, List.intersperse] at hf ⊢
      rw [← hf]
    | cons a es =>
      simp only [List.cons_append] at hf ⊢
      simp only [List.intercalate, List.intersperse, List.flatten_cons, List.append_assoc,
        List.singleton_append] at hf ⊢
      rw [hf]
      simp

/-- The text of `send_map_message` for as many ships as the rules ask for: the
entries of the ships, separated by colons. -/
theorem send_map_message_text (ships : List Ship) (numberOfShips : Int) (hne : ships ≠ [])
    (hn : numberOfShips.toNat = ships.length) :
    send_map_message ships numberOfShips =
      "MAP ".toList ++ [':'].intercalate (ships.map ship_entry) ++ ['\n'] := by
  unfold send_map_message
  simp only []
  rw [send_map_message_fold ships _ _ (by omega), hn, List.take_length]
  cases ships with
  | nil => exact absurd rfl hne
  | cons a l =>
    have e : List.map (fun ship => ship_entry ship ++ [':']) (a :: l) =
        List.map (fun x => x ++ [':']) (ship_entry a :: l.map ship_entry) := by
      simp
    rw [e, flatten_colon_terminated, ← List.append_assoc, List.dropLast_concat]
    rfl

theorem ship_entry_chars (ship : Ship)
    (hc : check_valid_coordinates (ship.coordinates.getD 0 []) = (0, ship.coordinates.getD 0 []))
    (hclean : ∀ x ∈ ship.coordinates.getD 0 [], x ≠ '\n' ∧ x ≠ '\x00') :
    ∀ x ∈ ship_entry ship, x ≠ '\n' ∧ x ≠ '\x00' ∧ x ≠ '%' ∧ x ≠ ':' := by
  have h1 : (check_valid_coordinates (ship.coordinates.getD 0 [])).1 = 0 := by rw [hc]
  have h2 : strtrim (ship.coordinates.getD 0 []) = ship.coordinates.getD 0 [] := by
    rw [← check_valid_coordinates_snd, hc]
  have hchars := accepted_coordinate_chars _ h1
  have hplain := accepted_coordinate_plain _ h1
  rw [h2] at hchars hplain
  obtain ⟨_, d1, d2, d3, d4, d5⟩ := convert_direction_char ship.direction
  intro x hx
  unfold ship_entry at hx
  rcases List.mem_append.mp hx with h | h
  · exact ⟨(hclean x h).1, (hclean x h).2, hplain x h, (hchars x h).2⟩
  · rcases List.mem_cons.mp h with e | h'
    · rw [e]; decide
    · rw [List.mem_singleton.mp h']
      exact ⟨d3, d4, d5, d2⟩

/-- The line of a MAP message that holds the entries of accepted ships: it has
no newline, NUL or per cent sign, it is left as it is by `strtrim`, and its body
splits at the colons into the entries. -/
theorem map_line_shape (ships : List Ship) (hne : ships ≠ [])
    (hships : ∀ ship ∈ ships,
      check_valid_coordinates (ship.coordinates.getD 0 []) = (0, ship.coordinates.getD 0 []) ∧
      ∀ x ∈ ship.coordinates.getD 0 [], x ≠ '\n' ∧ x ≠ '\x00') :
    (∀ x ∈ "MAP ".toList ++ [':'].intercalate (ships.map ship_entry),
      x ≠ '\n' ∧ x ≠ '\x00' ∧ x ≠ '%') ∧
    strtrim ("MAP ".toList ++ [':'].intercalate (ships.map ship_entry)) =
      "MAP ".toList ++ [':'].intercalate (ships.map ship_entry) ∧
    split_string ([':'].intercalate (ships.map ship_entry)) ':' false =
      ships.map ship_entry := by
  have hentries : ∀ e ∈ ships.map ship_entry, ∀ x ∈ e,
      x ≠ '\n' ∧ x ≠ '\x00' ∧ x ≠ '%' ∧ x ≠ ':' := by
    intro e he
    obtain ⟨ship, hs, rfl⟩ := List.mem_map.mp he
    exact ship_entry_chars ship (hships ship hs).1 (hships ship hs).2
  refine ⟨?_, ?_, ?_⟩
  · intro x hx
    rcases List.mem_append.mp hx with h | h
    · have : x = 'M' ∨ x = 'A' ∨ x = 'P' ∨ x = ' ' := by simpa using h
      rcases this with e | e | e | e <;> rw [e] <;> decide
    · rcases intercalate_colon_mem _ x h with e | ⟨e, he, hxe⟩
      · rw [e]; decide
      · obtain ⟨a, b, c, _⟩ := hentries e he x hxe
        exact ⟨a, b, c⟩
  · rcases List.eq_nil_or_concat ships with h0 | ⟨front, lastShip, hl⟩
    · exact absurd h0 hne
    · obtain ⟨body, hbody⟩ := intercalate_colon_last (front.map ship_entry) (ship_entry lastShip)
      rw [hl, List.concat_eq_append, List.map_append, List.map_cons, List.map_nil, hbody]
      apply strtrim_fixed _ 'M' ("AP ".toList ++ (body ++ ship_entry lastShip)) rfl (by decide)
      intro c hc
      have hlast : ("MAP ".toList ++ (body ++ ship_entry lastShip)).getLast? =
          some (convert_direction lastShip.direction) := by
        unfold ship_entry
        rw [show lastShip.coordinates.getD 0 [] ++ [',', convert_direction lastShip.direction] =
          (lastShip.coordinates.getD 0 [] ++ [',']) ++ [convert_direction lastShip.direction] by
            simp, ← List.append_assoc, ← List.append_assoc, getLast?_snoc]
      have hc' : ("MAP ".toList ++ (body ++ ship_entry lastShip)).getLast? = some c := hc
      rw [hlast] at hc'
      rw [← Option.some.inj hc']
      exact (convert_direction_char _).1
  · rw [split_string_cut]
    refine List.splitOn_intercalate _ ':' (fun e he hmem => ?_) ?_
    · exact (hentries e he ':' hmem).2.2.2 rfl
    · cases ships with
      | nil => exact absurd rfl hne
      | cons a l => simp

/-- C33: for valid rules, when `parse_map_file` accepts a map file (on freshly
initialised grids) the MAP line that `send_map_message` builds from the ships
of the agent holds no conversion for `printf`, is read by the hub as one line,
and `parse_map_message` accepts it on freshly initialised grids and gives the
hub the very map the agent holds: the same ships with their coordinates,
directions and counters, and the same grid; so does `send_rules`. -/
theorem map_message_round_trip (rules : Rules) (hv : rules.valid) (mapFile : List Char)
    (m : AgentMap)
    (hrun : parse_map_file mapFile (initialise_grids rules initialMap) rules = (0, m)) :
    '%' ∉ send_map_message m.agentShips rules.numberOfShips ∧
    (parse_input (send_map_message m.agentShips rules.numberOfShips)).2 = (false, []) ∧
    parse_map_message (initialise_grids rules initialMap) rules
      (parse_input (send_map_message m.agentShips rules.numberOfShips)).1 = (0, m) ∧
    parse_map_message (initialise_grids rules initialMap) rules
      (send_map_message m.agentShips rules.numberOfShips) = (0, m) ∧
    ∀ (rulesMessage : CStr) (agent : Agent), agent.agentState.agentMap = initialMap →
      agent.agentToHub = send_map_message m.agentShips rules.numberOfShips →
      (send_rules rules rulesMessage agent).1 = 0 ∧
      (send_rules rules rulesMessage agent).2.agentState.agentMap = m := by
  have hships1 : MIN_SHIPS ≤ rules.numberOfShips := hv.2.2.2.2.1
  simp only [MIN_SHIPS] at hships1
  unfold parse_map_file at hrun
  simp only [] at hrun
  by_cases hsize : ((parse_file mapFile).length : Int) < MIN_SHIPS
  · rw [if_pos hsize] at hrun
    exact absurd (show (1 : Int) = 0 from congrArg Prod.fst hrun) (by decide)
  rw [if_neg hsize] at hrun
  obtain ⟨ships, e1, e2, e3, e4, e5⟩ :=
    parse_map_file_loop_replay rules hv (parse_file mapFile) (initialise_grids rules initialMap) m
      (initialise_grids_inv rules)
      (by show ((0 : Nat) : Int) ≤ rules.numberOfShips; omega)
      (fun line hline => parse_file_loop_chars mapFile [] (by simp) line hline) hrun
  have e1' : m.agentShips = ships := e1
  rw [e1'] at e3 ⊢
  have hne : ships ≠ [] := by
    intro h0
    rw [h0] at e3
    simp only [List.length_nil] at e3
    omega
  have hcount : rules.numberOfShips.toNat = ships.length := by omega
  obtain ⟨hchars, htrim, hsplit⟩ := map_line_shape ships hne e4
  rw [send_map_message_text ships _ hne hcount]
  generalize hbody : [':'].intercalate (ships.map ship_entry) = body at hchars htrim hsplit ⊢
  have hparse : parse_map_message (initialise_grids rules initialMap) rules
      ("MAP ".toList ++ body) = (0, m) := by
    unfold parse_map_message
    simp only []
    rw [htrim]
    have hp : check_message_prefix ("MAP ".toList ++ body) "MAP ".toList = 1 := by
      simp [ check_message_prefix]
    have hd : index_substring ("MAP ".toList ++ body) "MAP ".length = body := rfl
    rw [hp, if_neg (by decide), hd, hsplit]
    exact e5
  have hnl : '\n' ∉ "MAP ".toList ++ body := fun hm => (hchars _ hm).1 rfl
  have hinput : parse_input ("MAP ".toList ++ body ++ ['\n']) =
      ("MAP ".toList ++ body, false, []) := by
    unfold parse_input
    rw [parse_input_loop_line _ [] hnl []]
    simp only [List.nil_append]
    rw [List.takeWhile_eq_self_iff.mpr (fun x hx => by simpa using (hchars x hx).2.1), htrim]
  have hdirect : strtrim ("MAP ".toList ++ body ++ ['\n']) = "MAP ".toList ++ body := by
    rw [strtrim_eq, List.rdropWhile_concat_pos _ _ _ (by decide), ← strtrim_eq, htrim]
  refine ⟨?_, ?_, ?_, ?_, ?_⟩
  · intro hm
    rcases List.mem_append.mp hm with h | h
    · exact (hchars _ h).2.2 rfl
    · exact absurd (List.mem_singleton.mp h) (by decide)
  · rw [hinput]
  · rw [hinput]; exact hparse
  · unfold parse_map_message
    simp only []
    rw [hdirect]
    unfold parse_map_message at hparse
    simp only [] at hparse
    rw [htrim] at hparse
    exact hparse
  · intro rulesMessage agent hmap hstream
    unfold send_rules
    simp only []
    rw [hmap, hstream, hinput]
    simp only [Bool.false_eq_true, if_false]
    rw [hparse]
    exact ⟨rfl, rfl⟩

theorem map_message_round_trip_witness :
    parse_map_file exampleMapFile (initialise_grids exampleRules initialMap) exampleRules =
      (0, exampleMap) ∧
    '%' ∉ send_map_message exampleMap.agentShips exampleRules.numberOfShips ∧
    (parse_input (send_map_message exampleMap.agentShips exampleRules.numberOfShips)).2 =
      (false, []) ∧
    parse_map_message (initialise_grids exampleRules initialMap) exampleRules
      (parse_input (send_map_message exampleMap.agentShips exampleRules.numberOfShips)).1 =
        (0, exampleMap) ∧
    parse_map_message (initialise_grids exampleRules initialMap) exampleRules
      (send_map_message exampleMap.agentShips exampleRules.numberOfShips) = (0, exampleMap) ∧
    ∀ (rulesMessage : CStr) (agent : Agent), agent.agentState.agentMap = initialMap →
      agent.agentToHub = send_map_message exampleMap.agentShips exampleRules.numberOfShips →
      (send_rules exampleRules rulesMessage agent).1 = 0 ∧
      (send_rules exampleRules rulesMessage agent).2.agentState.agentMap = exampleMap :=
  ⟨by decide, map_message_round_trip exampleRules (by decide) exampleMapFile exampleMap
    (by decide)⟩

/-- The MAP line of the example map, and a map file with a second ship line
that is checked but not added. -/
theorem send_map_message_example :
    send_map_message exampleMap.agentShips exampleRules.numberOfShips = "MAP A1,E\n".toList ∧
    (parse_map_file "A1 E\nB3 N\n".toList (initialise_grids exampleRules initialMap)
      exampleRules) = (0, exampleMap) ∧
    (parse_map_file "A1 E\n\n".toList (initialise_grids exampleRules initialMap)
      exampleRules).1 = 1 := by
  decide

end A2
